import Mathlib

/-!
# Portal registry and portal windows of `r_portal.cpp`

A shallow embedding of the portal code of the renderer (`src/source/r_portal.cpp`).

* Pointers are `Option Nat`: `none` is `NULL`, `some a` is the address `a`.
  A `portal_t *` is the position of the portal in the list headed by `portals`
  (portals are only ever appended, so a position never changes its meaning);
  a `pwindow_t *` is an index into the store of allocated window records.
* `fixed_t` and `int` are `Int`; 32-bit results are reduced with `wrap32`.
* `float` values that are finite are rationals: the window code never computes
  with them, it copies and compares them. The definitions whose name starts
  with `Flt.` repeat the text of `R_WindowAdd` and of the functions it calls
  over floats that may be infinite or NaN (every comparison with NaN is
  false); on finite values the two agree (`R_WindowAdd_toFlt`).
* `I_Error` and undefined behaviour are results in `Except Err`.
-/

namespace Portal

/-! ## Machine integers and pointers -/

/-- Reduction of an integer to the signed 32-bit range. -/
def wrap32 (n : Int) : Int := (n + 2147483648) % 4294967296 - 2147483648

/-- A C pointer: `none` is `NULL`. -/
abbrev Ptr := Option Nat

/-! ## Data model (from the uses in `r_portal.cpp`) -/

/-- Portal kinds, the values of `portal_t::type` tested in `R_SetPortalFunction`;
`R_NONE` stands for the values that reach the `default` case. -/
inductive portaltype_e where
  | R_NONE | R_SKYBOX | R_ANCHORED | R_HORIZON | R_PLANE | R_TWOWAY | R_LINKED
  deriving DecidableEq, Repr

/-- Window kinds (`pw_floor`, `pw_ceiling`, `pw_line`). -/
inductive pwindowtype_e where
  | pw_floor | pw_ceiling | pw_line
  deriving DecidableEq, Repr

/-- A map vertex. -/
structure vertex_t where
  x : Int
  y : Int
  deriving DecidableEq, Repr

/-- A linedef, with its two vertices (`v1`, `v2`) dereferenced. -/
structure line_t where
  v1 : vertex_t
  v2 : vertex_t
  deriving DecidableEq, Repr

/-- Parameters of anchored and two-way portals. -/
structure anchordata_t where
  deltax : Int
  deltay : Int
  deltaz : Int
  maker : Int
  anchor : Int
  deriving DecidableEq, Repr

/-- Parameters of linked portals. -/
structure linkdata_t where
  deltax : Int
  deltay : Int
  deltaz : Int
  planez : Int
  fromid : Int
  toid : Int
  maker : Int
  anchor : Int
  deriving DecidableEq, Repr

/-- Parameters of horizon portals: fourteen references to live sector state. -/
structure horizondata_t where
  floorpic : Ptr
  ceilingpic : Ptr
  floorz : Ptr
  ceilingz : Ptr
  floorlight : Ptr
  ceilinglight : Ptr
  floorxoff : Ptr
  flooryoff : Ptr
  ceilingxoff : Ptr
  ceilingyoff : Ptr
  floorbaseangle : Ptr
  floorangle : Ptr
  ceilingbaseangle : Ptr
  ceilingangle : Ptr
  deriving DecidableEq, Repr

/-- Parameters of plane portals: seven references to live sector state. -/
structure skyplanedata_t where
  pic : Ptr
  delta : Ptr
  lightlevel : Ptr
  xoff : Ptr
  yoff : Ptr
  baseangle : Ptr
  angle : Ptr
  deriving DecidableEq, Repr

/-- The members of the union `portal_t::data`, kept side by side. Every read of a
member in the source is guarded by the matching `type` tag, and every writer
sets the tag together with the member. -/
structure portaldata_t where
  camera : Ptr
  anchor : anchordata_t
  link : linkdata_t
  horizon : horizondata_t
  plane : skyplanedata_t
  deriving DecidableEq, Repr

/-- Overlay visplane hash table: `chaincount` chain slots. -/
structure planehash_t where
  chaincount : Nat
  chains : List Ptr
  deriving DecidableEq, Repr

/-- A portal record. The `next` pointer is the list order of `portals`. -/
structure portal_t where
  type : portaltype_e
  data : portaldata_t
  poverlay : Option planehash_t
  globaltex : Int
  tainted : Int
  deriving DecidableEq, Repr

/-- The render strategies a window's `func` pointer can hold. -/
inductive renderfunc_e where
  | R_RenderPortalNOP
  | R_RenderPlanePortal
  | R_RenderHorizonPortal
  | R_RenderSkyboxPortal
  | R_RenderAnchoredPortal
  | R_RenderLinkedPortal
  deriving DecidableEq, Repr

/-- A portal window record. `top` and `bottom` are the two halves of the column
buffer; `clipfunc` is `NULL` or `segclipfuncs[type]`, recorded by its index. -/
structure pwindow_t where
  portal : Ptr
  line : Ptr
  type : pwindowtype_e
  child : Ptr
  next : Ptr
  head : Ptr
  top : List ℚ
  bottom : List ℚ
  minx : Int
  maxx : Int
  vx : Int
  vy : Int
  vz : Int
  func : renderfunc_e
  clipfunc : Option pwindowtype_e
  deriving DecidableEq, Repr

/-- Outcomes that end the run: a call of `I_Error`, or behaviour the C standard
leaves undefined (null or dangling dereference, index outside a buffer). -/
inductive Err where
  | I_Error (msg : String)
  | undefined
  deriving DecidableEq, Repr

/-- Calls of external collaborators, in the order in which they were made;
`enter` marks the entry of a render strategy for a window, `visplaneColumn` a
write to column `x` of a visplane, `efree_top` and `efree` the release of the
column buffer and of the record of a window. -/
inductive Event where
  | enter (f : renderfunc_e) (window : Nat)
  | R_ShowTainted (window : Nat)
  | C_Printf (line : Int) (tainted : Int)
  | R_SetupPortalClipsegs (minx maxx : Int)
  | R_ClearSlopeMark (minx maxx : Int) (type : pwindowtype_e)
  | R_ClearOverlayClips
  | R_SetMaskedSilhouette
  | R_IncrementFrameid
  | R_RenderBSPNode (viewx viewy viewz viewangle : Int)
  | R_PushPost (pushmasked : Bool) (overlay : Option planehash_t)
  | R_ClearPlaneHash (portal : Nat)
  | R_FindPlane (height pic lightlevel xoff yoff : Int) (baseangle angle : ℚ)
  | R_CheckPlane (plane : Nat) (minx maxx : Int)
  | visplaneColumn (plane : Nat) (x : Int) (top bottom : Int)
  | efree_top (window : Nat)
  | efree (window : Nat)
  deriving DecidableEq, Repr

/-- The global `portalrender`. -/
structure portalrender_t where
  active : Bool
  minx : Int
  maxx : Int
  w : Ptr
  segClipFunc : Option pwindowtype_e
  overlay : Option planehash_t
  curwindow : Ptr
  deriving DecidableEq, Repr

/-- Values fixed while the portal code runs: the map's `lines`, the screen
geometry (`video.width`, `viewwindow.width`, `viewwindow.height`,
`view.height`, `view.ycenter`, `centery`), the compile-time switch `RANGECHECK`
and the console variable `showtainted`. -/
structure Env where
  lines : Int → line_t
  video_width : Nat
  viewwindow_width : Int
  viewwindow_height : Int
  view_height : ℚ
  view_ycenter : ℚ
  centery : Int
  RANGECHECK : Bool
  showtainted : Bool

/-- The file-scope variables of `r_portal.cpp` and the globals it reads and
writes. `portals` is the list from `portals` to `last`; `windows` is the store
of window records ever allocated, addressed by position. `floorclip` and
`ceilingclip` are `none` when they point to `floorcliparray` and
`ceilingcliparray`, and `some a` when they point into the buffer of window `a`.
The float copies of the viewpoint (`view.x`, `view.angle`, ...) and the values
derived from the angle (`viewsin`, `viewcos`, ...) are not part of the state. -/
structure State where
  portals : List portal_t
  windows : List pwindow_t
  unusedhead : Ptr
  windowhead : Ptr
  windowlast : Ptr
  portalrender : portalrender_t
  viewx : Int
  viewy : Int
  viewz : Int
  viewangle : Int
  validcount : Int
  floorclip : Ptr
  ceilingclip : Ptr
  trace : List Event
  deriving DecidableEq, Repr

/-! ## Portal spawning and management -/

/-- All-zero `anchordata_t`, as left by `edefstructvar`. -/
def anchordata_t.zero : anchordata_t := ⟨0, 0, 0, 0, 0⟩

/-- All-zero `linkdata_t`. -/
def linkdata_t.zero : linkdata_t := ⟨0, 0, 0, 0, 0, 0, 0, 0⟩

/-- All-zero `horizondata_t`. -/
def horizondata_t.zero : horizondata_t :=
  ⟨none, none, none, none, none, none, none, none, none, none, none, none, none, none⟩

/-- All-zero `skyplanedata_t`. -/
def skyplanedata_t.zero : skyplanedata_t := ⟨none, none, none, none, none, none, none⟩

/-- All-zero union. -/
def portaldata_t.zero : portaldata_t :=
  ⟨none, anchordata_t.zero, linkdata_t.zero, horizondata_t.zero, skyplanedata_t.zero⟩

/-- Modelled from the spec: `R_NewPlaneHash` of `r_plane.cpp` is not in `src/`; it
returns a fresh overlay cache with the requested number of empty chain slots. -/
def R_NewPlaneHash (chaincount : Nat) : Option planehash_t :=
  some ⟨chaincount, List.replicate chaincount none⟩

/-- The loop `for(rover = portals; rover; rover = rover->next)` with a body that
returns the first `rover` passing the test: the position of that portal. -/
def findRover (test : portal_t → Bool) : List portal_t → Option Nat
  | [] => none
  | p :: rest => if test p then some 0 else (findRover test rest).map (· + 1)

/-- `R_CreatePortal`: a zeroed portal is linked after `last`; it gets an overlay
hash and `globaltex = 1`. Returns the new portal's position. -/
def R_CreatePortal (s : State) : Nat × State :=
  (s.portals.length,
   { s with portals := s.portals ++
      [{ type := .R_NONE, data := portaldata_t.zero, poverlay := R_NewPlaneHash 32,
         globaltex := 1, tainted := 0 }] })

/-- Assignment through a `portal_t *`. -/
def setPortal (s : State) (i : Nat) (f : portal_t → portal_t) : State :=
  { s with portals := s.portals.modify f i }

/-- `R_CalculateDeltas`: offset between the midpoints of two linedefs. -/
def R_CalculateDeltas (env : Env) (markerlinenum anchorlinenum : Int) : Int × Int × Int :=
  let m := env.lines markerlinenum
  let a := env.lines anchorlinenum
  (wrap32 (Int.tdiv (wrap32 (m.v1.x + m.v2.x)) 2 - Int.tdiv (wrap32 (a.v1.x + a.v2.x)) 2),
   wrap32 (Int.tdiv (wrap32 (m.v1.y + m.v2.y)) 2 - Int.tdiv (wrap32 (a.v1.y + a.v2.y)) 2),
   0)

/-- The `adata` built by `R_GetAnchoredPortal` and `R_GetTwoWayPortal`. -/
def mkAnchorData (env : Env) (markerlinenum anchorlinenum : Int) : anchordata_t :=
  let d := R_CalculateDeltas env markerlinenum anchorlinenum
  { deltax := d.1, deltay := d.2.1, deltaz := d.2.2,
    maker := markerlinenum, anchor := anchorlinenum }

/-- `R_GetAnchoredPortal`. -/
def R_GetAnchoredPortal (env : Env) (s : State) (markerlinenum anchorlinenum : Int) :
    Ptr × State :=
  let adata := mkAnchorData env markerlinenum anchorlinenum
  match findRover (fun rover =>
      !(rover.type != .R_ANCHORED ||
        adata.deltax != rover.data.anchor.deltax ||
        adata.deltay != rover.data.anchor.deltay ||
        adata.deltaz != rover.data.anchor.deltaz)) s.portals with
  | some rover => (some rover, s)
  | none =>
    let (ret, s1) := R_CreatePortal s
    (some ret, setPortal s1 ret (fun p =>
      { p with type := .R_ANCHORED, data := { p.data with anchor := adata }, tainted := 0 }))

/-- `R_GetTwoWayPortal`. -/
def R_GetTwoWayPortal (env : Env) (s : State) (markerlinenum anchorlinenum : Int) :
    Ptr × State :=
  let adata := mkAnchorData env markerlinenum anchorlinenum
  match findRover (fun rover =>
      !(rover.type != .R_TWOWAY ||
        adata.deltax != rover.data.anchor.deltax ||
        adata.deltay != rover.data.anchor.deltay ||
        adata.deltaz != rover.data.anchor.deltaz)) s.portals with
  | some rover => (some rover, s)
  | none =>
    let (ret, s1) := R_CreatePortal s
    (some ret, setPortal s1 ret (fun p =>
      { p with type := .R_TWOWAY, data := { p.data with anchor := adata }, tainted := 0 }))

/-- `R_GetSkyBoxPortal`. -/
def R_GetSkyBoxPortal (s : State) (camera : Ptr) : Ptr × State :=
  match findRover (fun rover =>
      !(rover.type != .R_SKYBOX || rover.data.camera != camera)) s.portals with
  | some rover => (some rover, s)
  | none =>
    let (ret, s1) := R_CreatePortal s
    (some ret, setPortal s1 ret (fun p =>
      { p with type := .R_SKYBOX, data := { p.data with camera := camera } }))

/-- `R_GetHorizonPortal`; the argument record lists the fourteen references in
the order of the C parameter list. `memcmp` on two records of pointers is their
field-wise equality. -/
def R_GetHorizonPortal (s : State) (horizon : horizondata_t) : Ptr × State :=
  if horizon.floorpic.isNone || horizon.ceilingpic.isNone || horizon.floorz.isNone ||
     horizon.ceilingz.isNone || horizon.floorlight.isNone || horizon.ceilinglight.isNone ||
     horizon.floorxoff.isNone || horizon.flooryoff.isNone || horizon.ceilingxoff.isNone ||
     horizon.ceilingyoff.isNone || horizon.floorbaseangle.isNone ||
     horizon.floorangle.isNone || horizon.ceilingbaseangle.isNone ||
     horizon.ceilingangle.isNone then
    (none, s)
  else
    match findRover (fun rover =>
        !(rover.type != .R_HORIZON || rover.data.horizon != horizon)) s.portals with
    | some rover => (some rover, s)
    | none =>
      let (ret, s1) := R_CreatePortal s
      (some ret, setPortal s1 ret (fun p =>
        { p with type := .R_HORIZON, data := { p.data with horizon := horizon } }))

/-- `R_GetPlanePortal`; the argument record lists the seven references in the
order of the C parameter list. -/
def R_GetPlanePortal (s : State) (skyplane : skyplanedata_t) : Ptr × State :=
  if skyplane.pic.isNone || skyplane.delta.isNone || skyplane.lightlevel.isNone ||
     skyplane.xoff.isNone || skyplane.yoff.isNone || skyplane.baseangle.isNone ||
     skyplane.angle.isNone then
    (none, s)
  else
    match findRover (fun rover =>
        !(rover.type != .R_PLANE || rover.data.plane != skyplane)) s.portals with
    | some rover => (some rover, s)
    | none =>
      let (ret, s1) := R_CreatePortal s
      (some ret, setPortal s1 ret (fun p =>
        { p with type := .R_PLANE, data := { p.data with plane := skyplane } }))

/-- The `ldata` built by `R_GetLinkedPortal`. -/
def mkLinkData (env : Env) (markerlinenum anchorlinenum planez fromid toid : Int) :
    linkdata_t :=
  let d := R_CalculateDeltas env markerlinenum anchorlinenum
  { deltax := d.1, deltay := d.2.1, deltaz := d.2.2, planez := planez,
    fromid := fromid, toid := toid, maker := markerlinenum, anchor := anchorlinenum }

/-- `R_GetLinkedPortal`. -/
def R_GetLinkedPortal (env : Env) (s : State)
    (markerlinenum anchorlinenum planez fromid toid : Int) : Ptr × State :=
  let ldata := mkLinkData env markerlinenum anchorlinenum planez fromid toid
  match findRover (fun rover =>
      !(rover.type != .R_LINKED ||
        ldata.deltax != rover.data.link.deltax ||
        ldata.deltay != rover.data.link.deltay ||
        ldata.deltaz != rover.data.link.deltaz ||
        ldata.fromid != rover.data.link.fromid ||
        ldata.toid != rover.data.link.toid ||
        ldata.planez != rover.data.link.planez)) s.portals with
  | some rover => (some rover, s)
  | none =>
    let (ret, s1) := R_CreatePortal s
    (some ret, setPortal s1 ret (fun p =>
      { p with type := .R_LINKED, data := { p.data with link := ldata }, tainted := 0 }))

/-- `R_InitPortals`: resets the portal list and the window lists. -/
def R_InitPortals (s : State) : State :=
  { s with portals := [], windowhead := none, unusedhead := none, windowlast := none }

/-! ## Portal windows -/

/-- Read through a `pwindow_t *`; a null or dangling pointer is undefined. -/
def getWindow (s : State) (p : Ptr) : Except Err pwindow_t :=
  match p with
  | none => .error .undefined
  | some a =>
    match s.windows[a]? with
    | none => .error .undefined
    | some w => .ok w

/-- Assignment through a `pwindow_t *` known to be valid. -/
def setWindow (s : State) (a : Nat) (f : pwindow_t → pwindow_t) : State :=
  { s with windows := s.windows.modify f a }

/-- The loop `for(int i = 0; i < video.width; i++) buf[i] = v`. -/
def clearColumns (width : Nat) (v : ℚ) (buf : List ℚ) : List ℚ :=
  (List.range width).foldl (fun b i => b.set i v) buf

/-- `R_ClearPortalWindow`, as a change of the window record. The fields `type`
and `head` are not touched. -/
def R_ClearPortalWindow (env : Env) (window : pwindow_t) : pwindow_t :=
  { window with
    maxx := 0
    minx := env.viewwindow_width - 1
    top := clearColumns env.video_width env.view_height window.top
    bottom := clearColumns env.video_width (-1) window.bottom
    child := none
    next := none
    portal := none
    line := none
    func := .R_RenderPortalNOP
    clipfunc := none
    vx := 0
    vy := 0
    vz := 0 }

/-- A record as `estructalloctag` returns it (all zero), with a column buffer
of `2 * video.width` floats split into `top` and `bottom`; the buffer's
content is unspecified and written as zeros. -/
def freshWindow (env : Env) : pwindow_t :=
  { portal := none, line := none, type := .pw_floor, child := none, next := none,
    head := none, top := List.replicate env.video_width 0,
    bottom := List.replicate env.video_width 0, minx := 0, maxx := 0,
    vx := 0, vy := 0, vz := 0, func := .R_RenderPortalNOP, clipfunc := none }

/-- `newPortalWindow`: pops the free list, or allocates; clears the record. -/
def newPortalWindow (env : Env) (s : State) : Except Err (Nat × State) :=
  match s.unusedhead with
  | some ret =>
    match s.windows[ret]? with
    | none => .error .undefined
    | some r =>
      let s1 := { s with unusedhead := r.next }
      .ok (ret, setWindow s1 ret (R_ClearPortalWindow env))
  | none =>
    let ret := s.windows.length
    let s1 := { s with windows := s.windows ++ [freshWindow env] }
    .ok (ret, setWindow s1 ret (R_ClearPortalWindow env))

/-- `R_SetPortalFunction`, given the type of the window's portal. -/
def R_SetPortalFunction (ptype : portaltype_e) (window : pwindow_t) : pwindow_t :=
  match ptype with
  | .R_PLANE => { window with func := .R_RenderPlanePortal, clipfunc := none }
  | .R_HORIZON => { window with func := .R_RenderHorizonPortal, clipfunc := none }
  | .R_SKYBOX => { window with func := .R_RenderSkyboxPortal, clipfunc := none }
  | .R_ANCHORED => { window with func := .R_RenderAnchoredPortal, clipfunc := some window.type }
  | .R_TWOWAY => { window with func := .R_RenderAnchoredPortal, clipfunc := some window.type }
  | .R_LINKED => { window with func := .R_RenderLinkedPortal, clipfunc := some window.type }
  | .R_NONE => { window with func := .R_RenderPortalNOP, clipfunc := none }

/-- Read through a `portal_t *`. -/
def getPortal (s : State) (p : Ptr) : Except Err portal_t :=
  match p with
  | none => .error .undefined
  | some i =>
    match s.portals[i]? with
    | none => .error .undefined
    | some r => .ok r

/-- `R_NewPortalWindow`: a cleared window for portal `p`, appended to the frame
queue. -/
def R_NewPortalWindow (env : Env) (s : State) (p : Ptr) (l : Ptr) (type : pwindowtype_e) :
    Except Err (Nat × State) := do
  let (ret, s1) ← newPortalWindow env s
  let s2 := setWindow s1 ret (fun w => { w with portal := p, line := l, type := type,
                                                head := some ret })
  let portal ← getPortal s2 p
  let s3 := setWindow s2 ret (R_SetPortalFunction portal.type)
  match s3.windowhead with
  | none => .ok (ret, { s3 with windowhead := some ret, windowlast := some ret })
  | some _ =>
    match s3.windowlast with
    | none => .error .undefined
    | some lst =>
      if lst < s3.windows.length then
        .ok (ret, { setWindow s3 lst (fun w => { w with next := some ret }) with
                    windowlast := some ret })
      else .error .undefined

/-- `R_CreateChildWindow`. -/
def R_CreateChildWindow (env : Env) (s : State) (parent : Nat) : Except Err State := do
  let par ← getWindow s (some parent)
  if env.RANGECHECK = true ∧ par.child ≠ none then
    .error (.I_Error "R_CreateChildWindow: child portal displaced")
  else
    let (child, s1) ← newPortalWindow env s
    let s2 := setWindow s1 parent (fun w => { w with child := some child })
    let par2 ← getWindow s2 (some parent)
    .ok (setWindow s2 child (fun w =>
      { w with head := par2.head, portal := par2.portal, line := par2.line,
               type := par2.type, func := par2.func, clipfunc := par2.clipfunc }))

/-- `R_WindowAdd`, for spans and column buffers that hold finite values (for
floats that may be infinite or NaN see `Flt.R_WindowAdd`). The first argument bounds the depth of
the recursion into child windows; `Err.undefined` is returned when it is used
up. -/
def R_WindowAdd (env : Env) : Nat → State → Ptr → Int → ℚ → ℚ → Except Err State
  | 0, _, _, _, _, _ => .error .undefined
  | fuel + 1, s, window, x, ytop, ybottom =>
    if env.RANGECHECK = true ∧ window = none then
      .error (.I_Error "R_WindowAdd: null portal window")
    else if env.RANGECHECK = true ∧ (x < 0 ∨ x ≥ env.video_width) then
      .error (.I_Error "R_WindowAdd: column out of bounds")
    else if env.RANGECHECK = true ∧
        ((ybottom ≥ env.view_height ∨ ytop < 0) ∧ ytop < ybottom) then
      .error (.I_Error "R_WindowAdd portal supplied with bad column data.")
    else
      match window with
      | none => .error .undefined
      | some wi =>
        match s.windows[wi]? with
        | none => .error .undefined
        | some w =>
          if x < 0 ∨ x ≥ w.top.length ∨ x ≥ w.bottom.length then .error .undefined
          else
            let i := x.toNat
            let windowtop := w.top.getD i 0
            let windowbottom := w.bottom.getD i 0
            if env.RANGECHECK = true ∧ (windowbottom > windowtop ∧
                (windowtop < 0 ∨ windowbottom < 0 ∨
                 windowtop ≥ env.view_height ∨ windowbottom ≥ env.view_height)) then
              .error (.I_Error "R_WindowAdd portal had bad opening data.")
            else if ybottom < 0 ∨ ytop ≥ env.view_height then .ok s
            else if x ≤ w.maxx ∧ x ≥ w.minx then
              if windowtop > windowbottom then
                .ok (setWindow s wi (fun w =>
                  { w with top := w.top.set i ytop, bottom := w.bottom.set i ybottom }))
              else if ytop > windowbottom ∨ ybottom < windowtop then
                match (if w.child = none then R_CreateChildWindow env s wi else .ok s) with
                | .error e => .error e
                | .ok s1 =>
                  match s1.windows[wi]? with
                  | none => .error .undefined
                  | some w1 => R_WindowAdd env fuel s1 w1.child x ytop ybottom
              else
                let s1 := if ytop < windowtop then
                    setWindow s wi (fun w => { w with top := w.top.set i ytop })
                  else s
                let s2 := if ybottom > windowbottom then
                    setWindow s1 wi (fun w => { w with bottom := w.bottom.set i ybottom })
                  else s1
                .ok s2
            else if w.minx > w.maxx then
              .ok (setWindow s wi (fun w =>
                { w with minx := x, maxx := x, top := w.top.set i ytop,
                         bottom := w.bottom.set i ybottom,
                         vx := s.viewx, vy := s.viewy, vz := s.viewz }))
            else if x > w.maxx then
              .ok (setWindow s wi (fun w =>
                { w with maxx := x, top := w.top.set i ytop,
                         bottom := w.bottom.set i ybottom }))
            else if x < w.minx then
              .ok (setWindow s wi (fun w =>
                { w with minx := x, top := w.top.set i ytop,
                         bottom := w.bottom.set i ybottom }))
            else .ok s

/-- The queue scan shared by the `R_Get*PortalWindow` functions: first window on
the `next` list from `rover` that passes the test. The first argument bounds
the number of steps. -/
def findWindow (s : State) (test : pwindow_t → Bool) : Nat → Ptr → Except Err Ptr
  | 0, _ => .error .undefined
  | _ + 1, none => .ok none
  | fuel + 1, some a =>
    match s.windows[a]? with
    | none => .error .undefined
    | some w => if test w then .ok (some a) else findWindow s test fuel w.next

/-- `R_GetFloorPortalWindow`. -/
def R_GetFloorPortalWindow (env : Env) (fuel : Nat) (s : State) (portal : Ptr) :
    Except Err (Nat × State) := do
  match ← findWindow s (fun rover => rover.portal == portal && rover.type == .pw_floor)
      fuel s.windowhead with
  | some rover => .ok (rover, s)
  | none => R_NewPortalWindow env s portal none .pw_floor

/-- `R_GetCeilingPortalWindow`. -/
def R_GetCeilingPortalWindow (env : Env) (fuel : Nat) (s : State) (portal : Ptr) :
    Except Err (Nat × State) := do
  match ← findWindow s (fun rover => rover.portal == portal && rover.type == .pw_ceiling)
      fuel s.windowhead with
  | some rover => .ok (rover, s)
  | none => R_NewPortalWindow env s portal none .pw_ceiling

/-- `R_GetLinePortalWindow`. -/
def R_GetLinePortalWindow (env : Env) (fuel : Nat) (s : State) (portal : Ptr) (line : Ptr) :
    Except Err (Nat × State) := do
  match ← findWindow s (fun rover => rover.portal == portal && rover.type == .pw_line &&
      rover.line == line) fuel s.windowhead with
  | some rover => .ok (rover, s)
  | none => R_NewPortalWindow env s portal line .pw_line

/-! ## Vocabulary of the registry properties -/

/-- A request to the registry: one constructor per `R_Get*Portal` function. -/
inductive GetCall where
  | plane (skyplane : skyplanedata_t)
  | horizon (horizon : horizondata_t)
  | skybox (camera : Ptr)
  | anchored (markerlinenum anchorlinenum : Int)
  | twoway (markerlinenum anchorlinenum : Int)
  | linked (markerlinenum anchorlinenum planez fromid toid : Int)
  deriving DecidableEq, Repr

/-- The `R_Get*Portal` function a request stands for. -/
def applyCall (env : Env) (s : State) : GetCall → Ptr × State
  | .plane d => R_GetPlanePortal s d
  | .horizon d => R_GetHorizonPortal s d
  | .skybox c => R_GetSkyBoxPortal s c
  | .anchored m a => R_GetAnchoredPortal env s m a
  | .twoway m a => R_GetTwoWayPortal env s m a
  | .linked m a z f t => R_GetLinkedPortal env s m a z f t

/-- State after a sequence of requests. -/
def runCalls (env : Env) (s : State) (calls : List GetCall) : State :=
  calls.foldl (fun st c => (applyCall env st c).2) s

/-- What the lookup loops compare: the kind together with the fields of the
kind's parameters that the loop of that kind tests. -/
inductive PortalKey where
  | plane (d : skyplanedata_t)
  | horizon (d : horizondata_t)
  | skybox (camera : Ptr)
  | anchored (dx dy dz : Int)
  | twoway (dx dy dz : Int)
  | linked (dx dy dz fromid toid planez : Int)
  | unset
  deriving DecidableEq, Repr

/-- Matching key of a registered portal. -/
def portalKey (p : portal_t) : PortalKey :=
  match p.type with
  | .R_PLANE => .plane p.data.plane
  | .R_HORIZON => .horizon p.data.horizon
  | .R_SKYBOX => .skybox p.data.camera
  | .R_ANCHORED => .anchored p.data.anchor.deltax p.data.anchor.deltay p.data.anchor.deltaz
  | .R_TWOWAY => .twoway p.data.anchor.deltax p.data.anchor.deltay p.data.anchor.deltaz
  | .R_LINKED => .linked p.data.link.deltax p.data.link.deltay p.data.link.deltaz
      p.data.link.fromid p.data.link.toid p.data.link.planez
  | .R_NONE => .unset

/-- Matching key of a request; `none` for a plane or horizon request with a null
reference, which the registry refuses. -/
def callKey (env : Env) : GetCall → Option PortalKey
  | .plane d =>
    if d.pic.isNone || d.delta.isNone || d.lightlevel.isNone || d.xoff.isNone ||
       d.yoff.isNone || d.baseangle.isNone || d.angle.isNone then none
    else some (.plane d)
  | .horizon d =>
    if d.floorpic.isNone || d.ceilingpic.isNone || d.floorz.isNone ||
       d.ceilingz.isNone || d.floorlight.isNone || d.ceilinglight.isNone ||
       d.floorxoff.isNone || d.flooryoff.isNone || d.ceilingxoff.isNone ||
       d.ceilingyoff.isNone || d.floorbaseangle.isNone ||
       d.floorangle.isNone || d.ceilingbaseangle.isNone ||
       d.ceilingangle.isNone then none
    else some (.horizon d)
  | .skybox c => some (.skybox c)
  | .anchored m a =>
    let d := R_CalculateDeltas env m a
    some (.anchored d.1 d.2.1 d.2.2)
  | .twoway m a =>
    let d := R_CalculateDeltas env m a
    some (.twoway d.1 d.2.1 d.2.2)
  | .linked m a z f t =>
    let d := R_CalculateDeltas env m a
    some (.linked d.1 d.2.1 d.2.2 f t z)

/-- Common shape of the six lookups: return the first portal with the key, or
append the given portal. Used to reason about all kinds at once. -/
def lookupOrAppend (k : PortalKey) (q : portal_t) (s : State) : Ptr × State :=
  match findRover (fun rover => portalKey rover == k) s.portals with
  | some rover => (some rover, s)
  | none => (some s.portals.length, { s with portals := s.portals ++ [q] })

/-- The portal a request creates on a miss. -/
def callPortal (env : Env) : GetCall → portal_t
  | .plane d => { type := .R_PLANE, data := { portaldata_t.zero with plane := d },
                  poverlay := R_NewPlaneHash 32, globaltex := 1, tainted := 0 }
  | .horizon d => { type := .R_HORIZON, data := { portaldata_t.zero with horizon := d },
                    poverlay := R_NewPlaneHash 32, globaltex := 1, tainted := 0 }
  | .skybox c => { type := .R_SKYBOX, data := { portaldata_t.zero with camera := c },
                   poverlay := R_NewPlaneHash 32, globaltex := 1, tainted := 0 }
  | .anchored m a => { type := .R_ANCHORED,
                       data := { portaldata_t.zero with anchor := mkAnchorData env m a },
                       poverlay := R_NewPlaneHash 32, globaltex := 1, tainted := 0 }
  | .twoway m a => { type := .R_TWOWAY,
                     data := { portaldata_t.zero with anchor := mkAnchorData env m a },
                     poverlay := R_NewPlaneHash 32, globaltex := 1, tainted := 0 }
  | .linked m a z f t => { type := .R_LINKED,
                           data := { portaldata_t.zero with link := mkLinkData env m a z f t },
                           poverlay := R_NewPlaneHash 32, globaltex := 1, tainted := 0 }

/-! ## Sample data used to evaluate the program -/

/-- A map whose linedef `n` runs from `(64 n, 0)` to `(64 n + 64, 32 n)`, on a
320x200 screen, with `RANGECHECK` compiled in. -/
def sampleEnv : Env :=
  { lines := fun n => ⟨⟨64 * n, 0⟩, ⟨64 * n + 64, 32 * n⟩⟩
    video_width := 320
    viewwindow_width := 320
    viewwindow_height := 200
    view_height := 200
    view_ycenter := 100
    centery := 100
    RANGECHECK := true
    showtainted := false }

/-- The constant `MAX_SCREENWIDTH`. Its definition is in a header that is not
part of `src/`; the engine's `v_video.h` has 2560. The portal code uses it only
in the initialiser of `portalrender`, and writes `portalrender.minx` before it
reads it. -/
def MAX_SCREENWIDTH : Int := 2560

/-- The state at program start: no portal, no window;
`portalrender = { false, MAX_SCREENWIDTH, 0 }`. -/
def startState : State :=
  { portals := [], windows := [], unusedhead := none, windowhead := none,
    windowlast := none,
    portalrender := { active := false, minx := MAX_SCREENWIDTH, maxx := 0, w := none,
                      segClipFunc := none, overlay := none, curwindow := none },
    viewx := 0, viewy := 0, viewz := 0, viewangle := 0, validcount := 0,
    floorclip := none, ceilingclip := none, trace := [] }

/-! ## Vocabulary of the window properties -/

/-- `IsList nxt ws p l`: following the pointer field `nxt` from `p` through the
store `ws` visits exactly the addresses `l`, in this order, and then reaches
`NULL`. -/
def IsList (nxt : pwindow_t → Ptr) (ws : List pwindow_t) : Ptr → List Nat → Prop
  | p, [] => p = none
  | p, a :: l =>
    p = some a ∧
      match ws[a]? with
      | some w => IsList nxt ws (nxt w) l
      | none => False

/-- `IsList` can be evaluated. -/
instance IsList.instDecidable (nxt : pwindow_t → Ptr) (ws : List pwindow_t) :
    (p : Ptr) → (l : List Nat) → Decidable (IsList nxt ws p l)
  | p, [] => inferInstanceAs (Decidable (p = none))
  | p, a :: l =>
    match h : ws[a]? with
    | some w =>
      have : Decidable (IsList nxt ws (nxt w) l) := IsList.instDecidable nxt ws (nxt w) l
      decidable_of_iff (p = some a ∧ IsList nxt ws (nxt w) l) (by simp [IsList, h])
    | none => isFalse (by simp [IsList, h])

/-- Every allocated window record has column buffers of `video.width` entries. -/
def BuffersOK (env : Env) (s : State) : Prop :=
  ∀ w ∈ s.windows, w.top.length = env.video_width ∧ w.bottom.length = env.video_width

/-- The fields of a window record right after `R_ClearPortalWindow`, on a
buffer of `video.width` columns. -/
def IsCleared (env : Env) (w : pwindow_t) : Prop :=
  w.top = List.replicate env.video_width env.view_height ∧
  w.bottom = List.replicate env.video_width (-1) ∧
  w.minx = env.viewwindow_width - 1 ∧ w.maxx = 0 ∧
  w.child = none ∧ w.next = none ∧ w.vx = 0 ∧ w.vy = 0 ∧ w.vz = 0

/-- Two states agree on everything but the window store and the free list. -/
def SameGlobals (s s1 : State) : Prop :=
  s1.portals = s.portals ∧ s1.windowhead = s.windowhead ∧ s1.windowlast = s.windowlast ∧
  s1.portalrender = s.portalrender ∧ s1.viewx = s.viewx ∧ s1.viewy = s.viewy ∧
  s1.viewz = s.viewz ∧ s1.viewangle = s.viewangle ∧ s1.validcount = s.validcount ∧
  s1.floorclip = s.floorclip ∧ s1.ceilingclip = s.ceilingclip ∧ s1.trace = s.trace

/-- The free list is a proper list: the addresses `pool`, without repetition. -/
def PoolOK (s : State) (pool : List Nat) : Prop :=
  IsList pwindow_t.next s.windows s.unusedhead pool ∧ pool.Nodup

/-- A column as `R_ClearPortalWindow` leaves it, or with both ends on screen. -/
def ColOK (env : Env) (top bottom : ℚ) : Prop :=
  (top = env.view_height ∧ bottom = -1) ∨
  (0 ≤ top ∧ top < env.view_height ∧ 0 ≤ bottom ∧ bottom < env.view_height)

/-- All columns of a window record satisfy `ColOK`. -/
def ColsOK (env : Env) (w : pwindow_t) : Prop :=
  ∀ i, i < env.video_width → ColOK env (w.top.getD i 0) (w.bottom.getD i 0)

/-- The arguments pass the `RANGECHECK` assertions on the input of
`R_WindowAdd`: the column is on the screen and the span is not a top-to-bottom
span that leaves the view. -/
def ValidCall (env : Env) (c : Int × ℚ × ℚ) : Prop :=
  0 ≤ c.1 ∧ c.1 < env.video_width ∧
  ¬ ((c.2.2 ≥ env.view_height ∨ c.2.1 < 0) ∧ c.2.1 < c.2.2)

/-- A sequence of `R_WindowAdd` calls on one window; each call is `(x, ytop,
ybottom)`. -/
def runAdds (env : Env) (fuel : Nat) (window : Nat) :
    State → List (Int × ℚ × ℚ) → Except Err State
  | s, [] => .ok s
  | s, c :: cs =>
    match R_WindowAdd env fuel s (some window) c.1 c.2.1 c.2.2 with
    | .error e => .error e
    | .ok s1 => runAdds env fuel window s1 cs

/-- Store with the record at address `a` replaced by `r`. -/
def putWindow (s : State) (a : Nat) (r : pwindow_t) : State :=
  { s with windows := s.windows.set a r }

/-- The call of `R_WindowAdd` takes the branch that hands the column to the
child window: the span is not off screen, the column lies in the window's
range, is not free, and the span lies completely outside the existing one. -/
def GoesToChild (env : Env) (w : pwindow_t) (x : Int) (ytop ybottom : ℚ) : Prop :=
  ¬ (ybottom < 0 ∨ ytop ≥ env.view_height) ∧ (x ≤ w.maxx ∧ x ≥ w.minx) ∧
  ¬ (w.top.getD x.toNat 0 > w.bottom.getD x.toNat 0) ∧
  (ytop > w.bottom.getD x.toNat 0 ∨ ybottom < w.top.getD x.toNat 0)

/-- `GoesToChild` can be evaluated. -/
instance GoesToChild.instDecidable (env : Env) (w : pwindow_t) (x : Int) (ytop ybottom : ℚ) :
    Decidable (GoesToChild env w x ytop ybottom) := by
  unfold GoesToChild
  infer_instance

/-- The record `R_WindowAdd` leaves in place of `w` on every branch other than
the one that descends to the child; `vx`, `vy`, `vz` are the current values of
`viewx`, `viewy`, `viewz`. Used to reason about the branches one record at a
time. -/
def addLocal (env : Env) (vx vy vz : Int) (w : pwindow_t) (x : Int) (ytop ybottom : ℚ) :
    pwindow_t :=
  let i := x.toNat
  let windowtop := w.top.getD i 0
  let windowbottom := w.bottom.getD i 0
  if ybottom < 0 ∨ ytop ≥ env.view_height then w
  else if x ≤ w.maxx ∧ x ≥ w.minx then
    if windowtop > windowbottom then
      { w with top := w.top.set i ytop, bottom := w.bottom.set i ybottom }
    else
      { w with top := if ytop < windowtop then w.top.set i ytop else w.top
               bottom := if ybottom > windowbottom then w.bottom.set i ybottom
                         else w.bottom }
  else if w.minx > w.maxx then
    { w with minx := x, maxx := x, top := w.top.set i ytop, bottom := w.bottom.set i ybottom,
             vx := vx, vy := vy, vz := vz }
  else if x > w.maxx then
    { w with maxx := x, top := w.top.set i ytop, bottom := w.bottom.set i ybottom }
  else if x < w.minx then
    { w with minx := x, top := w.top.set i ytop, bottom := w.bottom.set i ybottom }
  else w

/-- `BuffersOK` can be evaluated. -/
instance BuffersOK.instDecidable (env : Env) (s : State) : Decidable (BuffersOK env s) := by
  unfold BuffersOK
  infer_instance

/-- A four-column screen of height 200 over the sample map, with `RANGECHECK`
compiled in. -/
def narrowEnv : Env :=
  { sampleEnv with video_width := 4, viewwindow_width := 4 }

/-- The same screen in a build without `RANGECHECK`. -/
def narrowEnvRelease : Env :=
  { narrowEnv with RANGECHECK := false }

/-- The start state after one skybox portal (camera `7`) has been registered. -/
def skyboxState : State := (R_GetSkyBoxPortal startState (some 7)).2

/-- `skyboxState` after a floor window was claimed for its portal. -/
def claimedState : State :=
  match R_NewPortalWindow narrowEnv skyboxState (some 0) none .pw_floor with
  | .ok (_, s) => s
  | .error _ => skyboxState

/-- What the window code relies on before a window is claimed: the column
buffers have the width of the screen, the free list is a proper list, and the
last window of the frame queue is not on the free list. -/
def FreeListOK (env : Env) (s : State) (pool : List Nat) : Prop :=
  BuffersOK env s ∧ PoolOK s pool ∧
    match s.windowlast with
    | some lst => lst ∉ pool
    | none => True

/-- `FreeListOK` can be evaluated. -/
instance FreeListOK.instDecidable (env : Env) (s : State) (pool : List Nat) :
    Decidable (FreeListOK env s pool) := by
  unfold FreeListOK PoolOK
  cases s.windowlast <;> infer_instance

/-- Invariant of a window `a` with the chain `rest` of its descendants and the
free list `pool`: both are proper lists of different addresses, the buffers
have the width of the screen, and every column of the chain is cleared or on
screen. -/
def ChainOK (env : Env) (s : State) (a : Nat) (rest pool : List Nat) : Prop :=
  IsList pwindow_t.child s.windows (some a) (a :: rest) ∧ PoolOK s pool ∧
  (a :: rest ++ pool).Nodup ∧ BuffersOK env s ∧
  ∀ b ∈ a :: rest, ∀ r, s.windows[b]? = some r → ColsOK env r

/-- `ValidCall` can be evaluated. -/
instance ValidCall.instDecidable (env : Env) (c : Int × ℚ × ℚ) :
    Decidable (ValidCall env c) := by
  unfold ValidCall
  infer_instance

/-- `ColOK` can be evaluated. -/
instance ColOK.instDecidable (env : Env) (top bottom : ℚ) :
    Decidable (ColOK env top bottom) := by
  unfold ColOK
  infer_instance

/-! ## Render strategies -/

/-- A map object as far as the skybox strategy reads it. -/
structure mobj_t where
  x : Int
  y : Int
  z : Int
  angle : Int
  deriving DecidableEq, Repr

/-- The collaborators outside `r_portal.cpp`, as parameters: clip-region setup
(its verdict), the world traversal and the overlay push (as changes of the
state: the traversal may claim windows and add columns), the visplane lookup
functions (the handle they return), and the memory behind the references held
by plane and horizon portals and behind skybox cameras. -/
structure Ext where
  R_SetupPortalClipsegs : State → Int → Int → List ℚ → List ℚ → Bool
  R_RenderBSPNode : State → State
  R_PushPost : Bool → Option planehash_t → State → State
  R_FindPlane : State → Int → Int → Int → Int → Int → ℚ → ℚ → Nat
  R_CheckPlane : State → Nat → Int → Int → Nat
  readInt : Ptr → Int
  readFloat : Ptr → ℚ
  readMobj : Ptr → Option mobj_t

/-- Appends a call to the record of external calls. -/
def logEvent (s : State) (e : Event) : State :=
  { s with trace := s.trace ++ [e] }

/-- Appends a sequence of calls to the record of external calls. -/
def logEvents (s : State) (es : List Event) : State :=
  { s with trace := s.trace ++ es }

/-- The assignment `portalrender.curwindow = window` that opens every render
strategy, together with the record of the entry. -/
def enterStrategy (s : State) (f : renderfunc_e) (wa : Nat) : State :=
  logEvent { s with portalrender := { s.portalrender with curwindow := some wa } }
    (.enter f wa)

/-- The assignments to `floorclip` and `ceilingclip`. -/
def setClips (s : State) (p : Ptr) : State :=
  { s with floorclip := p, ceilingclip := p }

/-- The assignments `portalrender.minx = window->minx` and
`portalrender.maxx = window->maxx`. -/
def setRenderRange (s : State) (minx maxx : Int) : State :=
  { s with portalrender := { s.portalrender with minx := minx, maxx := maxx } }

/-- `++validcount`. -/
def incValidcount (s : State) : State :=
  { s with validcount := wrap32 (s.validcount + 1) }

/-- The assignments to `viewx`, `viewy`, `viewz`. -/
def setViewpoint (s : State) (x y z : Int) : State :=
  { s with viewx := x, viewy := y, viewz := z }

/-- The assignment to `viewangle`. -/
def setViewangle (s : State) (a : Int) : State :=
  { s with viewangle := a }

/-- `portal->tainted++`. -/
def incTaint (s : State) (pa : Nat) : State :=
  setPortal s pa (fun p => { p with tainted := wrap32 (p.tainted + 1) })

/-- The conversion `(int)f` of a float: truncation toward zero. -/
def truncToInt (q : ℚ) : Int :=
  if 0 ≤ q then q.floor else q.ceil

/-- The `RANGECHECK` loop of the camera strategies: some column has
`bottom > top` with an end outside `[-1, viewwindow.height]`. -/
def clipArrayBad (env : Env) (w : pwindow_t) : Bool :=
  (List.range env.video_width).any (fun i =>
    decide (w.bottom.getD i 0 > w.top.getD i 0 ∧
      (w.bottom.getD i 0 < -1 ∨ w.bottom.getD i 0 > env.viewwindow_height ∨
       w.top.getD i 0 < -1 ∨ w.top.getD i 0 > env.viewwindow_height)))

/-- The call `R_PushPost(pushmasked, overlay)`, recorded and performed. -/
def pushPost (ext : Ext) (pushmasked : Bool) (overlay : Option planehash_t) (s : State) :
    State :=
  ext.R_PushPost pushmasked overlay (logEvent s (.R_PushPost pushmasked overlay))

/-- The argument `window->head == window ? window->portal->poverlay : NULL`,
read from the current state. -/
def headOverlay (s : State) (wa : Nat) : Except Err (Option planehash_t) :=
  match s.windows[wa]? with
  | none => .error .undefined
  | some w =>
    if w.head = some wa then
      match getPortal s w.portal with
      | .error e => .error e
      | .ok portal => .ok portal.poverlay
    else .ok none

/-- The loop `for(x = window->minx; x <= window->maxx; x++)` of
`R_RenderPlanePortal`, as the list of visplane writes it performs. -/
def planeColumns (w : pwindow_t) (vplane : Nat) : List Event :=
  (List.range (w.maxx - w.minx + 1).toNat).filterMap (fun k =>
    let x := w.minx + k
    if w.top.getD x.toNat 0 < w.bottom.getD x.toNat 0 then
      some (.visplaneColumn vplane x (truncToInt (w.top.getD x.toNat 0))
        (truncToInt (w.bottom.getD x.toNat 0)))
    else none)

/-- `R_RenderPlanePortal`. The first argument bounds the recursion into child
windows. -/
def R_RenderPlanePortal (env : Env) (ext : Ext) : Nat → State → Ptr → Except Err State
  | 0, _, _ => .error .undefined
  | fuel + 1, s, window =>
    match window with
    | none => .error .undefined
    | some wa =>
      match s.windows[wa]? with
      | none => .error .undefined
      | some w =>
        let s0 := enterStrategy s .R_RenderPlanePortal wa
        match getPortal s0 w.portal with
        | .error e => .error e
        | .ok portal =>
          if portal.type ≠ .R_PLANE then .ok s0
          else if w.maxx < w.minx then .ok s0
          else
            let d := portal.data.plane
            let height := wrap32 (ext.readInt d.delta + s0.viewz)
            let found := ext.R_FindPlane s0 height (ext.readInt d.pic)
              (ext.readInt d.lightlevel) (ext.readInt d.xoff) (ext.readInt d.yoff)
              (ext.readFloat d.baseangle) (ext.readFloat d.angle)
            let s1 := logEvent s0 (.R_FindPlane height (ext.readInt d.pic)
              (ext.readInt d.lightlevel) (ext.readInt d.xoff) (ext.readInt d.yoff)
              (ext.readFloat d.baseangle) (ext.readFloat d.angle))
            let vplane := ext.R_CheckPlane s1 found w.minx w.maxx
            let s2 := logEvent s1 (.R_CheckPlane found w.minx w.maxx)
            let s3 := logEvents s2 (planeColumns w vplane)
            let s4 := if w.head = some wa ∧ portal.poverlay ≠ none then
                pushPost ext false portal.poverlay s3
              else s3
            match s4.windows[wa]? with
            | none => .error .undefined
            | some w4 =>
              if w4.child ≠ none then R_RenderPlanePortal env ext fuel s4 w4.child
              else .ok s4

/-- The loop over the columns of `R_RenderHorizonPortal`, as the list of visplane
writes it performs. -/
def horizonColumns (env : Env) (w : pwindow_t) (topplane bottomplane : Nat) : List Event :=
  (List.range (w.maxx - w.minx + 1).toNat).flatMap (fun k =>
    let x := w.minx + k
    let t := w.top.getD x.toNat 0
    let b := w.bottom.getD x.toNat 0
    if t > b then []
    else if t ≤ env.view_ycenter - 1 ∧ b ≥ env.view_ycenter then
      [.visplaneColumn topplane x (truncToInt t) (env.centery - 1),
       .visplaneColumn bottomplane x env.centery (truncToInt b)]
    else if t ≤ env.view_ycenter - 1 then
      [.visplaneColumn topplane x (truncToInt t) (truncToInt b)]
    else if b > env.view_ycenter - 1 then
      [.visplaneColumn bottomplane x (truncToInt t) (truncToInt b)]
    else [])

/-- `R_RenderHorizonPortal`. -/
def R_RenderHorizonPortal (env : Env) (ext : Ext) : Nat → State → Ptr → Except Err State
  | 0, _, _ => .error .undefined
  | fuel + 1, s, window =>
    match window with
    | none => .error .undefined
    | some wa =>
      match s.windows[wa]? with
      | none => .error .undefined
      | some w =>
        let s0 := enterStrategy s .R_RenderHorizonPortal wa
        match getPortal s0 w.portal with
        | .error e => .error e
        | .ok portal =>
          if portal.type ≠ .R_HORIZON then .ok s0
          else if w.maxx < w.minx then .ok s0
          else
            let d := portal.data.horizon
            let top := ext.R_FindPlane s0 (ext.readInt d.ceilingz) (ext.readInt d.ceilingpic)
              (ext.readInt d.ceilinglight) (ext.readInt d.ceilingxoff)
              (ext.readInt d.ceilingyoff) (ext.readFloat d.ceilingbaseangle)
              (ext.readFloat d.ceilingangle)
            let s1 := logEvent s0 (.R_FindPlane (ext.readInt d.ceilingz)
              (ext.readInt d.ceilingpic) (ext.readInt d.ceilinglight)
              (ext.readInt d.ceilingxoff) (ext.readInt d.ceilingyoff)
              (ext.readFloat d.ceilingbaseangle) (ext.readFloat d.ceilingangle))
            let bot := ext.R_FindPlane s1 (ext.readInt d.floorz) (ext.readInt d.floorpic)
              (ext.readInt d.floorlight) (ext.readInt d.floorxoff)
              (ext.readInt d.flooryoff) (ext.readFloat d.floorbaseangle)
              (ext.readFloat d.floorangle)
            let s2 := logEvent s1 (.R_FindPlane (ext.readInt d.floorz)
              (ext.readInt d.floorpic) (ext.readInt d.floorlight)
              (ext.readInt d.floorxoff) (ext.readInt d.flooryoff)
              (ext.readFloat d.floorbaseangle) (ext.readFloat d.floorangle))
            let topplane := ext.R_CheckPlane s2 top w.minx w.maxx
            let s3 := logEvent s2 (.R_CheckPlane top w.minx w.maxx)
            let bottomplane := ext.R_CheckPlane s3 bot w.minx w.maxx
            let s4 := logEvent s3 (.R_CheckPlane bot w.minx w.maxx)
            let s5 := logEvents s4 (horizonColumns env w topplane bottomplane)
            let lastx := s5.viewx
            let lasty := s5.viewy
            let lastz := s5.viewz
            let s6 := setViewpoint s5 w.vx w.vy w.vz
            let s7 := if w.head = some wa ∧ portal.poverlay ≠ none then
                pushPost ext false portal.poverlay s6
              else s6
            match s7.windows[wa]? with
            | none => .error .undefined
            | some w7 =>
              match (if w7.child ≠ none then R_RenderHorizonPortal env ext fuel s7 w7.child
                     else .ok s7) with
              | .error e => .error e
              | .ok s8 => .ok (setViewpoint s8 lastx lasty lastz)

/-- The part of `R_RenderSkyboxPortal` from the call of `R_ClearSlopeMark` to the
restoring of the viewpoint; `s1` is the state after the successful call of
`R_SetupPortalClipsegs`, `camera` the object `portal->data.camera` points to,
the result is the state before the test of `window->child`. -/
def renderThroughSkybox (ext : Ext) (s1 : State) (wa : Nat) (w : pwindow_t)
    (camera : mobj_t) : Except Err State :=
  let s2 := logEvent s1 (.R_ClearSlopeMark w.minx w.maxx w.type)
  let s3 := logEvent (setClips s2 (some wa)) .R_ClearOverlayClips
  let s4 := incValidcount (setRenderRange s3 w.minx w.maxx)
  let s5 := logEvent s4 .R_SetMaskedSilhouette
  let lastx := s5.viewx
  let lasty := s5.viewy
  let lastz := s5.viewz
  let lastangle := s5.viewangle
  let s6 := setViewangle (setViewpoint s5 camera.x camera.y camera.z)
    ((s5.viewangle + camera.angle) % 4294967296)
  let s7 := logEvent s6 .R_IncrementFrameid
  let s8 := ext.R_RenderBSPNode
    (logEvent s7 (.R_RenderBSPNode s7.viewx s7.viewy s7.viewz s7.viewangle))
  match headOverlay s8 wa with
  | .error e => .error e
  | .ok overlay =>
    let s9 := pushPost ext true overlay s8
    .ok (setViewangle (setViewpoint (setClips s9 none) lastx lasty lastz) lastangle)

/-- `R_RenderSkyboxPortal`. -/
def R_RenderSkyboxPortal (env : Env) (ext : Ext) : Nat → State → Ptr → Except Err State
  | 0, _, _ => .error .undefined
  | fuel + 1, s, window =>
    match window with
    | none => .error .undefined
    | some wa =>
      match s.windows[wa]? with
      | none => .error .undefined
      | some w =>
        let s0 := enterStrategy s .R_RenderSkyboxPortal wa
        match getPortal s0 w.portal with
        | .error e => .error e
        | .ok portal =>
          if portal.type ≠ .R_SKYBOX then .ok s0
          else if w.maxx < w.minx then .ok s0
          else if env.RANGECHECK = true ∧ clipArrayBad env w = true then
            .error (.I_Error "R_RenderSkyboxPortal: clipping array contained invalid information")
          else
            let s1 := logEvent s0 (.R_SetupPortalClipsegs w.minx w.maxx)
            if ext.R_SetupPortalClipsegs s0 w.minx w.maxx w.top w.bottom = false then .ok s1
            else
              match ext.readMobj portal.data.camera with
              | none => .error .undefined
              | some camera =>
                match renderThroughSkybox ext s1 wa w camera with
                | .error e => .error e
                | .ok s2 =>
                  match s2.windows[wa]? with
                  | none => .error .undefined
                  | some w2 =>
                    if w2.child ≠ none then R_RenderSkyboxPortal env ext fuel s2 w2.child
                    else .ok s2

/-- The part of `R_RenderAnchoredPortal` and `R_RenderLinkedPortal` from the call
of `R_ClearSlopeMark` to the restoring of the viewpoint, which is the same text
in both but for the member of the union the deltas are read from; `s1` is the
state after the successful call of `R_SetupPortalClipsegs`, the result is the
state before the test of `window->child`. -/
def renderThroughPortal (ext : Ext) (s1 : State) (wa : Nat) (w : pwindow_t) (pa : Nat)
    (deltax deltay deltaz : Int) : Except Err State :=
  let s2 := logEvent s1 (.R_ClearSlopeMark w.minx w.maxx w.type)
  let s3 := incTaint s2 pa
  let s4 := logEvent (setClips s3 (some wa)) .R_ClearOverlayClips
  let s5 := incValidcount (setRenderRange s4 w.minx w.maxx)
  let s6 := logEvent s5 .R_SetMaskedSilhouette
  let lastx := s6.viewx
  let lasty := s6.viewy
  let lastz := s6.viewz
  let s7 := setViewpoint s6 (wrap32 (w.vx + deltax)) (wrap32 (w.vy + deltay))
    (wrap32 (w.vz + deltaz))
  let s8 := logEvent s7 .R_IncrementFrameid
  let s9 := ext.R_RenderBSPNode
    (logEvent s8 (.R_RenderBSPNode s8.viewx s8.viewy s8.viewz s8.viewangle))
  match headOverlay s9 wa with
  | .error e => .error e
  | .ok overlay =>
    let s10 := pushPost ext true overlay s9
    .ok (setViewpoint (setClips s10 none) lastx lasty lastz)

/-- The refusal branch of `R_RenderAnchoredPortal` and `R_RenderLinkedPortal`:
`R_ShowTainted` when `showtainted` is set, `portal->tainted++`, and the console
message with the line number `maker`. -/
def refuseTainted (env : Env) (s0 : State) (wa : Nat) (pa : Nat) (portal : portal_t)
    (maker : Int) : State :=
  let s1 := if env.showtainted = true then logEvent s0 (.R_ShowTainted wa) else s0
  let s2 := incTaint s1 pa
  logEvent s2 (.C_Printf maker (wrap32 (portal.tainted + 1)))

/-- `R_RenderAnchoredPortal`. -/
def R_RenderAnchoredPortal (env : Env) (ext : Ext) : Nat → State → Ptr → Except Err State
  | 0, _, _ => .error .undefined
  | fuel + 1, s, window =>
    match window with
    | none => .error .undefined
    | some wa =>
      match s.windows[wa]? with
      | none => .error .undefined
      | some w =>
        let s0 := enterStrategy s .R_RenderAnchoredPortal wa
        match w.portal with
        | none => .error .undefined
        | some pa =>
          match s0.portals[pa]? with
          | none => .error .undefined
          | some portal =>
            if portal.type ≠ .R_ANCHORED ∧ portal.type ≠ .R_TWOWAY then .ok s0
            else if w.maxx < w.minx then .ok s0
            else if portal.tainted > 6 then
              .ok (refuseTainted env s0 wa pa portal portal.data.anchor.maker)
            else if env.RANGECHECK = true ∧ clipArrayBad env w = true then
              .error (.I_Error
                "R_RenderAnchoredPortal: clipping array contained invalid information")
            else
              let s1 := logEvent s0 (.R_SetupPortalClipsegs w.minx w.maxx)
              if ext.R_SetupPortalClipsegs s0 w.minx w.maxx w.top w.bottom = false then .ok s1
              else
                match renderThroughPortal ext s1 wa w pa portal.data.anchor.deltax
                    portal.data.anchor.deltay portal.data.anchor.deltaz with
                | .error e => .error e
                | .ok s2 =>
                  match s2.windows[wa]? with
                  | none => .error .undefined
                  | some w2 =>
                    if w2.child ≠ none then R_RenderAnchoredPortal env ext fuel s2 w2.child
                    else .ok s2

/-- `R_RenderLinkedPortal`. -/
def R_RenderLinkedPortal (env : Env) (ext : Ext) : Nat → State → Ptr → Except Err State
  | 0, _, _ => .error .undefined
  | fuel + 1, s, window =>
    match window with
    | none => .error .undefined
    | some wa =>
      match s.windows[wa]? with
      | none => .error .undefined
      | some w =>
        let s0 := enterStrategy s .R_RenderLinkedPortal wa
        match w.portal with
        | none => .error .undefined
        | some pa =>
          match s0.portals[pa]? with
          | none => .error .undefined
          | some portal =>
            if portal.type ≠ .R_LINKED ∨ w.maxx < w.minx then .ok s0
            else if portal.tainted > 6 then
              .ok (refuseTainted env s0 wa pa portal portal.data.link.maker)
            else if env.RANGECHECK = true ∧ clipArrayBad env w = true then
              .error (.I_Error
                "R_RenderAnchoredPortal: clipping array contained invalid information")
            else
              let s1 := logEvent s0 (.R_SetupPortalClipsegs w.minx w.maxx)
              if ext.R_SetupPortalClipsegs s0 w.minx w.maxx w.top w.bottom = false then .ok s1
              else
                match renderThroughPortal ext s1 wa w pa portal.data.link.deltax
                    portal.data.link.deltay portal.data.link.deltaz with
                | .error e => .error e
                | .ok s2 =>
                  match s2.windows[wa]? with
                  | none => .error .undefined
                  | some w2 =>
                    if w2.child ≠ none then R_RenderLinkedPortal env ext fuel s2 w2.child
                    else .ok s2

/-- `R_UntaintPortals`. -/
def R_UntaintPortals (s : State) : State :=
  { s with portals := s.portals.map (fun r => { r with tainted := 0 }) }

/-- The call `window->func(window)` through the function pointer. -/
def callFunc (env : Env) (ext : Ext) (fuel : Nat) (func : renderfunc_e) (s : State)
    (window : Ptr) : Except Err State :=
  match func with
  | .R_RenderPortalNOP => .error (.I_Error "R_RenderPortalNOP called")
  | .R_RenderPlanePortal => R_RenderPlanePortal env ext fuel s window
  | .R_RenderHorizonPortal => R_RenderHorizonPortal env ext fuel s window
  | .R_RenderSkyboxPortal => R_RenderSkyboxPortal env ext fuel s window
  | .R_RenderAnchoredPortal => R_RenderAnchoredPortal env ext fuel s window
  | .R_RenderLinkedPortal => R_RenderLinkedPortal env ext fuel s window

/-- `R_ClearPortals`: a call of `R_ClearPlaneHash` on the overlay of each portal.
`R_ClearPlaneHash` belongs to `r_plane.cpp`; its calls are recorded. -/
def R_ClearPortals (s : State) : State :=
  logEvents s ((List.range s.portals.length).map Event.R_ClearPlaneHash)

/-- Collaborators that accept every clip region and change nothing: the
traversal claims no window, every reference reads as zero, every camera sits at
the origin. -/
def quietExt : Ext :=
  { R_SetupPortalClipsegs := fun _ _ _ _ _ => true
    R_RenderBSPNode := fun s => s
    R_PushPost := fun _ _ s => s
    R_FindPlane := fun _ _ _ _ _ _ _ _ => 0
    R_CheckPlane := fun _ plane _ _ => plane
    readInt := fun _ => 0
    readFloat := fun _ => 0
    readMobj := fun _ => some ⟨0, 0, 0, 0⟩ }

/-- Claims a floor window for portal 0 of the state and adds the span `(10, 20)`
at column 1. -/
def claimAndAdd (s : State) : State :=
  match R_NewPortalWindow narrowEnv s (some 0) none .pw_floor with
  | .error _ => s
  | .ok (w, s1) =>
    match R_WindowAdd narrowEnv 1 s1 (some w) 1 10 20 with
    | .error _ => s1
    | .ok s2 => s2

/-- One anchored portal (lines 0 and 1) that has reached taint 7, and a floor
window on it with one occupied column. -/
def taintedAnchoredState : State :=
  claimAndAdd (setPortal (R_GetAnchoredPortal narrowEnv startState 0 1).2 0
    (fun p => { p with tainted := 7 }))

/-- One skybox portal (camera 7) whose taint counter holds 7, and a floor window
on it with one occupied column. -/
def taintedSkyboxState : State :=
  claimAndAdd (setPortal skyboxState 0 (fun p => { p with tainted := 7 }))

/-- The state the Skybox strategy leaves from `taintedSkyboxState`. -/
def renderedSkyboxState : State :=
  match R_RenderSkyboxPortal narrowEnv quietExt 1 taintedSkyboxState (some 0) with
  | .ok s => s
  | .error _ => taintedSkyboxState

/-! ## Frame scheduler -/

/-- The assignment to `unusedhead`. -/
def setUnusedhead (s : State) (p : Ptr) : State :=
  { s with unusedhead := p }

/-- The assignment to `windowhead`. -/
def setWindowhead (s : State) (p : Ptr) : State :=
  { s with windowhead := p }

/-- The assignment to `windowlast`. -/
def setWindowlast (s : State) (p : Ptr) : State :=
  { s with windowlast := p }

/-- The assignments to the members of `portalrender`. -/
def setPortalrender (s : State) (pr : portalrender_t) : State :=
  { s with portalrender := pr }

/-- The loop of `R_RenderPortals` that returns a child chain to the free list:
`while(w) { w->next = unusedhead; unusedhead = w; w = w->child;
unusedhead->child = NULL; }`. The first argument bounds the number of turns. -/
def freeChildren : Nat → State → Ptr → Except Err State
  | 0, _, _ => .error .undefined
  | _ + 1, s, none => .ok s
  | fuel + 1, s, some w =>
    match s.windows[w]? with
    | none => .error .undefined
    | some r =>
      let s1 := setWindow s w (fun r => { r with next := s.unusedhead })
      let s2 := setUnusedhead s1 (some w)
      let s3 := setWindow s2 w (fun r => { r with child := none })
      freeChildren fuel s3 r.child

/-- The part of the loop body of `R_RenderPortals` under the comment
`free the window structs`: the child chain of the head window goes to the free
list, then the head window itself, and `windowhead` moves on to
`windowhead->next`. The loop over the child chain gets `windows.length + 2`
turns, which is more than it can take: each turn clears one child pointer. -/
def freeHeadWindow (s : State) : Except Err State :=
  match s.windowhead with
  | none => .error .undefined
  | some hd =>
    match s.windows[hd]? with
    | none => .error .undefined
    | some w =>
      match freeChildren (s.windows.length + 2) s w.child with
      | .error e => .error e
      | .ok s1 =>
        match s1.windows[hd]? with
        | none => .error .undefined
        | some w1 =>
          let s2 := setWindow s1 hd (fun r => { r with next := s1.unusedhead })
          let s3 := setUnusedhead s2 (some hd)
          let s4 := setWindow s3 hd (fun r => { r with child := none })
          .ok (setWindowhead s4 w1.next)

/-- The body of the loop `while(windowhead)` of `R_RenderPortals`, for the head
`hd` of the queue: `portalrender` is set up, the window's strategy is called
when its range is not empty, `portalrender` is reset, and the window and its
child chain go to the free list. `rfuel` bounds the recursion of the render
strategies into child windows. -/
def renderWindowhead (env : Env) (ext : Ext) (rfuel : Nat) (s : State) (hd : Nat) :
    Except Err State :=
  match s.windows[hd]? with
  | none => .error .undefined
  | some w =>
    match getPortal s w.portal with
    | .error e => .error e
    | .ok portal =>
      let s1 := setPortalrender s
        { s.portalrender with active := true, w := some hd, segClipFunc := w.clipfunc,
                              overlay := portal.poverlay, curwindow := some hd }
      match (if w.maxx ≥ w.minx then callFunc env ext rfuel w.func s1 (some hd)
             else .ok s1) with
      | .error e => .error e
      | .ok s2 =>
        freeHeadWindow (setPortalrender s2
          { s2.portalrender with active := false, w := none, segClipFunc := none,
                                 overlay := none, curwindow := none })

/-- `R_RenderPortals`. `rfuel` bounds the recursion of the render strategies into
child windows, the next argument the number of turns of the loop over the
queue. -/
def R_RenderPortals (env : Env) (ext : Ext) (rfuel : Nat) : Nat → State → Except Err State
  | 0, _ => .error .undefined
  | fuel + 1, s =>
    match s.windowhead with
    | none => .ok (setWindowlast s s.windowhead)
    | some hd =>
      match renderWindowhead env ext rfuel s hd with
      | .error e => .error e
      | .ok s1 => R_RenderPortals env ext rfuel fuel s1

/-- The windows the loop of `R_RenderPortals` takes from the head of the queue,
in the order in which it takes them. -/
def renderOrder (env : Env) (ext : Ext) (rfuel : Nat) : Nat → State → List Nat
  | 0, _ => []
  | fuel + 1, s =>
    match s.windowhead with
    | none => []
    | some hd =>
      match renderWindowhead env ext rfuel s hd with
      | .error _ => [hd]
      | .ok s1 => hd :: renderOrder env ext rfuel fuel s1

/-- The addresses of the windows of a frame: the queue windows, each followed by
its child chain, and then the free list. -/
def allWindows (queue : List (Nat × List Nat)) (pool : List Nat) : List Nat :=
  queue.flatMap (fun qc => qc.1 :: qc.2) ++ pool

/-- The window lists are well formed: the `next` pointers from `windowhead` run
through the queue windows `queue.map fst`, the `child` pointers of each queue
window through its chain, the `next` pointers from `unusedhead` through
`pool`; no window occurs twice in all of these; the windows of the free list
have no child. -/
def ListsOK (s : State) (queue : List (Nat × List Nat)) (pool : List Nat) : Prop :=
  IsList pwindow_t.next s.windows s.windowhead (queue.map Prod.fst) ∧
  (∀ qc ∈ queue, IsList pwindow_t.child s.windows (some qc.1) (qc.1 :: qc.2)) ∧
  IsList pwindow_t.next s.windows s.unusedhead pool ∧
  (allWindows queue pool).Nodup ∧
  (∀ a ∈ pool, (s.windows[a]?).bind pwindow_t.child = none)

/-- `ListsOK` can be evaluated. -/
instance ListsOK.instDecidable (s : State) (queue : List (Nat × List Nat))
    (pool : List Nat) : Decidable (ListsOK s queue pool) := by
  unfold ListsOK
  infer_instance

/-- A frame with two queue windows on the skybox portal: a floor window with
the spans `(10, 20)` and `(40, 50)` in column 1, the second in a child window,
and a ceiling window with one span. -/
def twoWindowState : State :=
  match R_GetFloorPortalWindow narrowEnv 3 skyboxState (some 0) with
  | .error _ => skyboxState
  | .ok (w, s1) =>
    match runAdds narrowEnv 3 w s1 [(1, 10, 20), (1, 40, 50)] with
    | .error _ => s1
    | .ok s2 =>
      match R_GetCeilingPortalWindow narrowEnv 3 s2 (some 0) with
      | .error _ => s2
      | .ok (w', s3) =>
        match runAdds narrowEnv 3 w' s3 [(2, 0, 5)] with
        | .error _ => s3
        | .ok s4 => s4

/-- The state `R_RenderPortals` leaves from `twoWindowState`. -/
def twoWindowRendered : State :=
  match R_RenderPortals narrowEnv quietExt 3 3 twoWindowState with
  | .ok s => s
  | .error _ => twoWindowState

/-- The window store and the three list heads are the same in both states. -/
def SameWindows (s s' : State) : Prop :=
  s'.windows = s.windows ∧ s'.unusedhead = s.unusedhead ∧
  s'.windowhead = s.windowhead ∧ s'.windowlast = s.windowlast

/-! ## Resolution change -/

/-- The loop `for(int i = 0; i < hash->chaincount; i++) hash->chains[i] = NULL;`.
Writing past the end of the table is undefined. -/
def clearChains (hash : planehash_t) : Except Err planehash_t :=
  if hash.chaincount ≤ hash.chains.length then
    .ok { hash with
      chains := (List.range hash.chaincount).foldl (fun cs i => cs.set i none) hash.chains }
  else .error .undefined

/-- The loop `for(portal_t *p = portals; p; p = p->next)` of the handler. -/
def clearOverlays : List portal_t → Except Err (List portal_t)
  | [] => .ok []
  | p :: ps =>
    match p.poverlay with
    | none =>
      match clearOverlays ps with
      | .error e => .error e
      | .ok ps' => .ok (p :: ps')
    | some hash =>
      match clearChains hash with
      | .error e => .error e
      | .ok hash' =>
        match clearOverlays ps with
        | .error e => .error e
        | .ok ps' => .ok ({ p with poverlay := some hash' } :: ps')

/-- The two loops of the handler that release a list of windows linked by one
pointer field: `while(child) { next = child->child; efree(child->top);
efree(child); child = next; }` for a child chain, and the same text with
`rover->next` for the free list. -/
def efreeList (nxt : pwindow_t → Ptr) : Nat → State → Ptr → Except Err State
  | 0, _, _ => .error .undefined
  | _ + 1, s, none => .ok s
  | fuel + 1, s, some a =>
    match s.windows[a]? with
    | none => .error .undefined
    | some r => efreeList nxt fuel (logEvents s [.efree_top a, .efree a]) (nxt r)

/-- The loop of the handler over the main list: each window's child chain is
released, then the window itself. `cfuel` bounds the turns of the inner loop. -/
def efreeMainList (cfuel : Nat) : Nat → State → Ptr → Except Err State
  | 0, _, _ => .error .undefined
  | _ + 1, s, none => .ok s
  | fuel + 1, s, some rover =>
    match s.windows[rover]? with
    | none => .error .undefined
    | some r =>
      match efreeList pwindow_t.child cfuel s r.child with
      | .error e => .error e
      | .ok s1 =>
        efreeMainList cfuel fuel (logEvents s1 [.efree_top rover, .efree rover]) r.next

/-- The portal list with its overlay tables rewritten in place. -/
def setPortals (s : State) (ps : List portal_t) : State :=
  { s with portals := ps }

/-- `VALLOCATION(portals)`, the handler of a resolution change. The first
argument bounds the number of turns of each of its loops over windows. -/
def VALLOCATION_portals (fuel : Nat) (s : State) : Except Err State :=
  match clearOverlays s.portals with
  | .error e => .error e
  | .ok ps =>
    let s1 := setPortals s ps
    match efreeMainList fuel fuel s1 s1.windowhead with
    | .error e => .error e
    | .ok s2 =>
      match efreeList pwindow_t.next fuel s2 s2.unusedhead with
      | .error e => .error e
      | .ok s3 => .ok (setWindowhead (setWindowlast (setUnusedhead s3 none) none) none)

/-- Every overlay table has at least `chaincount` slots. -/
def OverlaysOK (ps : List portal_t) : Prop :=
  ∀ p ∈ ps, ∀ hash, p.poverlay = some hash → hash.chaincount ≤ hash.chains.length

/-- `OverlaysOK` can be evaluated. -/
instance OverlaysOK.instDecidable (ps : List portal_t) : Decidable (OverlaysOK ps) := by
  unfold OverlaysOK
  exact List.decidableBAll _ ps

/-- Every chain slot of every overlay table is null. -/
def OverlaysCleared (ps : List portal_t) : Prop :=
  ∀ p ∈ ps, ∀ hash, p.poverlay = some hash →
    ∀ i, i < hash.chaincount → hash.chains[i]? = some none

/-- The release calls for a list of windows. -/
def efreeEvents (l : List Nat) : List Event :=
  l.flatMap (fun a => [.efree_top a, .efree a])

/-- The state of `twoWindowRendered` after another frame has claimed a floor
window with two spans in one column and the overlay of the portal has been
filled: one window in the queue with a child, one on the free list. -/
def resizeState : State :=
  match R_GetFloorPortalWindow narrowEnv 3 twoWindowRendered (some 0) with
  | .error _ => twoWindowRendered
  | .ok (w, s1) =>
    match runAdds narrowEnv 3 w s1 [(1, 10, 20), (1, 40, 50)] with
    | .error _ => s1
    | .ok s2 =>
      setPortal s2 0 (fun p =>
        { p with poverlay := some ⟨3, [some 5, none, some 6]⟩ })

/-! ## Vocabulary of the frame queue -/

/-- The frame queue and the free list are well formed: the column buffers have
the width of the screen, the `next` pointers from `windowhead` run through the
addresses `queue`, `windowlast` is the last of them (null when there is none),
the free list is a proper list, and no window is on both. -/
def QueueOK (env : Env) (s : State) (queue pool : List Nat) : Prop :=
  BuffersOK env s ∧ IsList pwindow_t.next s.windows s.windowhead queue ∧
  s.windowlast = queue.getLast? ∧ PoolOK s pool ∧ (queue ++ pool).Nodup

/-- `QueueOK` can be evaluated. -/
instance QueueOK.instDecidable (env : Env) (s : State) (queue pool : List Nat) :
    Decidable (QueueOK env s queue pool) := by
  unfold QueueOK PoolOK
  infer_instance

/-- The first window of the queue whose record passes the test. -/
def firstMatch (s : State) (test : pwindow_t → Bool) (queue : List Nat) : Option Nat :=
  queue.find? (fun a =>
    match s.windows[a]? with
    | some r => test r
    | none => false)

/-- What a claim of a window achieves on the queue `queue` with free list
`pool`; `test` is the match condition of the claim, `res` the outcome of the
claim and `again` the same claim made in a later state. The claim returns a
window whose record passes the test. If a queue window passed the test before,
the first such window is returned and the state is unchanged; otherwise the
window returned was not in the queue, the new queue is the old one with that
window appended, the free list lost at most its head, and of the old records
only the `next` pointer of the former last window changed. Making the claim
again returns the same window and changes nothing. -/
def ClaimOK (env : Env) (s : State) (queue pool : List Nat) (test : pwindow_t → Bool)
    (again : State → Except Err (Nat × State)) (res : Except Err (Nat × State)) : Prop :=
  ∃ w s', res = .ok (w, s') ∧
    (∃ r, s'.windows[w]? = some r ∧ test r = true) ∧
    (∀ a, firstMatch s test queue = some a → w = a ∧ s' = s) ∧
    (firstMatch s test queue = none →
      w ∉ queue ∧ QueueOK env s' (queue ++ [w]) pool.tail ∧
      (pool.head? = some w ∨ (pool = [] ∧ w = s.windows.length)) ∧
      (∀ b, b ≠ w → queue.getLast? ≠ some b → s'.windows[b]? = s.windows[b]?) ∧
      (∀ lst, queue.getLast? = some lst →
        ∃ r, s.windows[lst]? = some r ∧ s'.windows[lst]? = some { r with next := some w })) ∧
    (∃ queue' pool', QueueOK env s' queue' pool' ∧ w ∈ queue') ∧
    again s' = .ok (w, s')

/-- Collaborators like `quietExt`, but the traversal and the overlay push leave
the viewpoint somewhere else. -/
def wanderingExt : Ext :=
  { quietExt with
    R_RenderBSPNode := fun s => setViewangle (setViewpoint s 1 2 3) 4
    R_PushPost := fun _ _ s => setViewangle (setViewpoint s 5 6 7) 8 }

/-- The state the Skybox strategy leaves from `taintedSkyboxState` with
`wanderingExt`. -/
def wanderedSkyboxState : State :=
  match R_RenderSkyboxPortal narrowEnv wanderingExt 1 taintedSkyboxState (some 0) with
  | .ok s => s
  | .error _ => taintedSkyboxState

/-- `PoolOK` can be evaluated. -/
instance PoolOK.instDecidable (s : State) (pool : List Nat) : Decidable (PoolOK s pool) := by
  unfold PoolOK
  infer_instance

/-- `ColsOK` can be evaluated. -/
instance ColsOK.instDecidable (env : Env) (w : pwindow_t) : Decidable (ColsOK env w) := by
  unfold ColsOK
  infer_instance

/-- A property of the record at an address can be evaluated by reading it. -/
instance decidableRecordAt (ws : List pwindow_t) (b : Nat) (P : pwindow_t → Prop)
    [DecidablePred P] : Decidable (∀ r, ws[b]? = some r → P r) :=
  match h : ws[b]? with
  | some r => decidable_of_iff (P r) (by simp)
  | none => isTrue (by simp)

/-- `ChainOK` can be evaluated. -/
instance ChainOK.instDecidable (env : Env) (s : State) (a : Nat) (rest pool : List Nat) :
    Decidable (ChainOK env s a rest pool) := by
  unfold ChainOK
  infer_instance

/-- The freshly claimed window of `claimedState` after the one-row span
`(50, 50)` was added at column 1. -/
def oneRowState : State :=
  match R_WindowAdd narrowEnv 1 claimedState (some 0) 1 50 50 with
  | .ok s => s
  | .error _ => claimedState

/-- The state `R_WindowAdd (w, 1, 10, 20)` leaves from `oneRowState`. -/
def oneRowThenSpanState : State :=
  match R_WindowAdd narrowEnv 2 oneRowState (some 0) 1 10 20 with
  | .ok s => s
  | .error _ => oneRowState

/-- The freshly claimed window of `claimedState` after spans were added at
columns 1 and 3: column 2 lies in the range and is free. -/
def gapState : State :=
  match runAdds narrowEnv 2 0 claimedState [(1, 10, 20), (3, 10, 20)] with
  | .ok s => s
  | .error _ => claimedState

/-- The portal has the given type and, in its anchor data, the given deltas. -/
def HasDeltas (t : portaltype_e) (d : Int × Int × Int) (p : portal_t) : Prop :=
  p.type = t ∧ p.data.anchor.deltax = d.1 ∧ p.data.anchor.deltay = d.2.1 ∧
  p.data.anchor.deltaz = d.2.2

/-- `HasDeltas` can be evaluated. -/
instance HasDeltas.instDecidable (t : portaltype_e) (d : Int × Int × Int) (p : portal_t) :
    Decidable (HasDeltas t d p) := by
  unfold HasDeltas
  infer_instance

/-- What a lookup that includes the kind returns, for a request of kind `t` with
the deltas `d`, as the pair `res` of handle and new state: the handle
designates a portal of kind `t` with these deltas; if the list held such a
portal it is the earliest one and the state is unchanged; otherwise it is a
new last element of the list, with taint 0. -/
def KindLookup (t : portaltype_e) (d : Int × Int × Int) (s : State) (res : Ptr × State) :
    Prop :=
  ∃ i p, res.1 = some i ∧ res.2.portals[i]? = some p ∧ HasDeltas t d p ∧
    (∀ j q, j < i → s.portals[j]? = some q → ¬ HasDeltas t d q) ∧
    ((∃ q ∈ s.portals, HasDeltas t d q) → i < s.portals.length ∧ res.2 = s) ∧
    ((∀ q ∈ s.portals, ¬ HasDeltas t d q) →
      i = s.portals.length ∧ res.2.portals = s.portals ++ [p] ∧ p.tainted = 0)

/-- Every column of the screen outside the range `[minx, maxx]` of the window is
as `R_ClearPortalWindow` left it. -/
def OutsideCleared (env : Env) (w : pwindow_t) : Prop :=
  ∀ i, i < env.video_width → ((i : Int) < w.minx ∨ w.maxx < (i : Int)) →
    w.top.getD i 0 = env.view_height ∧ w.bottom.getD i 0 = -1

/-- No column of the range `[minx, maxx]` of the window is empty. -/
def Contiguous (w : pwindow_t) : Prop :=
  ∀ i : Nat, w.minx ≤ (i : Int) → (i : Int) ≤ w.maxx → w.top.getD i 0 < w.bottom.getD i 0

/-- Along a sequence of `R_WindowAdd` calls on the window `w`, the column of each
call lies inside the range the window has at the time of the call or next to
it, or the window is empty at that time. -/
def AdjacentAdds (env : Env) (fuel : Nat) (w : Nat) : State → List (Int × ℚ × ℚ) → Prop
  | _, [] => True
  | s, c :: cs =>
    (match s.windows[w]? with
      | some r => r.maxx < r.minx ∨ (r.minx - 1 ≤ c.1 ∧ c.1 ≤ r.maxx + 1)
      | none => False) ∧
    match R_WindowAdd env fuel s (some w) c.1 c.2.1 c.2.2 with
    | .ok s1 => AdjacentAdds env fuel w s1 cs
    | .error _ => True

/-- `AdjacentAdds` can be evaluated. -/
instance AdjacentAdds.instDecidable (env : Env) (fuel : Nat) (w : Nat) :
    (s : State) → (calls : List (Int × ℚ × ℚ)) → Decidable (AdjacentAdds env fuel w s calls)
  | _, [] => isTrue trivial
  | s, c :: cs =>
    have h1 : Decidable (match s.windows[w]? with
        | some r => r.maxx < r.minx ∨ (r.minx - 1 ≤ c.1 ∧ c.1 ≤ r.maxx + 1)
        | none => False) := by
      cases s.windows[w]? <;> infer_instance
    have h2 : Decidable (match R_WindowAdd env fuel s (some w) c.1 c.2.1 c.2.2 with
        | .ok s1 => AdjacentAdds env fuel w s1 cs
        | .error _ => True) := by
      cases R_WindowAdd env fuel s (some w) c.1 c.2.1 c.2.2 with
      | ok s1 => exact AdjacentAdds.instDecidable env fuel w s1 cs
      | error _ => exact isTrue trivial
    by
      unfold AdjacentAdds
      exact instDecidableAnd

/-- Collaborators like `quietExt`, but clip-region setup fails for every
region. -/
def closedExt : Ext :=
  { quietExt with R_SetupPortalClipsegs := fun _ _ _ _ _ => false }

/-- One anchored portal (lines 0 and 1) with taint 0, and a floor window on it
with the span `(10, 20)` at column 1. -/
def anchoredState : State :=
  claimAndAdd (R_GetAnchoredPortal narrowEnv startState 0 1).2

/-- The window of `anchoredState` after the disjoint span `(30, 40)` was added at
column 1: the window has a child. -/
def anchoredChildState : State :=
  match R_WindowAdd narrowEnv 2 anchoredState (some 0) 1 30 40 with
  | .ok s => s
  | .error _ => anchoredState

/-- The call is a call of the world traversal. -/
def isTraversal : Event → Bool
  | .R_RenderBSPNode _ _ _ _ => true
  | _ => false

/-- The number of calls of the world traversal in the record of external
calls. -/
def traversalCount (s : State) : Nat :=
  s.trace.countP isTraversal

/-- The taint counter of the portal `pa`; `0` when there is no such portal. -/
def taintOf (s : State) (pa : Nat) : Int :=
  match s.portals[pa]? with
  | some p => p.tainted
  | none => 0

/-- A claim of a window by the traversal: one constructor per
`R_Get*PortalWindow` function. -/
inductive ClaimCall where
  | floor (portal : Ptr)
  | ceiling (portal : Ptr)
  | line (portal line : Ptr)
  deriving DecidableEq, Repr

/-- The portal a claim names. -/
def ClaimCall.portal : ClaimCall → Ptr
  | .floor p => p
  | .ceiling p => p
  | .line p _ => p

/-- The `R_Get*PortalWindow` function a claim stands for. -/
def applyClaim (env : Env) (fuel : Nat) (s : State) : ClaimCall → Except Err (Nat × State)
  | .floor p => R_GetFloorPortalWindow env fuel s p
  | .ceiling p => R_GetCeilingPortalWindow env fuel s p
  | .line p l => R_GetLinePortalWindow env fuel s p l

/-- The use the traversal makes of the window code: it claims a window and calls
`R_WindowAdd` on the window the claim returned, for a number of columns; and
so on, claim after claim. -/
def runFrame (env : Env) (fuel : Nat) :
    State → List (ClaimCall × List (Int × ℚ × ℚ)) → Except Err State
  | s, [] => .ok s
  | s, op :: ops =>
    match applyClaim env fuel s op.1 with
    | .error e => .error e
    | .ok (w, s1) =>
      match runAdds env fuel w s1 op.2 with
      | .error e => .error e
      | .ok s2 => runFrame env fuel s2 ops

/-- The number of calls in a run of `runFrame`. -/
def opCount (ops : List (ClaimCall × List (Int × ℚ × ℚ))) : Nat :=
  (ops.map (fun op => op.2.length + 1)).sum

/-- The windows of a frame are well formed: the `next` pointers from
`windowhead` run through the queue windows `queue.map fst`, `windowlast` is the
last of them, the `child` pointers of each queue window run through its
chain, the free list is a proper list, no window occurs twice in all of these,
the column buffers have the width of the screen and the columns of the windows
in use are cleared or on screen. -/
def FrameOK (env : Env) (s : State) (queue : List (Nat × List Nat)) (pool : List Nat) : Prop :=
  IsList pwindow_t.next s.windows s.windowhead (queue.map Prod.fst) ∧
  (∀ qc ∈ queue, IsList pwindow_t.child s.windows (some qc.1) (qc.1 :: qc.2)) ∧
  PoolOK s pool ∧ (allWindows queue pool).Nodup ∧ BuffersOK env s ∧
  s.windowlast = (queue.map Prod.fst).getLast? ∧
  (∀ qc ∈ queue, ∀ b ∈ qc.1 :: qc.2, ∀ r, s.windows[b]? = some r → ColsOK env r)

/-- `FrameOK` can be evaluated. -/
instance FrameOK.instDecidable (env : Env) (s : State) (queue : List (Nat × List Nat))
    (pool : List Nat) : Decidable (FrameOK env s queue pool) := by
  unfold FrameOK
  infer_instance

/-- The record at address `b` has `head = W`. -/
def HeadIs (s : State) (W b : Nat) : Prop :=
  (s.windows[b]?).map pwindow_t.head = some (some W)

/-- `HeadIs` can be evaluated. -/
instance HeadIs.instDecidable (s : State) (W b : Nat) : Decidable (HeadIs s W b) := by
  unfold HeadIs
  infer_instance

/-- Every queue window and every window of its child chain has the queue window
as its `head`. -/
def HeadsOK (s : State) (queue : List (Nat × List Nat)) : Prop :=
  ∀ qc ∈ queue, ∀ b ∈ qc.1 :: qc.2, HeadIs s qc.1 b

/-- `HeadsOK` can be evaluated. -/
instance HeadsOK.instDecidable (s : State) (queue : List (Nat × List Nat)) :
    Decidable (HeadsOK s queue) := by
  unfold HeadsOK
  infer_instance

/-! ## `R_WindowAdd` over floats that may be infinite or NaN -/

/-- A C `float` as the window code sees it: a finite value, one of the two
infinities, or NaN. The window code does no arithmetic on floats; it stores
them and compares them, so a finite value is represented by the rational
number it denotes (the two zeros compare equal and are one number here). -/
inductive cfloat where
  | num (q : ℚ)
  | posInf
  | negInf
  | nan
  deriving DecidableEq, Repr

/-- `a < b` on floats: false when either side is NaN. -/
def cfloat.lt : cfloat → cfloat → Bool
  | .num a, .num b => decide (a < b)
  | .negInf, .num _ => true
  | .negInf, .posInf => true
  | .num _, .posInf => true
  | _, _ => false

/-- `a <= b` on floats: false when either side is NaN. -/
def cfloat.le : cfloat → cfloat → Bool
  | .num a, .num b => decide (a ≤ b)
  | .negInf, .num _ => true
  | .negInf, .posInf => true
  | .num _, .posInf => true
  | .negInf, .negInf => true
  | .posInf, .posInf => true
  | _, _ => false

/-- A float that holds a finite value. -/
def cfloat.isNum : cfloat → Bool
  | .num _ => true
  | _ => false

/-- The comparison `<` of C on floats (and `>`, read from right to left). -/
instance cfloat.instLT : LT cfloat := ⟨fun a b => cfloat.lt a b = true⟩

/-- The comparison `<=` of C on floats (and `>=`, read from right to left). -/
instance cfloat.instLE : LE cfloat := ⟨fun a b => cfloat.le a b = true⟩

/-- A comparison of floats can be evaluated. -/
instance cfloat.decLT (a b : cfloat) : Decidable (a < b) :=
  inferInstanceAs (Decidable (cfloat.lt a b = true))

/-- A comparison of floats can be evaluated. -/
instance cfloat.decLE (a b : cfloat) : Decidable (a ≤ b) :=
  inferInstanceAs (Decidable (cfloat.le a b = true))

/-- A portal window record whose column buffer holds floats that may be NaN. -/
structure Flt.pwindow_t where
  portal : Ptr
  line : Ptr
  type : pwindowtype_e
  child : Ptr
  next : Ptr
  head : Ptr
  top : List cfloat
  bottom : List cfloat
  minx : Int
  maxx : Int
  vx : Int
  vy : Int
  vz : Int
  func : renderfunc_e
  clipfunc : Option pwindowtype_e
  deriving DecidableEq, Repr

/-- The variables `R_WindowAdd` and the functions it calls read and write: the
store of window records, the head of the free list, and the viewpoint. -/
structure Flt.State where
  windows : List Flt.pwindow_t
  unusedhead : Ptr
  viewx : Int
  viewy : Int
  viewz : Int
  deriving DecidableEq, Repr

/-- A window record with numbers in its column buffer, as a record of floats. -/
def pwindow_t.toFlt (w : pwindow_t) : Flt.pwindow_t :=
  { portal := w.portal, line := w.line, type := w.type, child := w.child, next := w.next,
    head := w.head, top := w.top.map cfloat.num, bottom := w.bottom.map cfloat.num,
    minx := w.minx, maxx := w.maxx, vx := w.vx, vy := w.vy, vz := w.vz, func := w.func,
    clipfunc := w.clipfunc }

/-- The part of a state that `R_WindowAdd` works on, with the column buffers as
floats. -/
def State.toFlt (s : State) : Flt.State :=
  { windows := s.windows.map pwindow_t.toFlt, unusedhead := s.unusedhead,
    viewx := s.viewx, viewy := s.viewy, viewz := s.viewz }

/-- Read through a `pwindow_t *`; a null or dangling pointer is undefined. -/
def Flt.getWindow (s : Flt.State) (p : Ptr) : Except Err Flt.pwindow_t :=
  match p with
  | none => .error .undefined
  | some a =>
    match s.windows[a]? with
    | none => .error .undefined
    | some w => .ok w

/-- Assignment through a `pwindow_t *` known to be valid. -/
def Flt.setWindow (s : Flt.State) (a : Nat) (f : Flt.pwindow_t → Flt.pwindow_t) : Flt.State :=
  { s with windows := s.windows.modify f a }

/-- The loop `for(int i = 0; i < video.width; i++) buf[i] = v`. -/
def Flt.clearColumns (width : Nat) (v : cfloat) (buf : List cfloat) : List cfloat :=
  (List.range width).foldl (fun b i => b.set i v) buf

/-- `R_ClearPortalWindow`, over floats. -/
def Flt.R_ClearPortalWindow (env : Env) (window : Flt.pwindow_t) : Flt.pwindow_t :=
  { window with
    maxx := 0
    minx := env.viewwindow_width - 1
    top := Flt.clearColumns env.video_width (.num env.view_height) window.top
    bottom := Flt.clearColumns env.video_width (.num (-1)) window.bottom
    child := none
    next := none
    portal := none
    line := none
    func := .R_RenderPortalNOP
    clipfunc := none
    vx := 0
    vy := 0
    vz := 0 }

/-- A record as `estructalloctag` returns it, over floats. -/
def Flt.freshWindow (env : Env) : Flt.pwindow_t :=
  { portal := none, line := none, type := .pw_floor, child := none, next := none,
    head := none, top := List.replicate env.video_width (.num 0),
    bottom := List.replicate env.video_width (.num 0), minx := 0, maxx := 0,
    vx := 0, vy := 0, vz := 0, func := .R_RenderPortalNOP, clipfunc := none }

/-- `newPortalWindow`, over floats. -/
def Flt.newPortalWindow (env : Env) (s : Flt.State) : Except Err (Nat × Flt.State) :=
  match s.unusedhead with
  | some ret =>
    match s.windows[ret]? with
    | none => .error .undefined
    | some r =>
      let s1 := { s with unusedhead := r.next }
      .ok (ret, Flt.setWindow s1 ret (Flt.R_ClearPortalWindow env))
  | none =>
    let ret := s.windows.length
    let s1 := { s with windows := s.windows ++ [Flt.freshWindow env] }
    .ok (ret, Flt.setWindow s1 ret (Flt.R_ClearPortalWindow env))

/-- `R_CreateChildWindow`, over floats. -/
def Flt.R_CreateChildWindow (env : Env) (s : Flt.State) (parent : Nat) :
    Except Err Flt.State := do
  let par ← Flt.getWindow s (some parent)
  if env.RANGECHECK = true ∧ par.child ≠ none then
    .error (.I_Error "R_CreateChildWindow: child portal displaced")
  else
    let (child, s1) ← Flt.newPortalWindow env s
    let s2 := Flt.setWindow s1 parent (fun w => { w with child := some child })
    let par2 ← Flt.getWindow s2 (some parent)
    .ok (Flt.setWindow s2 child (fun w =>
      { w with head := par2.head, portal := par2.portal, line := par2.line,
               type := par2.type, func := par2.func, clipfunc := par2.clipfunc }))

/-- `R_WindowAdd`, over floats: `ytop`, `ybottom` and the stored columns may be
NaN, and then every comparison they take part in is false. The first argument
bounds the depth of the recursion into child windows. -/
def Flt.R_WindowAdd (env : Env) :
    Nat → Flt.State → Ptr → Int → cfloat → cfloat → Except Err Flt.State
  | 0, _, _, _, _, _ => .error .undefined
  | fuel + 1, s, window, x, ytop, ybottom =>
    if env.RANGECHECK = true ∧ window = none then
      .error (.I_Error "R_WindowAdd: null portal window")
    else if env.RANGECHECK = true ∧ (x < 0 ∨ x ≥ env.video_width) then
      .error (.I_Error "R_WindowAdd: column out of bounds")
    else if env.RANGECHECK = true ∧
        ((ybottom ≥ cfloat.num env.view_height ∨ ytop < cfloat.num 0) ∧ ytop < ybottom) then
      .error (.I_Error "R_WindowAdd portal supplied with bad column data.")
    else
      match window with
      | none => .error .undefined
      | some wi =>
        match s.windows[wi]? with
        | none => .error .undefined
        | some w =>
          if x < 0 ∨ x ≥ w.top.length ∨ x ≥ w.bottom.length then .error .undefined
          else
            let i := x.toNat
            let windowtop := w.top.getD i (.num 0)
            let windowbottom := w.bottom.getD i (.num 0)
            if env.RANGECHECK = true ∧ (windowbottom > windowtop ∧
                (windowtop < cfloat.num 0 ∨ windowbottom < cfloat.num 0 ∨
                 windowtop ≥ cfloat.num env.view_height ∨
                 windowbottom ≥ cfloat.num env.view_height)) then
              .error (.I_Error "R_WindowAdd portal had bad opening data.")
            else if ybottom < cfloat.num 0 ∨ ytop ≥ cfloat.num env.view_height then .ok s
            else if x ≤ w.maxx ∧ x ≥ w.minx then
              if windowtop > windowbottom then
                .ok (Flt.setWindow s wi (fun w =>
                  { w with top := w.top.set i ytop, bottom := w.bottom.set i ybottom }))
              else if ytop > windowbottom ∨ ybottom < windowtop then
                match (if w.child = none then Flt.R_CreateChildWindow env s wi else .ok s) with
                | .error e => .error e
                | .ok s1 =>
                  match s1.windows[wi]? with
                  | none => .error .undefined
                  | some w1 => Flt.R_WindowAdd env fuel s1 w1.child x ytop ybottom
              else
                let s1 := if ytop < windowtop then
                    Flt.setWindow s wi (fun w => { w with top := w.top.set i ytop })
                  else s
                let s2 := if ybottom > windowbottom then
                    Flt.setWindow s1 wi (fun w => { w with bottom := w.bottom.set i ybottom })
                  else s1
                .ok s2
            else if w.minx > w.maxx then
              .ok (Flt.setWindow s wi (fun w =>
                { w with minx := x, maxx := x, top := w.top.set i ytop,
                         bottom := w.bottom.set i ybottom,
                         vx := s.viewx, vy := s.viewy, vz := s.viewz }))
            else if x > w.maxx then
              .ok (Flt.setWindow s wi (fun w =>
                { w with maxx := x, top := w.top.set i ytop,
                         bottom := w.bottom.set i ybottom }))
            else if x < w.minx then
              .ok (Flt.setWindow s wi (fun w =>
                { w with minx := x, top := w.top.set i ytop,
                         bottom := w.bottom.set i ybottom }))
            else .ok s

/-- A sequence of `Flt.R_WindowAdd` calls on one window. -/
def Flt.runAdds (env : Env) (fuel : Nat) (window : Nat) :
    Flt.State → List (Int × cfloat × cfloat) → Except Err Flt.State
  | s, [] => .ok s
  | s, c :: cs =>
    match Flt.R_WindowAdd env fuel s (some window) c.1 c.2.1 c.2.2 with
    | .error e => .error e
    | .ok s1 => Flt.runAdds env fuel window s1 cs

/-- A call with a span of numbers, as a call with a span of floats. -/
def Flt.ofCall (c : Int × ℚ × ℚ) : Int × cfloat × cfloat :=
  (c.1, .num c.2.1, .num c.2.2)


/-- The arguments pass the `RANGECHECK` assertions on the input of
`R_WindowAdd`, for a span of floats: with a NaN end the comparison
`ytop < ybottom` is false, so the span passes. -/
def Flt.ValidCall (env : Env) (c : Int × cfloat × cfloat) : Prop :=
  0 ≤ c.1 ∧ c.1 < env.video_width ∧
  ¬ ((c.2.2 ≥ cfloat.num env.view_height ∨ c.2.1 < cfloat.num 0) ∧ c.2.1 < c.2.2)

instance Flt.decValidCall (env : Env) (c : Int × cfloat × cfloat) :
    Decidable (Flt.ValidCall env c) := by
  unfold Flt.ValidCall
  infer_instance

/-- The state in which column 2 of the freshly claimed window of `claimedState`
holds the span `(10, 20)`, over floats. -/
def spanFltState : Flt.State :=
  match Flt.R_WindowAdd narrowEnv 1 claimedState.toFlt (some 0) 2 (.num 10) (.num 20) with
  | .ok s => s
  | .error _ => claimedState.toFlt

/-! ## Vocabulary of the drain of the frame queue -/

/-- Every window of a child chain refers to the portal of its queue window. -/
def PortalsOK (s : State) (queue : List (Nat × List Nat)) : Prop :=
  ∀ qc ∈ queue, ∀ b ∈ qc.2,
    (s.windows[b]?).map pwindow_t.portal = (s.windows[qc.1]?).map pwindow_t.portal

/-- `PortalsOK` can be evaluated. -/
instance PortalsOK.instDecidable (s : State) (queue : List (Nat × List Nat)) :
    Decidable (PortalsOK s queue) := by
  unfold PortalsOK
  infer_instance

/-- The windows of a frame as the window code keeps them while the queue is
built and drained: the frame is well formed (`FrameOK`; `windowlast` is the
last queue window), every window of a chain has the queue window as `head` and
refers to its portal, and the windows of the free list have no child. -/
def DrainOK (env : Env) (s : State) (queue : List (Nat × List Nat)) (pool : List Nat) : Prop :=
  FrameOK env s queue pool ∧ HeadsOK s queue ∧ PortalsOK s queue ∧
  ∀ a ∈ pool, (s.windows[a]?).bind pwindow_t.child = none

/-- `DrainOK` can be evaluated. -/
instance DrainOK.instDecidable (env : Env) (s : State) (queue : List (Nat × List Nat))
    (pool : List Nat) : Decidable (DrainOK env s queue pool) := by
  unfold DrainOK
  infer_instance

/-- The frame `queue'`, `pool'` of the state `s'` continues the frame `queue`,
`pool` of the state `s`: the queue windows of `queue` are the front of the
queue, every chain is the front of the chain of the same queue window, the
windows of the free list are still windows of the frame, and the windows in use
refer to the portal they referred to. -/
def Continues (s s' : State) (queue queue' : List (Nat × List Nat)) (pool pool' : List Nat) :
    Prop :=
  queue.map Prod.fst <+: queue'.map Prod.fst ∧
  (∀ qc ∈ queue, ∃ qc' ∈ queue', qc'.1 = qc.1 ∧ qc.2 <+: qc'.2) ∧
  (∀ a ∈ pool, a ∈ allWindows queue' pool') ∧
  (∀ qc ∈ queue, ∀ b ∈ qc.1 :: qc.2,
    (s'.windows[b]?).map pwindow_t.portal = (s.windows[b]?).map pwindow_t.portal)

/-- Every claim of `ops` names a portal of the registry. -/
def claimsValid (s : State) (ops : List (ClaimCall × List (Int × ℚ × ℚ))) : Bool :=
  ops.all (fun op =>
    match op.1.portal with
    | some i => decide (i < s.portals.length)
    | none => false)

/-- Collaborators whose world traversal meets portal lines: each call of the
traversal performs the claims and column additions `ops` through the window
code (`runFrame`), when the claims name portals of the registry and the calls
return; otherwise it does nothing. The other collaborators are those of
`quietExt`. -/
def claimingExt (env : Env) (ops : List (ClaimCall × List (Int × ℚ × ℚ))) : Ext :=
  { quietExt with
    R_RenderBSPNode := fun s =>
      if claimsValid s ops = true then
        match runFrame env (s.windows.length + opCount ops + 2) s ops with
        | .ok s' => s'
        | .error _ => s
      else s }

/-- What the traversal of the sample drain does: it claims the line window of
portal 0 at line 5 and adds the span `(0, 5)` at column 2. -/
def lineClaimOps : List (ClaimCall × List (Int × ℚ × ℚ)) :=
  [(.line (some 0) (some 5), [(2, 0, 5)])]

/-- The state `R_RenderPortals` leaves from `twoWindowState` when every call of
the traversal performs `lineClaimOps`: the first traversal appends a line
window to the queue, the later ones find it there. -/
def claimDrainedState : State :=
  match R_RenderPortals narrowEnv (claimingExt narrowEnv lineClaimOps) 3 5 twoWindowState with
  | .ok s => s
  | .error _ => twoWindowState

/-- One turn of the loop `while(windowhead)` of `R_RenderPortals`: the window
`hd` taken from the head of the queue, the states before and after the turn,
the queue windows appended to the queue during the turn, and the calls
recorded during the turn. -/
structure Turn where
  hd : Nat
  before : State
  after : State
  appended : List Nat
  events : List Event

/-- The loop of `R_RenderPortals`, started in the state `s`, makes the turns
`turns`, each from the state its predecessor left, and then finds the queue
empty, in the state `sEnd`. -/
def TurnsFrom (env : Env) (ext : Ext) (rfuel : Nat) : State → List Turn → State → Prop
  | s, [], sEnd => s.windowhead = none ∧ sEnd = s
  | s, t :: ts, sEnd =>
    t.before = s ∧ s.windowhead = some t.hd ∧
    renderWindowhead env ext rfuel s t.hd = .ok t.after ∧
    TurnsFrom env ext rfuel t.after ts sEnd

/-- The windows on which a render strategy was entered, in the order of the
entries in the record of calls. -/
def enteredWindows : List Event → List Nat
  | [] => []
  | .enter _ w :: es => w :: enteredWindows es
  | _ :: es => enteredWindows es

/-! ## Vocabulary of the recursion cap -/

/-- The portal the window record at `wa` refers to; `NULL` when there is no
such record. -/
def windowPortal (s : State) (wa : Nat) : Ptr :=
  (s.windows[wa]?).bind pwindow_t.portal

/-- A collaborator that keeps the frame: on a frame as the window code keeps it
(`DrainOK`) it leaves such a frame, which continues the frame before (the
windows in use stay in use, on their chains, and refer to the portal they
referred to; windows may be claimed and columns added); it does not write to
the portals, and it does not run a render strategy (so the record shows no
further call of the traversal). -/
def KeepsFrame (env : Env) (f : State → State) : Prop :=
  ∀ st Q P, DrainOK env st Q P →
    (∃ Q' P', DrainOK env (f st) Q' P' ∧ Continues st (f st) Q Q' P P') ∧
    (f st).portals = st.portals ∧ traversalCount (f st) = traversalCount st

/-- A sequence of calls of render strategies, each on a window, with nothing in
between (no `R_UntaintPortals` in particular), and the number of calls of the
world traversal made for the portal `pa`: those made during the calls on
windows that refer to `pa`. -/
def runCounting (env : Env) (ext : Ext) (fuel : Nat) (pa : Nat) :
    State → List (renderfunc_e × Nat) → Except Err (State × Nat)
  | s, [] => .ok (s, 0)
  | s, c :: cs =>
    match callFunc env ext fuel c.1 s (some c.2) with
    | .error e => .error e
    | .ok s1 =>
      match runCounting env ext fuel pa s1 cs with
      | .error e => .error e
      | .ok (s2, n) =>
        .ok (s2, n + (if windowPortal s c.2 = some pa then
          traversalCount s1 - traversalCount s else 0))

/-- What calls of the strategies on windows of the portal `pa` do to the taint
counter and to the number of traversals: the counter does not decrease and
grows by at most `n`; the number of traversals does not decrease, and grows by
no more than what the counter was short of 7. -/
def TaintStep (pa : Nat) (n : Nat) (s s' : State) : Prop :=
  taintOf s pa ≤ taintOf s' pa ∧ taintOf s' pa ≤ taintOf s pa + n ∧
  traversalCount s ≤ traversalCount s' ∧
  traversalCount s' + (7 - taintOf s' pa).toNat ≤ traversalCount s + (7 - taintOf s pa).toNat

/-- A frame with two portals and a window on each: an anchored portal (lines 0
and 1, portal 0) with a floor window, and a skybox portal (camera 7, portal 1)
with a ceiling window. -/
def twoPortalState : State :=
  match runFrame narrowEnv 6
      (R_GetSkyBoxPortal (R_GetAnchoredPortal narrowEnv startState 0 1).2 (some 7)).2
      [(.floor (some 0), [(1, 10, 20)]), (.ceiling (some 1), [(2, 0, 5)])] with
  | .ok s => s
  | .error _ => startState

/-- The addresses the pointer field `nxt` leads through from `p`, at most
`fuel` of them. -/
def follow (nxt : pwindow_t → Ptr) (ws : List pwindow_t) : Nat → Ptr → List Nat
  | 0, _ => []
  | _ + 1, none => []
  | fuel + 1, some a =>
    match ws[a]? with
    | some w => a :: follow nxt ws fuel (nxt w)
    | none => [a]

/-- The windows in use: the windows of the frame queue, each followed by the
windows of its child chain. -/
def windowsInUse (s : State) : List Nat :=
  (follow pwindow_t.next s.windows s.windows.length s.windowhead).flatMap
    (fun a => follow pwindow_t.child s.windows s.windows.length (some a))

/-- The calls can be made one after the other from the state `s`: each call is
made on a window that is in use when the call is made (a window of the frame
`s`, or one claimed during an earlier call), and a call on a window that then
refers to the portal `pa` is a call of `R_RenderAnchoredPortal` or of
`R_RenderLinkedPortal`. -/
def CallsInUse (env : Env) (ext : Ext) (fuel : Nat) (pa : Nat) :
    State → List (renderfunc_e × Nat) → Prop
  | _, [] => True
  | s, c :: cs =>
    c.2 ∈ windowsInUse s ∧
    (windowPortal s c.2 = some pa →
      c.1 = .R_RenderAnchoredPortal ∨ c.1 = .R_RenderLinkedPortal) ∧
    match callFunc env ext fuel c.1 s (some c.2) with
    | .ok s1 => CallsInUse env ext fuel pa s1 cs
    | .error _ => True

/-- `CallsInUse` can be evaluated. -/
instance CallsInUse.instDecidable (env : Env) (ext : Ext) (fuel : Nat) (pa : Nat) :
    (s : State) → (calls : List (renderfunc_e × Nat)) →
      Decidable (CallsInUse env ext fuel pa s calls)
  | _, [] => isTrue trivial
  | s, c :: cs =>
    match h : callFunc env ext fuel c.1 s (some c.2) with
    | .ok s1 =>
      have := CallsInUse.instDecidable env ext fuel pa s1 cs
      decidable_of_iff (c.2 ∈ windowsInUse s ∧
        (windowPortal s c.2 = some pa →
          c.1 = .R_RenderAnchoredPortal ∨ c.1 = .R_RenderLinkedPortal) ∧
        CallsInUse env ext fuel pa s1 cs) (by simp only [CallsInUse, h])
    | .error _ =>
      decidable_of_iff (c.2 ∈ windowsInUse s ∧
        (windowPortal s c.2 = some pa →
          c.1 = .R_RenderAnchoredPortal ∨ c.1 = .R_RenderLinkedPortal)) (by
            simp only [CallsInUse, h, and_true])

/-- What the traversal of the sample run does: it claims the line window of the
anchored portal at line 5 and adds the span `(0, 5)` at column 3. -/
def anchorLineOps : List (ClaimCall × List (Int × ℚ × ℚ)) :=
  [(.line (some 0) (some 5), [(3, 0, 5)])]

/-- Eight calls: seven of the Anchored strategy, by turns on the floor window
of the anchored portal and on the line window the first traversal claimed for
it, and after the first a call of the Skybox strategy on the window of the
skybox portal. -/
def capCalls1 : List (renderfunc_e × Nat) :=
  [(.R_RenderAnchoredPortal, 0), (.R_RenderSkyboxPortal, 1), (.R_RenderAnchoredPortal, 2),
    (.R_RenderAnchoredPortal, 0), (.R_RenderAnchoredPortal, 2), (.R_RenderAnchoredPortal, 0),
    (.R_RenderAnchoredPortal, 2), (.R_RenderAnchoredPortal, 0)]

/-- One more call on the line window of the anchored portal, and one on the
window of the skybox portal. -/
def capCalls2 : List (renderfunc_e × Nat) :=
  [(.R_RenderAnchoredPortal, 2), (.R_RenderSkyboxPortal, 1)]

/-- The state after `capCalls1` from `twoPortalState`. -/
def sevenTimesState : State :=
  match runCounting narrowEnv (claimingExt narrowEnv anchorLineOps) 1 0 twoPortalState
      capCalls1 with
  | .ok (s, _) => s
  | .error _ => twoPortalState

/-- The state after `capCalls2` from `sevenTimesState`. -/
def nineTimesState : State :=
  match runCounting narrowEnv (claimingExt narrowEnv anchorLineOps) 1 0 sevenTimesState
      capCalls2 with
  | .ok (s, _) => s
  | .error _ => sevenTimesState

/-! # Properties -/

/-! ## Floats that are numbers -/

@[simp]
theorem cfloat.num_lt_num (a b : ℚ) : cfloat.num a < cfloat.num b ↔ a < b := by
  show cfloat.lt (.num a) (.num b) = true ↔ a < b
  simp [cfloat.lt]

@[simp]
theorem cfloat.num_le_num (a b : ℚ) : cfloat.num a ≤ cfloat.num b ↔ a ≤ b := by
  show cfloat.le (.num a) (.num b) = true ↔ a ≤ b
  simp [cfloat.le]

theorem getD_map_num (l : List ℚ) (i : Nat) :
    (l.map cfloat.num).getD i (.num 0) = .num (l.getD i 0) := by
  simp only [List.getD_eq_getElem?_getD, List.getElem?_map]
  cases l[i]? <;> rfl

theorem set_map_num (l : List ℚ) (i : Nat) (v : ℚ) :
    (l.map cfloat.num).set i (.num v) = (l.set i v).map cfloat.num := by
  apply List.ext_getElem?
  intro j
  simp only [List.getElem?_set, List.getElem?_map, List.length_map]
  by_cases h : i = j
  · subst h
    by_cases h2 : i < l.length <;> simp [h2]
  · simp [h]

theorem clearColumns_toFlt (width : Nat) (v : ℚ) (buf : List ℚ) :
    Flt.clearColumns width (.num v) (buf.map cfloat.num) =
      (clearColumns width v buf).map cfloat.num := by
  unfold Flt.clearColumns clearColumns
  generalize List.range width = is
  induction is generalizing buf with
  | nil => rfl
  | cons i is ih =>
    simp only [List.foldl_cons]
    rw [set_map_num, ih]

theorem R_ClearPortalWindow_toFlt (env : Env) (w : pwindow_t) :
    Flt.R_ClearPortalWindow env w.toFlt = (R_ClearPortalWindow env w).toFlt := by
  unfold Flt.R_ClearPortalWindow R_ClearPortalWindow pwindow_t.toFlt
  simp only [clearColumns_toFlt]

theorem getElem?_toFlt (s : State) (a : Nat) :
    s.toFlt.windows[a]? = (s.windows[a]?).map pwindow_t.toFlt := by
  simp [State.toFlt]

theorem setWindow_toFlt (s : State) (a : Nat) (f : pwindow_t → pwindow_t)
    (g : Flt.pwindow_t → Flt.pwindow_t) (h : ∀ w, g w.toFlt = (f w).toFlt) :
    Flt.setWindow s.toFlt a g = (setWindow s a f).toFlt := by
  unfold Flt.setWindow setWindow State.toFlt
  simp only [Flt.State.mk.injEq, and_true]
  apply List.ext_getElem?
  intro j
  simp only [List.getElem?_modify, List.getElem?_map]
  by_cases hj : a = j
  · subst hj
    cases s.windows[a]? with
    | none => simp
    | some w => simp [h]
  · simp [hj]

theorem freshWindow_toFlt (env : Env) : (freshWindow env).toFlt = Flt.freshWindow env := by
  simp [pwindow_t.toFlt, Flt.freshWindow, freshWindow]

theorem newPortalWindow_toFlt (env : Env) (s : State) :
    Flt.newPortalWindow env s.toFlt =
      (newPortalWindow env s).map (fun r => (r.1, r.2.toFlt)) := by
  unfold Flt.newPortalWindow newPortalWindow
  have hu : s.toFlt.unusedhead = s.unusedhead := rfl
  rw [hu]
  cases hh : s.unusedhead with
  | none =>
    simp only [Except.map]
    rw [← setWindow_toFlt _ _ (R_ClearPortalWindow env) _ (R_ClearPortalWindow_toFlt env)]
    simp [State.toFlt, freshWindow_toFlt, hh]
  | some ret =>
    simp only [getElem?_toFlt]
    cases hr : s.windows[ret]? with
    | none => rfl
    | some r =>
      simp only [Option.map_some', Except.map]
      rw [← setWindow_toFlt _ _ (R_ClearPortalWindow env) _ (R_ClearPortalWindow_toFlt env)]
      rfl

theorem getWindow_toFlt (s : State) (p : Ptr) :
    Flt.getWindow s.toFlt p = (getWindow s p).map pwindow_t.toFlt := by
  unfold Flt.getWindow getWindow
  cases p with
  | none => rfl
  | some a =>
    simp only [getElem?_toFlt]
    cases s.windows[a]? <;> rfl

theorem R_CreateChildWindow_toFlt (env : Env) (s : State) (parent : Nat) :
    Flt.R_CreateChildWindow env s.toFlt parent =
      (R_CreateChildWindow env s parent).map State.toFlt := by
  unfold Flt.R_CreateChildWindow R_CreateChildWindow
  simp only [getWindow_toFlt, bind, Except.bind, Except.map]
  cases hg : getWindow s (some parent) with
  | error e => rfl
  | ok par =>
    simp only
    have hc : par.toFlt.child = par.child := rfl
    rw [hc]
    by_cases hd : env.RANGECHECK = true ∧ par.child ≠ none
    · rw [if_pos hd, if_pos hd]
    · rw [if_neg hd, if_neg hd, newPortalWindow_toFlt]
      cases hn : newPortalWindow env s with
      | error e => rfl
      | ok r =>
        obtain ⟨child, s1⟩ := r
        simp only [Except.map]
        rw [setWindow_toFlt s1 parent (fun w => { w with child := some child }) _
          (fun w => rfl), getWindow_toFlt]
        cases hg2 : getWindow (setWindow s1 parent (fun w => { w with child := some child }))
            (some parent) with
        | error e => rfl
        | ok par2 =>
          simp only [Except.map]
          rw [← setWindow_toFlt _ child (fun w =>
            { w with head := par2.head, portal := par2.portal, line := par2.line,
                     type := par2.type, func := par2.func, clipfunc := par2.clipfunc })
            (fun w =>
            { w with head := par2.toFlt.head, portal := par2.toFlt.portal,
                     line := par2.toFlt.line, type := par2.toFlt.type,
                     func := par2.toFlt.func, clipfunc := par2.toFlt.clipfunc })
            (fun w => rfl)]

theorem toFlt_top_getD (w : pwindow_t) (i : Nat) :
    w.toFlt.top.getD i (.num 0) = .num (w.top.getD i 0) := getD_map_num _ _

theorem toFlt_bottom_getD (w : pwindow_t) (i : Nat) :
    w.toFlt.bottom.getD i (.num 0) = .num (w.bottom.getD i 0) := getD_map_num _ _

/-- On numbers the two embeddings of `R_WindowAdd` agree: the call over floats,
on a state whose column buffers hold numbers and with a span of numbers, does
what the call over rationals does. -/
theorem R_WindowAdd_toFlt (env : Env) :
    ∀ (fuel : Nat) (s : State) (window : Ptr) (x : Int) (ytop ybottom : ℚ),
      Flt.R_WindowAdd env fuel s.toFlt window x (.num ytop) (.num ybottom) =
        (R_WindowAdd env fuel s window x ytop ybottom).map State.toFlt := by
  intro fuel
  induction fuel with
  | zero =>
    intro s window x ytop ybottom
    rfl
  | succ f ih =>
    intro s window x ytop ybottom
    unfold Flt.R_WindowAdd R_WindowAdd
    simp only [ge_iff_le, gt_iff_lt, cfloat.num_lt_num, cfloat.num_le_num]
    by_cases h1 : env.RANGECHECK = true ∧ window = none
    · rw [if_pos h1, if_pos h1]
      rfl
    rw [if_neg h1, if_neg h1]
    by_cases h2 : env.RANGECHECK = true ∧ (x < 0 ∨ (env.video_width : Int) ≤ x)
    · rw [if_pos h2, if_pos h2]
      rfl
    rw [if_neg h2, if_neg h2]
    by_cases h3 : env.RANGECHECK = true ∧
        ((env.view_height ≤ ybottom ∨ ytop < 0) ∧ ytop < ybottom)
    · rw [if_pos h3, if_pos h3]
      rfl
    rw [if_neg h3, if_neg h3]
    cases window with
    | none => rfl
    | some wi =>
      simp only [getElem?_toFlt]
      cases hw : s.windows[wi]? with
      | none => rfl
      | some w =>
        simp only [Option.map_some']
        have hlt : w.toFlt.top.length = w.top.length := by simp [pwindow_t.toFlt]
        have hlb : w.toFlt.bottom.length = w.bottom.length := by simp [pwindow_t.toFlt]
        have hmin : w.toFlt.minx = w.minx := rfl
        have hmax : w.toFlt.maxx = w.maxx := rfl
        have hch : w.toFlt.child = w.child := rfl
        simp only [hlt, hlb, hmin, hmax, hch, toFlt_top_getD, toFlt_bottom_getD,
          cfloat.num_lt_num, cfloat.num_le_num]
        by_cases h4 : x < 0 ∨ (w.top.length : Int) ≤ x ∨ (w.bottom.length : Int) ≤ x
        · rw [if_pos h4, if_pos h4]
          rfl
        rw [if_neg h4, if_neg h4]
        by_cases h5 : env.RANGECHECK = true ∧
            (w.top.getD x.toNat 0 < w.bottom.getD x.toNat 0 ∧
              (w.top.getD x.toNat 0 < 0 ∨ w.bottom.getD x.toNat 0 < 0 ∨
                env.view_height ≤ w.top.getD x.toNat 0 ∨
                env.view_height ≤ w.bottom.getD x.toNat 0))
        · rw [if_pos h5, if_pos h5]
          rfl
        rw [if_neg h5, if_neg h5]
        have hset : ∀ (g : Flt.pwindow_t → Flt.pwindow_t) (f0 : pwindow_t → pwindow_t),
            (∀ w0, g w0.toFlt = (f0 w0).toFlt) →
            (Except.ok (Flt.setWindow s.toFlt wi g) : Except Err Flt.State) =
              (Except.ok (setWindow s wi f0) : Except Err State).map State.toFlt := by
          intro g f0 hg
          rw [setWindow_toFlt s wi f0 g hg]
          rfl
        have hset2 : ∀ (s0 : State) (g : Flt.pwindow_t → Flt.pwindow_t)
            (f0 : pwindow_t → pwindow_t), (∀ w0, g w0.toFlt = (f0 w0).toFlt) →
            (Except.ok (Flt.setWindow s0.toFlt wi g) : Except Err Flt.State) =
              (Except.ok (setWindow s0 wi f0) : Except Err State).map State.toFlt := by
          intro s0 g f0 hg
          rw [setWindow_toFlt s0 wi f0 g hg]
          rfl
        by_cases h6 : ybottom < 0 ∨ env.view_height ≤ ytop
        · rw [if_pos h6, if_pos h6]
          rfl
        rw [if_neg h6, if_neg h6]
        by_cases h7 : x ≤ w.maxx ∧ w.minx ≤ x
        · rw [if_pos h7, if_pos h7]
          by_cases h8 : w.bottom.getD x.toNat 0 < w.top.getD x.toNat 0
          · rw [if_pos h8, if_pos h8]
            apply hset
            intro w0
            simp [pwindow_t.toFlt, List.map_set]
          rw [if_neg h8, if_neg h8]
          by_cases h9 : w.bottom.getD x.toNat 0 < ytop ∨ ybottom < w.top.getD x.toNat 0
          · rw [if_pos h9, if_pos h9]
            have hrec : ∀ s1 : State,
                (match s1.toFlt.windows[wi]? with
                  | none => (Except.error Err.undefined : Except Err Flt.State)
                  | some w1 => Flt.R_WindowAdd env f s1.toFlt w1.child x (.num ytop)
                      (.num ybottom)) =
                (match s1.windows[wi]? with
                  | none => (Except.error Err.undefined : Except Err State)
                  | some w1 => R_WindowAdd env f s1 w1.child x ytop ybottom).map
                    State.toFlt := by
              intro s1
              rw [getElem?_toFlt]
              cases s1.windows[wi]? with
              | none => rfl
              | some w1 => exact ih s1 w1.child x ytop ybottom
            by_cases hc : w.child = none
            · rw [if_pos hc, if_pos hc, R_CreateChildWindow_toFlt]
              cases R_CreateChildWindow env s wi with
              | error e => rfl
              | ok s1 => exact hrec s1
            · rw [if_neg hc, if_neg hc]
              exact hrec s
          rw [if_neg h9, if_neg h9]
          by_cases h13 : ytop < w.top.getD x.toNat 0
          · by_cases h14 : w.bottom.getD x.toNat 0 < ybottom
            · simp only [if_pos h13, if_pos h14]
              rw [setWindow_toFlt s wi (fun w => { w with top := w.top.set x.toNat ytop }) _
                (by intro w0; simp [pwindow_t.toFlt, List.map_set])]
              apply hset2
              intro w0
              simp [pwindow_t.toFlt, List.map_set]
            · simp only [if_pos h13, if_neg h14]
              apply hset
              intro w0
              simp [pwindow_t.toFlt, List.map_set]
          · by_cases h14 : w.bottom.getD x.toNat 0 < ybottom
            · simp only [if_neg h13, if_pos h14]
              apply hset
              intro w0
              simp [pwindow_t.toFlt, List.map_set]
            · simp only [if_neg h13, if_neg h14]
              rfl
        rw [if_neg h7, if_neg h7]
        by_cases h10 : w.maxx < w.minx
        · rw [if_pos h10, if_pos h10]
          apply hset
          intro w0
          simp [pwindow_t.toFlt, List.map_set, State.toFlt]
        rw [if_neg h10, if_neg h10]
        by_cases h11 : w.maxx < x
        · rw [if_pos h11, if_pos h11]
          apply hset
          intro w0
          simp [pwindow_t.toFlt, List.map_set]
        rw [if_neg h11, if_neg h11]
        by_cases h12 : x < w.minx
        · rw [if_pos h12, if_pos h12]
          apply hset
          intro w0
          simp [pwindow_t.toFlt, List.map_set]
        rw [if_neg h12, if_neg h12]
        rfl

/-- A sequence of calls with spans of numbers does over floats what it does
over rationals. -/
theorem runAdds_toFlt (env : Env) (fuel : Nat) (w : Nat) :
    ∀ (calls : List (Int × ℚ × ℚ)) (s : State),
      Flt.runAdds env fuel w s.toFlt (calls.map Flt.ofCall) =
        (runAdds env fuel w s calls).map State.toFlt := by
  intro calls
  induction calls with
  | nil =>
    intro s
    rfl
  | cons c cs ih =>
    intro s
    simp only [List.map_cons, Flt.runAdds, runAdds, Flt.ofCall]
    rw [R_WindowAdd_toFlt]
    cases R_WindowAdd env fuel s (some w) c.1 c.2.1 c.2.2 with
    | error e => rfl
    | ok s1 => exact ih s1

/-- A span of numbers passes the input assertions over floats exactly when it
passes them over rationals. -/
theorem validCall_ofCall (env : Env) (c : Int × ℚ × ℚ) :
    Flt.ValidCall env (Flt.ofCall c) ↔ ValidCall env c := by
  simp only [Flt.ValidCall, ValidCall, Flt.ofCall, ge_iff_le, cfloat.num_le_num,
    cfloat.num_lt_num]

/-- A span with an infinite end and no NaN that passes the input assertion of
`R_WindowAdd` lies entirely off screen: its bottom is below `0` or its top is
at or past `view.height`. -/
theorem infinite_span_off_screen (env : Env) (x : Int) (ytop ybottom : cfloat)
    (hinf : ytop.isNum = false ∨ ybottom.isNum = false)
    (htop : ytop ≠ .nan) (hbottom : ybottom ≠ .nan)
    (hcall : Flt.ValidCall env (x, ytop, ybottom)) :
    ybottom < cfloat.num 0 ∨ ytop ≥ cfloat.num env.view_height := by
  obtain ⟨_, _, hspan⟩ := hcall
  cases ytop with
  | nan => exact absurd rfl htop
  | posInf => exact Or.inr rfl
  | negInf =>
    cases ybottom with
    | nan => exact absurd rfl hbottom
    | negInf => exact Or.inl rfl
    | posInf => exact absurd ⟨Or.inr rfl, rfl⟩ hspan
    | num b => exact absurd ⟨Or.inr rfl, rfl⟩ hspan
  | num a =>
    cases ybottom with
    | nan => exact absurd rfl hbottom
    | negInf => exact Or.inl rfl
    | posInf => exact absurd ⟨Or.inl rfl, rfl⟩ hspan
    | num b => simp [cfloat.isNum] at hinf

/-- A call of `R_WindowAdd` with a span that has an infinite end and no NaN, and
that passes the input assertion, stores nothing: whenever it returns, it
returns the state it was given. -/
theorem R_WindowAdd_infinite_span (env : Env) (fuel : Nat) (s s' : Flt.State) (window : Ptr)
    (x : Int) (ytop ybottom : cfloat)
    (hinf : ytop.isNum = false ∨ ybottom.isNum = false)
    (htop : ytop ≠ .nan) (hbottom : ybottom ≠ .nan)
    (hcall : Flt.ValidCall env (x, ytop, ybottom))
    (hrun : Flt.R_WindowAdd env fuel s window x ytop ybottom = .ok s') : s' = s := by
  have hoff := infinite_span_off_screen env x ytop ybottom hinf htop hbottom hcall
  cases fuel with
  | zero => cases hrun
  | succ f =>
    unfold Flt.R_WindowAdd at hrun
    split_ifs at hrun
    cases window with
    | none => cases hrun
    | some wi =>
      simp only at hrun
      cases hw : s.windows[wi]? with
      | none =>
        rw [hw] at hrun
        cases hrun
      | some w =>
        rw [hw] at hrun
        simp only at hrun
        split_ifs at hrun
        cases hrun
        rfl

/-- The two ways in which `R_WindowAdd` uses its span when the span is entirely
off screen: the input assertion passes it and the test for an off-screen span
holds. Two such spans are treated alike. -/
theorem R_WindowAdd_off_screen (env : Env) (fuel : Nat) (s : Flt.State) (window : Ptr)
    (x : Int) (a b c d : cfloat)
    (h1 : ¬ ((b ≥ cfloat.num env.view_height ∨ a < cfloat.num 0) ∧ a < b))
    (h2 : b < cfloat.num 0 ∨ a ≥ cfloat.num env.view_height)
    (h3 : ¬ ((d ≥ cfloat.num env.view_height ∨ c < cfloat.num 0) ∧ c < d))
    (h4 : d < cfloat.num 0 ∨ c ≥ cfloat.num env.view_height) :
    Flt.R_WindowAdd env fuel s window x a b = Flt.R_WindowAdd env fuel s window x c d := by
  cases fuel with
  | zero => rfl
  | succ f =>
    unfold Flt.R_WindowAdd
    by_cases c1 : env.RANGECHECK = true ∧ window = none
    · rw [if_pos c1, if_pos c1]
    rw [if_neg c1, if_neg c1]
    by_cases c2 : env.RANGECHECK = true ∧ (x < 0 ∨ x ≥ (env.video_width : Int))
    · rw [if_pos c2, if_pos c2]
    rw [if_neg c2, if_neg c2, if_neg (fun h => h1 h.2), if_neg (fun h => h3 h.2)]
    cases window with
    | none => rfl
    | some wi =>
      simp only
      cases hw : s.windows[wi]? with
      | none => rfl
      | some w =>
        simp only
        by_cases c4 : x < 0 ∨ x ≥ (w.top.length : Int) ∨ x ≥ (w.bottom.length : Int)
        · rw [if_pos c4, if_pos c4]
        rw [if_neg c4, if_neg c4]
        by_cases c5 : env.RANGECHECK = true ∧
            (w.bottom.getD x.toNat (.num 0) > w.top.getD x.toNat (.num 0) ∧
              (w.top.getD x.toNat (.num 0) < cfloat.num 0 ∨
               w.bottom.getD x.toNat (.num 0) < cfloat.num 0 ∨
               w.top.getD x.toNat (.num 0) ≥ cfloat.num env.view_height ∨
               w.bottom.getD x.toNat (.num 0) ≥ cfloat.num env.view_height))
        · rw [if_pos c5, if_pos c5]
        rw [if_neg c5, if_neg c5, if_pos h2, if_pos h4]

/-- A span without NaN that passes the input assertion is, to `R_WindowAdd`, a
span of numbers that passes it: the span itself when both ends are finite,
and otherwise the off-screen span `(view.height, view.height)`, because a span
with an infinite end that passes the assertion is entirely off screen. -/
theorem span_as_numbers (env : Env) (x : Int) (ftop fbottom : cfloat)
    (hcall : Flt.ValidCall env (x, ftop, fbottom))
    (htop : ftop ≠ .nan) (hbottom : fbottom ≠ .nan) :
    ∃ ytop ybottom : ℚ, ValidCall env (x, ytop, ybottom) ∧
      (∀ fuel s window, Flt.R_WindowAdd env fuel s window x ftop fbottom =
        Flt.R_WindowAdd env fuel s window x (.num ytop) (.num ybottom)) ∧
      (∀ t b, ftop = .num t → fbottom = .num b → ytop = t ∧ ybottom = b) := by
  by_cases hinf : ftop.isNum = false ∨ fbottom.isNum = false
  · have hoff := infinite_span_off_screen env x ftop fbottom hinf htop hbottom hcall
    refine ⟨env.view_height, env.view_height, ⟨hcall.1, hcall.2.1, ?_⟩, ?_, ?_⟩
    · simp
    · intro fuel s window
      refine R_WindowAdd_off_screen env fuel s window x _ _ _ _ hcall.2.2 hoff ?_ ?_
      · simp only [ge_iff_le, cfloat.num_lt_num, cfloat.num_le_num]
        simp
      · simp only [ge_iff_le, cfloat.num_lt_num, cfloat.num_le_num]
        simp
    · rintro t b rfl rfl
      simp [cfloat.isNum] at hinf
  · cases ftop with
    | num t =>
      cases fbottom with
      | num b =>
        exact ⟨t, b, (validCall_ofCall env (x, t, b)).mp hcall, fun _ _ _ => rfl,
          fun t' b' h1 h2 => by
            cases h1
            cases h2
            exact ⟨rfl, rfl⟩⟩
      | posInf => simp [cfloat.isNum] at hinf
      | negInf => simp [cfloat.isNum] at hinf
      | nan => simp [cfloat.isNum] at hinf
    | posInf => simp [cfloat.isNum] at hinf
    | negInf => simp [cfloat.isNum] at hinf
    | nan => simp [cfloat.isNum] at hinf

/-- A sequence of calls whose spans hold no NaN and pass the input assertion
is, to `R_WindowAdd`, a sequence of calls with spans of numbers that pass
it. -/
theorem calls_as_numbers (env : Env) :
    ∀ (fcalls : List (Int × cfloat × cfloat)),
      (∀ c ∈ fcalls, Flt.ValidCall env c ∧ c.2.1 ≠ .nan ∧ c.2.2 ≠ .nan) →
      ∃ calls : List (Int × ℚ × ℚ), (∀ c ∈ calls, ValidCall env c) ∧
        calls.length = fcalls.length ∧
        (∀ fuel w s, Flt.runAdds env fuel w s fcalls =
          Flt.runAdds env fuel w s (calls.map Flt.ofCall)) ∧
        (∀ ncalls, fcalls = ncalls.map Flt.ofCall → calls = ncalls) := by
  intro fcalls
  induction fcalls with
  | nil =>
    intro _
    refine ⟨[], by simp, rfl, fun _ _ _ => rfl, ?_⟩
    intro ncalls h
    cases ncalls with
    | nil => rfl
    | cons _ _ => simp at h
  | cons c cs ih =>
    intro hvalid
    obtain ⟨calls, hv, hlen, hrun, huniq⟩ :=
      ih (fun c' hc' => hvalid c' (List.mem_cons_of_mem _ hc'))
    obtain ⟨hc, hct, hcb⟩ := hvalid c (List.mem_cons_self _ _)
    obtain ⟨ytop, ybottom, hq, hsame, hnum⟩ := span_as_numbers env c.1 c.2.1 c.2.2 hc hct hcb
    refine ⟨(c.1, ytop, ybottom) :: calls, ?_, by simp [hlen], ?_, ?_⟩
    · intro c' hc'
      rcases List.mem_cons.mp hc' with rfl | h
      · exact hq
      · exact hv c' h
    · intro fuel w s
      simp only [Flt.runAdds, List.map_cons, Flt.ofCall]
      rw [hsame]
      cases Flt.R_WindowAdd env fuel s (some w) c.1 (.num ytop) (.num ybottom) with
      | error e => rfl
      | ok s1 => exact hrun fuel w s1
    · intro ncalls h
      cases ncalls with
      | nil => simp at h
      | cons n ns =>
        simp only [List.map_cons, List.cons.injEq] at h
        obtain ⟨h1, h2⟩ := h
        rw [huniq ns h2]
        subst h1
        obtain ⟨e1, e2⟩ := hnum n.2.1 n.2.2 rfl rfl
        simp only [Flt.ofCall]
        rw [e1, e2]

/-! ## Registry -/

theorem findRover_congr {t u : portal_t → Bool} (h : ∀ p, t p = u p) (l : List portal_t) :
    findRover t l = findRover u l := by
  have : t = u := funext h
  rw [this]

theorem findRover_some {t : portal_t → Bool} {l : List portal_t} {i : Nat}
    (h : findRover t l = some i) : ∃ p, l[i]? = some p ∧ t p = true := by
  induction l generalizing i with
  | nil => simp [findRover] at h
  | cons a l ih =>
    unfold findRover at h
    by_cases ha : t a = true
    · simp [ha] at h
      subst h
      exact ⟨a, by simp, ha⟩
    · simp [ha] at h
      obtain ⟨j, hj, rfl⟩ := h
      obtain ⟨p, hp, htp⟩ := ih hj
      exact ⟨p, by simpa using hp, htp⟩

theorem findRover_none {t : portal_t → Bool} {l : List portal_t}
    (h : findRover t l = none) : ∀ p ∈ l, t p = false := by
  induction l with
  | nil => simp
  | cons a l ih =>
    unfold findRover at h
    by_cases ha : t a = true
    · simp [ha] at h
    · simp [ha] at h
      intro p hp
      rcases List.mem_cons.mp hp with rfl | hp
      · simpa using ha
      · exact ih h p hp

theorem findRover_append_miss {t : portal_t → Bool} {l : List portal_t} {q : portal_t}
    (h : findRover t l = none) (hq : t q = true) :
    findRover t (l ++ [q]) = some l.length := by
  induction l with
  | nil => simp [findRover, hq]
  | cons a l ih =>
    unfold findRover at h
    by_cases ha : t a = true
    · simp [ha] at h
    · simp [ha] at h
      simp [findRover, ha, ih h]

theorem findRover_append_hit {t : portal_t → Bool} {l : List portal_t} {i : Nat}
    (h : findRover t l = some i) (m : List portal_t) :
    findRover t (l ++ m) = some i := by
  induction l generalizing i with
  | nil => simp [findRover] at h
  | cons a l ih =>
    unfold findRover at h
    by_cases ha : t a = true
    · simp [ha] at h
      subst h
      simp [findRover, ha]
    · simp [ha] at h
      obtain ⟨j, hj, rfl⟩ := h
      simp [findRover, ha, ih hj]

theorem modify_append_last {α : Type} (f : α → α) (l : List α) (z : α) :
    (l ++ [z]).modify f l.length = l ++ [f z] := by
  induction l with
  | nil => rfl
  | cons a l ih => simpa using ih

theorem test_plane (d : skyplanedata_t) (p : portal_t) :
    (!(p.type != .R_PLANE || p.data.plane != d)) = (portalKey p == PortalKey.plane d) := by
  rw [Bool.eq_iff_iff]
  cases hp : p.type <;> simp [portalKey, hp]

theorem test_horizon (d : horizondata_t) (p : portal_t) :
    (!(p.type != .R_HORIZON || p.data.horizon != d)) = (portalKey p == PortalKey.horizon d) := by
  rw [Bool.eq_iff_iff]
  cases hp : p.type <;> simp [portalKey, hp]

theorem test_skybox (c : Ptr) (p : portal_t) :
    (!(p.type != .R_SKYBOX || p.data.camera != c)) = (portalKey p == PortalKey.skybox c) := by
  rw [Bool.eq_iff_iff]
  cases hp : p.type <;> simp [portalKey, hp]

theorem test_anchored (x y z : Int) (p : portal_t) :
    (!(p.type != .R_ANCHORED || x != p.data.anchor.deltax || y != p.data.anchor.deltay ||
        z != p.data.anchor.deltaz)) = (portalKey p == PortalKey.anchored x y z) := by
  rw [Bool.eq_iff_iff]
  cases hp : p.type <;> simp [portalKey, hp]
  constructor
  · rintro ⟨⟨h1, h2⟩, h3⟩
    simp [h1, h2, h3]
  · rintro ⟨h1, h2, h3⟩
    simp [h1, h2, h3]

theorem test_twoway (x y z : Int) (p : portal_t) :
    (!(p.type != .R_TWOWAY || x != p.data.anchor.deltax || y != p.data.anchor.deltay ||
        z != p.data.anchor.deltaz)) = (portalKey p == PortalKey.twoway x y z) := by
  rw [Bool.eq_iff_iff]
  cases hp : p.type <;> simp [portalKey, hp]
  constructor
  · rintro ⟨⟨h1, h2⟩, h3⟩
    simp [h1, h2, h3]
  · rintro ⟨h1, h2, h3⟩
    simp [h1, h2, h3]

theorem test_linked (x y z f t pz : Int) (p : portal_t) :
    (!(p.type != .R_LINKED || x != p.data.link.deltax || y != p.data.link.deltay ||
        z != p.data.link.deltaz || f != p.data.link.fromid || t != p.data.link.toid ||
        pz != p.data.link.planez)) = (portalKey p == PortalKey.linked x y z f t pz) := by
  rw [Bool.eq_iff_iff]
  cases hp : p.type <;> simp [portalKey, hp]
  constructor
  · rintro ⟨⟨⟨⟨⟨h1, h2⟩, h3⟩, h4⟩, h5⟩, h6⟩
    simp [h1, h2, h3, h4, h5, h6]
  · rintro ⟨h1, h2, h3, h4, h5, h6⟩
    simp [h1, h2, h3, h4, h5, h6]

/-- Each `R_Get*Portal` function is the common lookup at the request's key, or a
refusal when the request has no key. -/
theorem applyCall_eq (env : Env) (s : State) (c : GetCall) :
    applyCall env s c =
      match callKey env c with
      | none => (none, s)
      | some k => lookupOrAppend k (callPortal env c) s := by
  cases c with
  | plane d =>
    simp only [applyCall, R_GetPlanePortal, callKey]
    split
    · rfl
    · simp only [lookupOrAppend]
      rw [findRover_congr (test_plane d)]
      cases hf : findRover (fun rover => portalKey rover == PortalKey.plane d) s.portals with
      | some r => rfl
      | none => simp [R_CreatePortal, setPortal, modify_append_last, callPortal]
  | horizon d =>
    simp only [applyCall, R_GetHorizonPortal, callKey]
    split
    · rfl
    · simp only [lookupOrAppend]
      rw [findRover_congr (test_horizon d)]
      cases hf : findRover (fun rover => portalKey rover == PortalKey.horizon d) s.portals with
      | some r => rfl
      | none => simp [R_CreatePortal, setPortal, modify_append_last, callPortal]
  | skybox c =>
    simp only [applyCall, R_GetSkyBoxPortal, callKey, lookupOrAppend]
    rw [findRover_congr (test_skybox c)]
    cases hf : findRover (fun rover => portalKey rover == PortalKey.skybox c) s.portals with
    | some r => rfl
    | none => simp [R_CreatePortal, setPortal, modify_append_last, callPortal]
  | anchored m a =>
    simp only [applyCall, R_GetAnchoredPortal, callKey, lookupOrAppend]
    rw [findRover_congr (test_anchored (mkAnchorData env m a).deltax
      (mkAnchorData env m a).deltay (mkAnchorData env m a).deltaz)]
    simp only [mkAnchorData]
    cases hf : findRover (fun rover => portalKey rover ==
        PortalKey.anchored (R_CalculateDeltas env m a).1 (R_CalculateDeltas env m a).2.1
          (R_CalculateDeltas env m a).2.2) s.portals with
    | some r => rfl
    | none => simp [R_CreatePortal, setPortal, modify_append_last, callPortal, mkAnchorData]
  | twoway m a =>
    simp only [applyCall, R_GetTwoWayPortal, callKey, lookupOrAppend]
    rw [findRover_congr (test_twoway (mkAnchorData env m a).deltax
      (mkAnchorData env m a).deltay (mkAnchorData env m a).deltaz)]
    simp only [mkAnchorData]
    cases hf : findRover (fun rover => portalKey rover ==
        PortalKey.twoway (R_CalculateDeltas env m a).1 (R_CalculateDeltas env m a).2.1
          (R_CalculateDeltas env m a).2.2) s.portals with
    | some r => rfl
    | none => simp [R_CreatePortal, setPortal, modify_append_last, callPortal, mkAnchorData]
  | linked m a z f t =>
    simp only [applyCall, R_GetLinkedPortal, callKey, lookupOrAppend]
    rw [findRover_congr (test_linked (mkLinkData env m a z f t).deltax
      (mkLinkData env m a z f t).deltay (mkLinkData env m a z f t).deltaz
      (mkLinkData env m a z f t).fromid (mkLinkData env m a z f t).toid
      (mkLinkData env m a z f t).planez)]
    simp only [mkLinkData]
    cases hf : findRover (fun rover => portalKey rover ==
        PortalKey.linked (R_CalculateDeltas env m a).1 (R_CalculateDeltas env m a).2.1
          (R_CalculateDeltas env m a).2.2 f t z) s.portals with
    | some r => rfl
    | none => simp [R_CreatePortal, setPortal, modify_append_last, callPortal, mkLinkData]

theorem portalKey_callPortal {env : Env} {c : GetCall} {k : PortalKey}
    (h : callKey env c = some k) : portalKey (callPortal env c) = k := by
  cases c with
  | plane d =>
    simp only [callKey] at h
    split at h
    · cases h
    · simpa [callPortal, portalKey] using h
  | horizon d =>
    simp only [callKey] at h
    split at h
    · cases h
    · simpa [callPortal, portalKey] using h
  | skybox c => simpa [callKey, callPortal, portalKey] using h
  | anchored m a => simpa [callKey, callPortal, portalKey, mkAnchorData] using h
  | twoway m a => simpa [callKey, callPortal, portalKey, mkAnchorData] using h
  | linked m a z f t => simpa [callKey, callPortal, portalKey, mkLinkData] using h

/-- The handle returned by the common lookup designates a portal with the key,
and the portals registered before keep their positions. -/
theorem lookupOrAppend_spec (k : PortalKey) (q : portal_t) (s : State)
    (hq : portalKey q = k) :
    ∃ i p, (lookupOrAppend k q s).1 = some i ∧
      (lookupOrAppend k q s).2.portals[i]? = some p ∧ portalKey p = k ∧
      findRover (fun rover => portalKey rover == k) (lookupOrAppend k q s).2.portals = some i ∧
      ∃ m, (lookupOrAppend k q s).2.portals = s.portals ++ m := by
  unfold lookupOrAppend
  cases hf : findRover (fun rover => portalKey rover == k) s.portals with
  | some r =>
    obtain ⟨p, hp, ht⟩ := findRover_some hf
    exact ⟨r, p, rfl, hp, by simpa using ht, hf, [], by simp⟩
  | none =>
    refine ⟨s.portals.length, q, rfl, by simp, hq, ?_, [q], rfl⟩
    exact findRover_append_miss hf (by simp [hq])

theorem lookupOrAppend_of_find {k : PortalKey} {q : portal_t} {s : State} {i : Nat}
    (h : findRover (fun rover => portalKey rover == k) s.portals = some i) :
    lookupOrAppend k q s = (some i, s) := by
  unfold lookupOrAppend
  rw [h]

theorem lookupOrAppend_idem (k : PortalKey) (q : portal_t) (s : State)
    (hq : portalKey q = k) :
    lookupOrAppend k q (lookupOrAppend k q s).2 = lookupOrAppend k q s := by
  obtain ⟨i, p, h1, _, _, h4, _⟩ := lookupOrAppend_spec k q s hq
  rw [lookupOrAppend_of_find h4, ← h1]

/-- A second identical request returns the same handle and changes nothing. -/
theorem applyCall_idem (env : Env) (s : State) (c : GetCall) :
    applyCall env (applyCall env s c).2 c = applyCall env s c := by
  cases hk : callKey env c with
  | none =>
    have e1 : applyCall env s c = (none, s) := by rw [applyCall_eq, hk]
    rw [e1]
    exact e1
  | some k =>
    have e1 : ∀ st, applyCall env st c = lookupOrAppend k (callPortal env c) st := by
      intro st
      rw [applyCall_eq, hk]
    rw [e1, e1]
    exact lookupOrAppend_idem k _ s (portalKey_callPortal hk)

/-- Handles of two successive requests coincide exactly when the requests have
the same matching key. -/
theorem applyCall_handle_eq_iff (env : Env) (s : State) (c1 c2 : GetCall) :
    (applyCall env (applyCall env s c1).2 c2).1 = (applyCall env s c1).1 ↔
      callKey env c1 = callKey env c2 := by
  cases hk1 : callKey env c1 with
  | none =>
    have e1 : applyCall env s c1 = (none, s) := by rw [applyCall_eq, hk1]
    rw [e1]
    cases hk2 : callKey env c2 with
    | none =>
      have e2 : applyCall env s c2 = (none, s) := by rw [applyCall_eq, hk2]
      simp [e2]
    | some k2 =>
      have e2 : applyCall env s c2 = lookupOrAppend k2 (callPortal env c2) s := by
        rw [applyCall_eq, hk2]
      obtain ⟨i, p, h1, _⟩ := lookupOrAppend_spec k2 (callPortal env c2) s
        (portalKey_callPortal hk2)
      simp [e2, h1]
  | some k1 =>
    have e1 : applyCall env s c1 = lookupOrAppend k1 (callPortal env c1) s := by
      rw [applyCall_eq, hk1]
    rw [e1]
    obtain ⟨i, p, h1, h2, h3, h4, m, h5⟩ := lookupOrAppend_spec k1 (callPortal env c1) s
      (portalKey_callPortal hk1)
    cases hk2 : callKey env c2 with
    | none =>
      have e2 : ∀ st, applyCall env st c2 = (none, st) := by
        intro st
        rw [applyCall_eq, hk2]
      simp [e2, h1]
    | some k2 =>
      have e2 : ∀ st, applyCall env st c2 = lookupOrAppend k2 (callPortal env c2) st := by
        intro st
        rw [applyCall_eq, hk2]
      rw [e2]
      obtain ⟨j, p', g1, g2, g3, g4, m', g5⟩ := lookupOrAppend_spec k2 (callPortal env c2)
        (lookupOrAppend k1 (callPortal env c1) s).2 (portalKey_callPortal hk2)
      simp only [h1, g1, Option.some.injEq]
      constructor
      · rintro rfl
        have hi : j < (lookupOrAppend k1 (callPortal env c1) s).2.portals.length := by
          by_contra hcon
          rw [List.getElem?_eq_none (by omega)] at h2
          cases h2
        rw [g5, List.getElem?_append_left hi, h2] at g2
        cases g2
        rw [← h3, ← g3]
      · rintro rfl
        rw [g5, findRover_append_hit h4 m'] at g4
        exact (Option.some.inj g4).symm

theorem pairwise_lookupOrAppend (k : PortalKey) (q : portal_t) (s : State)
    (hq : portalKey q = k)
    (h : s.portals.Pairwise (fun p r => portalKey p ≠ portalKey r)) :
    (lookupOrAppend k q s).2.portals.Pairwise (fun p r => portalKey p ≠ portalKey r) := by
  unfold lookupOrAppend
  cases hf : findRover (fun rover => portalKey rover == k) s.portals with
  | some r => exact h
  | none =>
    simp only
    rw [List.pairwise_append]
    refine ⟨h, List.pairwise_singleton _ _, ?_⟩
    intro p hp r hr
    rw [List.mem_singleton] at hr
    subst hr
    have := findRover_none hf p hp
    rw [hq]
    simpa using this

theorem pairwise_runCalls (env : Env) (calls : List GetCall) (s : State)
    (h : s.portals.Pairwise (fun p r => portalKey p ≠ portalKey r)) :
    (runCalls env s calls).portals.Pairwise (fun p r => portalKey p ≠ portalKey r) := by
  induction calls generalizing s with
  | nil => exact h
  | cons c cs ih =>
    simp only [runCalls, List.foldl_cons]
    apply ih
    rw [applyCall_eq]
    cases hk : callKey env c with
    | none => exact h
    | some k => exact pairwise_lookupOrAppend k _ s (portalKey_callPortal hk) h

/-- C1. For each of the six `R_Get*Portal` functions and every state, a second
call with the same arguments returns the same pair as the first: the same
portal handle, and a state (in particular a portal list) equal to the one the
first call left. -/
theorem getOrCreate_same_params_same_handle (env : Env) (s : State) :
    (∀ d, R_GetPlanePortal (R_GetPlanePortal s d).2 d = R_GetPlanePortal s d) ∧
    (∀ d, R_GetHorizonPortal (R_GetHorizonPortal s d).2 d = R_GetHorizonPortal s d) ∧
    (∀ c, R_GetSkyBoxPortal (R_GetSkyBoxPortal s c).2 c = R_GetSkyBoxPortal s c) ∧
    (∀ m a, R_GetAnchoredPortal env (R_GetAnchoredPortal env s m a).2 m a =
      R_GetAnchoredPortal env s m a) ∧
    (∀ m a, R_GetTwoWayPortal env (R_GetTwoWayPortal env s m a).2 m a =
      R_GetTwoWayPortal env s m a) ∧
    (∀ m a z f t, R_GetLinkedPortal env (R_GetLinkedPortal env s m a z f t).2 m a z f t =
      R_GetLinkedPortal env s m a z f t) :=
  ⟨fun d => applyCall_idem env s (.plane d),
   fun d => applyCall_idem env s (.horizon d),
   fun c => applyCall_idem env s (.skybox c),
   fun m a => applyCall_idem env s (.anchored m a),
   fun m a => applyCall_idem env s (.twoway m a),
   fun m a z f t => applyCall_idem env s (.linked m a z f t)⟩

/-- C2, refuted as stated. On the sample map the line pairs `(0, 1)` and `(1, 2)`
differ but have the same midpoint offsets, and `R_GetAnchoredPortal`,
`R_GetTwoWayPortal` and `R_GetLinkedPortal` each return for the second pair the
portal they returned for the first. -/
theorem getOrCreate_distinct_params_same_handle :
    ((0, 1) : Int × Int) ≠ (1, 2) ∧
    (R_GetAnchoredPortal sampleEnv (R_GetAnchoredPortal sampleEnv startState 0 1).2 1 2).1 =
      (R_GetAnchoredPortal sampleEnv startState 0 1).1 ∧
    (R_GetTwoWayPortal sampleEnv (R_GetTwoWayPortal sampleEnv startState 0 1).2 1 2).1 =
      (R_GetTwoWayPortal sampleEnv startState 0 1).1 ∧
    (R_GetLinkedPortal sampleEnv (R_GetLinkedPortal sampleEnv startState 0 1 0 1 2).2
        1 2 0 1 2).1 =
      (R_GetLinkedPortal sampleEnv startState 0 1 0 1 2).1 := by
  decide

/-- C2, amended. For every state and every two requests (of the same kind or
not), the second request returns the handle the first one returned exactly
when the two requests have the same matching key: the kind together with the
reference tuple (Plane, Horizon), the camera (Skybox), the computed deltas
(Anchored, TwoWay), or the deltas, region ids and plane height (Linked). -/
theorem getOrCreate_same_handle_iff_same_key (env : Env) (s : State) (c1 c2 : GetCall) :
    (applyCall env (applyCall env s c1).2 c2).1 = (applyCall env s c1).1 ↔
      callKey env c1 = callKey env c2 :=
  applyCall_handle_eq_iff env s c1 c2

/-- C3. In every state reached from `R_InitPortals` by a sequence of
`R_Get*Portal` calls, no two portals at different positions of the portal list
have the same kind and the same matching key. -/
theorem registry_one_portal_per_key (env : Env) (s0 : State) (calls : List GetCall) :
    (runCalls env (R_InitPortals s0) calls).portals.Pairwise
      (fun p q => ¬ (p.type = q.type ∧ portalKey p = portalKey q)) := by
  have h := pairwise_runCalls env calls (R_InitPortals s0) (by simp [R_InitPortals])
  exact h.imp (fun hne hc => hne hc.2)

/-! ## Window store -/

theorem getElem?_setWindow (s : State) (a b : Nat) (f : pwindow_t → pwindow_t) :
    (setWindow s a f).windows[b]? = if a = b then (s.windows[b]?).map f else s.windows[b]? := by
  simp only [setWindow, List.getElem?_modify]
  split <;> simp

theorem getElem?_setWindow_self (s : State) (a : Nat) (f : pwindow_t → pwindow_t) :
    (setWindow s a f).windows[a]? = (s.windows[a]?).map f := by
  simp [getElem?_setWindow]

theorem getElem?_setWindow_ne (s : State) {a b : Nat} (f : pwindow_t → pwindow_t)
    (h : a ≠ b) : (setWindow s a f).windows[b]? = s.windows[b]? := by
  simp [getElem?_setWindow, h]

theorem length_setWindow (s : State) (a : Nat) (f : pwindow_t → pwindow_t) :
    (setWindow s a f).windows.length = s.windows.length := by
  simp [setWindow]

theorem clearColumns_eq_aux (v : ℚ) (n : Nat) (buf : List ℚ) (h : n ≤ buf.length) :
    clearColumns n v buf = List.replicate n v ++ buf.drop n := by
  induction n with
  | zero => simp [clearColumns]
  | succ n ih =>
    have ih' := ih (by omega)
    unfold clearColumns at ih' ⊢
    rw [List.range_succ, List.foldl_append, ih']
    simp only [List.foldl_cons, List.foldl_nil]
    apply List.ext_getElem?
    intro i
    rw [List.getElem?_set]
    by_cases hi : n = i
    · subst hi
      have h1 : n < (List.replicate n v ++ List.drop n buf).length := by
        simp
        omega
      rw [if_pos rfl, if_pos h1, List.getElem?_append_left (by simp),
        List.getElem?_replicate]
      simp
    · simp only [hi, if_false]
      by_cases hlt : i < n
      · rw [List.getElem?_append_left (by simpa using hlt),
          List.getElem?_append_left (by simp; omega)]
        simp [List.getElem?_replicate, hlt]
        omega
      · rw [List.getElem?_append_right (by simp; omega),
          List.getElem?_append_right (by simp; omega)]
        simp only [List.length_replicate, List.getElem?_drop]
        congr 1
        omega

theorem clearColumns_eq (v : ℚ) (n : Nat) (buf : List ℚ) (h : buf.length = n) :
    clearColumns n v buf = List.replicate n v := by
  rw [clearColumns_eq_aux v n buf (by omega), List.drop_of_length_le (by omega)]
  simp

/-! ## Pointer lists -/

theorem IsList.nil_iff {nxt : pwindow_t → Ptr} {ws : List pwindow_t} {p : Ptr} :
    IsList nxt ws p [] ↔ p = none := by
  simp [IsList]

theorem IsList.cons_iff {nxt : pwindow_t → Ptr} {ws : List pwindow_t} {p : Ptr}
    {a : Nat} {l : List Nat} :
    IsList nxt ws p (a :: l) ↔
      p = some a ∧ ∃ w, ws[a]? = some w ∧ IsList nxt ws (nxt w) l := by
  simp only [IsList]
  cases h : ws[a]? with
  | none => simp
  | some w => simp

/-- A pointer list only depends on the pointer field of the records on it. -/
theorem IsList.frame {nxt : pwindow_t → Ptr} {ws ws' : List pwindow_t} {p : Ptr}
    {l : List Nat} (h : IsList nxt ws p l)
    (hfr : ∀ a ∈ l, ∀ w, ws[a]? = some w → ∃ w', ws'[a]? = some w' ∧ nxt w' = nxt w) :
    IsList nxt ws' p l := by
  induction l generalizing p with
  | nil => simpa [IsList] using h
  | cons a l ih =>
    rw [IsList.cons_iff] at h ⊢
    obtain ⟨hp, w, hw, hl⟩ := h
    obtain ⟨w', hw', hn⟩ := hfr a (List.mem_cons_self _ _) w hw
    refine ⟨hp, w', hw', ?_⟩
    rw [hn]
    exact ih hl (fun b hb => hfr b (List.mem_cons_of_mem _ hb))

theorem IsList.valid {nxt : pwindow_t → Ptr} {ws : List pwindow_t} {p : Ptr}
    {l : List Nat} (h : IsList nxt ws p l) : ∀ a ∈ l, a < ws.length := by
  induction l generalizing p with
  | nil => simp
  | cons a l ih =>
    rw [IsList.cons_iff] at h
    obtain ⟨_, w, hw, hl⟩ := h
    intro b hb
    rcases List.mem_cons.mp hb with rfl | hb
    · by_contra hcon
      rw [List.getElem?_eq_none (by omega)] at hw
      cases hw
    · exact ih hl b hb

theorem IsList.unique {nxt : pwindow_t → Ptr} {ws : List pwindow_t} {p : Ptr}
    {l l' : List Nat} (h : IsList nxt ws p l) (h' : IsList nxt ws p l') : l = l' := by
  induction l generalizing p l' with
  | nil =>
    rw [IsList.nil_iff] at h
    cases l' with
    | nil => rfl
    | cons b l' =>
      rw [IsList.cons_iff] at h'
      rw [h] at h'
      cases h'.1
  | cons a l ih =>
    rw [IsList.cons_iff] at h
    obtain ⟨hp, w, hw, hl⟩ := h
    cases l' with
    | nil =>
      rw [IsList.nil_iff] at h'
      rw [h'] at hp
      cases hp
    | cons b l' =>
      rw [IsList.cons_iff] at h'
      obtain ⟨hp', w', hw', hl'⟩ := h'
      rw [hp] at hp'
      cases hp'
      rw [hw] at hw'
      cases hw'
      rw [ih hl hl']

/-! ## Allocation of window records -/

theorem isCleared_clear (env : Env) (w : pwindow_t)
    (h : w.top.length = env.video_width ∧ w.bottom.length = env.video_width) :
    IsCleared env (R_ClearPortalWindow env w) := by
  simp [IsCleared, R_ClearPortalWindow, clearColumns_eq _ _ _ h.1, clearColumns_eq _ _ _ h.2]

theorem BuffersOK.get {env : Env} {s : State} (h : BuffersOK env s) {a : Nat}
    {w : pwindow_t} (hw : s.windows[a]? = some w) :
    w.top.length = env.video_width ∧ w.bottom.length = env.video_width :=
  h w (List.getElem?_mem hw)

theorem BuffersOK.of_get {env : Env} {s : State}
    (h : ∀ (a : Nat) (w : pwindow_t), s.windows[a]? = some w →
      w.top.length = env.video_width ∧ w.bottom.length = env.video_width) :
    BuffersOK env s := by
  intro w hw
  obtain ⟨a, ha⟩ := List.mem_iff_getElem?.mp hw
  exact h a w ha

theorem BuffersOK.setWindow {env : Env} {s : State} (h : BuffersOK env s) (a : Nat)
    (f : pwindow_t → pwindow_t)
    (hf : ∀ w, s.windows[a]? = some w →
      (f w).top.length = env.video_width ∧ (f w).bottom.length = env.video_width) :
    BuffersOK env (setWindow s a f) := by
  apply BuffersOK.of_get
  intro b w hb
  rw [getElem?_setWindow] at hb
  split at hb
  · rename_i hab
    subst hab
    cases hw : s.windows[a]? with
    | none => simp [hw] at hb
    | some w0 =>
      simp only [hw, Option.map_some', Option.some.injEq] at hb
      subst hb
      exact hf w0 hw
  · exact h.get hb

/-- What a successful `newPortalWindow` returns: a cleared record at the
returned address, all other records untouched. -/
theorem newPortalWindow_ok {env : Env} {s s1 : State} {c : Nat} (hbuf : BuffersOK env s)
    (h : newPortalWindow env s = .ok (c, s1)) :
    (∃ rc, s1.windows[c]? = some rc ∧ IsCleared env rc ∧
      (∀ r, s.windows[c]? = some r → rc.type = r.type ∧ rc.head = r.head)) ∧
    (∀ b, b ≠ c → s1.windows[b]? = s.windows[b]?) ∧
    BuffersOK env s1 ∧ s.windows.length ≤ s1.windows.length ∧ SameGlobals s s1 ∧
    ((s.unusedhead = some c ∧ s1.windows.length = s.windows.length ∧
        ∃ r, s.windows[c]? = some r ∧ s1.unusedhead = r.next) ∨
     (s.unusedhead = none ∧ c = s.windows.length ∧ s1.unusedhead = none ∧
        s1.windows.length = s.windows.length + 1)) := by
  unfold newPortalWindow at h
  cases hu : s.unusedhead with
  | some ret =>
    rw [hu] at h
    simp only at h
    cases hr : s.windows[ret]? with
    | none => simp [hr] at h
    | some r =>
      simp only [hr, Except.ok.injEq, Prod.mk.injEq] at h
      obtain ⟨rfl, rfl⟩ := h
      have hlen := hbuf.get hr
      refine ⟨⟨R_ClearPortalWindow env r, ?_, isCleared_clear env r hlen, ?_⟩, ?_, ?_, ?_, ?_, ?_⟩
      · rw [getElem?_setWindow_self]
        simp [hr]
      · intro r' hr'
        have : s.windows[ret]? = some r := hr
        rw [this] at hr'
        cases hr'
        simp [R_ClearPortalWindow]
      · intro b hb
        rw [getElem?_setWindow_ne _ _ (Ne.symm hb)]
      · apply BuffersOK.setWindow (s := { s with unusedhead := r.next }) hbuf
        intro w hw
        have : s.windows[ret]? = some w := hw
        have hl := hbuf.get this
        have hc := isCleared_clear env w hl
        simp [hc.1, hc.2.1]
      · simp [setWindow]
      · simp [SameGlobals, setWindow]
      · left
        exact ⟨rfl, by simp [setWindow], r, hr, by simp [setWindow]⟩
  | none =>
    rw [hu] at h
    simp only [Except.ok.injEq, Prod.mk.injEq] at h
    obtain ⟨rfl, rfl⟩ := h
    have hfl : (freshWindow env).top.length = env.video_width ∧
        (freshWindow env).bottom.length = env.video_width := by
      simp [freshWindow]
    have hw : (setWindow { s with windows := s.windows ++ [freshWindow env],
                                  unusedhead := none }
        s.windows.length (R_ClearPortalWindow env)).windows =
        s.windows ++ [R_ClearPortalWindow env (freshWindow env)] := by
      simp [setWindow, modify_append_last]
    refine ⟨⟨R_ClearPortalWindow env (freshWindow env), ?_, isCleared_clear env _ hfl, ?_⟩,
      ?_, ?_, ?_, ?_, ?_⟩
    · rw [hw]
      simp
    · intro r hr
      rw [List.getElem?_eq_none (by omega)] at hr
      cases hr
    · intro b hb
      rw [hw]
      by_cases hlt : b < s.windows.length
      · rw [List.getElem?_append_left hlt]
      · rw [List.getElem?_eq_none (by simp; omega), List.getElem?_eq_none (by omega)]
    · apply BuffersOK.of_get
      intro b w hb
      rw [hw] at hb
      by_cases hlt : b < s.windows.length
      · rw [List.getElem?_append_left hlt] at hb
        exact hbuf.get hb
      · by_cases heq : b = s.windows.length
        · subst heq
          simp at hb
          subst hb
          have := isCleared_clear env _ hfl
          simp [this.1, this.2.1]
        · rw [List.getElem?_eq_none (by simp; omega)] at hb
          cases hb
    · rw [hw]
      simp
    · simp [SameGlobals, setWindow]
    · right
      refine ⟨rfl, rfl, by simp [setWindow, hu], ?_⟩
      rw [hw]
      simp

/-! ## One call of `R_WindowAdd` -/

theorem setWindow_eq_putWindow {s : State} {a : Nat} {w : pwindow_t}
    (f : pwindow_t → pwindow_t) (hw : s.windows[a]? = some w) :
    setWindow s a f = putWindow s a (f w) := by
  unfold setWindow putWindow
  congr 1
  apply List.ext_getElem?
  intro i
  rw [List.getElem?_modify, List.getElem?_set]
  by_cases h : a = i
  · subst h
    have hlt : a < s.windows.length := by
      by_contra hcon
      rw [List.getElem?_eq_none (by omega)] at hw
      cases hw
    simp [hw, hlt]
  · simp [h]

theorem putWindow_self {s : State} {a : Nat} {w : pwindow_t}
    (hw : s.windows[a]? = some w) : putWindow s a w = s := by
  have h : (putWindow s a w).windows = s.windows := by
    unfold putWindow
    apply List.ext_getElem?
    intro i
    simp only [List.getElem?_set]
    by_cases h : a = i
    · subst h
      have hlt : a < s.windows.length := by
        by_contra hcon
        rw [List.getElem?_eq_none (by omega)] at hw
        cases hw
      simp [hw, hlt]
    · simp [h]
  cases s
  simp only [putWindow] at h ⊢
  simp [h]

theorem getElem?_putWindow (s : State) (a b : Nat) (r : pwindow_t) :
    (putWindow s a r).windows[b]? =
      if a = b then (if a < s.windows.length then some r else none) else s.windows[b]? := by
  simp [putWindow, List.getElem?_set]

theorem putWindow_putWindow (s : State) (a : Nat) (r r' : pwindow_t) :
    putWindow (putWindow s a r) a r' = putWindow s a r' := by
  simp [putWindow]

/-- One call of `R_WindowAdd` on a valid window whose assertions pass: either
the call descends to the child (creating it first if there is none), or it
replaces the window's record by `addLocal`. -/
theorem R_WindowAdd_step (env : Env) (fuel : Nat) (s : State) (a : Nat) (w : pwindow_t)
    (x : Int) (ytop ybottom : ℚ)
    (hw : s.windows[a]? = some w)
    (hx : 0 ≤ x ∧ x < env.video_width)
    (hlen : w.top.length = env.video_width ∧ w.bottom.length = env.video_width)
    (hin : env.RANGECHECK = true →
      ¬ ((ybottom ≥ env.view_height ∨ ytop < 0) ∧ ytop < ybottom))
    (hopen : env.RANGECHECK = true →
      ¬ (w.bottom.getD x.toNat 0 > w.top.getD x.toNat 0 ∧
        (w.top.getD x.toNat 0 < 0 ∨ w.bottom.getD x.toNat 0 < 0 ∨
         w.top.getD x.toNat 0 ≥ env.view_height ∨
         w.bottom.getD x.toNat 0 ≥ env.view_height))) :
    R_WindowAdd env (fuel + 1) s (some a) x ytop ybottom =
      if GoesToChild env w x ytop ybottom then
        match (if w.child = none then R_CreateChildWindow env s a else .ok s) with
        | .error e => .error e
        | .ok s1 =>
          match s1.windows[a]? with
          | none => .error .undefined
          | some w1 => R_WindowAdd env fuel s1 w1.child x ytop ybottom
      else .ok (putWindow s a (addLocal env s.viewx s.viewy s.viewz w x ytop ybottom)) := by
  have h1 : ¬ (env.RANGECHECK = true ∧ (x < 0 ∨ x ≥ env.video_width)) := by
    rintro ⟨_, h | h⟩ <;> omega
  have h2 : ¬ (env.RANGECHECK = true ∧
      ((ybottom ≥ env.view_height ∨ ytop < 0) ∧ ytop < ybottom)) := fun h => hin h.1 h.2
  have h3 : ¬ (x < 0 ∨ x ≥ w.top.length ∨ x ≥ w.bottom.length) := by
    rw [hlen.1, hlen.2]
    rintro (h | h | h) <;> omega
  have h4 : ¬ (env.RANGECHECK = true ∧ (w.bottom.getD x.toNat 0 > w.top.getD x.toNat 0 ∧
        (w.top.getD x.toNat 0 < 0 ∨ w.bottom.getD x.toNat 0 < 0 ∨
         w.top.getD x.toNat 0 ≥ env.view_height ∨
         w.bottom.getD x.toNat 0 ≥ env.view_height))) := fun h => hopen h.1 h.2
  rw [R_WindowAdd]
  simp only [reduceCtorEq, and_false, if_false, h1, h2, hw, h3, h4]
  by_cases hoff : ybottom < 0 ∨ ytop ≥ env.view_height
  · have hg : ¬ GoesToChild env w x ytop ybottom := fun h => h.1 hoff
    simp only [hoff, if_true, hg, if_false, addLocal]
    rw [putWindow_self hw]
  · simp only [hoff, if_false]
    by_cases hr : x ≤ w.maxx ∧ x ≥ w.minx
    · simp only [hr, and_self, if_true]
      by_cases hfree : w.top.getD x.toNat 0 > w.bottom.getD x.toNat 0
      · have hg : ¬ GoesToChild env w x ytop ybottom := fun h => h.2.2.1 hfree
        simp only [hfree, if_true, hg, if_false, addLocal, hoff, hr, and_self]
        rw [setWindow_eq_putWindow _ hw]
      · simp only [hfree, if_false]
        by_cases hdis : ytop > w.bottom.getD x.toNat 0 ∨ ybottom < w.top.getD x.toNat 0
        · have hg : GoesToChild env w x ytop ybottom := ⟨hoff, hr, hfree, hdis⟩
          simp only [hdis, if_true, hg]
          try rfl
        · have hg : ¬ GoesToChild env w x ytop ybottom := fun h => hdis h.2.2.2
          simp only [hdis, if_false, hg, addLocal, hoff, hr, and_self, if_true, hfree]
          by_cases ht : ytop < w.top.getD x.toNat 0 <;>
            by_cases hb : ybottom > w.bottom.getD x.toNat 0 <;>
            simp only [ht, hb, if_true, if_false]
          · rw [setWindow_eq_putWindow _ hw,
              setWindow_eq_putWindow (w := { w with top := w.top.set x.toNat ytop }) _
                (by rw [getElem?_putWindow]; simp; exact (List.getElem?_eq_some.mp hw).1),
              putWindow_putWindow]
          · rw [setWindow_eq_putWindow _ hw]
          · rw [setWindow_eq_putWindow _ hw]
          · rw [putWindow_self hw]
    · have hg : ¬ GoesToChild env w x ytop ybottom := fun h => hr h.2.1
      simp only [hr, if_false, hg, addLocal, hoff]
      by_cases he : w.minx > w.maxx
      · simp only [he, if_true]
        rw [setWindow_eq_putWindow _ hw]
      · simp only [he, if_false]
        by_cases hgt : x > w.maxx
        · simp only [hgt, if_true]
          rw [setWindow_eq_putWindow _ hw]
        · simp only [hgt, if_false]
          by_cases hlt : x < w.minx
          · simp only [hlt, if_true]
            rw [setWindow_eq_putWindow _ hw]
          · simp only [hlt, if_false]
            rw [putWindow_self hw]

theorem IsList.of_agree {nxt : pwindow_t → Ptr} {ws ws' : List pwindow_t} {p : Ptr}
    {l : List Nat} (h : IsList nxt ws p l) (hfr : ∀ a ∈ l, ws'[a]? = ws[a]?) :
    IsList nxt ws' p l :=
  h.frame (fun a ha w hw => ⟨w, by rw [hfr a ha, hw], rfl⟩)

/-- `newPortalWindow` on a well-formed free list: it succeeds, takes the head of
the list (or a new address when the list is empty), and leaves the rest of the
list in place. -/
theorem newPortalWindow_pool {env : Env} {s : State} {pool : List Nat}
    (hbuf : BuffersOK env s) (hpool : PoolOK s pool) :
    ∃ c s1, newPortalWindow env s = .ok (c, s1) ∧
      (∃ rc, s1.windows[c]? = some rc ∧ IsCleared env rc ∧
        (∀ r, s.windows[c]? = some r → rc.type = r.type ∧ rc.head = r.head)) ∧
      (∀ b, b ≠ c → s1.windows[b]? = s.windows[b]?) ∧
      BuffersOK env s1 ∧ SameGlobals s s1 ∧ PoolOK s1 pool.tail ∧ c ∉ pool.tail ∧
      ((pool.head? = some c ∧ s1.windows.length = s.windows.length) ∨
       (pool = [] ∧ c = s.windows.length ∧ s1.windows.length = s.windows.length + 1)) := by
  obtain ⟨hlist, hnd⟩ := hpool
  cases pool with
  | nil =>
    rw [IsList.nil_iff] at hlist
    have hex : ∃ c s1, newPortalWindow env s = .ok (c, s1) := by
      unfold newPortalWindow
      rw [hlist]
      exact ⟨_, _, rfl⟩
    obtain ⟨c, s1, h⟩ := hex
    obtain ⟨h1, h2, h3, h4, h5, h6⟩ := newPortalWindow_ok hbuf h
    rcases h6 with ⟨hu, _⟩ | ⟨_, hc, hu1, hl⟩
    · rw [hlist] at hu
      cases hu
    · refine ⟨c, s1, h, h1, h2, h3, h5, ⟨?_, List.nodup_nil⟩, by simp, Or.inr ⟨rfl, hc, hl⟩⟩
      simpa [IsList] using hu1
  | cons a pool =>
    rw [IsList.cons_iff] at hlist
    obtain ⟨hu, r, hr, hrest⟩ := hlist
    have hex : ∃ c s1, newPortalWindow env s = .ok (c, s1) := by
      unfold newPortalWindow
      rw [hu]
      simp only [hr]
      exact ⟨_, _, rfl⟩
    obtain ⟨c, s1, h⟩ := hex
    obtain ⟨h1, h2, h3, h4, h5, h6⟩ := newPortalWindow_ok hbuf h
    rcases h6 with ⟨hu', hl, r', hr', hn⟩ | ⟨hu', _⟩
    · rw [hu] at hu'
      cases hu'
      rw [hr] at hr'
      cases hr'
      have hnot : a ∉ pool := (List.nodup_cons.mp hnd).1
      refine ⟨a, s1, h, h1, h2, h3, h5, ⟨?_, (List.nodup_cons.mp hnd).2⟩, hnot,
        Or.inl ⟨rfl, hl⟩⟩
      simp only [List.tail_cons]
      rw [hn]
      apply hrest.of_agree
      intro b hb
      apply h2
      rintro rfl
      exact hnot hb
    · rw [hu] at hu'
      cases hu'

/-- `R_CreateChildWindow` on a childless window outside a well-formed free list. -/
theorem R_CreateChildWindow_spec {env : Env} {s : State} {a : Nat} {par : pwindow_t}
    {pool : List Nat} (hbuf : BuffersOK env s) (hpool : PoolOK s pool)
    (hpar : s.windows[a]? = some par) (hchild : par.child = none) (ha : a ∉ pool) :
    ∃ c s1, R_CreateChildWindow env s a = .ok s1 ∧ c ≠ a ∧
      s1.windows[a]? = some { par with child := some c } ∧
      (∃ rc, s1.windows[c]? = some rc ∧ IsCleared env rc ∧ rc.head = par.head ∧
        rc.portal = par.portal ∧ rc.line = par.line ∧ rc.type = par.type ∧
        rc.func = par.func ∧ rc.clipfunc = par.clipfunc) ∧
      (∀ b, b ≠ a → b ≠ c → s1.windows[b]? = s.windows[b]?) ∧
      BuffersOK env s1 ∧ SameGlobals s s1 ∧ PoolOK s1 pool.tail ∧ c ∉ pool.tail ∧
      ((pool.head? = some c ∧ s1.windows.length = s.windows.length) ∨
       (pool = [] ∧ c = s.windows.length ∧ s1.windows.length = s.windows.length + 1)) := by
  obtain ⟨c, s1, hnew, ⟨rc, hrc, hclr, _⟩, hfr, hbuf1, hglob, hpool1, hc, hcase⟩ :=
    newPortalWindow_pool hbuf hpool
  have halt : a < s.windows.length := (List.getElem?_eq_some.mp hpar).1
  have hca : c ≠ a := by
    rcases hcase with ⟨hh, _⟩ | ⟨_, hh, _⟩
    · rintro rfl
      cases pool with
      | nil => simp at hh
      | cons b pool =>
        simp at hh
        subst hh
        exact ha (List.mem_cons_self _ _)
    · omega
  have hpar1 : s1.windows[a]? = some par := by rw [hfr a (Ne.symm hca), hpar]
  let s2 := setWindow s1 a (fun w => { w with child := some c })
  have hpar2 : s2.windows[a]? = some { par with child := some c } := by
    simp [s2, getElem?_setWindow_self, hpar1]
  have hrc2 : s2.windows[c]? = some rc := by
    simp only [s2]
    rw [getElem?_setWindow_ne _ _ (Ne.symm hca), hrc]
  let s3 := setWindow s2 c (fun w =>
      { w with head := par.head, portal := par.portal, line := par.line,
               type := par.type, func := par.func, clipfunc := par.clipfunc })
  have hrun : R_CreateChildWindow env s a = .ok s3 := by
    unfold R_CreateChildWindow
    simp only [getWindow, hpar, hchild, ne_eq, not_true_eq_false, and_false, if_false,
      bind, Except.bind, hnew]
    have : (setWindow s1 a fun w => { w with child := some c }).windows[a]? =
        some { par with child := some c } := hpar2
    simp only [this]
    try rfl
  refine ⟨c, s3, hrun, hca, ?_, ?_, ?_, ?_, ?_, ?_, hc, ?_⟩
  · simp only [s3]
    rw [getElem?_setWindow_ne _ _ hca, hpar2]
  · refine ⟨{ rc with head := par.head, portal := par.portal, line := par.line,
                      type := par.type, func := par.func, clipfunc := par.clipfunc },
      ?_, ?_, rfl, rfl, rfl, rfl, rfl, rfl⟩
    · simp only [s3]
      rw [getElem?_setWindow_self, hrc2]
      rfl
    · simpa [IsCleared] using hclr
  · intro b hba hbc
    simp only [s3, s2]
    rw [getElem?_setWindow_ne _ _ (Ne.symm hbc), getElem?_setWindow_ne _ _ (Ne.symm hba)]
    exact hfr b hbc
  · have hb2 : BuffersOK env s2 := by
      apply BuffersOK.setWindow hbuf1
      intro w hw
      have h0 := hbuf1.get hw
      exact h0
    apply BuffersOK.setWindow hb2
    intro w hw
    have h0 := hb2.get hw
    exact h0
  · simpa [SameGlobals, s3, s2, setWindow] using hglob
  · refine ⟨?_, hpool1.2⟩
    have : s3.unusedhead = s1.unusedhead := rfl
    rw [this]
    apply hpool1.1.of_agree
    intro b hb
    simp only [s3, s2]
    have hbc : b ≠ c := by
      rintro rfl
      exact hc hb
    have hba : b ≠ a := by
      rintro rfl
      exact ha (List.mem_of_mem_tail hb)
    rw [getElem?_setWindow_ne _ _ (Ne.symm hbc), getElem?_setWindow_ne _ _ (Ne.symm hba)]
  · simpa [s3, s2, length_setWindow] using hcase

/-- `R_SetPortalFunction` only assigns `func` and `clipfunc`. -/
theorem R_SetPortalFunction_fields (pt : portaltype_e) (w : pwindow_t) :
    (R_SetPortalFunction pt w).top = w.top ∧ (R_SetPortalFunction pt w).bottom = w.bottom ∧
    (R_SetPortalFunction pt w).minx = w.minx ∧ (R_SetPortalFunction pt w).maxx = w.maxx ∧
    (R_SetPortalFunction pt w).child = w.child ∧ (R_SetPortalFunction pt w).next = w.next ∧
    (R_SetPortalFunction pt w).vx = w.vx ∧ (R_SetPortalFunction pt w).vy = w.vy ∧
    (R_SetPortalFunction pt w).vz = w.vz ∧ (R_SetPortalFunction pt w).portal = w.portal ∧
    (R_SetPortalFunction pt w).line = w.line ∧ (R_SetPortalFunction pt w).type = w.type ∧
    (R_SetPortalFunction pt w).head = w.head := by
  cases pt <;> simp [R_SetPortalFunction]

/-- The record of a window just returned by `R_NewPortalWindow`. -/
theorem R_NewPortalWindow_window {env : Env} {s s' : State} {p l : Ptr}
    {t : pwindowtype_e} {w : Nat} (hbuf : BuffersOK env s)
    (h : R_NewPortalWindow env s p l t = .ok (w, s')) :
    ∃ r, s'.windows[w]? = some r ∧
      r.top = List.replicate env.video_width env.view_height ∧
      r.bottom = List.replicate env.video_width (-1) ∧
      r.minx = env.viewwindow_width - 1 ∧ r.maxx = 0 ∧ r.child = none ∧
      r.vx = 0 ∧ r.vy = 0 ∧ r.vz = 0 ∧
      r.portal = p ∧ r.line = l ∧ r.type = t ∧ r.head = some w ∧
      BuffersOK env s' ∧ s'.viewx = s.viewx ∧ s'.viewy = s.viewy ∧ s'.viewz = s.viewz := by
  unfold R_NewPortalWindow at h
  cases hn : newPortalWindow env s with
  | error e => simp [hn, bind, Except.bind] at h
  | ok cs =>
    obtain ⟨c, s1⟩ := cs
    obtain ⟨⟨rc, hrc, hclr, _⟩, hfr, hbuf1, hlen, hglob, _⟩ := newPortalWindow_ok hbuf hn
    simp only [hn, bind, Except.bind] at h
    let s2 := setWindow s1 c (fun w => { w with portal := p, line := l, type := t,
                                                head := some c })
    cases hp : getPortal s2 p with
    | error e => simp [s2, hp] at h
    | ok portal =>
      simp only [s2] at hp
      simp only [hp] at h
      let s3 := setWindow s2 c (R_SetPortalFunction portal.type)
      let r3 := R_SetPortalFunction portal.type
          { rc with portal := p, line := l, type := t, head := some c }
      have hr3 : s3.windows[c]? = some r3 := by
        simp [s3, s2, r3, getElem?_setWindow_self, hrc]
      have hb3 : BuffersOK env s3 := by
        have hb2 : BuffersOK env s2 := by
          apply BuffersOK.setWindow hbuf1
          intro w hw
          have h0 := hbuf1.get hw
          exact h0
        apply BuffersOK.setWindow hb2
        intro w hw
        have h0 := hb2.get hw
        have hf := R_SetPortalFunction_fields portal.type w
        rw [hf.1, hf.2.1]
        exact h0
      have hf := R_SetPortalFunction_fields portal.type
          { rc with portal := p, line := l, type := t, head := some c }
      obtain ⟨c1, c2, c3, c4, c5, c6, c7, c8, c9⟩ := hclr
      have hv3 : s3.viewx = s.viewx ∧ s3.viewy = s.viewy ∧ s3.viewz = s.viewz := by
        obtain ⟨_, _, _, _, g5, g6, g7, _⟩ := hglob
        exact ⟨g5, g6, g7⟩
      have hfields : r3.top = List.replicate env.video_width env.view_height ∧
          r3.bottom = List.replicate env.video_width (-1) ∧
          r3.minx = env.viewwindow_width - 1 ∧ r3.maxx = 0 ∧ r3.child = none ∧
          r3.vx = 0 ∧ r3.vy = 0 ∧ r3.vz = 0 ∧
          r3.portal = p ∧ r3.line = l ∧ r3.type = t ∧ r3.head = some c := by
        simp only [r3]
        obtain ⟨f1, f2, f3, f4, f5, f6, f7, f8, f9, f10, f11, f12, f13⟩ := hf
        rw [f1, f2, f3, f4, f5, f7, f8, f9, f10, f11, f12, f13]
        exact ⟨c1, c2, c3, c4, c5, c7, c8, c9, rfl, rfl, rfl, rfl⟩
      have h' : (match s3.windowhead with
          | none => (Except.ok (c, { s3 with windowhead := some c, windowlast := some c }) :
              Except Err (Nat × State))
          | some _ =>
            match s3.windowlast with
            | none => .error .undefined
            | some lst =>
              if lst < s3.windows.length then
                .ok (c, { setWindow s3 lst (fun w => { w with next := some c }) with
                          windowlast := some c })
              else .error .undefined) = .ok (w, s') := h
      cases hh : s3.windowhead with
      | none =>
        rw [hh] at h'
        simp only [Except.ok.injEq, Prod.mk.injEq] at h'
        obtain ⟨rfl, rfl⟩ := h'
        exact ⟨r3, hr3, hfields.1, hfields.2.1, hfields.2.2.1, hfields.2.2.2.1,
          hfields.2.2.2.2.1, hfields.2.2.2.2.2.1, hfields.2.2.2.2.2.2.1,
          hfields.2.2.2.2.2.2.2.1, hfields.2.2.2.2.2.2.2.2.1, hfields.2.2.2.2.2.2.2.2.2.1,
          hfields.2.2.2.2.2.2.2.2.2.2.1, hfields.2.2.2.2.2.2.2.2.2.2.2, hb3, hv3⟩
      | some hd =>
        rw [hh] at h'
        cases hl : s3.windowlast with
        | none => simp [hl] at h'
        | some lst =>
          simp only [hl] at h'
          split at h'
          · simp only [Except.ok.injEq, Prod.mk.injEq] at h'
            obtain ⟨rfl, rfl⟩ := h'
            have hb4 : BuffersOK env (setWindow s3 lst (fun w => { w with next := some c })) := by
              apply BuffersOK.setWindow hb3
              intro w hw
              have h0 := hb3.get hw
              exact h0
            by_cases hlc : lst = c
            · subst hlc
              refine ⟨{ r3 with next := some lst }, ?_, hfields.1, hfields.2.1,
                hfields.2.2.1, hfields.2.2.2.1,
                hfields.2.2.2.2.1, hfields.2.2.2.2.2.1, hfields.2.2.2.2.2.2.1,
                hfields.2.2.2.2.2.2.2.1, hfields.2.2.2.2.2.2.2.2.1,
                hfields.2.2.2.2.2.2.2.2.2.1,
                hfields.2.2.2.2.2.2.2.2.2.2.1, hfields.2.2.2.2.2.2.2.2.2.2.2, hb4, hv3⟩
              show (setWindow s3 lst _).windows[lst]? = _
              rw [getElem?_setWindow_self, hr3]
              rfl
            · refine ⟨r3, ?_, hfields.1, hfields.2.1,
                hfields.2.2.1, hfields.2.2.2.1,
                hfields.2.2.2.2.1, hfields.2.2.2.2.2.1, hfields.2.2.2.2.2.2.1,
                hfields.2.2.2.2.2.2.2.1, hfields.2.2.2.2.2.2.2.2.1,
                hfields.2.2.2.2.2.2.2.2.2.1,
                hfields.2.2.2.2.2.2.2.2.2.2.1, hfields.2.2.2.2.2.2.2.2.2.2.2, hb4, hv3⟩
              show (setWindow s3 lst _).windows[c]? = _
              rw [getElem?_setWindow_ne _ _ hlc, hr3]
          · cases h'

/-! ## Column buffers -/

theorem getD_replicate_lt (n i : Nat) (v d : ℚ) (h : i < n) :
    (List.replicate n v).getD i d = v := by
  simp [List.getD_eq_getElem?_getD, List.getElem?_replicate, h]

theorem getD_set_self (l : List ℚ) (i : Nat) (v d : ℚ) (h : i < l.length) :
    (l.set i v).getD i d = v := by
  simp [List.getD_eq_getElem?_getD, List.getElem?_set, h]

theorem getD_set_ne (l : List ℚ) (i j : Nat) (v d : ℚ) (h : i ≠ j) :
    (l.set i v).getD j d = l.getD j d := by
  simp [List.getD_eq_getElem?_getD, List.getElem?_set, h]

/-! ## The record left by a call that stays in the window -/

/-- `addLocal` changes neither the pointers nor the identity of a window. -/
theorem addLocal_fields (env : Env) (vx vy vz : Int) (w : pwindow_t) (x : Int)
    (ytop ybottom : ℚ) :
    (addLocal env vx vy vz w x ytop ybottom).child = w.child ∧
    (addLocal env vx vy vz w x ytop ybottom).next = w.next ∧
    (addLocal env vx vy vz w x ytop ybottom).head = w.head ∧
    (addLocal env vx vy vz w x ytop ybottom).portal = w.portal ∧
    (addLocal env vx vy vz w x ytop ybottom).line = w.line ∧
    (addLocal env vx vy vz w x ytop ybottom).type = w.type ∧
    (addLocal env vx vy vz w x ytop ybottom).func = w.func ∧
    (addLocal env vx vy vz w x ytop ybottom).clipfunc = w.clipfunc ∧
    (addLocal env vx vy vz w x ytop ybottom).top.length = w.top.length ∧
    (addLocal env vx vy vz w x ytop ybottom).bottom.length = w.bottom.length := by
  unfold addLocal
  simp only
  split_ifs <;> simp

/-- On a free column that is on screen, `addLocal` stores the span and makes the
range contain the column. -/
theorem addLocal_free (env : Env) (vx vy vz : Int) (w : pwindow_t) (x : Int)
    (ytop ybottom : ℚ)
    (hon : ¬ (ybottom < 0 ∨ ytop ≥ env.view_height))
    (hfree : w.top.getD x.toNat 0 > w.bottom.getD x.toNat 0) :
    (addLocal env vx vy vz w x ytop ybottom).top = w.top.set x.toNat ytop ∧
    (addLocal env vx vy vz w x ytop ybottom).bottom = w.bottom.set x.toNat ybottom ∧
    (addLocal env vx vy vz w x ytop ybottom).minx ≤ x ∧
    x ≤ (addLocal env vx vy vz w x ytop ybottom).maxx ∧
    (w.minx > w.maxx →
      (addLocal env vx vy vz w x ytop ybottom).minx = x ∧
      (addLocal env vx vy vz w x ytop ybottom).maxx = x) ∧
    (x ≤ w.maxx ∧ x ≥ w.minx →
      (addLocal env vx vy vz w x ytop ybottom).minx = w.minx ∧
      (addLocal env vx vy vz w x ytop ybottom).maxx = w.maxx) := by
  unfold addLocal
  simp only
  rw [if_neg hon]
  by_cases h1 : x ≤ w.maxx ∧ x ≥ w.minx
  · rw [if_pos h1, if_pos hfree]
    exact ⟨rfl, rfl, h1.2, h1.1, fun h => by omega, fun _ => ⟨rfl, rfl⟩⟩
  · rw [if_neg h1]
    by_cases h2 : w.minx > w.maxx
    · rw [if_pos h2]
      exact ⟨rfl, rfl, le_refl _, le_refl _, fun _ => ⟨rfl, rfl⟩, fun h => absurd h h1⟩
    · rw [if_neg h2]
      by_cases h3 : x > w.maxx
      · rw [if_pos h3]
        refine ⟨rfl, rfl, ?_, le_refl _, fun h => absurd h h2, fun h => absurd h h1⟩
        show w.minx ≤ x
        omega
      · rw [if_neg h3]
        by_cases h4 : x < w.minx
        · rw [if_pos h4]
          refine ⟨rfl, rfl, le_refl _, ?_, fun h => absurd h h2, fun h => absurd h h1⟩
          show x ≤ w.maxx
          omega
        · exfalso
          apply h1
          omega

/-- On an occupied column of the range that the span overlaps or touches,
`addLocal` stores the union of the two spans and changes nothing else. -/
theorem addLocal_merge (env : Env) (vx vy vz : Int) (w : pwindow_t) (x : Int)
    (ytop ybottom : ℚ)
    (hon : ¬ (ybottom < 0 ∨ ytop ≥ env.view_height))
    (hr : x ≤ w.maxx ∧ x ≥ w.minx)
    (hocc : ¬ w.top.getD x.toNat 0 > w.bottom.getD x.toNat 0)
    (hlt : x.toNat < w.top.length ∧ x.toNat < w.bottom.length) :
    (addLocal env vx vy vz w x ytop ybottom).top.getD x.toNat 0 =
      min (w.top.getD x.toNat 0) ytop ∧
    (addLocal env vx vy vz w x ytop ybottom).bottom.getD x.toNat 0 =
      max (w.bottom.getD x.toNat 0) ybottom ∧
    (addLocal env vx vy vz w x ytop ybottom).minx = w.minx ∧
    (addLocal env vx vy vz w x ytop ybottom).maxx = w.maxx := by
  unfold addLocal
  simp only
  rw [if_neg hon, if_pos hr, if_neg hocc]
  refine ⟨?_, ?_, rfl, rfl⟩
  · by_cases ht : ytop < w.top.getD x.toNat 0
    · simp only [ht, if_true]
      rw [getD_set_self _ _ _ _ hlt.1, min_eq_right (le_of_lt ht)]
    · simp only [ht, if_false]
      rw [min_eq_left (not_lt.mp ht)]
  · by_cases hb : ybottom > w.bottom.getD x.toNat 0
    · simp only [hb, if_true]
      rw [getD_set_self _ _ _ _ hlt.2, max_eq_right (le_of_lt hb)]
    · simp only [hb, if_false]
      rw [max_eq_left (not_lt.mp hb)]

/-- The first call of `R_WindowAdd` on a window whose column `x` is still
cleared stores the span in the window itself. -/
theorem R_WindowAdd_cleared_column (env : Env) (fuel : Nat) (s : State) (a : Nat)
    (w : pwindow_t) (x : Int) (ytop ybottom : ℚ)
    (hw : s.windows[a]? = some w)
    (hx : 0 ≤ x ∧ x < env.video_width)
    (htop : w.top = List.replicate env.video_width env.view_height)
    (hbot : w.bottom = List.replicate env.video_width (-1))
    (hspan : 0 ≤ ytop ∧ ytop < env.view_height ∧ 0 ≤ ybottom ∧ ybottom < env.view_height) :
    R_WindowAdd env (fuel + 1) s (some a) x ytop ybottom =
      .ok (putWindow s a (addLocal env s.viewx s.viewy s.viewz w x ytop ybottom)) ∧
    w.top.getD x.toNat 0 > w.bottom.getD x.toNat 0 ∧
    ¬ (ybottom < 0 ∨ ytop ≥ env.view_height) := by
  have hi : x.toNat < env.video_width := by omega
  have hh : (0 : ℚ) < env.view_height := lt_of_le_of_lt hspan.1 hspan.2.1
  have hwt : w.top.getD x.toNat 0 = env.view_height := by
    rw [htop, getD_replicate_lt _ _ _ _ hi]
  have hwb : w.bottom.getD x.toNat 0 = -1 := by
    rw [hbot, getD_replicate_lt _ _ _ _ hi]
  have hfree : w.top.getD x.toNat 0 > w.bottom.getD x.toNat 0 := by
    rw [hwt, hwb]
    linarith
  have hon : ¬ (ybottom < 0 ∨ ytop ≥ env.view_height) := by
    rintro (h | h)
    · linarith [hspan.2.2.1]
    · linarith [hspan.2.1]
  refine ⟨?_, hfree, hon⟩
  rw [R_WindowAdd_step env fuel s a w x ytop ybottom hw hx
    (by rw [htop, hbot]; simp) ?_ ?_]
  · rw [if_neg]
    intro hg
    exact hg.2.2.1 hfree
  · rintro _ ⟨h | h, _⟩
    · linarith [hspan.2.2.2]
    · linarith [hspan.1]
  · rintro _ ⟨h, _⟩
    rw [hwt, hwb] at h
    linarith

/-- C4. Merge. On a window just returned by `R_NewPortalWindow` (the creating
path of the `R_Get*PortalWindow` functions), for a column `x` of the screen and
two on-screen spans `(t1, b1)`, `(t2, b2)` with `t1 < b1`, `t2 < b2` that
overlap or touch, `R_WindowAdd (w, x, t1, b1)` followed by
`R_WindowAdd (w, x, t2, b2)` both return, and column `x` of the window then
holds exactly `(min t1 t2, max b1 b2)`; the window has no child and no window
record was allocated or taken from the free list. -/
theorem windowAdd_merge (env : Env) (s0 s : State) (p l : Ptr) (t : pwindowtype_e)
    (w : Nat) (x : Int) (t1 b1 t2 b2 : ℚ) (fuel1 fuel2 : Nat)
    (hbuf : BuffersOK env s0)
    (hnew : R_NewPortalWindow env s0 p l t = .ok (w, s))
    (hx : 0 ≤ x ∧ x < env.video_width)
    (h1 : 0 ≤ t1 ∧ t1 < b1 ∧ b1 < env.view_height)
    (h2 : 0 ≤ t2 ∧ t2 < b2 ∧ b2 < env.view_height)
    (hov : t2 ≤ b1 ∧ b2 ≥ t1) :
    ∃ s1 s2 r, R_WindowAdd env (fuel1 + 1) s (some w) x t1 b1 = .ok s1 ∧
      R_WindowAdd env (fuel2 + 1) s1 (some w) x t2 b2 = .ok s2 ∧
      s2.windows[w]? = some r ∧
      r.top.getD x.toNat 0 = min t1 t2 ∧ r.bottom.getD x.toNat 0 = max b1 b2 ∧
      r.child = none ∧
      s2.windows.length = s.windows.length ∧ s2.unusedhead = s.unusedhead := by
  obtain ⟨r, hr, htop, hbot, hminx, hmaxx, hchild, _, _, _, _, _, _, _, hbuf', _⟩ :=
    R_NewPortalWindow_window hbuf hnew
  have hi : x.toNat < env.video_width := by omega
  have hwlt : w < s.windows.length := (List.getElem?_eq_some.mp hr).1
  obtain ⟨hstep1, hfree, hon1⟩ := R_WindowAdd_cleared_column env fuel1 s w r x t1 b1 hr hx
    htop hbot ⟨h1.1, by linarith, by linarith, h1.2.2⟩
  obtain ⟨e1, e2, e3, e4, _, _⟩ := addLocal_free env s.viewx s.viewy s.viewz r x t1 b1 hon1 hfree
  have hf1 := addLocal_fields env s.viewx s.viewy s.viewz r x t1 b1
  generalize hr1 : addLocal env s.viewx s.viewy s.viewz r x t1 b1 = r1 at *
  have hs1 : (putWindow s w r1).windows[w]? = some r1 := by
    rw [getElem?_putWindow]
    simp [hwlt]
  have hlen1 : r1.top.length = env.video_width ∧ r1.bottom.length = env.video_width := by
    rw [hf1.2.2.2.2.2.2.2.2.1, hf1.2.2.2.2.2.2.2.2.2, htop, hbot]
    simp
  have hwt1 : r1.top.getD x.toNat 0 = t1 := by
    rw [e1, getD_set_self]
    rw [htop]
    simpa using hi
  have hwb1 : r1.bottom.getD x.toNat 0 = b1 := by
    rw [e2, getD_set_self]
    rw [hbot]
    simpa using hi
  have hon2 : ¬ (b2 < 0 ∨ t2 ≥ env.view_height) := by
    rintro (h | h) <;> linarith [h2.1, h2.2.1, h2.2.2]
  have hocc : ¬ r1.top.getD x.toNat 0 > r1.bottom.getD x.toNat 0 := by
    rw [hwt1, hwb1]
    linarith [h1.2.1]
  have hstep2 : R_WindowAdd env (fuel2 + 1) (putWindow s w r1) (some w) x t2 b2 =
      .ok (putWindow (putWindow s w r1) w
        (addLocal env s.viewx s.viewy s.viewz r1 x t2 b2)) := by
    rw [R_WindowAdd_step env fuel2 (putWindow s w r1) w r1 x t2 b2 hs1 hx hlen1 ?_ ?_]
    · rw [if_neg]
      · rfl
      · intro hg
        obtain ⟨_, _, _, hd⟩ := hg
        rw [hwt1, hwb1] at hd
        rcases hd with h | h <;> linarith [hov.1, hov.2]
    · rintro _ ⟨h | h, _⟩ <;> linarith [h2.1, h2.2.2]
    · rintro _ ⟨_, h⟩
      rw [hwt1, hwb1] at h
      rcases h with h | h | h | h <;> linarith [h1.1, h1.2.1, h1.2.2]
  obtain ⟨m1, m2, _, _⟩ := addLocal_merge env s.viewx s.viewy s.viewz r1 x t2 b2 hon2
    ⟨e4, e3⟩ hocc (by rw [hlen1.1, hlen1.2]; exact ⟨hi, hi⟩)
  have hf2 := addLocal_fields env s.viewx s.viewy s.viewz r1 x t2 b2
  refine ⟨_, _, addLocal env s.viewx s.viewy s.viewz r1 x t2 b2, hstep1, hstep2,
    ?_, ?_, ?_, ?_, ?_, ?_⟩
  · rw [getElem?_putWindow]
    simp [putWindow, hwlt]
  · rw [m1, hwt1]
  · rw [m2, hwb1]
  · rw [hf2.1, hf1.1, hchild]
  · simp [putWindow]
  · simp [putWindow]

/-- C4, evaluated on the sample of the specification: on a freshly claimed
window, `(2, 10, 20)` followed by `(2, 15, 30)` leaves `(10, 30)` in column 2
and no child. -/
theorem windowAdd_merge_witness :
    ∃ s1 s2 r, R_WindowAdd narrowEnv 1 claimedState (some 0) 2 10 20 = .ok s1 ∧
      R_WindowAdd narrowEnv 1 s1 (some 0) 2 15 30 = .ok s2 ∧
      s2.windows[0]? = some r ∧
      r.top.getD (2 : Int).toNat 0 = min 10 15 ∧ r.bottom.getD (2 : Int).toNat 0 = max 20 30 ∧
      r.child = none ∧
      s2.windows.length = claimedState.windows.length ∧
      s2.unusedhead = claimedState.unusedhead :=
  windowAdd_merge narrowEnv skyboxState claimedState (some 0) none .pw_floor 0 2 10 20 15 30
    0 0 (by decide) (by rfl) (by decide) (by decide) (by decide) (by decide)

/-- `R_NewPortalWindow` on a well-formed free list that does not hold the last
queue window: the new window is the head of the free list (or a new address),
and the rest of the free list stays in place. -/
theorem R_NewPortalWindow_pool {env : Env} {s s' : State} {p l : Ptr}
    {t : pwindowtype_e} {w : Nat} {pool : List Nat}
    (hbuf : BuffersOK env s) (hpool : PoolOK s pool)
    (hlast : ∀ lst, s.windowlast = some lst → lst ∉ pool)
    (h : R_NewPortalWindow env s p l t = .ok (w, s')) :
    PoolOK s' pool.tail ∧ w ∉ pool.tail ∧
    ((pool.head? = some w ∧ s'.windows.length = s.windows.length) ∨
     (pool = [] ∧ w = s.windows.length ∧ s'.windows.length = s.windows.length + 1)) := by
  obtain ⟨c, s1, hn, _, hfr, hbuf1, hglob, hpool1, hc, hcase⟩ := newPortalWindow_pool hbuf hpool
  unfold R_NewPortalWindow at h
  simp only [hn, bind, Except.bind] at h
  let s2 := setWindow s1 c (fun w => { w with portal := p, line := l, type := t,
                                              head := some c })
  cases hp : getPortal s2 p with
  | error e => simp [s2, hp] at h
  | ok portal =>
    simp only [s2] at hp
    simp only [hp] at h
    let s3 := setWindow s2 c (R_SetPortalFunction portal.type)
    have hu3 : s3.unusedhead = s1.unusedhead := rfl
    have hl3 : s3.windows.length = s1.windows.length := by
      simp [s3, s2, length_setWindow]
    have hw3 : ∀ b, b ≠ c → s3.windows[b]? = s1.windows[b]? := by
      intro b hb
      simp only [s3, s2]
      rw [getElem?_setWindow_ne _ _ (Ne.symm hb), getElem?_setWindow_ne _ _ (Ne.symm hb)]
    have hlast3 : s3.windowlast = s.windowlast := hglob.2.2.1
    have h' : (match s3.windowhead with
        | none => (Except.ok (c, { s3 with windowhead := some c, windowlast := some c }) :
            Except Err (Nat × State))
        | some _ =>
          match s3.windowlast with
          | none => .error .undefined
          | some lst =>
            if lst < s3.windows.length then
              .ok (c, { setWindow s3 lst (fun w => { w with next := some c }) with
                        windowlast := some c })
            else .error .undefined) = .ok (w, s') := h
    cases hh : s3.windowhead with
    | none =>
      rw [hh] at h'
      simp only [Except.ok.injEq, Prod.mk.injEq] at h'
      obtain ⟨rfl, rfl⟩ := h'
      refine ⟨⟨?_, hpool1.2⟩, hc, ?_⟩
      · show IsList pwindow_t.next s3.windows s3.unusedhead pool.tail
        rw [hu3]
        apply hpool1.1.of_agree
        intro b hb
        apply hw3
        rintro rfl
        exact hc hb
      · show (pool.head? = some c ∧ s3.windows.length = s.windows.length) ∨ _
        rw [hl3]
        exact hcase
    | some hd =>
      rw [hh] at h'
      cases hl : s3.windowlast with
      | none => simp [hl] at h'
      | some lst =>
        simp only [hl] at h'
        split at h'
        · simp only [Except.ok.injEq, Prod.mk.injEq] at h'
          obtain ⟨rfl, rfl⟩ := h'
          have hlp : lst ∉ pool := hlast lst (by rw [← hlast3, hl])
          refine ⟨⟨?_, hpool1.2⟩, hc, ?_⟩
          · show IsList pwindow_t.next (setWindow s3 lst _).windows s3.unusedhead pool.tail
            rw [hu3]
            apply hpool1.1.of_agree
            intro b hb
            have hbl : lst ≠ b := by
              rintro rfl
              exact hlp (List.mem_of_mem_tail hb)
            rw [getElem?_setWindow_ne _ _ hbl]
            apply hw3
            rintro rfl
            exact hc hb
          · show (pool.head? = some c ∧ (setWindow s3 lst _).windows.length =
                s.windows.length) ∨ _
            rw [length_setWindow, hl3]
            exact hcase
        · cases h'

theorem BuffersOK.putWindow {env : Env} {s : State} (h : BuffersOK env s) (a : Nat)
    (r : pwindow_t)
    (hr : r.top.length = env.video_width ∧ r.bottom.length = env.video_width) :
    BuffersOK env (putWindow s a r) := by
  apply BuffersOK.of_get
  intro b w hb
  rw [getElem?_putWindow] at hb
  split at hb
  · split at hb
    · cases hb
      exact hr
    · cases hb
  · exact h.get hb

theorem PoolOK.putWindow_frame {s : State} {pool : List Nat} (h : PoolOK s pool) {a : Nat}
    (r : pwindow_t) (ha : a ∉ pool) : PoolOK (Portal.putWindow s a r) pool := by
  refine ⟨?_, h.2⟩
  show IsList pwindow_t.next (Portal.putWindow s a r).windows s.unusedhead pool
  apply h.1.of_agree
  intro b hb
  rw [getElem?_putWindow, if_neg]
  rintro rfl
  exact ha hb

theorem getElem?_putWindow_self {s : State} {a : Nat} (r : pwindow_t)
    (h : a < s.windows.length) : (putWindow s a r).windows[a]? = some r := by
  rw [getElem?_putWindow]
  simp [h]

theorem getElem?_putWindow_ne {s : State} {a b : Nat} (r : pwindow_t) (h : a ≠ b) :
    (putWindow s a r).windows[b]? = s.windows[b]? := by
  rw [getElem?_putWindow, if_neg h]

/-- C5. Disjoint-span insertion. Take a window `w` just returned by
`R_NewPortalWindow` from a state with a well-formed free list, a column `x` of
the view window, and two on-screen spans `(t1, b1)`, `(t2, b2)` with `t1 < b1`,
`t2 < b2` that are disjoint. Then `R_WindowAdd (w, x, t1, b1)` followed by
`R_WindowAdd (w, x, t2, b2)` both return; afterwards the parent's column `x`
holds `(t1, b1)` and its range is `[x, x]`; the parent has a child `c`, another
window, whose range is `[x, x]`, whose column `x` holds `(t2, b2)`, which has
no child itself, and whose portal, line, type, render function and clip
function are the parent's; at most one window record was allocated. -/
theorem windowAdd_disjoint (env : Env) (s0 s : State) (pool : List Nat) (p l : Ptr)
    (t : pwindowtype_e) (w : Nat) (x : Int) (t1 b1 t2 b2 : ℚ) (fuel1 fuel2 : Nat)
    (hok : FreeListOK env s0 pool)
    (hnew : R_NewPortalWindow env s0 p l t = .ok (w, s))
    (hx : 0 ≤ x ∧ x < env.video_width ∧ x < env.viewwindow_width)
    (h1 : 0 ≤ t1 ∧ t1 < b1 ∧ b1 < env.view_height)
    (h2 : 0 ≤ t2 ∧ t2 < b2 ∧ b2 < env.view_height)
    (hdis : t2 > b1 ∨ b2 < t1) :
    ∃ s1 s2 r c rc, R_WindowAdd env (fuel1 + 1) s (some w) x t1 b1 = .ok s1 ∧
      R_WindowAdd env (fuel2 + 2) s1 (some w) x t2 b2 = .ok s2 ∧
      s2.windows[w]? = some r ∧
      r.top.getD x.toNat 0 = t1 ∧ r.bottom.getD x.toNat 0 = b1 ∧
      r.minx = x ∧ r.maxx = x ∧ r.child = some c ∧ c ≠ w ∧
      s2.windows[c]? = some rc ∧
      rc.minx = x ∧ rc.maxx = x ∧
      rc.top.getD x.toNat 0 = t2 ∧ rc.bottom.getD x.toNat 0 = b2 ∧ rc.child = none ∧
      rc.portal = r.portal ∧ rc.line = r.line ∧ rc.type = r.type ∧ rc.func = r.func ∧
      rc.clipfunc = r.clipfunc ∧
      s2.windows.length ≤ s.windows.length + 1 := by
  obtain ⟨hbuf, hpool, hlast⟩ := hok
  obtain ⟨r, hr, htop, hbot, hminx, hmaxx, hchild, _, _, _, _, _, _, _, hbuf', _⟩ :=
    R_NewPortalWindow_window hbuf hnew
  obtain ⟨hpool', hwp, _⟩ := R_NewPortalWindow_pool hbuf hpool
    (by
      intro lst hl
      rw [hl] at hlast
      exact hlast) hnew
  have hi : x.toNat < env.video_width := by omega
  have hwlt : w < s.windows.length := (List.getElem?_eq_some.mp hr).1
  -- first call
  obtain ⟨hstep1, hfree, hon1⟩ := R_WindowAdd_cleared_column env fuel1 s w r x t1 b1 hr
    ⟨hx.1, hx.2.1⟩ htop hbot ⟨h1.1, by linarith, by linarith, h1.2.2⟩
  obtain ⟨e1, e2, e3, e4, e5, e6⟩ :=
    addLocal_free env s.viewx s.viewy s.viewz r x t1 b1 hon1 hfree
  have hf1 := addLocal_fields env s.viewx s.viewy s.viewz r x t1 b1
  generalize hr1 : addLocal env s.viewx s.viewy s.viewz r x t1 b1 = r1 at *
  have hrange1 : r1.minx = x ∧ r1.maxx = x := by
    by_cases hemp : r.minx > r.maxx
    · exact e5 hemp
    · have hin : x ≤ r.maxx ∧ x ≥ r.minx := by
        rw [hminx, hmaxx] at hemp ⊢
        omega
      obtain ⟨g1, g2⟩ := e6 hin
      rw [g1, g2, hminx, hmaxx]
      rw [hminx, hmaxx] at hin
      omega
  have hlen1 : r1.top.length = env.video_width ∧ r1.bottom.length = env.video_width := by
    rw [hf1.2.2.2.2.2.2.2.2.1, hf1.2.2.2.2.2.2.2.2.2, htop, hbot]
    simp
  have hwt1 : r1.top.getD x.toNat 0 = t1 := by
    rw [e1, getD_set_self]
    rw [htop]
    simpa using hi
  have hwb1 : r1.bottom.getD x.toNat 0 = b1 := by
    rw [e2, getD_set_self]
    rw [hbot]
    simpa using hi
  have hs1 : (putWindow s w r1).windows[w]? = some r1 := getElem?_putWindow_self r1 hwlt
  have hbuf1 : BuffersOK env (putWindow s w r1) := hbuf'.putWindow w r1 hlen1
  have hpool1 : PoolOK (putWindow s w r1) pool.tail := hpool'.putWindow_frame r1 hwp
  -- second call: the parent hands the column to a new child
  have hon2 : ¬ (b2 < 0 ∨ t2 ≥ env.view_height) := by
    rintro (h | h) <;> linarith [h2.1, h2.2.1, h2.2.2]
  have hgo : GoesToChild env r1 x t2 b2 := by
    refine ⟨hon2, ⟨by omega, by omega⟩, ?_, ?_⟩
    · rw [hwt1, hwb1]
      linarith [h1.2.1]
    · rw [hwt1, hwb1]
      exact hdis
  have hchild1 : r1.child = none := by rw [hf1.1, hchild]
  obtain ⟨c, s2, hcreate, hcw, hpar2, ⟨rc, hrc, hclr, _, hcp, hcl, hct, hcf, hcc⟩, hfr2,
    hbuf2, hglob2, _, _, hcase⟩ := R_CreateChildWindow_spec hbuf1 hpool1 hs1 hchild1 hwp
  have hlen2 : s2.windows.length ≤ s.windows.length + 1 := by
    have : (putWindow s w r1).windows.length = s.windows.length := by simp [putWindow]
    rcases hcase with ⟨_, h⟩ | ⟨_, _, h⟩ <;> omega
  obtain ⟨hstepc, hfreec, _⟩ := R_WindowAdd_cleared_column env fuel2 s2 c rc x t2 b2 hrc
    ⟨hx.1, hx.2.1⟩ hclr.1 hclr.2.1 ⟨h2.1, by linarith, by linarith, h2.2.2⟩
  have hstep2 : R_WindowAdd env (fuel2 + 2) (putWindow s w r1) (some w) x t2 b2 =
      .ok (putWindow s2 c (addLocal env s2.viewx s2.viewy s2.viewz rc x t2 b2)) := by
    rw [R_WindowAdd_step env (fuel2 + 1) (putWindow s w r1) w r1 x t2 b2 hs1
      ⟨hx.1, hx.2.1⟩ hlen1 ?_ ?_]
    · rw [if_pos hgo, if_pos hchild1, hcreate]
      simp only [hpar2]
      exact hstepc
    · rintro _ ⟨h | h, _⟩ <;> linarith [h2.1, h2.2.2]
    · rintro _ ⟨_, h⟩
      rw [hwt1, hwb1] at h
      rcases h with h | h | h | h <;> linarith [h1.1, h1.2.1, h1.2.2]
  obtain ⟨d1, d2, _, _, d5, d6⟩ :=
    addLocal_free env s2.viewx s2.viewy s2.viewz rc x t2 b2 hon2 hfreec
  have hfc := addLocal_fields env s2.viewx s2.viewy s2.viewz rc x t2 b2
  generalize hrc' : addLocal env s2.viewx s2.viewy s2.viewz rc x t2 b2 = rc' at *
  have hrangec : rc'.minx = x ∧ rc'.maxx = x := by
    obtain ⟨_, _, c3, c4, _⟩ := hclr
    by_cases hemp : rc.minx > rc.maxx
    · exact d5 hemp
    · have hin : x ≤ rc.maxx ∧ x ≥ rc.minx := by
        rw [c3, c4] at hemp ⊢
        omega
      obtain ⟨g1, g2⟩ := d6 hin
      rw [g1, g2, c3, c4]
      rw [c3, c4] at hin
      omega
  have hclt : c < s2.windows.length := (List.getElem?_eq_some.mp hrc).1
  refine ⟨_, _, { r1 with child := some c }, c, rc', hstep1, hstep2, ?_, hwt1, hwb1,
    hrange1.1, hrange1.2, rfl, hcw, getElem?_putWindow_self rc' hclt, hrangec.1, hrangec.2,
    ?_, ?_, ?_, ?_, ?_, ?_, ?_, ?_, by simpa [putWindow] using hlen2⟩
  · rw [getElem?_putWindow_ne _ hcw, hpar2]
  · rw [d1, getD_set_self]
    rw [hclr.1]
    simpa using hi
  · rw [d2, getD_set_self]
    rw [hclr.2.1]
    simpa using hi
  · rw [hfc.1, hclr.2.2.2.2.1]
  · rw [hfc.2.2.2.1, hcp]
  · rw [hfc.2.2.2.2.1, hcl]
  · rw [hfc.2.2.2.2.2.1, hct]
  · rw [hfc.2.2.2.2.2.2.1, hcf]
  · rw [hfc.2.2.2.2.2.2.2.1, hcc]

/-- C5, evaluated on the sample of the specification: on a freshly claimed
window, `(2, 10, 20)` followed by `(2, 40, 50)` leaves `(10, 20)` in the parent
and `(40, 50)` in a new child. -/
theorem windowAdd_disjoint_witness :
    ∃ s1 s2 r c rc, R_WindowAdd narrowEnv 1 claimedState (some 0) 2 10 20 = .ok s1 ∧
      R_WindowAdd narrowEnv 2 s1 (some 0) 2 40 50 = .ok s2 ∧
      s2.windows[0]? = some r ∧
      r.top.getD (2 : Int).toNat 0 = 10 ∧ r.bottom.getD (2 : Int).toNat 0 = 20 ∧
      r.minx = 2 ∧ r.maxx = 2 ∧ r.child = some c ∧ c ≠ 0 ∧
      s2.windows[c]? = some rc ∧
      rc.minx = 2 ∧ rc.maxx = 2 ∧
      rc.top.getD (2 : Int).toNat 0 = 40 ∧ rc.bottom.getD (2 : Int).toNat 0 = 50 ∧
      rc.child = none ∧
      rc.portal = r.portal ∧ rc.line = r.line ∧ rc.type = r.type ∧ rc.func = r.func ∧
      rc.clipfunc = r.clipfunc ∧
      s2.windows.length ≤ claimedState.windows.length + 1 :=
  windowAdd_disjoint narrowEnv skyboxState claimedState [] (some 0) none .pw_floor 0 2
    10 20 40 50 0 0 (by decide) (by rfl) (by decide) (by decide) (by decide) (by decide)

/-- A span that passes the input assertion and is not rejected as off screen has
both ends on screen. -/
theorem span_on_screen {env : Env} {ytop ybottom : ℚ}
    (hvalid : ¬ ((ybottom ≥ env.view_height ∨ ytop < 0) ∧ ytop < ybottom))
    (hon : ¬ (ybottom < 0 ∨ ytop ≥ env.view_height)) :
    0 ≤ ytop ∧ ytop < env.view_height ∧ 0 ≤ ybottom ∧ ybottom < env.view_height := by
  have h1 : 0 ≤ ybottom := not_lt.mp (fun h => hon (Or.inl h))
  have h2 : ytop < env.view_height := not_le.mp (fun h => hon (Or.inr h))
  by_cases h : ytop < ybottom
  · have h3 : ybottom < env.view_height := not_le.mp (fun h' => hvalid ⟨Or.inl h', h⟩)
    have h4 : 0 ≤ ytop := not_lt.mp (fun h' => hvalid ⟨Or.inr h', h⟩)
    exact ⟨h4, h2, h1, h3⟩
  · have h5 : ybottom ≤ ytop := not_lt.mp h
    exact ⟨le_trans h1 h5, h2, h1, lt_of_le_of_lt h5 h2⟩

/-- `addLocal` keeps every column cleared or on screen, for spans that pass the
input assertion. -/
theorem addLocal_colsOK (env : Env) (vx vy vz : Int) (w : pwindow_t) (x : Int)
    (ytop ybottom : ℚ) (hw : ColsOK env w)
    (hlen : w.top.length = env.video_width ∧ w.bottom.length = env.video_width)
    (hx : 0 ≤ x ∧ x < env.video_width)
    (hvalid : ¬ ((ybottom ≥ env.view_height ∨ ytop < 0) ∧ ytop < ybottom)) :
    ColsOK env (addLocal env vx vy vz w x ytop ybottom) := by
  intro j hj
  have hcol := hw j hj
  have hi : x.toNat < env.video_width := by omega
  unfold addLocal
  simp only
  by_cases hoff : ybottom < 0 ∨ ytop ≥ env.view_height
  · rw [if_pos hoff]
    exact hcol
  · rw [if_neg hoff]
    have hspan := span_on_screen hvalid hoff
    have hh : (0 : ℚ) < env.view_height := lt_of_le_of_lt hspan.1 hspan.2.1
    have key : ColOK env ((w.top.set x.toNat ytop).getD j 0)
        ((w.bottom.set x.toNat ybottom).getD j 0) := by
      by_cases hji : x.toNat = j
      · subst hji
        rw [getD_set_self _ _ _ _ (by omega), getD_set_self _ _ _ _ (by omega)]
        exact Or.inr hspan
      · rw [getD_set_ne _ _ _ _ _ hji, getD_set_ne _ _ _ _ _ hji]
        exact hcol
    have occ : ¬ w.top.getD x.toNat 0 > w.bottom.getD x.toNat 0 →
        0 ≤ w.top.getD x.toNat 0 ∧ w.top.getD x.toNat 0 < env.view_height ∧
        0 ≤ w.bottom.getD x.toNat 0 ∧ w.bottom.getD x.toNat 0 < env.view_height := by
      intro hocc
      rcases hw x.toNat hi with ⟨h1, h2⟩ | h
      · exfalso
        apply hocc
        rw [h1, h2]
        linarith
      · exact h
    by_cases hr : x ≤ w.maxx ∧ x ≥ w.minx
    · rw [if_pos hr]
      by_cases hfree : w.top.getD x.toNat 0 > w.bottom.getD x.toNat 0
      · rw [if_pos hfree]
        exact key
      · rw [if_neg hfree]
        simp only
        have ho := occ hfree
        by_cases hji : x.toNat = j
        · subst hji
          right
          refine ⟨?_, ?_, ?_, ?_⟩
          · split_ifs
            · rw [getD_set_self _ _ _ _ (by omega)]
              exact hspan.1
            · exact ho.1
          · split_ifs
            · rw [getD_set_self _ _ _ _ (by omega)]
              exact hspan.2.1
            · exact ho.2.1
          · split_ifs
            · rw [getD_set_self _ _ _ _ (by omega)]
              exact hspan.2.2.1
            · exact ho.2.2.1
          · split_ifs
            · rw [getD_set_self _ _ _ _ (by omega)]
              exact hspan.2.2.2
            · exact ho.2.2.2
        · have e1 : (if ytop < w.top.getD x.toNat 0 then w.top.set x.toNat ytop
              else w.top).getD j 0 = w.top.getD j 0 := by
            split_ifs
            · exact getD_set_ne _ _ _ _ _ hji
            · rfl
          have e2 : (if ybottom > w.bottom.getD x.toNat 0 then w.bottom.set x.toNat ybottom
              else w.bottom).getD j 0 = w.bottom.getD j 0 := by
            split_ifs
            · exact getD_set_ne _ _ _ _ _ hji
            · rfl
          rw [e1, e2]
          exact hcol
    · rw [if_neg hr]
      split_ifs
      · exact key
      · exact key
      · exact key
      · exact hcol

theorem colsOK_of_cleared {env : Env} {r : pwindow_t} (h : IsCleared env r) :
    ColsOK env r := by
  intro i hi
  rw [h.1, h.2.1, getD_replicate_lt _ _ _ _ hi, getD_replicate_lt _ _ _ _ hi]
  exact Or.inl ⟨rfl, rfl⟩

/-- The assertion on the stored opening passes on a column that is cleared or
on screen. -/
theorem opening_ok {env : Env} {top bottom : ℚ} (hh : 0 < env.view_height)
    (h : ColOK env top bottom) :
    ¬ (bottom > top ∧ (top < 0 ∨ bottom < 0 ∨ top ≥ env.view_height ∨
      bottom ≥ env.view_height)) := by
  rintro ⟨h1, h2⟩
  rcases h with ⟨e1, e2⟩ | ⟨g1, g2, g3, g4⟩
  · rw [e1, e2] at h1
    linarith
  · rcases h2 with h | h | h | h <;> linarith

/-- One call of `R_WindowAdd` on a window with a well-formed child chain, with
arguments that pass the input assertions and enough fuel for the chain: the
call returns, the chain is unchanged or one window longer, and the invariant
holds again. -/
theorem R_WindowAdd_chain (env : Env) (hh : 0 < env.view_height) (x : Int)
    (ytop ybottom : ℚ) (hcall : ValidCall env (x, ytop, ybottom)) :
    ∀ (rest : List Nat) (a : Nat) (s : State) (pool : List Nat) (fuel : Nat),
      ChainOK env s a rest pool → rest.length + 2 ≤ fuel →
      ∃ s' rest' pool', R_WindowAdd env fuel s (some a) x ytop ybottom = .ok s' ∧
        ChainOK env s' a rest' pool' ∧
        ((rest' = rest ∧ pool' = pool ∧ s'.windows.length = s.windows.length) ∨
         (∃ c, rest' = rest ++ [c] ∧ pool' = pool.tail ∧
            ((pool.head? = some c ∧ s'.windows.length = s.windows.length) ∨
             (pool = [] ∧ c = s.windows.length ∧
                s'.windows.length = s.windows.length + 1)))) ∧
        (∀ b, b ∉ a :: rest → b ∉ pool → b < s.windows.length →
          s'.windows[b]? = s.windows[b]?) ∧
        SameGlobals s s' := by
  obtain ⟨hx0, hx1, hvalid⟩ := hcall
  simp only at hx0 hx1 hvalid
  intro rest
  induction rest with
  | nil =>
    intro a s pool fuel hinv hfuel
    obtain ⟨hchain, hpool, hnd, hbuf, hcols⟩ := hinv
    rw [IsList.cons_iff] at hchain
    obtain ⟨_, w, hw, hrest⟩ := hchain
    rw [IsList.nil_iff] at hrest
    have halt : a < s.windows.length := (List.getElem?_eq_some.mp hw).1
    have hap : a ∉ pool := by
      intro h
      have := List.nodup_cons.mp hnd
      exact this.1 (by simpa using h)
    have hwcols := hcols a (List.mem_cons_self _ _) w hw
    have hi : x.toNat < env.video_width := by omega
    obtain ⟨f, rfl⟩ : ∃ f, fuel = f + 1 := ⟨fuel - 1, by omega⟩
    have hstep := R_WindowAdd_step env f s a w x ytop ybottom hw ⟨hx0, hx1⟩ (hbuf.get hw)
      (fun _ => hvalid) (fun _ => opening_ok hh (hwcols x.toNat hi))
    by_cases hg : GoesToChild env w x ytop ybottom
    · -- a child is created and takes the column
      obtain ⟨c, s1, hcreate, hca, hpar1, ⟨rc, hrc, hclr, _⟩, hfr1, hbuf1, hglob1, hpool1,
        hcp, hcase⟩ := R_CreateChildWindow_spec hbuf hpool hw hrest hap
      obtain ⟨f', rfl⟩ : ∃ f', f = f' + 1 := ⟨f - 1, by simp at hfuel; omega⟩
      have hspan := span_on_screen hvalid hg.1
      obtain ⟨hstepc, _, _⟩ := R_WindowAdd_cleared_column env f' s1 c rc x ytop ybottom hrc
        ⟨hx0, hx1⟩ hclr.1 hclr.2.1 hspan
      have hfc := addLocal_fields env s1.viewx s1.viewy s1.viewz rc x ytop ybottom
      have hcolc := addLocal_colsOK env s1.viewx s1.viewy s1.viewz rc x ytop ybottom
        (colsOK_of_cleared hclr) (hbuf1.get hrc) ⟨hx0, hx1⟩ hvalid
      generalize addLocal env s1.viewx s1.viewy s1.viewz rc x ytop ybottom = rc' at *
      have hclt : c < s1.windows.length := (List.getElem?_eq_some.mp hrc).1
      have hrun : R_WindowAdd env (f' + 1 + 1) s (some a) x ytop ybottom =
          .ok (putWindow s1 c rc') := by
        rw [hstep, if_pos hg, if_pos hrest, hcreate]
        simp only [hpar1]
        exact hstepc
      have ha' : (putWindow s1 c rc').windows[a]? = some { w with child := some c } := by
        rw [getElem?_putWindow_ne _ hca, hpar1]
      have hc' : (putWindow s1 c rc').windows[c]? = some rc' :=
        getElem?_putWindow_self rc' hclt
      have hcnew : c ∈ pool ∨ c = s.windows.length := by
        rcases hcase with ⟨h, _⟩ | ⟨_, h, _⟩
        · left
          cases pool with
          | nil => simp at h
          | cons b pool =>
            simp at h
            subst h
            exact List.mem_cons_self _ _
        · exact Or.inr h
      refine ⟨putWindow s1 c rc', [c], pool.tail, hrun, ⟨?_, hpool1.putWindow_frame rc' hcp, ?_,
        hbuf1.putWindow c rc' ?_, ?_⟩, Or.inr ⟨c, rfl, rfl, ?_⟩, ?_, ?_⟩
      · rw [IsList.cons_iff]
        refine ⟨rfl, _, ha', ?_⟩
        rw [IsList.cons_iff]
        refine ⟨rfl, _, hc', ?_⟩
        rw [IsList.nil_iff, hfc.1, hclr.2.2.2.2.1]
      · have hat : a ∉ pool.tail := fun h => hap (List.mem_of_mem_tail h)
        have hndt : pool.tail.Nodup := hpool1.2
        simp only [List.cons_append, List.nil_append, List.nodup_cons, List.mem_cons]
        refine ⟨?_, hcp, hndt⟩
        rintro (h | h)
        · exact hca h.symm
        · exact hat h
      · rw [hfc.2.2.2.2.2.2.2.2.1, hfc.2.2.2.2.2.2.2.2.2]
        exact hbuf1.get hrc
      · intro b hb r hr
        simp only [List.mem_cons, List.mem_singleton, List.not_mem_nil, or_false] at hb
        rcases hb with rfl | rfl
        · rw [ha'] at hr
          cases hr
          exact hwcols
        · rw [hc'] at hr
          cases hr
          exact hcolc
      · simpa [putWindow] using hcase
      · intro b hb hbp hblt
        have hba : b ≠ a := fun h => hb (by simp [h])
        have hbc : b ≠ c := by
          rintro rfl
          rcases hcnew with h | h
          · exact hbp h
          · omega
        rw [getElem?_putWindow_ne _ (Ne.symm hbc)]
        exact hfr1 b hba hbc
      · simpa [SameGlobals, putWindow] using hglob1
    · -- the column is handled in the window itself
      have hfl := addLocal_fields env s.viewx s.viewy s.viewz w x ytop ybottom
      have hcl := addLocal_colsOK env s.viewx s.viewy s.viewz w x ytop ybottom hwcols
        (hbuf.get hw) ⟨hx0, hx1⟩ hvalid
      generalize addLocal env s.viewx s.viewy s.viewz w x ytop ybottom = w' at *
      have hrun : R_WindowAdd env (f + 1) s (some a) x ytop ybottom =
          .ok (putWindow s a w') := by
        rw [hstep, if_neg hg]
      have ha' : (putWindow s a w').windows[a]? = some w' := getElem?_putWindow_self w' halt
      refine ⟨putWindow s a w', [], pool, hrun, ⟨?_, hpool.putWindow_frame w' hap, hnd,
        hbuf.putWindow a w' ?_, ?_⟩, Or.inl ⟨rfl, rfl, by simp [putWindow]⟩, ?_, ?_⟩
      · rw [IsList.cons_iff]
        refine ⟨rfl, _, ha', ?_⟩
        rw [IsList.nil_iff, hfl.1, hrest]
      · rw [hfl.2.2.2.2.2.2.2.2.1, hfl.2.2.2.2.2.2.2.2.2]
        exact hbuf.get hw
      · intro b hb r hr
        simp only [List.mem_singleton] at hb
        subst hb
        rw [ha'] at hr
        cases hr
        exact hcl
      · intro b hb _ _
        have hba : a ≠ b := fun h => hb (by simp [h])
        exact getElem?_putWindow_ne _ hba
      · simp [SameGlobals, putWindow]
  | cons c rest ih =>
    intro a s pool fuel hinv hfuel
    obtain ⟨hchain, hpool, hnd, hbuf, hcols⟩ := hinv
    rw [IsList.cons_iff] at hchain
    obtain ⟨_, w, hw, hrest⟩ := hchain
    have hwc : w.child = some c := by
      rw [IsList.cons_iff] at hrest
      exact hrest.1
    rw [hwc] at hrest
    have halt : a < s.windows.length := (List.getElem?_eq_some.mp hw).1
    have hnd' := List.nodup_cons.mp hnd
    have hap : a ∉ pool := fun h => hnd'.1 (by simp [h])
    have hac : a ∉ c :: rest := fun h => hnd'.1 (List.mem_append_left _ h)
    have hwcols := hcols a (List.mem_cons_self _ _) w hw
    have hi : x.toNat < env.video_width := by omega
    obtain ⟨f, rfl⟩ : ∃ f, fuel = f + 1 := ⟨fuel - 1, by omega⟩
    have hstep := R_WindowAdd_step env f s a w x ytop ybottom hw ⟨hx0, hx1⟩ (hbuf.get hw)
      (fun _ => hvalid) (fun _ => opening_ok hh (hwcols x.toNat hi))
    by_cases hg : GoesToChild env w x ytop ybottom
    · -- the call descends to the existing child
      have hinvc : ChainOK env s c rest pool :=
        ⟨hrest, hpool, hnd'.2, hbuf, fun b hb => hcols b (List.mem_cons_of_mem _ hb)⟩
      obtain ⟨s', rest', pool', hrunc, hinv', hcase, hfr, hglob⟩ :=
        ih c s pool f hinvc (by simp at hfuel ⊢; omega)
      have hrun : R_WindowAdd env (f + 1) s (some a) x ytop ybottom = .ok s' := by
        rw [hstep, if_pos hg, if_neg (by rw [hwc]; simp)]
        simp only [hw, hwc]
        exact hrunc
      have ha' : s'.windows[a]? = some w := by
        rw [hfr a hac hap halt, hw]
      obtain ⟨hchain', hpool', hndc, hbuf', hcols'⟩ := hinv'
      have hnew : a ∉ c :: rest' ++ pool' := by
        rcases hcase with ⟨rfl, rfl, _⟩ | ⟨cn, rfl, rfl, hcn⟩
        · exact hnd'.1
        · intro h
          simp only [List.cons_append, List.mem_cons, List.mem_append,
            List.mem_singleton, List.append_assoc] at h
          rcases h with h | h | h | h
          · exact hac (by simp [h])
          · exact hac (List.mem_cons_of_mem _ h)
          · subst h
            rcases hcn with ⟨hcn, _⟩ | ⟨_, hcn, _⟩
            · cases pool with
              | nil => simp at hcn
              | cons b pool =>
                simp at hcn
                subst hcn
                exact hap (List.mem_cons_self _ _)
            · omega
          · rcases h with h | h
            · simp at h
            · exact hap (List.mem_of_mem_tail h)
      refine ⟨s', c :: rest', pool', hrun, ⟨?_, hpool', ?_, hbuf', ?_⟩, ?_, ?_, hglob⟩
      · rw [IsList.cons_iff]
        refine ⟨rfl, w, ha', ?_⟩
        rw [hwc]
        exact hchain'
      · exact List.nodup_cons.mpr ⟨hnew, hndc⟩
      · intro b hb r hr
        rcases List.mem_cons.mp hb with rfl | hb
        · rw [ha'] at hr
          cases hr
          exact hwcols
        · exact hcols' b hb r hr
      · rcases hcase with ⟨rfl, rfl, hl⟩ | ⟨cn, rfl, rfl, hcn⟩
        · exact Or.inl ⟨rfl, rfl, hl⟩
        · exact Or.inr ⟨cn, rfl, rfl, hcn⟩
      · intro b hb hbp hblt
        exact hfr b (fun h => hb (List.mem_cons_of_mem _ h)) hbp hblt
    · -- the column is handled in the window itself
      have hfl := addLocal_fields env s.viewx s.viewy s.viewz w x ytop ybottom
      have hcl := addLocal_colsOK env s.viewx s.viewy s.viewz w x ytop ybottom hwcols
        (hbuf.get hw) ⟨hx0, hx1⟩ hvalid
      generalize addLocal env s.viewx s.viewy s.viewz w x ytop ybottom = w' at *
      have hrun : R_WindowAdd env (f + 1) s (some a) x ytop ybottom =
          .ok (putWindow s a w') := by
        rw [hstep, if_neg hg]
      have ha' : (putWindow s a w').windows[a]? = some w' := getElem?_putWindow_self w' halt
      refine ⟨putWindow s a w', c :: rest, pool, hrun, ⟨?_, hpool.putWindow_frame w' hap, hnd,
        hbuf.putWindow a w' ?_, ?_⟩, Or.inl ⟨rfl, rfl, by simp [putWindow]⟩, ?_, ?_⟩
      · rw [IsList.cons_iff]
        refine ⟨rfl, _, ha', ?_⟩
        rw [hfl.1, hwc]
        apply hrest.of_agree
        intro b hb
        apply getElem?_putWindow_ne
        rintro rfl
        exact hac hb
      · rw [hfl.2.2.2.2.2.2.2.2.1, hfl.2.2.2.2.2.2.2.2.2]
        exact hbuf.get hw
      · intro b hb r hr
        rcases List.mem_cons.mp hb with rfl | hb
        · rw [ha'] at hr
          cases hr
          exact hcl
        · have hba : a ≠ b := by
            rintro rfl
            exact hac hb
          rw [getElem?_putWindow_ne _ hba] at hr
          exact hcols b (List.mem_cons_of_mem _ hb) r hr
      · intro b hb _ _
        have hba : a ≠ b := fun h => hb (by simp [h])
        exact getElem?_putWindow_ne _ hba
      · simp [SameGlobals, putWindow]

/-- A sequence of `R_WindowAdd` calls that pass the input assertions keeps the
chain invariant, given fuel for the longest chain that can arise. -/
theorem runAdds_chain (env : Env) (hh : 0 < env.view_height) (w : Nat) :
    ∀ (calls : List (Int × ℚ × ℚ)) (s : State) (rest pool : List Nat) (fuel : Nat),
      ChainOK env s w rest pool → (∀ c ∈ calls, ValidCall env c) →
      rest.length + calls.length + 1 ≤ fuel →
      ∃ s' rest' pool', runAdds env fuel w s calls = .ok s' ∧
        ChainOK env s' w rest' pool' := by
  intro calls
  induction calls with
  | nil =>
    intro s rest pool fuel hinv _ _
    exact ⟨s, rest, pool, rfl, hinv⟩
  | cons c cs ih =>
    intro s rest pool fuel hinv hvalid hfuel
    simp only [List.length_cons] at hfuel
    obtain ⟨s1, rest1, pool1, hrun1, hinv1, hcase, _, _⟩ :=
      R_WindowAdd_chain env hh c.1 c.2.1 c.2.2 (hvalid c (List.mem_cons_self _ _))
        rest w s pool fuel hinv (by omega)
    have hlen : rest1.length ≤ rest.length + 1 := by
      rcases hcase with ⟨rfl, _⟩ | ⟨cn, rfl, _⟩
      · omega
      · simp
    obtain ⟨s', rest', pool', hrun', hinv'⟩ := ih s1 rest1 pool1 fuel hinv1
      (fun c' hc' => hvalid c' (List.mem_cons_of_mem _ hc')) (by omega)
    refine ⟨s', rest', pool', ?_, hinv'⟩
    simp only [runAdds, hrun1]
    exact hrun'

/-- C6, refuted as stated. In a build without `RANGECHECK`, on a freshly claimed
window, the call `R_WindowAdd (w, 2, -5, 10)` returns and leaves column 2
occupied (top < bottom) with its top at `-5`, outside `[0, view.height]`. -/
theorem windowAdd_stores_span_above_screen :
    ∃ w s s1 r,
      R_NewPortalWindow narrowEnvRelease skyboxState (some 0) none .pw_floor = .ok (w, s) ∧
      R_WindowAdd narrowEnvRelease 1 s (some w) 2 (-5) 10 = .ok s1 ∧
      s1.windows[w]? = some r ∧
      r.top.getD 2 0 < r.bottom.getD 2 0 ∧ r.top.getD 2 0 < 0 := by
  refine ⟨0, claimedState, _, _, by rfl, by rfl, by rfl, by decide, by decide⟩

/-- C6: a span with a NaN end. In a `RANGECHECK` build with `view.height = 200`,
on a window whose column 2 holds the span `(10, 20)`, the call
`R_WindowAdd (w, 2, NaN, 250)` passes the input assertions and returns, and
column 2 is then occupied with its bottom at `250`, below the screen. -/
theorem windowAdd_nan_span_stored :
    ∃ s1 r,
      Flt.ValidCall narrowEnv (2, .nan, .num 250) ∧
      Flt.R_WindowAdd narrowEnv 1 spanFltState (some 0) 2 .nan (.num 250) = .ok s1 ∧
      s1.windows[0]? = some r ∧
      r.top.getD 2 (.num 0) < r.bottom.getD 2 (.num 0) ∧
      cfloat.num narrowEnv.view_height ≤ r.bottom.getD 2 (.num 0) := by
  refine ⟨_, _, by decide, by rfl, by rfl, by decide, by decide⟩

/-- C6, amended. Take a window `w` just returned by `R_NewPortalWindow` from a
state with a well-formed free list, on a screen of positive height, and any
sequence of `R_WindowAdd` calls on `w` whose spans hold no NaN (an end is a
finite value or an infinity) and whose arguments pass the function's input
assertions (column in `[0, video.width)`, and not a top-to-bottom span that
leaves the view). Then every call returns, and afterwards the column buffers
hold numbers (the state is `s'.toFlt`) and every column of `w` and of every
window on its child chain is either as `R_ClearPortalWindow` left it (top =
`view.height`, bottom = `-1`, hence empty) or has both ends in
`[0, view.height)`; in particular an occupied column (top < bottom) has its top
and bottom in `[0, view.height)`. When all the spans are finite, `s'` is the
state the calls give over rationals. With a NaN end the statement fails
(`windowAdd_nan_span_stored`). -/
theorem windowAdd_columns_on_screen (env : Env) (s0 s : State) (pool : List Nat)
    (p l : Ptr) (t : pwindowtype_e) (w : Nat) (fcalls : List (Int × cfloat × cfloat))
    (fuel : Nat)
    (hh : 0 < env.view_height)
    (hok : FreeListOK env s0 pool)
    (hnew : R_NewPortalWindow env s0 p l t = .ok (w, s))
    (hfvalid : ∀ c ∈ fcalls, Flt.ValidCall env c ∧ c.2.1 ≠ .nan ∧ c.2.2 ≠ .nan)
    (hffuel : fcalls.length + 1 ≤ fuel) :
    ∃ s' chain, Flt.runAdds env fuel w s.toFlt fcalls = .ok s'.toFlt ∧
      (∀ calls, fcalls = calls.map Flt.ofCall → runAdds env fuel w s calls = .ok s') ∧
      IsList pwindow_t.child s'.windows (some w) (w :: chain) ∧
      ∀ a ∈ w :: chain, ∃ r, s'.windows[a]? = some r ∧
        ∀ i, i < env.video_width →
          ColOK env (r.top.getD i 0) (r.bottom.getD i 0) ∧
          (r.top.getD i 0 < r.bottom.getD i 0 →
            0 ≤ r.top.getD i 0 ∧ r.top.getD i 0 < env.view_height ∧
            0 ≤ r.bottom.getD i 0 ∧ r.bottom.getD i 0 < env.view_height) := by
  obtain ⟨calls, hvalid, hlen, hsame, huniq⟩ := calls_as_numbers env fcalls hfvalid
  have hfuel : calls.length + 1 ≤ fuel := by rw [hlen]; exact hffuel
  obtain ⟨hbuf, hpool, hlast⟩ := hok
  obtain ⟨r, hr, htop, hbot, _, _, hchild, _, _, _, _, _, _, _, hbuf', _⟩ :=
    R_NewPortalWindow_window hbuf hnew
  obtain ⟨hpool', hwp, _⟩ := R_NewPortalWindow_pool hbuf hpool
    (by
      intro lst hl
      rw [hl] at hlast
      exact hlast) hnew
  have hinv : ChainOK env s w [] pool.tail := by
    refine ⟨?_, hpool', ?_, hbuf', ?_⟩
    · rw [IsList.cons_iff]
      exact ⟨rfl, r, hr, by rw [IsList.nil_iff, hchild]⟩
    · simpa using ⟨hwp, hpool'.2⟩
    · intro b hb r' hr' i hi
      simp only [List.mem_singleton] at hb
      subst hb
      rw [hr] at hr'
      cases hr'
      rw [htop, hbot, getD_replicate_lt _ _ _ _ hi, getD_replicate_lt _ _ _ _ hi]
      exact Or.inl ⟨rfl, rfl⟩
  obtain ⟨s', rest', pool', hrun, hchain, _, _, _, hcols⟩ :=
    runAdds_chain env hh w calls s [] pool.tail fuel hinv hvalid (by simpa using hfuel)
  refine ⟨s', rest', by rw [hsame, runAdds_toFlt, hrun]; rfl,
    fun ncalls h => by rw [← huniq ncalls h]; exact hrun, hchain, ?_⟩
  intro a ha
  have hva := hchain.valid a ha
  obtain ⟨ra, hra⟩ : ∃ ra, s'.windows[a]? = some ra :=
    ⟨s'.windows[a], List.getElem?_eq_getElem hva⟩
  refine ⟨ra, hra, ?_⟩
  intro i hi
  have hc := hcols a ha ra hra i hi
  refine ⟨hc, ?_⟩
  intro hocc
  rcases hc with ⟨e1, e2⟩ | h
  · rw [e1, e2] at hocc
    linarith
  · exact h

/-- C6 (amended), evaluated: four calls on a freshly claimed window, the second
with the span `(+∞, +∞)`, which is off screen and stores nothing, and the last
of which creates a child. -/
theorem windowAdd_columns_on_screen_witness :
    ∃ s' chain,
      Flt.runAdds narrowEnv 5 0 claimedState.toFlt
        [(2, .num 10, .num 20), (2, .posInf, .posInf), (2, .num 15, .num 30),
          (2, .num 40, .num 50)] = .ok s'.toFlt ∧
      (∀ calls, [(2, .num 10, .num 20), (2, .posInf, .posInf), (2, .num 15, .num 30),
          (2, .num 40, .num 50)] = calls.map Flt.ofCall →
        runAdds narrowEnv 5 0 claimedState calls = .ok s') ∧
      IsList pwindow_t.child s'.windows (some 0) (0 :: chain) ∧
      ∀ a ∈ 0 :: chain, ∃ r, s'.windows[a]? = some r ∧
        ∀ i, i < narrowEnv.video_width →
          ColOK narrowEnv (r.top.getD i 0) (r.bottom.getD i 0) ∧
          (r.top.getD i 0 < r.bottom.getD i 0 →
            0 ≤ r.top.getD i 0 ∧ r.top.getD i 0 < narrowEnv.view_height ∧
            0 ≤ r.bottom.getD i 0 ∧ r.bottom.getD i 0 < narrowEnv.view_height) :=
  windowAdd_columns_on_screen narrowEnv skyboxState claimedState [] (some 0) none .pw_floor 0
    [(2, .num 10, .num 20), (2, .posInf, .posInf), (2, .num 15, .num 30),
      (2, .num 40, .num 50)] 5 (by decide) (by decide) (by rfl) (by decide) (by decide)

/-! ## State updates, field by field -/

@[simp]
theorem logEvent_fields (s : State) (e : Event) :
    (logEvent s e).portals = s.portals ∧
    (logEvent s e).windows = s.windows ∧
    (logEvent s e).unusedhead = s.unusedhead ∧
    (logEvent s e).windowhead = s.windowhead ∧
    (logEvent s e).windowlast = s.windowlast ∧
    (logEvent s e).portalrender = s.portalrender ∧
    (logEvent s e).viewx = s.viewx ∧
    (logEvent s e).viewy = s.viewy ∧
    (logEvent s e).viewz = s.viewz ∧
    (logEvent s e).viewangle = s.viewangle ∧
    (logEvent s e).validcount = s.validcount ∧
    (logEvent s e).floorclip = s.floorclip ∧
    (logEvent s e).ceilingclip = s.ceilingclip ∧
    (logEvent s e).trace = s.trace ++ [e] :=
  ⟨rfl, rfl, rfl, rfl, rfl, rfl, rfl, rfl, rfl, rfl, rfl, rfl, rfl, rfl⟩

@[simp]
theorem logEvents_fields (s : State) (es : List Event) :
    (logEvents s es).portals = s.portals ∧
    (logEvents s es).windows = s.windows ∧
    (logEvents s es).unusedhead = s.unusedhead ∧
    (logEvents s es).windowhead = s.windowhead ∧
    (logEvents s es).windowlast = s.windowlast ∧
    (logEvents s es).portalrender = s.portalrender ∧
    (logEvents s es).viewx = s.viewx ∧
    (logEvents s es).viewy = s.viewy ∧
    (logEvents s es).viewz = s.viewz ∧
    (logEvents s es).viewangle = s.viewangle ∧
    (logEvents s es).validcount = s.validcount ∧
    (logEvents s es).floorclip = s.floorclip ∧
    (logEvents s es).ceilingclip = s.ceilingclip ∧
    (logEvents s es).trace = s.trace ++ es :=
  ⟨rfl, rfl, rfl, rfl, rfl, rfl, rfl, rfl, rfl, rfl, rfl, rfl, rfl, rfl⟩

@[simp]
theorem enterStrategy_fields (s : State) (f : renderfunc_e) (wa : Nat) :
    (enterStrategy s f wa).portals = s.portals ∧
    (enterStrategy s f wa).windows = s.windows ∧
    (enterStrategy s f wa).unusedhead = s.unusedhead ∧
    (enterStrategy s f wa).windowhead = s.windowhead ∧
    (enterStrategy s f wa).windowlast = s.windowlast ∧
    (enterStrategy s f wa).portalrender = { s.portalrender with curwindow := some wa } ∧
    (enterStrategy s f wa).viewx = s.viewx ∧
    (enterStrategy s f wa).viewy = s.viewy ∧
    (enterStrategy s f wa).viewz = s.viewz ∧
    (enterStrategy s f wa).viewangle = s.viewangle ∧
    (enterStrategy s f wa).validcount = s.validcount ∧
    (enterStrategy s f wa).floorclip = s.floorclip ∧
    (enterStrategy s f wa).ceilingclip = s.ceilingclip ∧
    (enterStrategy s f wa).trace = s.trace ++ [Event.enter f wa] :=
  ⟨rfl, rfl, rfl, rfl, rfl, rfl, rfl, rfl, rfl, rfl, rfl, rfl, rfl, rfl⟩

@[simp]
theorem setClips_fields (s : State) (p : Ptr) :
    (setClips s p).portals = s.portals ∧
    (setClips s p).windows = s.windows ∧
    (setClips s p).unusedhead = s.unusedhead ∧
    (setClips s p).windowhead = s.windowhead ∧
    (setClips s p).windowlast = s.windowlast ∧
    (setClips s p).portalrender = s.portalrender ∧
    (setClips s p).viewx = s.viewx ∧
    (setClips s p).viewy = s.viewy ∧
    (setClips s p).viewz = s.viewz ∧
    (setClips s p).viewangle = s.viewangle ∧
    (setClips s p).validcount = s.validcount ∧
    (setClips s p).floorclip = p ∧
    (setClips s p).ceilingclip = p ∧
    (setClips s p).trace = s.trace :=
  ⟨rfl, rfl, rfl, rfl, rfl, rfl, rfl, rfl, rfl, rfl, rfl, rfl, rfl, rfl⟩

@[simp]
theorem setRenderRange_fields (s : State) (minx maxx : Int) :
    (setRenderRange s minx maxx).portals = s.portals ∧
    (setRenderRange s minx maxx).windows = s.windows ∧
    (setRenderRange s minx maxx).unusedhead = s.unusedhead ∧
    (setRenderRange s minx maxx).windowhead = s.windowhead ∧
    (setRenderRange s minx maxx).windowlast = s.windowlast ∧
    (setRenderRange s minx maxx).portalrender = { s.portalrender with minx := minx, maxx := maxx } ∧
    (setRenderRange s minx maxx).viewx = s.viewx ∧
    (setRenderRange s minx maxx).viewy = s.viewy ∧
    (setRenderRange s minx maxx).viewz = s.viewz ∧
    (setRenderRange s minx maxx).viewangle = s.viewangle ∧
    (setRenderRange s minx maxx).validcount = s.validcount ∧
    (setRenderRange s minx maxx).floorclip = s.floorclip ∧
    (setRenderRange s minx maxx).ceilingclip = s.ceilingclip ∧
    (setRenderRange s minx maxx).trace = s.trace :=
  ⟨rfl, rfl, rfl, rfl, rfl, rfl, rfl, rfl, rfl, rfl, rfl, rfl, rfl, rfl⟩

@[simp]
theorem incValidcount_fields (s : State) :
    (incValidcount s).portals = s.portals ∧
    (incValidcount s).windows = s.windows ∧
    (incValidcount s).unusedhead = s.unusedhead ∧
    (incValidcount s).windowhead = s.windowhead ∧
    (incValidcount s).windowlast = s.windowlast ∧
    (incValidcount s).portalrender = s.portalrender ∧
    (incValidcount s).viewx = s.viewx ∧
    (incValidcount s).viewy = s.viewy ∧
    (incValidcount s).viewz = s.viewz ∧
    (incValidcount s).viewangle = s.viewangle ∧
    (incValidcount s).validcount = wrap32 (s.validcount + 1) ∧
    (incValidcount s).floorclip = s.floorclip ∧
    (incValidcount s).ceilingclip = s.ceilingclip ∧
    (incValidcount s).trace = s.trace :=
  ⟨rfl, rfl, rfl, rfl, rfl, rfl, rfl, rfl, rfl, rfl, rfl, rfl, rfl, rfl⟩

@[simp]
theorem setViewpoint_fields (s : State) (x y z : Int) :
    (setViewpoint s x y z).portals = s.portals ∧
    (setViewpoint s x y z).windows = s.windows ∧
    (setViewpoint s x y z).unusedhead = s.unusedhead ∧
    (setViewpoint s x y z).windowhead = s.windowhead ∧
    (setViewpoint s x y z).windowlast = s.windowlast ∧
    (setViewpoint s x y z).portalrender = s.portalrender ∧
    (setViewpoint s x y z).viewx = x ∧
    (setViewpoint s x y z).viewy = y ∧
    (setViewpoint s x y z).viewz = z ∧
    (setViewpoint s x y z).viewangle = s.viewangle ∧
    (setViewpoint s x y z).validcount = s.validcount ∧
    (setViewpoint s x y z).floorclip = s.floorclip ∧
    (setViewpoint s x y z).ceilingclip = s.ceilingclip ∧
    (setViewpoint s x y z).trace = s.trace :=
  ⟨rfl, rfl, rfl, rfl, rfl, rfl, rfl, rfl, rfl, rfl, rfl, rfl, rfl, rfl⟩

@[simp]
theorem setViewangle_fields (s : State) (a : Int) :
    (setViewangle s a).portals = s.portals ∧
    (setViewangle s a).windows = s.windows ∧
    (setViewangle s a).unusedhead = s.unusedhead ∧
    (setViewangle s a).windowhead = s.windowhead ∧
    (setViewangle s a).windowlast = s.windowlast ∧
    (setViewangle s a).portalrender = s.portalrender ∧
    (setViewangle s a).viewx = s.viewx ∧
    (setViewangle s a).viewy = s.viewy ∧
    (setViewangle s a).viewz = s.viewz ∧
    (setViewangle s a).viewangle = a ∧
    (setViewangle s a).validcount = s.validcount ∧
    (setViewangle s a).floorclip = s.floorclip ∧
    (setViewangle s a).ceilingclip = s.ceilingclip ∧
    (setViewangle s a).trace = s.trace :=
  ⟨rfl, rfl, rfl, rfl, rfl, rfl, rfl, rfl, rfl, rfl, rfl, rfl, rfl, rfl⟩

@[simp]
theorem incTaint_fields (s : State) (pa : Nat) :
    (incTaint s pa).portals = s.portals.modify (fun p => { p with tainted := wrap32 (p.tainted + 1) }) pa ∧
    (incTaint s pa).windows = s.windows ∧
    (incTaint s pa).unusedhead = s.unusedhead ∧
    (incTaint s pa).windowhead = s.windowhead ∧
    (incTaint s pa).windowlast = s.windowlast ∧
    (incTaint s pa).portalrender = s.portalrender ∧
    (incTaint s pa).viewx = s.viewx ∧
    (incTaint s pa).viewy = s.viewy ∧
    (incTaint s pa).viewz = s.viewz ∧
    (incTaint s pa).viewangle = s.viewangle ∧
    (incTaint s pa).validcount = s.validcount ∧
    (incTaint s pa).floorclip = s.floorclip ∧
    (incTaint s pa).ceilingclip = s.ceilingclip ∧
    (incTaint s pa).trace = s.trace :=
  ⟨rfl, rfl, rfl, rfl, rfl, rfl, rfl, rfl, rfl, rfl, rfl, rfl, rfl, rfl⟩

@[simp]
theorem setPortal_fields (s : State) (i : Nat) (f : portal_t → portal_t) :
    (setPortal s i f).portals = s.portals.modify f i ∧
    (setPortal s i f).windows = s.windows ∧
    (setPortal s i f).unusedhead = s.unusedhead ∧
    (setPortal s i f).windowhead = s.windowhead ∧
    (setPortal s i f).windowlast = s.windowlast ∧
    (setPortal s i f).portalrender = s.portalrender ∧
    (setPortal s i f).viewx = s.viewx ∧
    (setPortal s i f).viewy = s.viewy ∧
    (setPortal s i f).viewz = s.viewz ∧
    (setPortal s i f).viewangle = s.viewangle ∧
    (setPortal s i f).validcount = s.validcount ∧
    (setPortal s i f).floorclip = s.floorclip ∧
    (setPortal s i f).ceilingclip = s.ceilingclip ∧
    (setPortal s i f).trace = s.trace :=
  ⟨rfl, rfl, rfl, rfl, rfl, rfl, rfl, rfl, rfl, rfl, rfl, rfl, rfl, rfl⟩

@[simp]
theorem setWindow_fields (s : State) (a : Nat) (f : pwindow_t → pwindow_t) :
    (setWindow s a f).portals = s.portals ∧
    (setWindow s a f).windows = s.windows.modify f a ∧
    (setWindow s a f).unusedhead = s.unusedhead ∧
    (setWindow s a f).windowhead = s.windowhead ∧
    (setWindow s a f).windowlast = s.windowlast ∧
    (setWindow s a f).portalrender = s.portalrender ∧
    (setWindow s a f).viewx = s.viewx ∧
    (setWindow s a f).viewy = s.viewy ∧
    (setWindow s a f).viewz = s.viewz ∧
    (setWindow s a f).viewangle = s.viewangle ∧
    (setWindow s a f).validcount = s.validcount ∧
    (setWindow s a f).floorclip = s.floorclip ∧
    (setWindow s a f).ceilingclip = s.ceilingclip ∧
    (setWindow s a f).trace = s.trace :=
  ⟨rfl, rfl, rfl, rfl, rfl, rfl, rfl, rfl, rfl, rfl, rfl, rfl, rfl, rfl⟩

@[simp]
theorem putWindow_fields (s : State) (a : Nat) (r : pwindow_t) :
    (putWindow s a r).portals = s.portals ∧
    (putWindow s a r).windows = s.windows.set a r ∧
    (putWindow s a r).unusedhead = s.unusedhead ∧
    (putWindow s a r).windowhead = s.windowhead ∧
    (putWindow s a r).windowlast = s.windowlast ∧
    (putWindow s a r).portalrender = s.portalrender ∧
    (putWindow s a r).viewx = s.viewx ∧
    (putWindow s a r).viewy = s.viewy ∧
    (putWindow s a r).viewz = s.viewz ∧
    (putWindow s a r).viewangle = s.viewangle ∧
    (putWindow s a r).validcount = s.validcount ∧
    (putWindow s a r).floorclip = s.floorclip ∧
    (putWindow s a r).ceilingclip = s.ceilingclip ∧
    (putWindow s a r).trace = s.trace :=
  ⟨rfl, rfl, rfl, rfl, rfl, rfl, rfl, rfl, rfl, rfl, rfl, rfl, rfl, rfl⟩

/-! ## Recursion guard -/

theorem wrap32_of_range {n : Int} (h1 : -2147483648 ≤ n) (h2 : n < 2147483648) :
    wrap32 n = n := by
  unfold wrap32
  omega

theorem getElem?_setPortal (s : State) (a b : Nat) (f : portal_t → portal_t) :
    (setPortal s a f).portals[b]? = if a = b then (s.portals[b]?).map f else s.portals[b]? := by
  simp only [setPortal, List.getElem?_modify]
  split <;> simp

/-- The refusal branch, spelled out: one more unit of taint on the portal, a
console message, and `R_ShowTainted` when `showtainted` is set. -/
theorem refuseTainted_spec (env : Env) (s0 : State) (wa pa : Nat) (portal : portal_t)
    (maker : Int) (hp : s0.portals[pa]? = some portal)
    (htaint : 6 < portal.tainted) (hmax : portal.tainted < 2147483647) :
    (refuseTainted env s0 wa pa portal maker).trace = s0.trace ++
        (if env.showtainted = true then [Event.R_ShowTainted wa] else []) ++
        [Event.C_Printf maker (portal.tainted + 1)] ∧
    (refuseTainted env s0 wa pa portal maker).portals[pa]? =
        some { portal with tainted := portal.tainted + 1 } ∧
    (∀ i, i ≠ pa → (refuseTainted env s0 wa pa portal maker).portals[i]? = s0.portals[i]?) ∧
    (refuseTainted env s0 wa pa portal maker).viewx = s0.viewx ∧
    (refuseTainted env s0 wa pa portal maker).viewy = s0.viewy ∧
    (refuseTainted env s0 wa pa portal maker).viewz = s0.viewz ∧
    (refuseTainted env s0 wa pa portal maker).viewangle = s0.viewangle ∧
    (refuseTainted env s0 wa pa portal maker).windows = s0.windows ∧
    (refuseTainted env s0 wa pa portal maker).windowhead = s0.windowhead ∧
    (refuseTainted env s0 wa pa portal maker).windowlast = s0.windowlast ∧
    (refuseTainted env s0 wa pa portal maker).unusedhead = s0.unusedhead ∧
    (refuseTainted env s0 wa pa portal maker).portalrender = s0.portalrender := by
  have hwrap : wrap32 (portal.tainted + 1) = portal.tainted + 1 :=
    wrap32_of_range (by omega) (by omega)
  unfold refuseTainted
  simp only [hwrap]
  cases hshow : env.showtainted
  · refine ⟨by simp, ?_, ?_, by simp, by simp, by simp, by simp, by simp, by simp, by simp,
      by simp, by simp⟩
    · simp [List.getElem?_modify, hp, hwrap]
    · intro i hi
      simp [List.getElem?_modify, Ne.symm hi]
  · refine ⟨by simp, ?_, ?_, by simp, by simp, by simp, by simp, by simp, by simp, by simp,
      by simp, by simp⟩
    · simp [List.getElem?_modify, hp, hwrap]
    · intro i hi
      simp [List.getElem?_modify, Ne.symm hi]

/-- C8. Recursion guard for Anchored, TwoWay and Linked portals. For a window
with a non-empty column range whose portal is of one of these kinds and has
taint above 6 (and below the largest `int`), the render strategy that
`R_SetPortalFunction` selects for the window returns, and all it left is: the
entry of the strategy for this window, `R_ShowTainted` when `showtainted` is
set, and the console message. So clip-region setup and the world traversal are
not called and no strategy is entered for the child. The viewpoint is as
before, the portal's taint is one more than before, no other portal and no
window changed. -/
theorem tainted_portal_refused (env : Env) (ext : Ext) (fuel : Nat) (s : State)
    (wa pa : Nat) (w : pwindow_t) (portal : portal_t)
    (hw : s.windows[wa]? = some w) (hwp : w.portal = some pa)
    (hp : s.portals[pa]? = some portal)
    (hkind : portal.type = .R_ANCHORED ∨ portal.type = .R_TWOWAY ∨ portal.type = .R_LINKED)
    (hfunc : w.func = (R_SetPortalFunction portal.type w).func)
    (hrange : w.minx ≤ w.maxx)
    (htaint : 6 < portal.tainted) (hmax : portal.tainted < 2147483647) :
    ∃ s', callFunc env ext (fuel + 1) w.func s (some wa) = .ok s' ∧
      s'.trace = s.trace ++ [Event.enter w.func wa] ++
        (if env.showtainted = true then [Event.R_ShowTainted wa] else []) ++
        [Event.C_Printf (if portal.type = .R_LINKED then portal.data.link.maker
                         else portal.data.anchor.maker) (portal.tainted + 1)] ∧
      s'.viewx = s.viewx ∧ s'.viewy = s.viewy ∧ s'.viewz = s.viewz ∧
      s'.viewangle = s.viewangle ∧
      s'.portals[pa]? = some { portal with tainted := portal.tainted + 1 } ∧
      (∀ i, i ≠ pa → s'.portals[i]? = s.portals[i]?) ∧
      s'.windows = s.windows ∧ s'.windowhead = s.windowhead ∧
      s'.windowlast = s.windowlast ∧ s'.unusedhead = s.unusedhead ∧
      s'.portalrender.curwindow = some wa := by
  have hnr : ¬ w.maxx < w.minx := by omega
  rcases hkind with hk | hk | hk
  · have hf : w.func = .R_RenderAnchoredPortal := by rw [hfunc, hk]; rfl
    let s0 := enterStrategy s .R_RenderAnchoredPortal wa
    have hp0 : s0.portals[pa]? = some portal := by simpa [s0] using hp
    obtain ⟨r1, r2, r3, r4, r5, r6, r7, r8, r9, r10, r11, r12⟩ :=
      refuseTainted_spec env s0 wa pa portal portal.data.anchor.maker hp0 htaint hmax
    refine ⟨refuseTainted env s0 wa pa portal portal.data.anchor.maker, ?_, ?_,
      by simpa [s0] using r4, by simpa [s0] using r5, by simpa [s0] using r6,
      by simpa [s0] using r7, r2, by simpa [s0] using r3, by simpa [s0] using r8,
      by simpa [s0] using r9, by simpa [s0] using r10, by simpa [s0] using r11, ?_⟩
    · rw [hf]
      simp only [callFunc, R_RenderAnchoredPortal, hw, hwp]
      simp only [enterStrategy_fields, hp, hk, ne_eq, not_true_eq_false, false_and, if_false,
        hnr, htaint, if_true]
    · rw [r1, hf, hk]
      simp [s0]
    · rw [r12]
      simp [s0]
  · have hf : w.func = .R_RenderAnchoredPortal := by rw [hfunc, hk]; rfl
    let s0 := enterStrategy s .R_RenderAnchoredPortal wa
    have hp0 : s0.portals[pa]? = some portal := by simpa [s0] using hp
    obtain ⟨r1, r2, r3, r4, r5, r6, r7, r8, r9, r10, r11, r12⟩ :=
      refuseTainted_spec env s0 wa pa portal portal.data.anchor.maker hp0 htaint hmax
    refine ⟨refuseTainted env s0 wa pa portal portal.data.anchor.maker, ?_, ?_,
      by simpa [s0] using r4, by simpa [s0] using r5, by simpa [s0] using r6,
      by simpa [s0] using r7, r2, by simpa [s0] using r3, by simpa [s0] using r8,
      by simpa [s0] using r9, by simpa [s0] using r10, by simpa [s0] using r11, ?_⟩
    · rw [hf]
      simp only [callFunc, R_RenderAnchoredPortal, hw, hwp]
      simp only [enterStrategy_fields, hp, hk, ne_eq, not_true_eq_false, and_false, if_false,
        hnr, htaint, if_true]
    · rw [r1, hf, hk]
      simp [s0]
    · rw [r12]
      simp [s0]
  · have hf : w.func = .R_RenderLinkedPortal := by rw [hfunc, hk]; rfl
    let s0 := enterStrategy s .R_RenderLinkedPortal wa
    have hp0 : s0.portals[pa]? = some portal := by simpa [s0] using hp
    obtain ⟨r1, r2, r3, r4, r5, r6, r7, r8, r9, r10, r11, r12⟩ :=
      refuseTainted_spec env s0 wa pa portal portal.data.link.maker hp0 htaint hmax
    refine ⟨refuseTainted env s0 wa pa portal portal.data.link.maker, ?_, ?_,
      by simpa [s0] using r4, by simpa [s0] using r5, by simpa [s0] using r6,
      by simpa [s0] using r7, r2, by simpa [s0] using r3, by simpa [s0] using r8,
      by simpa [s0] using r9, by simpa [s0] using r10, by simpa [s0] using r11, ?_⟩
    · rw [hf]
      simp only [callFunc, R_RenderLinkedPortal, hw, hwp]
      simp only [enterStrategy_fields, hp, hk, ne_eq, not_true_eq_false, hnr, or_self,
        if_false, htaint, if_true]
    · rw [r1, hf, hk]
      simp [s0]
    · rw [r12]
      simp [s0]

/-- C8, evaluated: the anchored portal of `taintedAnchoredState` has taint 7; the
strategy of its window records its entry and the console message, and leaves
the portal with taint 8. -/
theorem tainted_portal_refused_witness :
    ∃ s', callFunc narrowEnv quietExt 1 .R_RenderAnchoredPortal taintedAnchoredState (some 0)
        = .ok s' ∧
      s'.trace = [Event.enter .R_RenderAnchoredPortal 0, Event.C_Printf 0 8] ∧
      (s'.portals[0]?).map portal_t.tainted = some 8 := by
  obtain ⟨s', h1, h2, _, _, _, _, h3, _⟩ :=
    tainted_portal_refused narrowEnv quietExt 0 taintedAnchoredState 0 0
      (taintedAnchoredState.windows.getD 0 (freshWindow narrowEnv))
      (taintedAnchoredState.portals.getD 0 (callPortal narrowEnv (.skybox none)))
      (by rfl) (by rfl) (by rfl) (by decide) (by rfl) (by decide) (by decide) (by decide)
  refine ⟨s', h1, ?_, ?_⟩
  · rw [h2]
    rfl
  · rw [h3]
    rfl

/-! ## Skybox strategy -/

/-- The collaborators keep the portal list and only add to the record of
calls. -/
theorem pushPost_spec (ext : Ext)
    (hpost : ∀ b o s, (ext.R_PushPost b o s).portals = s.portals ∧
      s.trace <+: (ext.R_PushPost b o s).trace)
    (b : Bool) (o : Option planehash_t) (s : State) :
    (pushPost ext b o s).portals = s.portals ∧ s.trace <+: (pushPost ext b o s).trace := by
  unfold pushPost
  obtain ⟨h1, h2⟩ := hpost b o (logEvent s (.R_PushPost b o))
  refine ⟨by rw [h1]; simp, ?_⟩
  refine List.IsPrefix.trans ?_ h2
  simp

/-- What `renderThroughSkybox` leaves when it returns: the portal list as it
was, the earlier record of calls extended, among others by the traversal from
the camera position. -/
theorem renderThroughSkybox_spec (ext : Ext)
    (hbsp : ∀ s, (ext.R_RenderBSPNode s).portals = s.portals ∧
      s.trace <+: (ext.R_RenderBSPNode s).trace)
    (hpost : ∀ b o s, (ext.R_PushPost b o s).portals = s.portals ∧
      s.trace <+: (ext.R_PushPost b o s).trace)
    (s1 s2 : State) (wa : Nat) (w : pwindow_t) (camera : mobj_t)
    (h : renderThroughSkybox ext s1 wa w camera = .ok s2) :
    s2.portals = s1.portals ∧ s1.trace <+: s2.trace ∧
    Event.R_RenderBSPNode camera.x camera.y camera.z
      ((s1.viewangle + camera.angle) % 4294967296) ∈ s2.trace := by
  unfold renderThroughSkybox at h
  simp only at h
  split at h
  · cases h
  · rename_i overlay hov
    simp only [Except.ok.injEq] at h
    subst h
    simp only [setViewangle_fields, setViewpoint_fields, setClips_fields, logEvent_fields,
      incValidcount_fields, setRenderRange_fields] at hov ⊢
    generalize hB : ext.R_RenderBSPNode _ = sB at hov ⊢
    obtain ⟨p1, p2⟩ := pushPost_spec ext hpost true overlay sB
    have hb := hbsp (logEvent (logEvent (setViewangle (setViewpoint (logEvent
      (incValidcount (setRenderRange (logEvent (setClips (logEvent s1
        (Event.R_ClearSlopeMark w.minx w.maxx w.type)) (some wa)) Event.R_ClearOverlayClips)
        w.minx w.maxx)) Event.R_SetMaskedSilhouette) camera.x camera.y camera.z)
      ((s1.viewangle + camera.angle) % 4294967296)) Event.R_IncrementFrameid)
      (Event.R_RenderBSPNode camera.x camera.y camera.z
        ((s1.viewangle + camera.angle) % 4294967296)))
    rw [hB] at hb
    obtain ⟨b1, b2⟩ := hb
    simp only [setViewangle_fields, setViewpoint_fields, setClips_fields, logEvent_fields,
      incValidcount_fields, setRenderRange_fields] at b1 b2
    refine ⟨by rw [p1, b1], ?_, ?_⟩
    · refine List.IsPrefix.trans ?_ (b2.trans p2)
      simp only [List.append_assoc]
      exact List.prefix_append _ _
    · apply (b2.trans p2).subset
      simp

/-- Every run of `R_RenderSkyboxPortal` that returns leaves the portal list as it
was and only extends the record of calls, when the collaborators do. -/
theorem skybox_preserves (env : Env) (ext : Ext)
    (hbsp : ∀ s, (ext.R_RenderBSPNode s).portals = s.portals ∧
      s.trace <+: (ext.R_RenderBSPNode s).trace)
    (hpost : ∀ b o s, (ext.R_PushPost b o s).portals = s.portals ∧
      s.trace <+: (ext.R_PushPost b o s).trace) :
    ∀ (fuel : Nat) (s : State) (window : Ptr) (s' : State),
      R_RenderSkyboxPortal env ext fuel s window = .ok s' →
      s'.portals = s.portals ∧ s.trace <+: s'.trace := by
  intro fuel
  induction fuel with
  | zero =>
    intro s window s' h
    simp [R_RenderSkyboxPortal] at h
  | succ f ih =>
    intro s window s' h
    unfold R_RenderSkyboxPortal at h
    split at h
    · cases h
    · split at h
      · cases h
      · simp only at h
        split at h
        · cases h
        · split at h
          · cases h
            exact ⟨by simp, by simp⟩
          · split at h
            · cases h
              exact ⟨by simp, by simp⟩
            · split at h
              · cases h
              · split at h
                · cases h
                  refine ⟨by simp, ?_⟩
                  simp only [logEvent_fields, enterStrategy_fields, List.append_assoc]
                  exact List.prefix_append _ _
                · split at h
                  · cases h
                  · split at h
                    · cases h
                    · rename_i s2 hthrough
                      obtain ⟨q1, q2, _⟩ := renderThroughSkybox_spec ext hbsp hpost _ s2 _ _ _
                        hthrough
                      simp only [logEvent_fields, enterStrategy_fields] at q1 q2
                      have hpre : s.trace <+: s2.trace := by
                        refine List.IsPrefix.trans ?_ q2
                        simp only [List.append_assoc]
                        exact List.prefix_append _ _
                      split at h
                      · cases h
                      · split at h
                        · obtain ⟨r1, r2⟩ := ih _ _ _ h
                          exact ⟨by rw [r1, q1], hpre.trans r2⟩
                        · cases h
                          exact ⟨q1, hpre⟩

/-- C10, refuted as stated. The portal of `taintedAnchoredState` has taint 7, and
still has taint 7 after `R_ClearPortals`. -/
theorem clearPortals_keeps_taint :
    ((R_ClearPortals taintedAnchoredState).portals[0]?).map portal_t.tainted = some 7 := by
  decide

/-- C10, amended. The taint reset is `R_UntaintPortals`, not `R_ClearPortals`.
After `R_UntaintPortals` every portal of the registry has taint 0, whatever its
value was; the portals are otherwise the same, in the same order, and nothing
else in the state changes. `R_ClearPortals` leaves the portal list, taint
counters included, as it was: it only calls `R_ClearPlaneHash` on the overlay
of each portal. -/
theorem untaintPortals_resets_taint (s : State) :
    (∀ p ∈ (R_UntaintPortals s).portals, p.tainted = 0) ∧
    (R_UntaintPortals s).portals = s.portals.map (fun p => { p with tainted := 0 }) ∧
    (R_UntaintPortals s).windows = s.windows ∧
    (R_UntaintPortals s).windowhead = s.windowhead ∧
    (R_UntaintPortals s).windowlast = s.windowlast ∧
    (R_UntaintPortals s).unusedhead = s.unusedhead ∧
    (R_UntaintPortals s).trace = s.trace ∧
    (R_ClearPortals s).portals = s.portals ∧
    (R_ClearPortals s).trace =
      s.trace ++ (List.range s.portals.length).map Event.R_ClearPlaneHash := by
  refine ⟨?_, rfl, rfl, rfl, rfl, rfl, rfl, rfl, rfl⟩
  intro p hp
  simp only [R_UntaintPortals, List.mem_map] at hp
  obtain ⟨q, _, rfl⟩ := hp
  rfl

/-! ## Invariants of the window lists under the render strategies -/

theorem pushPost_inv (ext : Ext) (I : State → Prop)
    (hprim : ∀ s s', SameWindows s s' → I s → I s')
    (hpost : ∀ b o s, I s → I (ext.R_PushPost b o s))
    (b : Bool) (o : Option planehash_t) (s : State) (h : I s) : I (pushPost ext b o s) := by
  unfold pushPost
  exact hpost _ _ _ (hprim _ _ (by simp [SameWindows]) h)

theorem renderThroughSkybox_inv (ext : Ext) (I : State → Prop)
    (hprim : ∀ s s', SameWindows s s' → I s → I s')
    (hbsp : ∀ s, I s → I (ext.R_RenderBSPNode s))
    (hpost : ∀ b o s, I s → I (ext.R_PushPost b o s))
    (s1 s2 : State) (wa : Nat) (w : pwindow_t) (camera : mobj_t)
    (h : renderThroughSkybox ext s1 wa w camera = .ok s2) (hI : I s1) : I s2 := by
  unfold renderThroughSkybox at h
  simp only at h
  split at h
  · cases h
  · rename_i overlay hov
    cases h
    clear hov
    have key : ∀ X, I X → ∀ x y z a, I (setViewangle (setViewpoint (setClips
        (pushPost ext true overlay (ext.R_RenderBSPNode X)) none) x y z) a) := by
      intro X hX x y z a
      exact hprim (pushPost ext true overlay (ext.R_RenderBSPNode X)) _
        (by simp [SameWindows]) (pushPost_inv ext I hprim hpost _ _ _ (hbsp _ hX))
    apply key
    exact hprim s1 _ (by simp [SameWindows]) hI

theorem renderThroughPortal_inv (ext : Ext) (I : State → Prop)
    (hprim : ∀ s s', SameWindows s s' → I s → I s')
    (hbsp : ∀ s, I s → I (ext.R_RenderBSPNode s))
    (hpost : ∀ b o s, I s → I (ext.R_PushPost b o s))
    (s1 s2 : State) (wa : Nat) (w : pwindow_t) (pa : Nat) (dx dy dz : Int)
    (h : renderThroughPortal ext s1 wa w pa dx dy dz = .ok s2) (hI : I s1) : I s2 := by
  unfold renderThroughPortal at h
  simp only at h
  split at h
  · cases h
  · rename_i overlay hov
    cases h
    clear hov
    have key : ∀ X, I X → ∀ x y z, I (setViewpoint (setClips
        (pushPost ext true overlay (ext.R_RenderBSPNode X)) none) x y z) := by
      intro X hX x y z
      exact hprim (pushPost ext true overlay (ext.R_RenderBSPNode X)) _
        (by simp [SameWindows]) (pushPost_inv ext I hprim hpost _ _ _ (hbsp _ hX))
    apply key
    exact hprim s1 _ (by simp [SameWindows]) hI

theorem refuseTainted_inv (env : Env) (I : State → Prop)
    (hprim : ∀ s s', SameWindows s s' → I s → I s')
    (s0 : State) (wa pa : Nat) (portal : portal_t) (maker : Int) (hI : I s0) :
    I (refuseTainted env s0 wa pa portal maker) := by
  unfold refuseTainted
  refine hprim s0 _ ?_ hI
  by_cases hs : env.showtainted = true <;> simp [SameWindows, hs]

theorem skybox_inv (env : Env) (ext : Ext) (I : State → Prop)
    (hprim : ∀ s s', SameWindows s s' → I s → I s')
    (hbsp : ∀ s, I s → I (ext.R_RenderBSPNode s))
    (hpost : ∀ b o s, I s → I (ext.R_PushPost b o s)) :
    ∀ (fuel : Nat) (s : State) (window : Ptr) (s' : State),
      R_RenderSkyboxPortal env ext fuel s window = .ok s' → I s → I s' := by
  intro fuel
  induction fuel with
  | zero =>
    intro s window s' h
    simp [R_RenderSkyboxPortal] at h
  | succ f ih =>
    intro s window s' h hI
    unfold R_RenderSkyboxPortal at h
    split at h
    · cases h
    · rename_i wa
      have h0 : I (enterStrategy s .R_RenderSkyboxPortal wa) :=
        hprim _ _ (by simp [SameWindows]) hI
      split at h
      · cases h
      · simp only at h
        split at h
        · cases h
        · split at h
          · cases h; exact h0
          · split at h
            · cases h; exact h0
            · split at h
              · cases h
              · split at h
                · cases h; exact hprim _ _ (by simp [SameWindows]) hI
                · split at h
                  · cases h
                  · split at h
                    · cases h
                    · rename_i s2 hthrough
                      have h2 : I s2 := renderThroughSkybox_inv ext I hprim hbsp hpost _ _ _ _ _
                        hthrough (hprim _ _ (by simp [SameWindows]) hI)
                      split at h
                      · cases h
                      · split at h
                        · exact ih _ _ _ h h2
                        · cases h; exact h2

theorem anchored_inv (env : Env) (ext : Ext) (I : State → Prop)
    (hprim : ∀ s s', SameWindows s s' → I s → I s')
    (hbsp : ∀ s, I s → I (ext.R_RenderBSPNode s))
    (hpost : ∀ b o s, I s → I (ext.R_PushPost b o s)) :
    ∀ (fuel : Nat) (s : State) (window : Ptr) (s' : State),
      R_RenderAnchoredPortal env ext fuel s window = .ok s' → I s → I s' := by
  intro fuel
  induction fuel with
  | zero =>
    intro s window s' h
    simp [R_RenderAnchoredPortal] at h
  | succ f ih =>
    intro s window s' h hI
    unfold R_RenderAnchoredPortal at h
    split at h
    · cases h
    · rename_i wa
      have h0 : I (enterStrategy s .R_RenderAnchoredPortal wa) :=
        hprim _ _ (by simp [SameWindows]) hI
      split at h
      · cases h
      · simp only at h
        split at h
        · cases h
        · split at h
          · cases h
          · split at h
            · cases h; exact h0
            · split at h
              · cases h; exact h0
              · split at h
                · cases h; exact refuseTainted_inv env I hprim _ _ _ _ _ h0
                · split at h
                  · cases h
                  · split at h
                    · cases h; exact hprim _ _ (by simp [SameWindows]) hI
                    · split at h
                      · cases h
                      · rename_i s2 hthrough
                        have h2 : I s2 := renderThroughPortal_inv ext I hprim hbsp hpost _ _ _ _ _
                          _ _ _ hthrough (hprim _ _ (by simp [SameWindows]) hI)
                        split at h
                        · cases h
                        · split at h
                          · exact ih _ _ _ h h2
                          · cases h; exact h2

theorem linked_inv (env : Env) (ext : Ext) (I : State → Prop)
    (hprim : ∀ s s', SameWindows s s' → I s → I s')
    (hbsp : ∀ s, I s → I (ext.R_RenderBSPNode s))
    (hpost : ∀ b o s, I s → I (ext.R_PushPost b o s)) :
    ∀ (fuel : Nat) (s : State) (window : Ptr) (s' : State),
      R_RenderLinkedPortal env ext fuel s window = .ok s' → I s → I s' := by
  intro fuel
  induction fuel with
  | zero =>
    intro s window s' h
    simp [R_RenderLinkedPortal] at h
  | succ f ih =>
    intro s window s' h hI
    unfold R_RenderLinkedPortal at h
    split at h
    · cases h
    · rename_i wa
      have h0 : I (enterStrategy s .R_RenderLinkedPortal wa) :=
        hprim _ _ (by simp [SameWindows]) hI
      split at h
      · cases h
      · simp only at h
        split at h
        · cases h
        · split at h
          · cases h
          · split at h
            · cases h; exact h0
            · split at h
              · cases h; exact refuseTainted_inv env I hprim _ _ _ _ _ h0
              · split at h
                · cases h
                · split at h
                  · cases h; exact hprim _ _ (by simp [SameWindows]) hI
                  · split at h
                    · cases h
                    · rename_i s2 hthrough
                      have h2 : I s2 := renderThroughPortal_inv ext I hprim hbsp hpost _ _ _ _ _
                        _ _ _ hthrough (hprim _ _ (by simp [SameWindows]) hI)
                      split at h
                      · cases h
                      · split at h
                        · exact ih _ _ _ h h2
                        · cases h; exact h2

theorem plane_inv (env : Env) (ext : Ext) (I : State → Prop)
    (hprim : ∀ s s', SameWindows s s' → I s → I s')
    (hpost : ∀ b o s, I s → I (ext.R_PushPost b o s)) :
    ∀ (fuel : Nat) (s : State) (window : Ptr) (s' : State),
      R_RenderPlanePortal env ext fuel s window = .ok s' → I s → I s' := by
  intro fuel
  induction fuel with
  | zero =>
    intro s window s' h
    simp [R_RenderPlanePortal] at h
  | succ f ih =>
    intro s window s' h hI
    unfold R_RenderPlanePortal at h
    split at h
    · cases h
    · rename_i wa
      have h0 : I (enterStrategy s .R_RenderPlanePortal wa) :=
        hprim _ _ (by simp [SameWindows]) hI
      split at h
      · cases h
      · simp only at h
        split at h
        · cases h
        · split at h
          · cases h; exact h0
          · split at h
            · cases h; exact h0
            · rename_i w _ _ portal _ _ _
              have h3 : ∀ es1 es2 es3, I (logEvents (logEvent (logEvent
                  (enterStrategy s .R_RenderPlanePortal wa) es1) es2) es3) := fun _ _ _ =>
                hprim _ _ (by simp [SameWindows]) hI
              have h4 : ∀ es1 es2 es3, I (if w.head = some wa ∧ portal.poverlay ≠ none then
                  pushPost ext false portal.poverlay (logEvents (logEvent (logEvent
                  (enterStrategy s .R_RenderPlanePortal wa) es1) es2) es3)
                  else (logEvents (logEvent (logEvent
                  (enterStrategy s .R_RenderPlanePortal wa) es1) es2) es3)) := by
                intro es1 es2 es3
                split
                · exact pushPost_inv ext I hprim hpost _ _ _ (h3 _ _ _)
                · exact h3 _ _ _
              split at h
              · cases h
              · split at h
                · exact ih _ _ _ h (h4 _ _ _)
                · cases h; exact h4 _ _ _

theorem horizon_inv (env : Env) (ext : Ext) (I : State → Prop)
    (hprim : ∀ s s', SameWindows s s' → I s → I s')
    (hpost : ∀ b o s, I s → I (ext.R_PushPost b o s)) :
    ∀ (fuel : Nat) (s : State) (window : Ptr) (s' : State),
      R_RenderHorizonPortal env ext fuel s window = .ok s' → I s → I s' := by
  intro fuel
  induction fuel with
  | zero =>
    intro s window s' h
    simp [R_RenderHorizonPortal] at h
  | succ f ih =>
    intro s window s' h hI
    unfold R_RenderHorizonPortal at h
    split at h
    · cases h
    · rename_i wa
      have h0 : I (enterStrategy s .R_RenderHorizonPortal wa) :=
        hprim _ _ (by simp [SameWindows]) hI
      split at h
      · cases h
      · simp only at h
        split at h
        · cases h
        · split at h
          · cases h; exact h0
          · split at h
            · cases h; exact h0
            · rename_i w _ _ portal _ _ _
              have h3 : ∀ e1 e2 e3 e4 e5 x y z, I (setViewpoint (logEvents (logEvent (logEvent
                  (logEvent (logEvent
                  (enterStrategy s .R_RenderHorizonPortal wa) e1) e2) e3) e4) e5) x y z) :=
                fun _ _ _ _ _ _ _ _ => hprim _ _ (by simp [SameWindows]) hI
              have h4 : ∀ e1 e2 e3 e4 e5 x y z, I (if w.head = some wa ∧ portal.poverlay ≠ none
                  then pushPost ext false portal.poverlay (setViewpoint (logEvents (logEvent
                  (logEvent (logEvent (logEvent
                  (enterStrategy s .R_RenderHorizonPortal wa) e1) e2) e3) e4) e5) x y z)
                  else (setViewpoint (logEvents (logEvent (logEvent
                  (logEvent (logEvent
                  (enterStrategy s .R_RenderHorizonPortal wa) e1) e2) e3) e4) e5) x y z)) := by
                intro e1 e2 e3 e4 e5 x y z
                split
                · exact pushPost_inv ext I hprim hpost _ _ _ (h3 _ _ _ _ _ _ _ _)
                · exact h3 _ _ _ _ _ _ _ _
              split at h
              · cases h
              · split at h
                · cases h
                · rename_i s8 h8
                  cases h
                  refine hprim s8 _ (by simp [SameWindows]) ?_
                  split at h8
                  · exact ih _ _ _ h8 (h4 _ _ _ _ _ _ _ _)
                  · cases h8; exact h4 _ _ _ _ _ _ _ _

/-! ## Returning windows to the free list -/

@[simp]
theorem setUnusedhead_fields (s : State) (p : Ptr) :
    (setUnusedhead s p).portals = s.portals ∧
    (setUnusedhead s p).windows = s.windows ∧
    (setUnusedhead s p).unusedhead = p ∧
    (setUnusedhead s p).windowhead = s.windowhead ∧
    (setUnusedhead s p).windowlast = s.windowlast ∧
    (setUnusedhead s p).portalrender = s.portalrender ∧
    (setUnusedhead s p).viewx = s.viewx ∧
    (setUnusedhead s p).viewy = s.viewy ∧
    (setUnusedhead s p).viewz = s.viewz ∧
    (setUnusedhead s p).viewangle = s.viewangle ∧
    (setUnusedhead s p).validcount = s.validcount ∧
    (setUnusedhead s p).floorclip = s.floorclip ∧
    (setUnusedhead s p).ceilingclip = s.ceilingclip ∧
    (setUnusedhead s p).trace = s.trace :=
  ⟨rfl, rfl, rfl, rfl, rfl, rfl, rfl, rfl, rfl, rfl, rfl, rfl, rfl, rfl⟩

@[simp]
theorem setWindowhead_fields (s : State) (p : Ptr) :
    (setWindowhead s p).portals = s.portals ∧
    (setWindowhead s p).windows = s.windows ∧
    (setWindowhead s p).unusedhead = s.unusedhead ∧
    (setWindowhead s p).windowhead = p ∧
    (setWindowhead s p).windowlast = s.windowlast ∧
    (setWindowhead s p).portalrender = s.portalrender ∧
    (setWindowhead s p).viewx = s.viewx ∧
    (setWindowhead s p).viewy = s.viewy ∧
    (setWindowhead s p).viewz = s.viewz ∧
    (setWindowhead s p).viewangle = s.viewangle ∧
    (setWindowhead s p).validcount = s.validcount ∧
    (setWindowhead s p).floorclip = s.floorclip ∧
    (setWindowhead s p).ceilingclip = s.ceilingclip ∧
    (setWindowhead s p).trace = s.trace :=
  ⟨rfl, rfl, rfl, rfl, rfl, rfl, rfl, rfl, rfl, rfl, rfl, rfl, rfl, rfl⟩

@[simp]
theorem setWindowlast_fields (s : State) (p : Ptr) :
    (setWindowlast s p).portals = s.portals ∧
    (setWindowlast s p).windows = s.windows ∧
    (setWindowlast s p).unusedhead = s.unusedhead ∧
    (setWindowlast s p).windowhead = s.windowhead ∧
    (setWindowlast s p).windowlast = p ∧
    (setWindowlast s p).portalrender = s.portalrender ∧
    (setWindowlast s p).viewx = s.viewx ∧
    (setWindowlast s p).viewy = s.viewy ∧
    (setWindowlast s p).viewz = s.viewz ∧
    (setWindowlast s p).viewangle = s.viewangle ∧
    (setWindowlast s p).validcount = s.validcount ∧
    (setWindowlast s p).floorclip = s.floorclip ∧
    (setWindowlast s p).ceilingclip = s.ceilingclip ∧
    (setWindowlast s p).trace = s.trace :=
  ⟨rfl, rfl, rfl, rfl, rfl, rfl, rfl, rfl, rfl, rfl, rfl, rfl, rfl, rfl⟩

@[simp]
theorem setPortalrender_fields (s : State) (pr : portalrender_t) :
    (setPortalrender s pr).portals = s.portals ∧
    (setPortalrender s pr).windows = s.windows ∧
    (setPortalrender s pr).unusedhead = s.unusedhead ∧
    (setPortalrender s pr).windowhead = s.windowhead ∧
    (setPortalrender s pr).windowlast = s.windowlast ∧
    (setPortalrender s pr).portalrender = pr ∧
    (setPortalrender s pr).viewx = s.viewx ∧
    (setPortalrender s pr).viewy = s.viewy ∧
    (setPortalrender s pr).viewz = s.viewz ∧
    (setPortalrender s pr).viewangle = s.viewangle ∧
    (setPortalrender s pr).validcount = s.validcount ∧
    (setPortalrender s pr).floorclip = s.floorclip ∧
    (setPortalrender s pr).ceilingclip = s.ceilingclip ∧
    (setPortalrender s pr).trace = s.trace :=
  ⟨rfl, rfl, rfl, rfl, rfl, rfl, rfl, rfl, rfl, rfl, rfl, rfl, rfl, rfl⟩

/-- The three assignments that put the window at `a` on the free list. -/
theorem freeStep_spec (s : State) (a : Nat) (w : pwindow_t) (hw : s.windows[a]? = some w) :
    setWindow (setUnusedhead (setWindow s a (fun r => { r with next := s.unusedhead }))
      (some a)) a (fun r => { r with child := none }) =
    setUnusedhead (putWindow s a { w with next := s.unusedhead, child := none }) (some a) := by
  rw [setWindow_eq_putWindow (s := s) _ hw]
  have hlt : a < s.windows.length := by
    by_contra hcon
    rw [List.getElem?_eq_none (by omega)] at hw
    cases hw
  have h2 : (setUnusedhead (putWindow s a { w with next := s.unusedhead }) (some a)).windows[a]?
      = some { w with next := s.unusedhead } := by
    simp only [setUnusedhead_fields]
    exact getElem?_putWindow_self _ hlt
  rw [setWindow_eq_putWindow _ h2]
  simp [putWindow, setUnusedhead]

theorem nodup_length_le {l : List Nat} {n : Nat} (hnd : l.Nodup) (hlt : ∀ a ∈ l, a < n) :
    l.length ≤ n := by
  have h1 : l.toFinset ⊆ Finset.range n := by
    intro a ha
    simp only [List.mem_toFinset] at ha
    simpa using hlt a ha
  have h2 := Finset.card_le_card h1
  rw [List.toFinset_card_of_nodup hnd] at h2
  simpa using h2

/-- The loop over a child chain: it returns, the chain ends up in front of the
free list in reverse order with all child pointers cleared, and nothing else
changes. -/
theorem freeChildren_spec : ∀ (c : List Nat) (fuel : Nat) (s : State) (p : Ptr) (P : List Nat),
    c.length < fuel →
    IsList pwindow_t.child s.windows p c →
    IsList pwindow_t.next s.windows s.unusedhead P →
    (c ++ P).Nodup →
    ∃ s', freeChildren fuel s p = .ok s' ∧
      IsList pwindow_t.next s'.windows s'.unusedhead (c.reverse ++ P) ∧
      (∀ b, b ∉ c → s'.windows[b]? = s.windows[b]?) ∧
      (∀ b ∈ c, (s'.windows[b]?).bind pwindow_t.child = none) ∧
      SameGlobals s s' ∧ s'.windows.length = s.windows.length ∧
      (c = [] → s' = s) := by
  intro c
  induction c with
  | nil =>
    intro fuel s p P hf hc hP _
    rw [IsList.nil_iff] at hc
    subst hc
    obtain ⟨f, rfl⟩ : ∃ f, fuel = f + 1 := ⟨fuel - 1, by simp at hf; omega⟩
    refine ⟨s, by simp [freeChildren], by simpa using hP, fun _ _ => rfl, by simp, ?_, rfl,
      fun _ => rfl⟩
    simp [SameGlobals]
  | cons a c ih =>
    intro fuel s p P hf hc hP hnd
    rw [IsList.cons_iff] at hc
    obtain ⟨rfl, w, hw, hc⟩ := hc
    obtain ⟨f, rfl⟩ : ∃ f, fuel = f + 1 := ⟨fuel - 1, by simp at hf; omega⟩
    have hlt : a < s.windows.length := by
      by_contra hcon
      rw [List.getElem?_eq_none (by omega)] at hw
      cases hw
    have hac : a ∉ c := by
      intro h
      simp only [List.cons_append, List.nodup_cons, List.mem_append] at hnd
      exact hnd.1 (Or.inl h)
    have haP : a ∉ P := by
      intro h
      simp only [List.cons_append, List.nodup_cons, List.mem_append] at hnd
      exact hnd.1 (Or.inr h)
    have hstep := freeStep_spec s a w hw
    set s3 := setUnusedhead (putWindow s a { w with next := s.unusedhead, child := none })
      (some a) with hs3
    have hget : ∀ b, b ≠ a → s3.windows[b]? = s.windows[b]? := by
      intro b hb
      simp only [hs3, setUnusedhead_fields]
      exact getElem?_putWindow_ne _ (Ne.symm hb)
    have hgeta : s3.windows[a]? = some { w with next := s.unusedhead, child := none } := by
      simp only [hs3, setUnusedhead_fields]
      exact getElem?_putWindow_self _ hlt
    have hc3 : IsList pwindow_t.child s3.windows w.child c :=
      hc.of_agree (fun b hb => hget b (by rintro rfl; exact hac hb))
    have hP3 : IsList pwindow_t.next s3.windows s3.unusedhead (a :: P) := by
      rw [IsList.cons_iff]
      refine ⟨by simp [hs3], _, hgeta, ?_⟩
      exact hP.of_agree (fun b hb => hget b (by rintro rfl; exact haP hb))
    have hnd3 : (c ++ a :: P).Nodup := by
      have : (c ++ a :: P).Perm (a :: c ++ P) := by
        simp
      exact this.nodup_iff.mpr hnd
    obtain ⟨s', hrun, hl, hothers, hnone, hglob, hlen, _⟩ :=
      ih f s3 w.child (a :: P) (by simp at hf; omega) hc3 hP3 hnd3
    refine ⟨s', ?_, ?_, ?_, ?_, ?_, ?_, ?_⟩
    · rw [freeChildren]
      simp only [hw]
      rw [hstep]
      exact hrun
    · simpa using hl
    · intro b hb
      simp only [List.mem_cons, not_or] at hb
      rw [hothers b hb.2, hget b hb.1]
    · intro b hb
      rcases List.mem_cons.mp hb with rfl | hb
      · rw [hothers b hac, hgeta]
        rfl
      · exact hnone b hb
    · unfold SameGlobals at hglob ⊢
      simpa [hs3] using hglob
    · rw [hlen]
      simp [hs3, putWindow]
    · intro h
      cases h

theorem callFunc_inv (env : Env) (ext : Ext) (I : State → Prop)
    (hprim : ∀ s s', SameWindows s s' → I s → I s')
    (hbsp : ∀ s, I s → I (ext.R_RenderBSPNode s))
    (hpost : ∀ b o s, I s → I (ext.R_PushPost b o s))
    (fuel : Nat) (func : renderfunc_e) (s : State) (window : Ptr) (s' : State)
    (h : callFunc env ext fuel func s window = .ok s') (hI : I s) : I s' := by
  cases func with
  | R_RenderPortalNOP => simp [callFunc] at h
  | R_RenderPlanePortal => exact plane_inv env ext I hprim hpost _ _ _ _ h hI
  | R_RenderHorizonPortal => exact horizon_inv env ext I hprim hpost _ _ _ _ h hI
  | R_RenderSkyboxPortal => exact skybox_inv env ext I hprim hbsp hpost _ _ _ _ h hI
  | R_RenderAnchoredPortal => exact anchored_inv env ext I hprim hbsp hpost _ _ _ _ h hI
  | R_RenderLinkedPortal => exact linked_inv env ext I hprim hbsp hpost _ _ _ _ h hI

theorem mem_allWindows_cons (a hd : Nat) (c : List Nat) (Q : List (Nat × List Nat))
    (P : List Nat) :
    a ∈ allWindows ((hd, c) :: Q) P ↔ a ∈ allWindows Q (hd :: c.reverse ++ P) := by
  simp only [allWindows, List.flatMap_cons, List.mem_append, List.mem_cons, List.mem_reverse]
  tauto

theorem perm_allWindows_cons (hd : Nat) (c : List Nat) (Q : List (Nat × List Nat))
    (P : List Nat) :
    (allWindows ((hd, c) :: Q) P).Perm (allWindows Q (hd :: c.reverse ++ P)) := by
  simp only [allWindows, List.flatMap_cons]
  have h1 : (hd :: c.reverse ++ P).Perm (hd :: c ++ P) :=
    List.Perm.append_right P (List.Perm.cons hd (List.reverse_perm c))
  refine List.Perm.trans ?_ (List.Perm.append_left _ h1.symm)
  rw [List.append_assoc]
  refine List.Perm.trans List.perm_append_comm ?_
  rw [List.append_assoc]
  exact List.Perm.append_left _ List.perm_append_comm

/-- The freeing part of one turn of `R_RenderPortals` on well-formed lists: it
returns, the head window and its chain are on the free list, the rest of the
queue is the new queue. -/
theorem freeHeadWindow_spec (s : State) (hd : Nat) (c : List Nat) (Q : List (Nat × List Nat))
    (P : List Nat) (h : ListsOK s ((hd, c) :: Q) P) :
    ∃ s', freeHeadWindow s = .ok s' ∧ ListsOK s' Q (hd :: c.reverse ++ P) ∧
      s'.portals = s.portals ∧ s'.windowlast = s.windowlast ∧
      s'.portalrender = s.portalrender ∧ s'.viewx = s.viewx ∧ s'.viewy = s.viewy ∧
      s'.viewz = s.viewz ∧ s'.viewangle = s.viewangle ∧ s'.trace = s.trace ∧
      (∀ b, b ∉ hd :: c → s'.windows[b]? = s.windows[b]?) := by
  obtain ⟨hq, hch, hP, hnd, hpc⟩ := h
  simp only [List.map_cons] at hq
  rw [IsList.cons_iff] at hq
  obtain ⟨hhead, w, hw, hq⟩ := hq
  have hchain := hch (hd, c) (List.mem_cons_self _ _)
  rw [IsList.cons_iff] at hchain
  obtain ⟨_, w', hw', hchain⟩ := hchain
  simp only at hw'
  rw [hw] at hw'
  cases hw'
  have hndall := hnd
  simp only [allWindows, List.flatMap_cons, List.cons_append, List.nodup_cons,
    List.append_assoc] at hnd
  obtain ⟨hhd, hnd⟩ := hnd
  have hndc : (c ++ P).Nodup := by
    have hsub : (c ++ P).Sublist (c ++ (Q.flatMap (fun qc => qc.1 :: qc.2) ++ P)) :=
      List.Sublist.append_left (List.sublist_append_right _ _) c
    exact List.Nodup.sublist hsub hnd
  have hclen : c.length < s.windows.length + 2 := by
    have := nodup_length_le (l := c) (n := s.windows.length)
      (List.Nodup.sublist (List.sublist_append_left c P) hndc) (hchain.valid)
    omega
  obtain ⟨s1, hrun, hl1, hoth1, hnone1, hglob1, hlen1, _⟩ :=
    freeChildren_spec c _ s w.child P hclen hchain hP hndc
  have hhdc : hd ∉ c := by
    intro hin
    exact hhd (by simp [hin])
  have hhdP : hd ∉ P := by
    intro hin
    exact hhd (by simp [hin])
  have hw1 : s1.windows[hd]? = some w := by rw [hoth1 hd hhdc, hw]
  have hlt : hd < s1.windows.length := by
    by_contra hcon
    rw [List.getElem?_eq_none (by omega)] at hw1
    cases hw1
  have hstep := freeStep_spec s1 hd w hw1
  set s4 := setUnusedhead (putWindow s1 hd { w with next := s1.unusedhead, child := none })
    (some hd) with hs4
  have hget : ∀ b, b ≠ hd → s4.windows[b]? = s.windows[b]? ∨ b ∈ c := by
    intro b hb
    by_cases hbc : b ∈ c
    · exact Or.inr hbc
    · left
      simp only [hs4, setUnusedhead_fields]
      rw [getElem?_putWindow_ne _ (Ne.symm hb), hoth1 b hbc]
  have hget4 : ∀ b, b ≠ hd → s4.windows[b]? = s1.windows[b]? := by
    intro b hb
    simp only [hs4, setUnusedhead_fields]
    rw [getElem?_putWindow_ne _ (Ne.symm hb)]
  have hgethd : s4.windows[hd]? = some { w with next := s1.unusedhead, child := none } := by
    simp only [hs4, setUnusedhead_fields]
    exact getElem?_putWindow_self _ hlt
  have hkeep : ∀ b, b ∉ hd :: c → s4.windows[b]? = s.windows[b]? := by
    intro b hb
    simp only [List.mem_cons, not_or] at hb
    rw [hget4 b hb.1, hoth1 b hb.2]
  have hQdisj : ∀ qc ∈ Q, ∀ b ∈ qc.1 :: qc.2, b ∉ hd :: c := by
    intro qc hqc b hb hbad
    have hbQ : b ∈ Q.flatMap (fun qc => qc.1 :: qc.2) :=
      List.mem_flatMap.mpr ⟨qc, hqc, hb⟩
    rcases List.mem_cons.mp hbad with rfl | hbc
    · exact hhd (by simp only [List.mem_append]; exact Or.inr (Or.inl hbQ))
    · rw [List.nodup_append] at hnd
      exact hnd.2.2 hbc (by simp only [List.mem_append]; exact Or.inl hbQ)
  refine ⟨setWindowhead s4 w.next, ?_, ⟨?_, ?_, ?_, ?_, ?_⟩, ?_⟩
  · unfold freeHeadWindow
    simp only [hhead, hw, hrun, hw1]
    rw [hstep]
  · simp only [setWindowhead_fields]
    apply hq.of_agree
    intro b hb
    apply hkeep
    obtain ⟨qc, hqc, rfl⟩ := List.mem_map.mp hb
    exact hQdisj qc hqc _ (List.mem_cons_self _ _)
  · intro qc hqc
    simp only [setWindowhead_fields]
    apply (hch qc (List.mem_cons_of_mem _ hqc)).of_agree
    intro b hb
    exact hkeep b (hQdisj qc hqc b hb)
  · simp only [setWindowhead_fields]
    rw [List.cons_append, IsList.cons_iff]
    refine ⟨by simp [hs4], _, hgethd, ?_⟩
    apply hl1.of_agree
    intro b hb
    apply hget4
    rintro rfl
    simp only [List.mem_append, List.mem_reverse] at hb
    rcases hb with hb | hb
    · exact hhdc hb
    · exact hhdP hb
  · exact (perm_allWindows_cons hd c Q P).nodup_iff.mp hndall
  · intro a ha
    simp only [setWindowhead_fields]
    simp only [List.cons_append, List.mem_cons, List.mem_append, List.mem_reverse] at ha
    rcases ha with rfl | ha | ha
    · rw [hgethd]
      rfl
    · have hne : a ≠ hd := by rintro rfl; exact hhdc ha
      rw [hget4 a hne]
      exact hnone1 a ha
    · have hne : a ≠ hd := by rintro rfl; exact hhdP ha
      have hac : a ∉ c := by
        intro hin
        exact (List.nodup_append.mp hndc).2.2 hin ha
      rw [hget4 a hne, hoth1 a hac]
      exact hpc a ha
  · unfold SameGlobals at hglob1
    obtain ⟨g1, g2, g3, g4, g5, g6, g7, g8, g9, g10, g11, g12⟩ := hglob1
    simp only [setWindowhead_fields, hs4, setUnusedhead_fields, putWindow_fields]
    refine ⟨g1, g3, g4, g5, g6, g7, g8, g12, ?_⟩
    intro b hb
    have := hkeep b hb
    simpa [hs4] using this

/-! ## Pool integrity -/

/-- Well-formedness of the window lists only reads the window store and the
list heads. -/
theorem ListsOK.of_same {s s' : State} (h : SameWindows s s') {Q : List (Nat × List Nat)}
    {P : List Nat} (hok : ListsOK s Q P) : ListsOK s' Q P := by
  obtain ⟨h1, h2, h3, _⟩ := h
  unfold ListsOK at hok ⊢
  rw [h1, h2, h3]
  exact hok

/-- One turn of the loop of `R_RenderPortals`: an invariant of the window lists
that the collaborators keep holds in the state in which the head window is
freed. -/
theorem renderWindowhead_inv (env : Env) (ext : Ext) (rfuel : Nat) (I : State → Prop)
    (hprim : ∀ s s', SameWindows s s' → I s → I s')
    (hbsp : ∀ s, I s → I (ext.R_RenderBSPNode s))
    (hpost : ∀ b o s, I s → I (ext.R_PushPost b o s))
    (s : State) (hd : Nat) (s4 : State)
    (h : renderWindowhead env ext rfuel s hd = .ok s4) (hI : I s) :
    ∃ s3, I s3 ∧ freeHeadWindow s3 = .ok s4 := by
  unfold renderWindowhead at h
  split at h
  · cases h
  · rename_i w hw
    split at h
    · cases h
    · rename_i portal hportal
      simp only at h
      split at h
      · cases h
      · rename_i s2 hdisp
        have h1 : I (setPortalrender s
            { s.portalrender with active := true, w := some hd, segClipFunc := w.clipfunc,
                                  overlay := portal.poverlay, curwindow := some hd }) :=
          hprim s _ (by simp [SameWindows]) hI
        have h2 : I s2 := by
          split at hdisp
          · exact callFunc_inv env ext _ hprim hbsp hpost _ _ _ _ _ hdisp h1
          · cases hdisp
            exact h1
        exact ⟨_, hprim s2 _ (by simp [SameWindows]) h2, h⟩

/-! ## Resolution change -/

theorem foldl_set_none (n : Nat) (cs : List Ptr) (h : n ≤ cs.length) :
    ((List.range n).foldl (fun cs i => cs.set i none) cs).length = cs.length ∧
    ∀ i, i < n → ((List.range n).foldl (fun cs i => cs.set i none) cs)[i]? = some none := by
  induction n with
  | zero => simp
  | succ n ih =>
    obtain ⟨h1, h2⟩ := ih (by omega)
    rw [List.range_succ, List.foldl_append]
    simp only [List.foldl_cons, List.foldl_nil, List.length_set]
    refine ⟨h1, ?_⟩
    intro i hi
    rw [List.getElem?_set]
    by_cases hin : n = i
    · subst hin
      simp [h1]
      omega
    · rw [if_neg hin]
      exact h2 i (by omega)

theorem clearChains_spec {hash hash' : planehash_t} (h : clearChains hash = .ok hash') :
    hash'.chaincount = hash.chaincount ∧
    ∀ i, i < hash'.chaincount → hash'.chains[i]? = some none := by
  unfold clearChains at h
  split at h
  · rename_i hle
    cases h
    exact ⟨rfl, (foldl_set_none _ _ hle).2⟩
  · cases h

theorem clearOverlays_spec : ∀ (ps ps' : List portal_t), clearOverlays ps = .ok ps' →
    OverlaysCleared ps' ∧ ps'.length = ps.length
  | [], ps', h => by
    simp only [clearOverlays, Except.ok.injEq] at h
    subst h
    exact ⟨by simp [OverlaysCleared], rfl⟩
  | p :: ps, ps', h => by
    unfold clearOverlays at h
    split at h
    · rename_i hov
      split at h
      · cases h
      · rename_i qs hqs
        cases h
        obtain ⟨h1, h2⟩ := clearOverlays_spec ps qs hqs
        refine ⟨?_, by simp [h2]⟩
        intro q hq hash hhash
        rcases List.mem_cons.mp hq with rfl | hq
        · rw [hov] at hhash
          cases hhash
        · exact h1 q hq hash hhash
    · rename_i hash0 hov
      split at h
      · cases h
      · rename_i hash1 hclear
        split at h
        · cases h
        · rename_i qs hqs
          cases h
          obtain ⟨h1, h2⟩ := clearOverlays_spec ps qs hqs
          refine ⟨?_, by simp [h2]⟩
          intro q hq hash hhash
          rcases List.mem_cons.mp hq with rfl | hq
          · simp only [Option.some.injEq] at hhash
            subst hhash
            exact (clearChains_spec hclear).2
          · exact h1 q hq hash hhash

theorem clearOverlays_ok : ∀ (ps : List portal_t), OverlaysOK ps →
    ∃ ps', clearOverlays ps = .ok ps'
  | [], _ => ⟨[], rfl⟩
  | p :: ps, h => by
    obtain ⟨qs, hqs⟩ := clearOverlays_ok ps (fun q hq => h q (List.mem_cons_of_mem _ hq))
    unfold clearOverlays
    cases hov : p.poverlay with
    | none => exact ⟨p :: qs, by simp [hqs]⟩
    | some hash =>
      have hle := h p (List.mem_cons_self _ _) hash hov
      simp only [clearChains, if_pos hle, hqs]
      exact ⟨_, rfl⟩

@[simp]
theorem setPortals_fields (s : State) (ps : List portal_t) :
    (setPortals s ps).portals = ps ∧
    (setPortals s ps).windows = s.windows ∧
    (setPortals s ps).unusedhead = s.unusedhead ∧
    (setPortals s ps).windowhead = s.windowhead ∧
    (setPortals s ps).windowlast = s.windowlast ∧
    (setPortals s ps).portalrender = s.portalrender ∧
    (setPortals s ps).viewx = s.viewx ∧
    (setPortals s ps).viewy = s.viewy ∧
    (setPortals s ps).viewz = s.viewz ∧
    (setPortals s ps).viewangle = s.viewangle ∧
    (setPortals s ps).validcount = s.validcount ∧
    (setPortals s ps).floorclip = s.floorclip ∧
    (setPortals s ps).ceilingclip = s.ceilingclip ∧
    (setPortals s ps).trace = s.trace :=
  ⟨rfl, rfl, rfl, rfl, rfl, rfl, rfl, rfl, rfl, rfl, rfl, rfl, rfl, rfl⟩

theorem logEvents_nil (s : State) : logEvents s [] = s := by
  simp [logEvents]

theorem logEvents_logEvents (s : State) (a b : List Event) :
    logEvents (logEvents s a) b = logEvents s (a ++ b) := by
  simp [logEvents]

/-- The release loop over a proper list returns, and has released the windows
of the list in order. -/
theorem efreeList_spec (nxt : pwindow_t → Ptr) : ∀ (l : List Nat) (fuel : Nat) (s : State)
    (p : Ptr), IsList nxt s.windows p l → l.length < fuel →
    efreeList nxt fuel s p = .ok (logEvents s (efreeEvents l)) := by
  intro l
  induction l with
  | nil =>
    intro fuel s p hl hf
    rw [IsList.nil_iff] at hl
    subst hl
    obtain ⟨f, rfl⟩ : ∃ f, fuel = f + 1 := ⟨fuel - 1, by simp at hf; omega⟩
    simp [efreeList, efreeEvents, logEvents_nil]
  | cons a l ih =>
    intro fuel s p hl hf
    rw [IsList.cons_iff] at hl
    obtain ⟨rfl, w, hw, hl⟩ := hl
    obtain ⟨f, rfl⟩ : ∃ f, fuel = f + 1 := ⟨fuel - 1, by simp at hf; omega⟩
    rw [efreeList]
    simp only [hw]
    rw [ih f (logEvents s [.efree_top a, .efree a]) (nxt w) (by simpa using hl)
      (by simp at hf; omega), logEvents_logEvents]
    simp [efreeEvents]

/-- The release loop over the main list returns, and has released every child
chain followed by its queue window, in the order of the queue. -/
theorem efreeMainList_spec (cfuel : Nat) : ∀ (Q : List (Nat × List Nat)) (fuel : Nat)
    (s : State) (p : Ptr),
    IsList pwindow_t.next s.windows p (Q.map Prod.fst) →
    (∀ qc ∈ Q, IsList pwindow_t.child s.windows (some qc.1) (qc.1 :: qc.2)) →
    (∀ qc ∈ Q, qc.2.length < cfuel) → Q.length < fuel →
    efreeMainList cfuel fuel s p =
      .ok (logEvents s (efreeEvents (Q.flatMap (fun qc => qc.2 ++ [qc.1])))) := by
  intro Q
  induction Q with
  | nil =>
    intro fuel s p hl _ _ hf
    rw [List.map_nil, IsList.nil_iff] at hl
    subst hl
    obtain ⟨f, rfl⟩ : ∃ f, fuel = f + 1 := ⟨fuel - 1, by simp at hf; omega⟩
    simp [efreeMainList, efreeEvents, logEvents_nil]
  | cons qc Q ih =>
    intro fuel s p hl hch hcf hf
    obtain ⟨q, c⟩ := qc
    rw [List.map_cons, IsList.cons_iff] at hl
    obtain ⟨rfl, w, hw, hl⟩ := hl
    obtain ⟨f, rfl⟩ : ∃ f, fuel = f + 1 := ⟨fuel - 1, by simp at hf; omega⟩
    have hc := hch (q, c) (List.mem_cons_self _ _)
    rw [IsList.cons_iff] at hc
    obtain ⟨_, w', hw', hc⟩ := hc
    simp only at hw' hw
    rw [hw] at hw'
    cases hw'
    rw [efreeMainList]
    simp only [hw]
    rw [efreeList_spec pwindow_t.child c cfuel s w.child hc
      (hcf (q, c) (List.mem_cons_self _ _))]
    simp only
    rw [ih f _ w.next (by simpa using hl)
      (fun qc hqc => by simpa using hch qc (List.mem_cons_of_mem _ hqc))
      (fun qc hqc => hcf qc (List.mem_cons_of_mem _ hqc)) (by simp at hf; omega)]
    rw [logEvents_logEvents, logEvents_logEvents]
    simp [efreeEvents]

theorem ListsOK.lengths {s : State} {Q : List (Nat × List Nat)} {P : List Nat}
    (h : ListsOK s Q P) :
    Q.length ≤ s.windows.length ∧ P.length ≤ s.windows.length ∧
    ∀ qc ∈ Q, qc.2.length ≤ s.windows.length := by
  obtain ⟨hq, hch, hP, hnd, _⟩ := h
  have hall : ∀ a ∈ allWindows Q P, a < s.windows.length := by
    intro a ha
    simp only [allWindows, List.mem_append, List.mem_flatMap] at ha
    rcases ha with ⟨qc, hqc, ha⟩ | ha
    · exact (hch qc hqc).valid a ha
    · exact hP.valid a ha
  refine ⟨?_, ?_, ?_⟩
  · have h1 := nodup_length_le (l := Q.map Prod.fst) (n := s.windows.length) ?_ hq.valid
    · simpa using h1
    · have hsub : (Q.map Prod.fst).Sublist (allWindows Q P) := by
        unfold allWindows
        refine List.Sublist.trans ?_ (List.sublist_append_left _ _)
        clear hq hch hnd hall
        induction Q with
        | nil => simp
        | cons qc Q ih =>
          simp only [List.map_cons, List.flatMap_cons, List.cons_append]
          exact List.Sublist.cons₂ _ (List.Sublist.trans ih (List.sublist_append_right _ _))
      exact hnd.sublist hsub
  · exact nodup_length_le (hnd.sublist (List.sublist_append_right _ _))
      (fun a ha => hall a (by simp [allWindows, ha]))
  · intro qc hqc
    have hsub : qc.2.Sublist (allWindows Q P) := by
      unfold allWindows
      refine List.Sublist.trans ?_ (List.sublist_append_left _ _)
      clear hq hch hnd hall
      induction Q with
      | nil => cases hqc
      | cons qc' Q ih =>
        simp only [List.flatMap_cons]
        rcases List.mem_cons.mp hqc with rfl | hqc
        · exact List.Sublist.trans (List.sublist_cons_self _ _) (List.sublist_append_left _ _)
        · exact List.Sublist.trans (ih hqc) (List.sublist_append_right _ _)
    exact nodup_length_le (hnd.sublist hsub) (fun a ha => hall a (hsub.subset ha))

theorem efreeList_portals (nxt : pwindow_t → Ptr) : ∀ (fuel : Nat) (s : State) (p : Ptr)
    (s' : State), efreeList nxt fuel s p = .ok s' → s'.portals = s.portals := by
  intro fuel
  induction fuel with
  | zero =>
    intro s p s' h
    simp [efreeList] at h
  | succ f ih =>
    intro s p s' h
    cases p with
    | none =>
      simp only [efreeList, Except.ok.injEq] at h
      rw [← h]
    | some a =>
      rw [efreeList] at h
      split at h
      · cases h
      · rw [ih _ _ _ h]
        simp

theorem efreeMainList_portals (cfuel : Nat) : ∀ (fuel : Nat) (s : State) (p : Ptr)
    (s' : State), efreeMainList cfuel fuel s p = .ok s' → s'.portals = s.portals := by
  intro fuel
  induction fuel with
  | zero =>
    intro s p s' h
    simp [efreeMainList] at h
  | succ f ih =>
    intro s p s' h
    cases p with
    | none =>
      simp only [efreeMainList, Except.ok.injEq] at h
      rw [← h]
    | some a =>
      rw [efreeMainList] at h
      split at h
      · cases h
      · split at h
        · cases h
        · rename_i s1 h1
          rw [ih _ _ _ h]
          simp only [logEvents_fields]
          exact efreeList_portals _ _ _ _ _ h1

/-- C11. Resolution-change handling. From every state, whenever the handler
`VALLOCATION(portals)` returns, every chain slot of every portal's overlay
table is null and `windowhead`, `windowlast` and `unusedhead` are null. And it
does return when the window lists are well formed (a queue of windows with
child chains of any length and a free list, see `ListsOK`), the overlay tables
have `chaincount` slots and the loops get more turns than there are window
records; it has then released every child chain and its queue window in queue
order, then the free list, each window once. -/
theorem vallocation_clears_overlays_and_lists (fuel : Nat) (s : State) :
    (∀ s', VALLOCATION_portals fuel s = .ok s' →
      OverlaysCleared s'.portals ∧ s'.portals.length = s.portals.length ∧
      s'.windowhead = none ∧ s'.windowlast = none ∧ s'.unusedhead = none) ∧
    (∀ queue pool, ListsOK s queue pool → OverlaysOK s.portals → s.windows.length < fuel →
      ∃ s', VALLOCATION_portals fuel s = .ok s' ∧
        s'.trace = s.trace ++
          efreeEvents (queue.flatMap (fun qc => qc.2 ++ [qc.1]) ++ pool)) := by
  constructor
  · intro s' h
    unfold VALLOCATION_portals at h
    split at h
    · cases h
    · rename_i ps hps
      simp only at h
      split at h
      · cases h
      · split at h
        · cases h
        · rename_i s2 hmain _ s3 hfree
          cases h
          obtain ⟨h1, h2⟩ := clearOverlays_spec _ _ hps
          have hp3 : s3.portals = ps := by
            rw [efreeList_portals _ _ _ _ _ hfree, efreeMainList_portals _ _ _ _ _ hmain]
            simp
          simp only [setWindowhead_fields, setWindowlast_fields, setUnusedhead_fields, hp3]
          exact ⟨h1, h2, trivial, trivial, trivial⟩
  · intro Q P hok hov hfuel
    obtain ⟨ps, hps⟩ := clearOverlays_ok _ hov
    obtain ⟨l1, l2, l3⟩ := hok.lengths
    obtain ⟨hq, hch, hP, _, _⟩ := hok
    unfold VALLOCATION_portals
    simp only [hps]
    rw [efreeMainList_spec fuel Q fuel (setPortals s ps) _ (by simpa using hq)
      (by simpa using hch) (fun qc hqc => by have := l3 qc hqc; omega) (by omega)]
    simp only
    rw [efreeList_spec pwindow_t.next P fuel _ _ (by simpa using hP) (by omega)]
    refine ⟨_, rfl, ?_⟩
    simp [efreeEvents]

/-- The handler on `resizeState`: one queue window with a child, one window on
the free list, an overlay table with two filled slots. -/
theorem vallocation_clears_overlays_and_lists_witness :
    ListsOK resizeState [(2, [0])] [1] ∧ OverlaysOK resizeState.portals ∧
    resizeState.windows.length < 4 ∧
    ∃ s', VALLOCATION_portals 4 resizeState = .ok s' ∧
      s'.trace = resizeState.trace ++
        efreeEvents (([(2, [0])] : List (Nat × List Nat)).flatMap (fun qc => qc.2 ++ [qc.1])
          ++ [1]) :=
  ⟨by decide, by decide, by decide,
    (vallocation_clears_overlays_and_lists 4 resizeState).2 [(2, [0])] [1]
      (by decide) (by decide) (by decide)⟩

/-! ## Null references -/

theorem portalKey_plane {p : portal_t} {d : skyplanedata_t} (h : portalKey p = .plane d) :
    p.type = .R_PLANE ∧ p.data.plane = d := by
  unfold portalKey at h
  cases hp : p.type <;> rw [hp] at h <;> simp at h
  exact ⟨rfl, h⟩

theorem portalKey_horizon {p : portal_t} {d : horizondata_t} (h : portalKey p = .horizon d) :
    p.type = .R_HORIZON ∧ p.data.horizon = d := by
  unfold portalKey at h
  cases hp : p.type <;> rw [hp] at h <;> simp at h
  exact ⟨rfl, h⟩

/-- C12. `R_GetPlanePortal` and `R_GetHorizonPortal` return `NULL` exactly when
one of the references passed is null, and then leave the state (so the portal
list) as it was; otherwise they return the address of a portal of the list
whose type is `R_PLANE` (`R_HORIZON`) and whose stored references are the
arguments. -/
theorem plane_horizon_null_guard (s : State) (d : skyplanedata_t) (h : horizondata_t) :
    (((R_GetPlanePortal s d).1 = none ↔
        (d.pic = none ∨ d.delta = none ∨ d.lightlevel = none ∨ d.xoff = none ∨
         d.yoff = none ∨ d.baseangle = none ∨ d.angle = none)) ∧
      ((R_GetPlanePortal s d).1 = none → (R_GetPlanePortal s d).2 = s) ∧
      ((R_GetPlanePortal s d).1 ≠ none →
        ∃ i p, (R_GetPlanePortal s d).1 = some i ∧
          (R_GetPlanePortal s d).2.portals[i]? = some p ∧
          p.type = .R_PLANE ∧ p.data.plane = d)) ∧
    (((R_GetHorizonPortal s h).1 = none ↔
        (h.floorpic = none ∨ h.ceilingpic = none ∨ h.floorz = none ∨ h.ceilingz = none ∨
         h.floorlight = none ∨ h.ceilinglight = none ∨ h.floorxoff = none ∨
         h.flooryoff = none ∨ h.ceilingxoff = none ∨ h.ceilingyoff = none ∨
         h.floorbaseangle = none ∨ h.floorangle = none ∨ h.ceilingbaseangle = none ∨
         h.ceilingangle = none)) ∧
      ((R_GetHorizonPortal s h).1 = none → (R_GetHorizonPortal s h).2 = s) ∧
      ((R_GetHorizonPortal s h).1 ≠ none →
        ∃ i p, (R_GetHorizonPortal s h).1 = some i ∧
          (R_GetHorizonPortal s h).2.portals[i]? = some p ∧
          p.type = .R_HORIZON ∧ p.data.horizon = h)) := by
  constructor
  · have e := applyCall_eq sampleEnv s (.plane d)
    simp only [applyCall] at e
    by_cases hn : (d.pic.isNone || d.delta.isNone || d.lightlevel.isNone || d.xoff.isNone ||
       d.yoff.isNone || d.baseangle.isNone || d.angle.isNone) = true
    · have hres : R_GetPlanePortal s d = (none, s) := by
        rw [e]
        simp only [callKey, if_pos hn]
      simp only [Bool.or_eq_true, Option.isNone_iff_eq_none, or_assoc] at hn
      rw [hres]
      exact ⟨⟨fun _ => hn, fun _ => rfl⟩, fun _ => rfl, fun hne => absurd rfl hne⟩
    · have hk : callKey sampleEnv (.plane d) = some (.plane d) := by
        simp only [callKey, if_neg hn]
      obtain ⟨i, p, h1, h2, h3, _⟩ := lookupOrAppend_spec (.plane d)
        (callPortal sampleEnv (.plane d)) s (portalKey_callPortal hk)
      have hres : R_GetPlanePortal s d =
          lookupOrAppend (.plane d) (callPortal sampleEnv (.plane d)) s := by
        rw [e, hk]
      simp only [Bool.or_eq_true, Option.isNone_iff_eq_none, or_assoc] at hn
      rw [hres]
      refine ⟨⟨fun hx => ?_, fun hx => absurd hx hn⟩, fun hx => ?_, fun _ => ?_⟩
      · rw [h1] at hx
        cases hx
      · rw [h1] at hx
        cases hx
      · exact ⟨i, p, h1, h2, portalKey_plane h3⟩
  · have e := applyCall_eq sampleEnv s (.horizon h)
    simp only [applyCall] at e
    by_cases hn : (h.floorpic.isNone || h.ceilingpic.isNone || h.floorz.isNone ||
       h.ceilingz.isNone || h.floorlight.isNone || h.ceilinglight.isNone ||
       h.floorxoff.isNone || h.flooryoff.isNone || h.ceilingxoff.isNone ||
       h.ceilingyoff.isNone || h.floorbaseangle.isNone ||
       h.floorangle.isNone || h.ceilingbaseangle.isNone ||
       h.ceilingangle.isNone) = true
    · have hres : R_GetHorizonPortal s h = (none, s) := by
        rw [e]
        simp only [callKey, if_pos hn]
      simp only [Bool.or_eq_true, Option.isNone_iff_eq_none, or_assoc] at hn
      rw [hres]
      exact ⟨⟨fun _ => hn, fun _ => rfl⟩, fun _ => rfl, fun hne => absurd rfl hne⟩
    · have hk : callKey sampleEnv (.horizon h) = some (.horizon h) := by
        simp only [callKey, if_neg hn]
      obtain ⟨i, p, h1, h2, h3, _⟩ := lookupOrAppend_spec (.horizon h)
        (callPortal sampleEnv (.horizon h)) s (portalKey_callPortal hk)
      have hres : R_GetHorizonPortal s h =
          lookupOrAppend (.horizon h) (callPortal sampleEnv (.horizon h)) s := by
        rw [e, hk]
      simp only [Bool.or_eq_true, Option.isNone_iff_eq_none, or_assoc] at hn
      rw [hres]
      refine ⟨⟨fun hx => ?_, fun hx => absurd hx hn⟩, fun hx => ?_, fun _ => ?_⟩
      · rw [h1] at hx
        cases hx
      · rw [h1] at hx
        cases hx
      · exact ⟨i, p, h1, h2, portalKey_horizon h3⟩

/-! ## Off-screen spans -/

/-- C13, refuted as stated. In a build with `RANGECHECK`, on a freshly claimed
window, the call `R_WindowAdd (w, 1, -10, -5)` with a span that lies above the
screen (`ybottom < 0`) does not return: it ends in `I_Error`. -/
theorem windowAdd_offscreen_span_aborts :
    (-5 : ℚ) < 0 ∧ claimedState.windows.length = 1 ∧
    R_WindowAdd narrowEnv 1 claimedState (some 0) 1 (-10) (-5) =
      .error (.I_Error "R_WindowAdd portal supplied with bad column data.") := by
  refine ⟨by decide, by rfl, by rfl⟩

/-- C13, amended. Take a valid window with column buffers of `video.width`
entries, a column `x` in `[0, video.width)` and a span that is off screen
(`ybottom < 0` or `ytop >= view.height`). If `RANGECHECK` is not compiled in,
or if the span is not a top-to-bottom span (`ybottom <= ytop`) and the stored
column passes the assertion on the opening, then `R_WindowAdd` returns and
the state is the one before the call: the window, its child chain, the free
list and every global are unchanged, and no child was created. -/
theorem windowAdd_offscreen_rejected (env : Env) (fuel : Nat) (s : State) (a : Nat)
    (w : pwindow_t) (x : Int) (ytop ybottom : ℚ)
    (hw : s.windows[a]? = some w)
    (hx : 0 ≤ x ∧ x < env.video_width)
    (hlen : w.top.length = env.video_width ∧ w.bottom.length = env.video_width)
    (hoff : ybottom < 0 ∨ ytop ≥ env.view_height)
    (hin : env.RANGECHECK = true → ybottom ≤ ytop)
    (hopen : env.RANGECHECK = true →
      ¬ (w.bottom.getD x.toNat 0 > w.top.getD x.toNat 0 ∧
        (w.top.getD x.toNat 0 < 0 ∨ w.bottom.getD x.toNat 0 < 0 ∨
         w.top.getD x.toNat 0 ≥ env.view_height ∨
         w.bottom.getD x.toNat 0 ≥ env.view_height))) :
    R_WindowAdd env (fuel + 1) s (some a) x ytop ybottom = .ok s := by
  rw [R_WindowAdd_step env fuel s a w x ytop ybottom hw hx hlen
    (fun h hbad => absurd hbad.2 (not_lt.mpr (hin h))) hopen]
  have hg : ¬ GoesToChild env w x ytop ybottom := fun h => h.1 hoff
  rw [if_neg hg]
  have hl : addLocal env s.viewx s.viewy s.viewz w x ytop ybottom = w := by
    unfold addLocal
    simp only [if_pos hoff]
  rw [hl, putWindow_self hw]

/-- In a build without `RANGECHECK` the span `(-10, -5)` is rejected, and the
freshly claimed window stays as it was. -/
theorem windowAdd_offscreen_rejected_witness :
    R_WindowAdd narrowEnvRelease 1 claimedState (some 0) 1 (-10) (-5) = .ok claimedState :=
  windowAdd_offscreen_rejected narrowEnvRelease 0 claimedState 0
    (R_SetPortalFunction .R_SKYBOX
      { R_ClearPortalWindow narrowEnv (freshWindow narrowEnv) with
        portal := some 0, line := none, type := .pw_floor, head := some 0 })
    1 (-10) (-5) (by rfl) (by decide) (by decide) (by decide) (by decide) (by decide)

/-! ## Claiming windows -/

/-- Appending a window to a pointer list: the last window of the list gets the
new window as successor, the new window has none. -/
theorem IsList.snoc {nxt : pwindow_t → Ptr} {ws ws' : List pwindow_t} {c : Nat} :
    ∀ {Q : List Nat} {p : Ptr},
    IsList nxt ws p Q → Q ≠ [] → (Q ++ [c]).Nodup →
    (∀ lst, Q.getLast? = some lst → ∃ r, ws'[lst]? = some r ∧ nxt r = some c) →
    (∃ rc, ws'[c]? = some rc ∧ nxt rc = none) →
    (∀ b ∈ Q, Q.getLast? ≠ some b → ws'[b]? = ws[b]?) →
    IsList nxt ws' p (Q ++ [c]) := by
  intro Q
  induction Q with
  | nil => intro p _ h; exact absurd rfl h
  | cons a Q ih =>
    intro p h _ hnd hlast hc hoth
    rw [IsList.cons_iff] at h
    obtain ⟨rfl, w, hw, hl⟩ := h
    cases Q with
    | nil =>
      obtain ⟨r, hr, hrn⟩ := hlast a rfl
      obtain ⟨rc, hrc, hrcn⟩ := hc
      rw [List.cons_append, IsList.cons_iff]
      refine ⟨rfl, r, hr, ?_⟩
      rw [hrn, List.nil_append, IsList.cons_iff]
      exact ⟨rfl, rc, hrc, by rw [IsList.nil_iff]; exact hrcn⟩
    | cons b Q =>
      have hnd' : (b :: Q ++ [c]).Nodup := (List.nodup_cons.mp hnd).2
      have ha : a ∉ b :: Q ++ [c] := (List.nodup_cons.mp hnd).1
      have hane : (a :: b :: Q).getLast? ≠ some a := by
        rw [List.getLast?_cons_cons]
        intro hx
        have := List.mem_of_getLast?_eq_some hx
        exact ha (List.mem_append_left _ this)
      have hwa : ws'[a]? = some w := by
        rw [hoth a (List.mem_cons_self _ _) hane, hw]
      rw [List.cons_append, IsList.cons_iff]
      refine ⟨rfl, w, hwa, ?_⟩
      apply ih hl (by simp) hnd'
      · intro lst hlst
        exact hlast lst (by rw [List.getLast?_cons_cons]; exact hlst)
      · exact hc
      · intro x hx hxl
        exact hoth x (List.mem_cons_of_mem _ hx) (by rw [List.getLast?_cons_cons]; exact hxl)

theorem IsList.last_next {nxt : pwindow_t → Ptr} {ws : List pwindow_t} :
    ∀ {Q : List Nat} {p : Ptr}, IsList nxt ws p Q →
    ∀ lst, Q.getLast? = some lst → ∃ r, ws[lst]? = some r ∧ nxt r = none := by
  intro Q
  induction Q with
  | nil => intro p _ lst h; simp at h
  | cons a Q ih =>
    intro p h lst hlst
    rw [IsList.cons_iff] at h
    obtain ⟨_, w, hw, hl⟩ := h
    cases Q with
    | nil =>
      simp at hlst
      subst hlst
      exact ⟨w, hw, by simpa [IsList] using hl⟩
    | cons b Q =>
      rw [List.getLast?_cons_cons] at hlst
      exact ih hl lst hlst

/-- `R_NewPortalWindow` on a well-formed queue, for a valid portal: it returns a
window that was not in the queue, taken from the head of the free list or
newly allocated; the window is cleared, carries the arguments, is its own
head, and is the new last window of the queue; the former last window points
to it and no other record changes. -/
theorem R_NewPortalWindow_queue {env : Env} {s : State} {Q P : List Nat} {p l : Ptr}
    {t : pwindowtype_e} {i : Nat} {pr : portal_t}
    (hq : QueueOK env s Q P) (hp : p = some i) (hpr : s.portals[i]? = some pr) :
    ∃ c s', R_NewPortalWindow env s p l t = .ok (c, s') ∧
      QueueOK env s' (Q ++ [c]) P.tail ∧ c ∉ Q ∧
      ((P.head? = some c ∧ s'.windows.length = s.windows.length) ∨
       (P = [] ∧ c = s.windows.length ∧ s'.windows.length = s.windows.length + 1)) ∧
      (∃ r, s'.windows[c]? = some r ∧ IsCleared env r ∧ r.portal = p ∧ r.line = l ∧
        r.type = t ∧ r.head = some c ∧
        r.func = (R_SetPortalFunction pr.type r).func ∧
        r.clipfunc = (R_SetPortalFunction pr.type r).clipfunc) ∧
      (∀ b, b ≠ c → Q.getLast? ≠ some b → s'.windows[b]? = s.windows[b]?) ∧
      (∀ lst, Q.getLast? = some lst →
        ∃ r, s.windows[lst]? = some r ∧ s'.windows[lst]? = some { r with next := some c }) ∧
      s'.portals = s.portals ∧ s'.trace = s.trace ∧ s'.viewx = s.viewx ∧
      s'.viewy = s.viewy ∧ s'.viewz = s.viewz ∧ s'.viewangle = s.viewangle := by
  obtain ⟨hbuf, hlist, hlast, hpool, hnd⟩ := hq
  obtain ⟨c, s1, hn, ⟨rc, hrc, hclr, _⟩, hfr, hbuf1, hglob, hpool1, hc, hcase⟩ :=
    newPortalWindow_pool hbuf hpool
  have hQvalid := hlist.valid
  have hcQ : c ∉ Q := by
    intro hin
    rcases hcase with ⟨hh, _⟩ | ⟨_, hh, _⟩
    · cases P with
      | nil => simp at hh
      | cons b P =>
        simp at hh
        subst hh
        exact (List.nodup_append.mp hnd).2.2 hin (List.mem_cons_self _ _)
    · have := hQvalid c hin
      omega
  have hcase' : (P.head? = some c ∧ s1.windows.length = s.windows.length) ∨
      (P = [] ∧ c = s.windows.length ∧ s1.windows.length = s.windows.length + 1) := hcase
  obtain ⟨g1, g2, g3, g4, g5, g6, g7, g8, g9, g10, g11, g12⟩ := hglob
  let r2 : pwindow_t := { rc with portal := p, line := l, type := t, head := some c }
  let r3 : pwindow_t := R_SetPortalFunction pr.type r2
  have hclt : c < s1.windows.length := (List.getElem?_eq_some.mp hrc).1
  have e2 : setWindow s1 c
      (fun w => { w with portal := p, line := l, type := t, head := some c }) =
      putWindow s1 c r2 := setWindow_eq_putWindow _ hrc
  have hr2 : (putWindow s1 c r2).windows[c]? = some r2 := getElem?_putWindow_self _ hclt
  have e3 : setWindow (putWindow s1 c r2) c (R_SetPortalFunction pr.type) =
      putWindow s1 c r3 := by
    rw [setWindow_eq_putWindow _ hr2, putWindow_putWindow]
  have hgp : getPortal (putWindow s1 c r2) p = .ok pr := by
    simp only [getPortal, hp, putWindow_fields, g1, hpr]
  have hf := R_SetPortalFunction_fields pr.type r2
  obtain ⟨f1, f2, f3, f4, f5, f6, f7, f8, f9, f10, f11, f12, f13⟩ := hf
  obtain ⟨c1, c2, c3, c4, c5, c6, c7, c8, c9⟩ := hclr
  have hclr3 : IsCleared env r3 := by
    refine ⟨?_, ?_, ?_, ?_, ?_, ?_, ?_, ?_, ?_⟩
    · show (R_SetPortalFunction pr.type r2).top = _
      rw [f1]; exact c1
    · show (R_SetPortalFunction pr.type r2).bottom = _
      rw [f2]; exact c2
    · show (R_SetPortalFunction pr.type r2).minx = _
      rw [f3]; exact c3
    · show (R_SetPortalFunction pr.type r2).maxx = _
      rw [f4]; exact c4
    · show (R_SetPortalFunction pr.type r2).child = _
      rw [f5]; exact c5
    · show (R_SetPortalFunction pr.type r2).next = _
      rw [f6]; exact c6
    · show (R_SetPortalFunction pr.type r2).vx = _
      rw [f7]; exact c7
    · show (R_SetPortalFunction pr.type r2).vy = _
      rw [f8]; exact c8
    · show (R_SetPortalFunction pr.type r2).vz = _
      rw [f9]; exact c9
  have hidem : r3.func = (R_SetPortalFunction pr.type r3).func ∧
      r3.clipfunc = (R_SetPortalFunction pr.type r3).clipfunc := by
    show (R_SetPortalFunction pr.type r2).func =
        (R_SetPortalFunction pr.type (R_SetPortalFunction pr.type r2)).func ∧
      (R_SetPortalFunction pr.type r2).clipfunc =
        (R_SetPortalFunction pr.type (R_SetPortalFunction pr.type r2)).clipfunc
    cases pr.type <;> simp [R_SetPortalFunction]
  have hrec3 : r3.portal = p ∧ r3.line = l ∧ r3.type = t ∧ r3.head = some c := by
    refine ⟨?_, ?_, ?_, ?_⟩
    · show (R_SetPortalFunction pr.type r2).portal = _
      rw [f10]
    · show (R_SetPortalFunction pr.type r2).line = _
      rw [f11]
    · show (R_SetPortalFunction pr.type r2).type = _
      rw [f12]
    · show (R_SetPortalFunction pr.type r2).head = _
      rw [f13]
  have hlen3 : r3.top.length = env.video_width ∧ r3.bottom.length = env.video_width := by
    rw [hclr3.1, hclr3.2.1]
    simp
  have hbuf3 : BuffersOK env (putWindow s1 c r3) := hbuf1.putWindow c r3 hlen3
  have hr3 : (putWindow s1 c r3).windows[c]? = some r3 := getElem?_putWindow_self _ hclt
  have hoth3 : ∀ b, b ≠ c → (putWindow s1 c r3).windows[b]? = s.windows[b]? := by
    intro b hb
    rw [getElem?_putWindow_ne _ (Ne.symm hb), hfr b hb]
  have hpool3 : PoolOK (putWindow s1 c r3) P.tail := hpool1.putWindow_frame r3 hc
  have hrun : R_NewPortalWindow env s p l t =
      (match (putWindow s1 c r3).windowhead with
        | none => (Except.ok (c, { putWindow s1 c r3 with
            windowhead := some c, windowlast := some c }) : Except Err (Nat × State))
        | some _ =>
          match (putWindow s1 c r3).windowlast with
          | none => .error .undefined
          | some lst =>
            if lst < (putWindow s1 c r3).windows.length then
              .ok (c, { setWindow (putWindow s1 c r3) lst (fun w => { w with next := some c })
                        with windowlast := some c })
            else .error .undefined) := by
    unfold R_NewPortalWindow
    simp only [hn, bind, Except.bind]
    rw [e2]
    simp only [hgp]
    rw [e3]
    try rfl
  have hntail : (Q ++ [c] ++ P.tail).Nodup := by
    have hsub : P.tail.Sublist P := List.tail_sublist P
    have h1 : (Q ++ P.tail).Nodup :=
      hnd.sublist (List.Sublist.append_left hsub Q)
    rw [List.append_assoc, List.nodup_append] at *
    refine ⟨h1.1, ?_, ?_⟩
    · simp only [List.singleton_append, List.nodup_cons]
      exact ⟨hc, h1.2.1⟩
    · intro a ha hb
      simp only [List.singleton_append, List.mem_cons] at hb
      rcases hb with rfl | hb
      · exact hcQ ha
      · exact h1.2.2 ha hb
  cases Q with
  | nil =>
    rw [IsList.nil_iff] at hlist
    have hh3 : (putWindow s1 c r3).windowhead = none := by
      show s1.windowhead = none
      rw [g2, hlist]
    have hres : R_NewPortalWindow env s p l t = .ok (c,
        setWindowlast (setWindowhead (putWindow s1 c r3) (some c)) (some c)) := by
      rw [hrun]
      simp only [hh3]
      try rfl
    refine ⟨c, _, hres, ⟨?_, ?_, ?_, ?_, ?_⟩, hcQ, ?_, ⟨r3, hr3, hclr3, hrec3.1, hrec3.2.1,
      hrec3.2.2.1, hrec3.2.2.2, hidem.1, hidem.2⟩, ?_, ?_, ?_⟩
    · exact hbuf3
    · show IsList pwindow_t.next (putWindow s1 c r3).windows (some c) ([] ++ [c])
      rw [List.nil_append, IsList.cons_iff]
      exact ⟨rfl, r3, hr3, by rw [IsList.nil_iff]; exact hclr3.2.2.2.2.2.1⟩
    · rfl
    · exact hpool3
    · exact hntail
    · rcases hcase' with ⟨h1, h2⟩ | ⟨h1, h2, h3⟩
      · exact Or.inl ⟨h1, by simpa [putWindow] using h2⟩
      · exact Or.inr ⟨h1, h2, by simpa [putWindow] using h3⟩
    · intro b hb _
      exact hoth3 b hb
    · intro lst hlst
      simp at hlst
    · exact ⟨g1, g12, g5, g6, g7, g8⟩
  | cons hd Q =>
    rw [IsList.cons_iff] at hlist
    obtain ⟨hhead, whd, hwhd, hl⟩ := hlist
    have hlist : IsList pwindow_t.next s.windows s.windowhead (hd :: Q) := by
      rw [IsList.cons_iff]
      exact ⟨hhead, whd, hwhd, hl⟩
    obtain ⟨lst, hlst⟩ : ∃ lst, (hd :: Q).getLast? = some lst :=
      ⟨(hd :: Q).getLast (by simp), List.getLast?_eq_getLast _ _⟩
    have hlstQ : lst ∈ hd :: Q := List.mem_of_getLast?_eq_some hlst
    have hlstlt : lst < s.windows.length := hQvalid lst hlstQ
    have hlstc : lst ≠ c := by
      rintro rfl
      exact hcQ hlstQ
    obtain ⟨rl, hrl, hrln⟩ := hlist.last_next lst hlst
    have hlen1 : s.windows.length ≤ s1.windows.length := by
      rcases hcase' with ⟨_, h2⟩ | ⟨_, _, h3⟩ <;> omega
    have hrl3 : (putWindow s1 c r3).windows[lst]? = some rl := by
      rw [hoth3 lst hlstc, hrl]
    have e4 : setWindow (putWindow s1 c r3) lst (fun w => { w with next := some c }) =
        putWindow (putWindow s1 c r3) lst { rl with next := some c } :=
      setWindow_eq_putWindow _ hrl3
    have hlt3 : lst < (putWindow s1 c r3).windows.length := by
      simp [putWindow]; omega
    have hh3 : (putWindow s1 c r3).windowhead = some hd := by
      show s1.windowhead = some hd
      rw [g2, hhead]
    have hl3 : (putWindow s1 c r3).windowlast = some lst := by
      show s1.windowlast = some lst
      rw [g3, hlast, hlst]
    have hres : R_NewPortalWindow env s p l t = .ok (c,
        setWindowlast (putWindow (putWindow s1 c r3) lst { rl with next := some c })
          (some c)) := by
      rw [hrun]
      simp only [hh3, hl3]
      rw [if_pos hlt3, e4]
      try rfl
    have hrlen := hbuf.get hrl
    have hget4 : ∀ b, b ≠ lst →
        (putWindow (putWindow s1 c r3) lst { rl with next := some c }).windows[b]? =
        (putWindow s1 c r3).windows[b]? := fun b hb => getElem?_putWindow_ne _ (Ne.symm hb)
    have hgetl : (putWindow (putWindow s1 c r3) lst { rl with next := some c }).windows[lst]? =
        some { rl with next := some c } := getElem?_putWindow_self _ hlt3
    have hlstP : lst ∉ P.tail := by
      intro hin
      exact (List.nodup_append.mp hnd).2.2 hlstQ (List.mem_of_mem_tail hin)
    refine ⟨c, _, hres, ⟨?_, ?_, ?_, ?_, ?_⟩, hcQ, ?_, ⟨r3, ?_, hclr3, hrec3.1, hrec3.2.1,
      hrec3.2.2.1, hrec3.2.2.2, hidem.1, hidem.2⟩, ?_, ?_, ?_⟩
    · exact hbuf3.putWindow lst _ hrlen
    · have hwh : (setWindowlast (putWindow (putWindow s1 c r3) lst
          { rl with next := some c }) (some c)).windowhead = some hd := by
        show s1.windowhead = some hd
        rw [g2, hhead]
      rw [hwh]
      show IsList pwindow_t.next
        (putWindow (putWindow s1 c r3) lst { rl with next := some c }).windows
        (some hd) (hd :: Q ++ [c])
      have hlist' : IsList pwindow_t.next s.windows (some hd) (hd :: Q) := by
        rw [← hhead]
        exact hlist
      apply IsList.snoc hlist' (by simp)
      · exact (List.nodup_append.mp hntail).1
      · intro lst' hlst'
        rw [hlst] at hlst'
        cases hlst'
        exact ⟨_, hgetl, rfl⟩
      · refine ⟨r3, ?_, hclr3.2.2.2.2.2.1⟩
        rw [hget4 c (Ne.symm hlstc), hr3]
      · intro b hb hbl
        have hbl' : b ≠ lst := by
          rintro rfl
          exact hbl hlst
        have hbc : b ≠ c := by
          rintro rfl
          exact hcQ hb
        rw [hget4 b hbl', hoth3 b hbc]
    · show some c = (hd :: Q ++ [c]).getLast?
      rw [show hd :: Q ++ [c] = (hd :: Q) ++ [c] from rfl, List.getLast?_append]
      simp
    · exact hpool3.putWindow_frame _ hlstP
    · exact hntail
    · rcases hcase' with ⟨h1, h2⟩ | ⟨h1, h2, h3⟩
      · exact Or.inl ⟨h1, by simpa [putWindow] using h2⟩
      · exact Or.inr ⟨h1, h2, by simpa [putWindow] using h3⟩
    · show (putWindow (putWindow s1 c r3) lst { rl with next := some c }).windows[c]? = _
      rw [hget4 c (Ne.symm hlstc), hr3]
    · intro b hb hbl
      have hbl' : b ≠ lst := by
        rintro rfl
        exact hbl hlst
      show (putWindow (putWindow s1 c r3) lst { rl with next := some c }).windows[b]? = _
      rw [hget4 b hbl', hoth3 b hb]
    · intro lst' hlst'
      rw [hlst] at hlst'
      cases hlst'
      exact ⟨rl, hrl, hgetl⟩
    · exact ⟨g1, g12, g5, g6, g7, g8⟩

/-- The queue scan on a proper list returns the first window that passes the
test, given a turn for every window and one more. -/
theorem findWindow_spec (s : State) (test : pwindow_t → Bool) :
    ∀ (Q : List Nat) (fuel : Nat) (p : Ptr),
    IsList pwindow_t.next s.windows p Q → Q.length < fuel →
    findWindow s test fuel p = .ok (firstMatch s test Q) := by
  intro Q
  induction Q with
  | nil =>
    intro fuel p h hf
    rw [IsList.nil_iff] at h
    subst h
    obtain ⟨f, rfl⟩ : ∃ f, fuel = f + 1 := ⟨fuel - 1, by simp at hf; omega⟩
    simp [findWindow, firstMatch]
  | cons a Q ih =>
    intro fuel p h hf
    rw [IsList.cons_iff] at h
    obtain ⟨rfl, w, hw, hl⟩ := h
    obtain ⟨f, rfl⟩ : ∃ f, fuel = f + 1 := ⟨fuel - 1, by simp at hf; omega⟩
    rw [findWindow]
    simp only [hw]
    by_cases ht : test w = true
    · simp [firstMatch, hw, ht]
    · rw [if_neg ht, ih f w.next hl (by simp at hf; omega)]
      simp only [firstMatch, List.find?_cons, hw]
      simp [ht]

theorem firstMatch_some {s : State} {test : pwindow_t → Bool} {Q : List Nat} {a : Nat}
    (h : firstMatch s test Q = some a) :
    a ∈ Q ∧ ∃ r, s.windows[a]? = some r ∧ test r = true := by
  unfold firstMatch at h
  have h1 := List.mem_of_find?_eq_some h
  have h2 := List.find?_some h
  refine ⟨h1, ?_⟩
  cases hr : s.windows[a]? with
  | none => simp [hr] at h2
  | some r => exact ⟨r, rfl, by simpa [hr] using h2⟩

theorem firstMatch_none {s : State} {test : pwindow_t → Bool} {Q : List Nat}
    (h : firstMatch s test Q = none) :
    ∀ a ∈ Q, ∀ r, s.windows[a]? = some r → test r = false := by
  unfold firstMatch at h
  rw [List.find?_eq_none] at h
  intro a ha r hr
  have := h a ha
  simpa [hr] using this

theorem firstMatch_snoc {s : State} {test : pwindow_t → Bool} {Q : List Nat} {c : Nat}
    {rc : pwindow_t} (hQ : ∀ a ∈ Q, ∀ r, s.windows[a]? = some r → test r = false)
    (hv : ∀ a ∈ Q, ∃ r, s.windows[a]? = some r)
    (hc : s.windows[c]? = some rc) (ht : test rc = true) :
    firstMatch s test (Q ++ [c]) = some c := by
  have happ : firstMatch s test (Q ++ [c]) =
      (firstMatch s test Q).or (firstMatch s test [c]) := by
    unfold firstMatch
    exact List.find?_append
  have h1 : firstMatch s test Q = none := by
    unfold firstMatch
    rw [List.find?_eq_none]
    intro a ha
    obtain ⟨r, hr⟩ := hv a ha
    simp [hr, hQ a ha r hr]
  have h2 : firstMatch s test [c] = some c := by
    simp [firstMatch, hc, ht]
  rw [happ, h1, h2]
  rfl

/-- The common text of the three `R_Get*PortalWindow` functions, on a
well-formed queue and for a valid portal. -/
theorem claim_spec {env : Env} {s : State} {Q P : List Nat} {p l : Ptr}
    {t : pwindowtype_e} {i : Nat} {pr : portal_t} {fuel : Nat}
    (test : pwindow_t → Bool)
    (hq : QueueOK env s Q P) (hp : p = some i) (hpr : s.portals[i]? = some pr)
    (hfuel : Q.length + 1 < fuel)
    (hnew : ∀ r, r.portal = p → r.line = l → r.type = t → test r = true)
    (hdep : ∀ r n, test { r with next := n } = test r) :
    ClaimOK env s Q P test
      (fun s1 => do
        match ← findWindow s1 test fuel s1.windowhead with
        | some rover => .ok (rover, s1)
        | none => R_NewPortalWindow env s1 p l t)
      (do
        match ← findWindow s test fuel s.windowhead with
        | some rover => .ok (rover, s)
        | none => R_NewPortalWindow env s p l t) := by
  have hfind := findWindow_spec s test Q fuel s.windowhead hq.2.1 (by omega)
  cases hm : firstMatch s test Q with
  | some a =>
    obtain ⟨haQ, r, hr, htr⟩ := firstMatch_some hm
    have hres : (do
        match ← findWindow s test fuel s.windowhead with
        | some rover => .ok (rover, s)
        | none => R_NewPortalWindow env s p l t) = Except.ok (a, s) := by
      rw [hfind, hm]
      rfl
    refine ⟨a, s, hres, ⟨r, hr, htr⟩, ?_, ?_, ⟨Q, P, hq, haQ⟩, hres⟩
    · intro a' ha'
      rw [hm] at ha'
      cases ha'
      exact ⟨rfl, rfl⟩
    · intro h
      rw [hm] at h
      cases h
  | none =>
    obtain ⟨c, s', hrun, hq', hcQ, hcase, ⟨r, hr, _, hrp, hrl, hrt, _⟩, hoth, hlst, _⟩ :=
      R_NewPortalWindow_queue (l := l) (t := t) hq hp hpr
    have hres : (do
        match ← findWindow s test fuel s.windowhead with
        | some rover => .ok (rover, s)
        | none => R_NewPortalWindow env s p l t) = Except.ok (c, s') := by
      rw [hfind, hm]
      exact hrun
    have htr : test r = true := hnew r hrp hrl hrt
    have hnone := firstMatch_none hm
    have hfm' : firstMatch s' test (Q ++ [c]) = some c := by
      apply firstMatch_snoc _ _ hr htr
      · intro a ha ra hra
        have hac : a ≠ c := by
          rintro rfl
          exact hcQ ha
        by_cases hal : Q.getLast? = some a
        · obtain ⟨r0, hr0, hr0'⟩ := hlst a hal
          rw [hr0'] at hra
          cases hra
          rw [hdep]
          exact hnone a ha r0 hr0
        · rw [hoth a hac hal] at hra
          exact hnone a ha ra hra
      · intro a ha
        have hac : a ≠ c := by
          rintro rfl
          exact hcQ ha
        by_cases hal : Q.getLast? = some a
        · obtain ⟨r0, hr0, hr0'⟩ := hlst a hal
          exact ⟨_, hr0'⟩
        · rw [hoth a hac hal]
          have := hq.2.1.valid a ha
          exact ⟨s.windows[a], List.getElem?_eq_getElem this⟩
    have hfind' := findWindow_spec s' test (Q ++ [c]) fuel s'.windowhead hq'.2.1
      (by simp; omega)
    refine ⟨c, s', hres, ⟨r, hr, htr⟩, ?_, ?_, ⟨Q ++ [c], P.tail, hq', by simp⟩, ?_⟩
    · intro a ha
      rw [hm] at ha
      cases ha
    · intro _
      refine ⟨hcQ, hq', ?_, hoth, hlst⟩
      rcases hcase with ⟨h1, _⟩ | ⟨h1, h2, _⟩
      · exact Or.inl h1
      · exact Or.inr ⟨h1, h2⟩
    · show (do
        match ← findWindow s' test fuel s'.windowhead with
        | some rover => .ok (rover, s')
        | none => R_NewPortalWindow env s' p l t) = Except.ok (c, s')
      rw [hfind', hfm']
      rfl

/-- C14. `R_GetFloorPortalWindow`, `R_GetCeilingPortalWindow` and
`R_GetLinePortalWindow` are find-or-create. On a well-formed frame queue
`queue` with free list `pool`, for a valid portal and with a turn of the scan
for every queue window and two more, each of them returns a window of the
queue whose portal and type (and line, for a line window) are the requested
ones. If the queue held such a window, the first one is returned and the
state, so queue and free list, is unchanged; otherwise the queue grows by
exactly that window, appended after its last window. The same claim made
again returns the same window and changes nothing (see `ClaimOK`). -/
theorem claimWindow_find_or_create (env : Env) (fuel : Nat) (s : State)
    (queue pool : List Nat) (portal line : Ptr) (i : Nat) (pr : portal_t)
    (hq : QueueOK env s queue pool) (hp : portal = some i) (hpr : s.portals[i]? = some pr)
    (hfuel : queue.length + 1 < fuel) :
    ClaimOK env s queue pool
      (fun r => decide (r.portal = portal ∧ r.type = .pw_floor))
      (fun s1 => R_GetFloorPortalWindow env fuel s1 portal)
      (R_GetFloorPortalWindow env fuel s portal) ∧
    ClaimOK env s queue pool
      (fun r => decide (r.portal = portal ∧ r.type = .pw_ceiling))
      (fun s1 => R_GetCeilingPortalWindow env fuel s1 portal)
      (R_GetCeilingPortalWindow env fuel s portal) ∧
    ClaimOK env s queue pool
      (fun r => decide (r.portal = portal ∧ r.type = .pw_line ∧ r.line = line))
      (fun s1 => R_GetLinePortalWindow env fuel s1 portal line)
      (R_GetLinePortalWindow env fuel s portal line) := by
  have e1 : (fun r : pwindow_t => decide (r.portal = portal ∧ r.type = .pw_floor)) =
      (fun rover => rover.portal == portal && rover.type == .pw_floor) := by
    funext r
    by_cases h1 : r.portal = portal <;> by_cases h2 : r.type = .pw_floor <;> simp [h1, h2]
  have e2 : (fun r : pwindow_t => decide (r.portal = portal ∧ r.type = .pw_ceiling)) =
      (fun rover => rover.portal == portal && rover.type == .pw_ceiling) := by
    funext r
    by_cases h1 : r.portal = portal <;> by_cases h2 : r.type = .pw_ceiling <;> simp [h1, h2]
  have e3 : (fun r : pwindow_t => decide (r.portal = portal ∧ r.type = .pw_line ∧
      r.line = line)) =
      (fun rover => rover.portal == portal && rover.type == .pw_line &&
        rover.line == line) := by
    funext r
    by_cases h1 : r.portal = portal <;> by_cases h2 : r.type = .pw_line <;>
      by_cases h3 : r.line = line <;> simp [h1, h2, h3]
  refine ⟨?_, ?_, ?_⟩
  · rw [e1]
    exact claim_spec (l := none) (t := .pw_floor) _ hq hp hpr hfuel
      (fun r h1 _ h3 => by simp [h1, h3]) (fun r n => rfl)
  · rw [e2]
    exact claim_spec (l := none) (t := .pw_ceiling) _ hq hp hpr hfuel
      (fun r h1 _ h3 => by simp [h1, h3]) (fun r n => rfl)
  · rw [e3]
    exact claim_spec (l := line) (t := .pw_line) _ hq hp hpr hfuel
      (fun r h1 h2 h3 => by simp [h1, h2, h3]) (fun r n => rfl)

/-- The three claims on the sample frame, whose queue holds a floor and a
ceiling window of portal 0: the floor and the ceiling claim find their window,
the line claim appends a new one. -/
theorem claimWindow_find_or_create_witness :
    QueueOK narrowEnv twoWindowState [0, 2] [] ∧
    twoWindowState.portals[0]? = some (callPortal narrowEnv (.skybox (some 7))) ∧
    (ClaimOK narrowEnv twoWindowState [0, 2] []
      (fun r => decide (r.portal = some 0 ∧ r.type = .pw_floor))
      (fun s1 => R_GetFloorPortalWindow narrowEnv 4 s1 (some 0))
      (R_GetFloorPortalWindow narrowEnv 4 twoWindowState (some 0)) ∧
    ClaimOK narrowEnv twoWindowState [0, 2] []
      (fun r => decide (r.portal = some 0 ∧ r.type = .pw_ceiling))
      (fun s1 => R_GetCeilingPortalWindow narrowEnv 4 s1 (some 0))
      (R_GetCeilingPortalWindow narrowEnv 4 twoWindowState (some 0)) ∧
    ClaimOK narrowEnv twoWindowState [0, 2] []
      (fun r => decide (r.portal = some 0 ∧ r.type = .pw_line ∧ r.line = some 5))
      (fun s1 => R_GetLinePortalWindow narrowEnv 4 s1 (some 0) (some 5))
      (R_GetLinePortalWindow narrowEnv 4 twoWindowState (some 0) (some 5))) :=
  ⟨by decide, by rfl,
    claimWindow_find_or_create narrowEnv 4 twoWindowState [0, 2] [] (some 0) (some 5) 0
      (callPortal narrowEnv (.skybox (some 7))) (by decide) rfl (by rfl) (by decide)⟩

/-! ## Reinitialisation of window records -/

theorem IsCleared.empty {env : Env} {r : pwindow_t} (h : IsCleared env r)
    (hw : 2 ≤ env.viewwindow_width) (hh : -1 ≤ env.view_height) :
    r.maxx < r.minx ∧
    (∀ i, i < env.video_width → r.bottom.getD i 0 ≤ r.top.getD i 0) ∧
    r.child = none ∧ r.vx = 0 ∧ r.vy = 0 ∧ r.vz = 0 := by
  obtain ⟨c1, c2, c3, c4, c5, _, c7, c8, c9⟩ := h
  refine ⟨by rw [c3, c4]; omega, ?_, c5, c7, c8, c9⟩
  intro i hi
  rw [c1, c2, getD_replicate_lt _ _ _ _ hi, getD_replicate_lt _ _ _ _ hi]
  exact hh

/-- C15, refuted as stated. On a view window one column wide, the record
`newPortalWindow` returns has `minx = maxx = 0`: its range is not empty. -/
theorem newPortalWindow_range_not_empty_at_width_one :
    ∃ c s1 r,
      newPortalWindow { narrowEnv with video_width := 1, viewwindow_width := 1 } startState =
        .ok (c, s1) ∧
      s1.windows[c]? = some r ∧ r.minx = 0 ∧ r.maxx = 0 ∧ ¬ (r.maxx < r.minx) := by
  refine ⟨0, _, _, by rfl, by rfl, by rfl, by rfl, by decide⟩

/-- C15, amended. Let the view window be at least two columns wide and the view
height be at least `-1`, let the column buffers have `video.width` entries and
the free list be a proper list. Then `newPortalWindow` returns the head of the
free list, or a new record when the list is empty, and whatever the record
held before, it now has an empty range (`maxx < minx`), every column in
`[0, video.width)` empty (`bottom <= top`), no child and a zero snapshot. The
same holds for the window a returning `R_NewPortalWindow` hands out, and for
the child `R_CreateChildWindow` gives to a childless window that is not on the
free list. -/
theorem newPortalWindow_reinitialises (env : Env) (s : State) (pool : List Nat)
    (hbuf : BuffersOK env s) (hpool : PoolOK s pool)
    (hw : 2 ≤ env.viewwindow_width) (hh : -1 ≤ env.view_height) :
    (∃ c s1, newPortalWindow env s = .ok (c, s1) ∧
      (pool.head? = some c ∨ (pool = [] ∧ c = s.windows.length)) ∧
      ∃ r, s1.windows[c]? = some r ∧ r.maxx < r.minx ∧
        (∀ i, i < env.video_width → r.bottom.getD i 0 ≤ r.top.getD i 0) ∧
        r.child = none ∧ r.vx = 0 ∧ r.vy = 0 ∧ r.vz = 0) ∧
    (∀ p l t w s', R_NewPortalWindow env s p l t = .ok (w, s') →
      ∃ r, s'.windows[w]? = some r ∧ r.maxx < r.minx ∧
        (∀ i, i < env.video_width → r.bottom.getD i 0 ≤ r.top.getD i 0) ∧
        r.child = none ∧ r.vx = 0 ∧ r.vy = 0 ∧ r.vz = 0) ∧
    (∀ a par, s.windows[a]? = some par → par.child = none → a ∉ pool →
      ∃ c s1, R_CreateChildWindow env s a = .ok s1 ∧
        (s1.windows[a]?).bind pwindow_t.child = some c ∧
        ∃ r, s1.windows[c]? = some r ∧ r.maxx < r.minx ∧
          (∀ i, i < env.video_width → r.bottom.getD i 0 ≤ r.top.getD i 0) ∧
          r.child = none ∧ r.vx = 0 ∧ r.vy = 0 ∧ r.vz = 0) := by
  refine ⟨?_, ?_, ?_⟩
  · obtain ⟨c, s1, hn, ⟨rc, hrc, hclr, _⟩, _, _, _, _, _, hcase⟩ :=
      newPortalWindow_pool hbuf hpool
    refine ⟨c, s1, hn, ?_, rc, hrc, hclr.empty hw hh⟩
    rcases hcase with ⟨h1, _⟩ | ⟨h1, h2, _⟩
    · exact Or.inl h1
    · exact Or.inr ⟨h1, h2⟩
  · intro p l t w s' h
    obtain ⟨r, hr, h1, h2, h3, h4, h5, h6, h7, h8, _⟩ := R_NewPortalWindow_window hbuf h
    refine ⟨r, hr, by rw [h3, h4]; omega, ?_, h5, h6, h7, h8⟩
    intro i hi
    rw [h1, h2, getD_replicate_lt _ _ _ _ hi, getD_replicate_lt _ _ _ _ hi]
    exact hh
  · intro a par hpar hchild ha
    obtain ⟨c, s1, hrun, _, hpar1, ⟨rc, hrc, hclr, _⟩, _⟩ :=
      R_CreateChildWindow_spec hbuf hpool hpar hchild ha
    refine ⟨c, s1, hrun, by rw [hpar1]; rfl, rc, hrc, hclr.empty hw hh⟩

/-- The free list of the sample frame after rendering holds three used windows;
the next allocation takes the first and clears it. -/
theorem newPortalWindow_reinitialises_witness :
    BuffersOK narrowEnv twoWindowRendered ∧ PoolOK twoWindowRendered [2, 0, 1] ∧
    (∃ c s1, newPortalWindow narrowEnv twoWindowRendered = .ok (c, s1) ∧
      (([2, 0, 1] : List Nat).head? = some c ∨
        (([2, 0, 1] : List Nat) = [] ∧ c = twoWindowRendered.windows.length)) ∧
      ∃ r, s1.windows[c]? = some r ∧ r.maxx < r.minx ∧
        (∀ i, i < narrowEnv.video_width → r.bottom.getD i 0 ≤ r.top.getD i 0) ∧
        r.child = none ∧ r.vx = 0 ∧ r.vy = 0 ∧ r.vz = 0) :=
  ⟨by decide, ⟨by decide, by decide⟩,
    (newPortalWindow_reinitialises narrowEnv twoWindowRendered [2, 0, 1] (by decide)
      ⟨by decide, by decide⟩ (by decide) (by decide)).1⟩

/-! ## Viewpoint save and restore -/

theorem renderThroughSkybox_view (ext : Ext) (s1 s2 : State) (wa : Nat) (w : pwindow_t)
    (camera : mobj_t) (h : renderThroughSkybox ext s1 wa w camera = .ok s2) :
    s2.viewx = s1.viewx ∧ s2.viewy = s1.viewy ∧ s2.viewz = s1.viewz ∧
    s2.viewangle = s1.viewangle := by
  unfold renderThroughSkybox at h
  simp only at h
  split at h
  · cases h
  · cases h
    simp only [setViewangle_fields, setViewpoint_fields, setClips_fields, logEvent_fields,
      incValidcount_fields, setRenderRange_fields, and_self]

theorem renderThroughPortal_view (ext : Ext) (s1 s2 : State) (wa : Nat) (w : pwindow_t)
    (pa : Nat) (dx dy dz : Int) (h : renderThroughPortal ext s1 wa w pa dx dy dz = .ok s2) :
    s2.viewx = s1.viewx ∧ s2.viewy = s1.viewy ∧ s2.viewz = s1.viewz := by
  unfold renderThroughPortal at h
  simp only at h
  split at h
  · cases h
  · cases h
    simp only [setViewangle_fields, setViewpoint_fields, setClips_fields, logEvent_fields,
      incValidcount_fields, setRenderRange_fields, incTaint_fields, and_self]

theorem refuseTainted_view (env : Env) (s0 : State) (wa pa : Nat) (portal : portal_t)
    (maker : Int) :
    (refuseTainted env s0 wa pa portal maker).viewx = s0.viewx ∧
    (refuseTainted env s0 wa pa portal maker).viewy = s0.viewy ∧
    (refuseTainted env s0 wa pa portal maker).viewz = s0.viewz ∧
    (refuseTainted env s0 wa pa portal maker).viewangle = s0.viewangle := by
  unfold refuseTainted
  by_cases hs : env.showtainted = true <;> simp [hs]

theorem skybox_view (env : Env) (ext : Ext) :
    ∀ (fuel : Nat) (s : State) (window : Ptr) (s' : State),
      R_RenderSkyboxPortal env ext fuel s window = .ok s' →
      s'.viewx = s.viewx ∧ s'.viewy = s.viewy ∧ s'.viewz = s.viewz ∧
      s'.viewangle = s.viewangle := by
  intro fuel
  induction fuel with
  | zero =>
    intro s window s' h
    simp [R_RenderSkyboxPortal] at h
  | succ f ih =>
    intro s window s' h
    unfold R_RenderSkyboxPortal at h
    split at h
    · cases h
    · split at h
      · cases h
      · simp only at h
        split at h
        · cases h
        · split at h
          · cases h; simp
          · split at h
            · cases h; simp
            · split at h
              · cases h
              · split at h
                · cases h; simp
                · split at h
                  · cases h
                  · split at h
                    · cases h
                    · rename_i s2 hthrough
                      have h2 := renderThroughSkybox_view ext _ _ _ _ _ hthrough
                      simp only [logEvent_fields, enterStrategy_fields] at h2
                      split at h
                      · cases h
                      · split at h
                        · obtain ⟨r1, r2, r3, r4⟩ := ih _ _ _ h
                          exact ⟨r1.trans h2.1, r2.trans h2.2.1, r3.trans h2.2.2.1,
                            r4.trans h2.2.2.2⟩
                        · cases h; exact h2

theorem anchored_view (env : Env) (ext : Ext) :
    ∀ (fuel : Nat) (s : State) (window : Ptr) (s' : State),
      R_RenderAnchoredPortal env ext fuel s window = .ok s' →
      s'.viewx = s.viewx ∧ s'.viewy = s.viewy ∧ s'.viewz = s.viewz := by
  intro fuel
  induction fuel with
  | zero =>
    intro s window s' h
    simp [R_RenderAnchoredPortal] at h
  | succ f ih =>
    intro s window s' h
    unfold R_RenderAnchoredPortal at h
    split at h
    · cases h
    · rename_i wa
      split at h
      · cases h
      · simp only at h
        split at h
        · cases h
        · split at h
          · cases h
          · split at h
            · cases h; simp
            · split at h
              · cases h; simp
              · split at h
                · cases h
                  have hv := refuseTainted_view env
                    (enterStrategy s .R_RenderAnchoredPortal wa) wa
                  simp only [enterStrategy_fields] at hv
                  exact ⟨(hv _ _ _).1, (hv _ _ _).2.1, (hv _ _ _).2.2.1⟩
                · split at h
                  · cases h
                  · split at h
                    · cases h; simp
                    · split at h
                      · cases h
                      · rename_i s2 hthrough
                        have h2 := renderThroughPortal_view ext _ _ _ _ _ _ _ _ hthrough
                        simp only [logEvent_fields, enterStrategy_fields] at h2
                        split at h
                        · cases h
                        · split at h
                          · obtain ⟨r1, r2, r3⟩ := ih _ _ _ h
                            exact ⟨r1.trans h2.1, r2.trans h2.2.1, r3.trans h2.2.2⟩
                          · cases h; exact h2

theorem linked_view (env : Env) (ext : Ext) :
    ∀ (fuel : Nat) (s : State) (window : Ptr) (s' : State),
      R_RenderLinkedPortal env ext fuel s window = .ok s' →
      s'.viewx = s.viewx ∧ s'.viewy = s.viewy ∧ s'.viewz = s.viewz := by
  intro fuel
  induction fuel with
  | zero =>
    intro s window s' h
    simp [R_RenderLinkedPortal] at h
  | succ f ih =>
    intro s window s' h
    unfold R_RenderLinkedPortal at h
    split at h
    · cases h
    · rename_i wa
      split at h
      · cases h
      · simp only at h
        split at h
        · cases h
        · split at h
          · cases h
          · split at h
            · cases h; simp
            · split at h
              · cases h
                have hv := refuseTainted_view env
                  (enterStrategy s .R_RenderLinkedPortal wa) wa
                simp only [enterStrategy_fields] at hv
                exact ⟨(hv _ _ _).1, (hv _ _ _).2.1, (hv _ _ _).2.2.1⟩
              · split at h
                · cases h
                · split at h
                  · cases h; simp
                  · split at h
                    · cases h
                    · rename_i s2 hthrough
                      have h2 := renderThroughPortal_view ext _ _ _ _ _ _ _ _ hthrough
                      simp only [logEvent_fields, enterStrategy_fields] at h2
                      split at h
                      · cases h
                      · split at h
                        · obtain ⟨r1, r2, r3⟩ := ih _ _ _ h
                          exact ⟨r1.trans h2.1, r2.trans h2.2.1, r3.trans h2.2.2⟩
                        · cases h; exact h2

/-- C16. Viewpoint save and restore. Whenever `R_RenderSkyboxPortal`,
`R_RenderAnchoredPortal` (Anchored and TwoWay portals) or `R_RenderLinkedPortal`
returns, on whatever path (type mismatch, empty range, refusal of a tainted
portal, failed clip setup, or the full render with the recursion into the
child chain), `viewx`, `viewy` and `viewz` have the values they had on entry,
and so has `viewangle` for the Skybox strategy. This holds for all
collaborators: the strategies restore the saved viewpoint after the traversal
and the overlay push, so it does not matter what those leave behind. -/
theorem viewpoint_restored (env : Env) (ext : Ext) (fuel : Nat) (s s' : State)
    (window : Ptr) :
    (R_RenderSkyboxPortal env ext fuel s window = .ok s' →
      s'.viewx = s.viewx ∧ s'.viewy = s.viewy ∧ s'.viewz = s.viewz ∧
      s'.viewangle = s.viewangle) ∧
    (R_RenderAnchoredPortal env ext fuel s window = .ok s' →
      s'.viewx = s.viewx ∧ s'.viewy = s.viewy ∧ s'.viewz = s.viewz) ∧
    (R_RenderLinkedPortal env ext fuel s window = .ok s' →
      s'.viewx = s.viewx ∧ s'.viewy = s.viewy ∧ s'.viewz = s.viewz) :=
  ⟨skybox_view env ext fuel s window s', anchored_view env ext fuel s window s',
    linked_view env ext fuel s window s'⟩

/-- A run of the Skybox strategy with collaborators that move the viewpoint. -/
theorem viewpoint_restored_witness :
    R_RenderSkyboxPortal narrowEnv wanderingExt 1 taintedSkyboxState (some 0) =
      .ok wanderedSkyboxState ∧
    wanderedSkyboxState.viewx = taintedSkyboxState.viewx ∧
    wanderedSkyboxState.viewy = taintedSkyboxState.viewy ∧
    wanderedSkyboxState.viewz = taintedSkyboxState.viewz ∧
    wanderedSkyboxState.viewangle = taintedSkyboxState.viewangle :=
  ⟨by rfl, (viewpoint_restored narrowEnv wanderingExt 1 taintedSkyboxState
    wanderedSkyboxState (some 0)).1 (by rfl)⟩

/-! ## First column and snapshot -/

/-- On a window with a non-empty range, `addLocal` keeps the snapshot and the
range stays non-empty. -/
theorem addLocal_snapshot (env : Env) (vx vy vz : Int) (w : pwindow_t) (x : Int)
    (ytop ybottom : ℚ) (h : w.minx ≤ w.maxx) :
    (addLocal env vx vy vz w x ytop ybottom).vx = w.vx ∧
    (addLocal env vx vy vz w x ytop ybottom).vy = w.vy ∧
    (addLocal env vx vy vz w x ytop ybottom).vz = w.vz ∧
    (addLocal env vx vy vz w x ytop ybottom).minx ≤
      (addLocal env vx vy vz w x ytop ybottom).maxx := by
  unfold addLocal
  simp only
  split_ifs <;> simp <;> omega

/-- On a window with an empty range and a span on screen, `addLocal` makes `x`
the range, stores the span and takes the snapshot. -/
theorem addLocal_first (env : Env) (vx vy vz : Int) (w : pwindow_t) (x : Int)
    (ytop ybottom : ℚ) (h : w.maxx < w.minx)
    (hx : x.toNat < w.top.length ∧ x.toNat < w.bottom.length)
    (hspan : 0 ≤ ytop ∧ ytop ≤ ybottom ∧ ybottom < env.view_height) :
    (addLocal env vx vy vz w x ytop ybottom).minx = x ∧
    (addLocal env vx vy vz w x ytop ybottom).maxx = x ∧
    (addLocal env vx vy vz w x ytop ybottom).top.getD x.toNat 0 = ytop ∧
    (addLocal env vx vy vz w x ytop ybottom).bottom.getD x.toNat 0 = ybottom ∧
    (addLocal env vx vy vz w x ytop ybottom).vx = vx ∧
    (addLocal env vx vy vz w x ytop ybottom).vy = vy ∧
    (addLocal env vx vy vz w x ytop ybottom).vz = vz ∧
    (addLocal env vx vy vz w x ytop ybottom).child = w.child := by
  have hoff : ¬ (ybottom < 0 ∨ ytop ≥ env.view_height) := by
    rintro (h1 | h1)
    · linarith [hspan.1, hspan.2.1]
    · linarith [hspan.2.1, hspan.2.2]
  have hr : ¬ (x ≤ w.maxx ∧ x ≥ w.minx) := by
    rintro ⟨h1, h2⟩
    omega
  unfold addLocal
  simp only
  rw [if_neg hoff, if_neg hr, if_pos (by omega)]
  exact ⟨rfl, rfl, getD_set_self _ _ _ _ hx.1, getD_set_self _ _ _ _ hx.2, rfl, rfl, rfl, rfl⟩

/-- C17. First column and snapshot. Take a window `a` with a well-formed child
chain (`ChainOK`) on a screen of positive height, and a call of `R_WindowAdd`
whose arguments pass the input assertions, with fuel for the chain. If the
window is empty (`maxx < minx`) and the span is on screen
(`0 <= ytop <= ybottom < view.height`), the call returns, only the record of
`a` changes, and it now has `minx = maxx = x`, the span stored at column `x`
and the current `viewx`, `viewy`, `viewz` as its snapshot. If the window is not
empty, the call returns and leaves the snapshot of `a` as it was, whatever
the current viewpoint is, and the window is still not empty. -/
theorem windowAdd_first_column_snapshot (env : Env) (hh : 0 < env.view_height)
    (s : State) (a : Nat) (w : pwindow_t) (rest pool : List Nat) (x : Int) (ytop ybottom : ℚ)
    (fuel : Nat) (hinv : ChainOK env s a rest pool) (hw : s.windows[a]? = some w)
    (hcall : ValidCall env (x, ytop, ybottom)) (hfuel : rest.length + 2 ≤ fuel) :
    (w.maxx < w.minx → 0 ≤ ytop → ytop ≤ ybottom → ybottom < env.view_height →
      ∃ w', R_WindowAdd env fuel s (some a) x ytop ybottom = .ok (putWindow s a w') ∧
        w'.minx = x ∧ w'.maxx = x ∧
        w'.top.getD x.toNat 0 = ytop ∧ w'.bottom.getD x.toNat 0 = ybottom ∧
        w'.vx = s.viewx ∧ w'.vy = s.viewy ∧ w'.vz = s.viewz ∧ w'.child = w.child) ∧
    (w.minx ≤ w.maxx →
      ∃ s' w', R_WindowAdd env fuel s (some a) x ytop ybottom = .ok s' ∧
        s'.windows[a]? = some w' ∧ w'.vx = w.vx ∧ w'.vy = w.vy ∧ w'.vz = w.vz ∧
        w'.minx ≤ w'.maxx) := by
  obtain ⟨hx0, hx1, hvalid⟩ := hcall
  simp only at hx0 hx1 hvalid
  obtain ⟨hchain, hpool, hnd, hbuf, hcols⟩ := hinv
  have halt : a < s.windows.length := (List.getElem?_eq_some.mp hw).1
  have hwcols := hcols a (List.mem_cons_self _ _) w hw
  have hi : x.toNat < env.video_width := by omega
  obtain ⟨f, rfl⟩ : ∃ f, fuel = f + 1 := ⟨fuel - 1, by omega⟩
  have hstep := R_WindowAdd_step env f s a w x ytop ybottom hw ⟨hx0, hx1⟩ (hbuf.get hw)
    (fun _ => hvalid) (fun _ => opening_ok hh (hwcols x.toNat hi))
  have hnd' := List.nodup_cons.mp hnd
  have hap : a ∉ pool := fun h => hnd'.1 (by simp [h])
  constructor
  · intro hempty h0 h1 h2
    have hg : ¬ GoesToChild env w x ytop ybottom := by
      rintro ⟨_, ⟨g1, g2⟩, _⟩
      omega
    have hlen := hbuf.get hw
    have hf := addLocal_first env s.viewx s.viewy s.viewz w x ytop ybottom hempty
      ⟨by rw [hlen.1]; exact hi, by rw [hlen.2]; exact hi⟩ ⟨h0, h1, h2⟩
    exact ⟨_, by rw [hstep, if_neg hg], hf⟩
  · intro hne
    by_cases hg : GoesToChild env w x ytop ybottom
    · cases rest with
      | nil =>
        rw [IsList.cons_iff] at hchain
        obtain ⟨_, w0, hw0, hrest⟩ := hchain
        rw [hw] at hw0
        cases hw0
        rw [IsList.nil_iff] at hrest
        obtain ⟨c, s1, hcreate, hca, hpar1, ⟨rc, hrc, hclr, _⟩, hfr1, hbuf1, hglob1, hpool1,
          hcp, hcase⟩ := R_CreateChildWindow_spec hbuf hpool hw hrest hap
        obtain ⟨f', rfl⟩ : ∃ f', f = f' + 1 := ⟨f - 1, by simp at hfuel; omega⟩
        have hspan := span_on_screen hvalid hg.1
        obtain ⟨hstepc, _, _⟩ := R_WindowAdd_cleared_column env f' s1 c rc x ytop ybottom hrc
          ⟨hx0, hx1⟩ hclr.1 hclr.2.1 hspan
        generalize addLocal env s1.viewx s1.viewy s1.viewz rc x ytop ybottom = rc' at *
        have hrun : R_WindowAdd env (f' + 1 + 1) s (some a) x ytop ybottom =
            .ok (putWindow s1 c rc') := by
          rw [hstep, if_pos hg, if_pos hrest, hcreate]
          simp only [hpar1]
          exact hstepc
        have ha' : (putWindow s1 c rc').windows[a]? = some { w with child := some c } := by
          rw [getElem?_putWindow_ne _ hca, hpar1]
        exact ⟨_, _, hrun, ha', rfl, rfl, rfl, hne⟩
      | cons c rest =>
        rw [IsList.cons_iff] at hchain
        obtain ⟨_, w0, hw0, hrest⟩ := hchain
        rw [hw] at hw0
        cases hw0
        have hwc : w.child = some c := by
          rw [IsList.cons_iff] at hrest
          exact hrest.1
        rw [hwc] at hrest
        have hac : a ∉ c :: rest := fun h => hnd'.1 (List.mem_append_left _ h)
        have hinvc : ChainOK env s c rest pool :=
          ⟨hrest, hpool, hnd'.2, hbuf, fun b hb => hcols b (List.mem_cons_of_mem _ hb)⟩
        obtain ⟨s', rest', pool', hrunc, _, _, hfr, _⟩ :=
          R_WindowAdd_chain env hh x ytop ybottom ⟨hx0, hx1, hvalid⟩ rest c s pool f hinvc
            (by simp at hfuel ⊢; omega)
        have hrun : R_WindowAdd env (f + 1) s (some a) x ytop ybottom = .ok s' := by
          rw [hstep, if_pos hg, if_neg (by rw [hwc]; simp)]
          simp only [hw, hwc]
          exact hrunc
        have ha' : s'.windows[a]? = some w := by
          rw [hfr a hac hap halt, hw]
        exact ⟨s', w, hrun, ha', rfl, rfl, rfl, hne⟩
    · have hs := addLocal_snapshot env s.viewx s.viewy s.viewz w x ytop ybottom hne
      exact ⟨_, _, by rw [hstep, if_neg hg], getElem?_putWindow_self _ halt, hs⟩

/-- The first call on the freshly claimed window of `claimedState` takes the
snapshot. -/
theorem windowAdd_first_column_snapshot_witness :
    ∃ w', R_WindowAdd narrowEnv 2 claimedState (some 0) 1 10 20 =
        .ok (putWindow claimedState 0 w') ∧
      w'.minx = 1 ∧ w'.maxx = 1 ∧
      w'.top.getD (1 : Int).toNat 0 = 10 ∧ w'.bottom.getD (1 : Int).toNat 0 = 20 ∧
      w'.vx = claimedState.viewx ∧ w'.vy = claimedState.viewy ∧
      w'.vz = claimedState.viewz ∧ w'.child = none :=
  (windowAdd_first_column_snapshot narrowEnv (by decide) claimedState 0
    (R_SetPortalFunction .R_SKYBOX
      { R_ClearPortalWindow narrowEnv (freshWindow narrowEnv) with
        portal := some 0, line := none, type := .pw_floor, head := some 0 })
    [] [] 1 10 20 2 (by decide) (by rfl) (by decide) (by decide)).1
    (by decide) (by decide) (by decide) (by decide)

/-! ## Free columns inside the range -/

/-- C18, refuted as stated. Column 1 of the window of `oneRowState` lies in the
range `[1, 1]` and holds `top = bottom = 50`, which is empty in the sense
`top >= bottom`. The call `R_WindowAdd (w, 1, 10, 20)` with a span on screen
returns, but column 1 of the window still holds `(50, 50)` and the window has
got a child, which holds the span. -/
theorem windowAdd_equal_ends_column_is_occupied :
    ∃ r r' c rc,
      oneRowState.windows[0]? = some r ∧ r.minx ≤ 1 ∧ 1 ≤ r.maxx ∧
      r.top.getD 1 0 ≥ r.bottom.getD 1 0 ∧ r.child = none ∧
      R_WindowAdd narrowEnv 2 oneRowState (some 0) 1 10 20 = .ok oneRowThenSpanState ∧
      oneRowThenSpanState.windows[0]? = some r' ∧
      r'.top.getD 1 0 = 50 ∧ r'.bottom.getD 1 0 = 50 ∧ r'.child = some c ∧
      oneRowThenSpanState.windows[c]? = some rc ∧
      rc.top.getD 1 0 = 10 ∧ rc.bottom.getD 1 0 = 20 := by
  refine ⟨_, _, 1, _, by rfl, by decide, by decide, by decide, by rfl, by rfl, by rfl,
    by decide, by decide, by rfl, by rfl, by decide, by decide⟩

/-- C18, amended. Take a valid window with buffers of `video.width` entries, a
column `x` of the screen inside the window's range whose stored column is free
in the sense of the code (`top > bottom`, strictly), and a span that is not
off screen and passes the input assertion. Then `R_WindowAdd` returns, the
only change is that column `x` of this window holds `(ytop, ybottom)`, and no
child is created: the child pointer and every other window are as before. -/
theorem windowAdd_free_column_in_range (env : Env) (fuel : Nat) (s : State) (a : Nat)
    (w : pwindow_t) (x : Int) (ytop ybottom : ℚ)
    (hw : s.windows[a]? = some w)
    (hx : 0 ≤ x ∧ x < env.video_width)
    (hlen : w.top.length = env.video_width ∧ w.bottom.length = env.video_width)
    (hrange : w.minx ≤ x ∧ x ≤ w.maxx)
    (hfree : w.top.getD x.toNat 0 > w.bottom.getD x.toNat 0)
    (hon : ¬ (ybottom < 0 ∨ ytop ≥ env.view_height))
    (hin : env.RANGECHECK = true →
      ¬ ((ybottom ≥ env.view_height ∨ ytop < 0) ∧ ytop < ybottom)) :
    R_WindowAdd env (fuel + 1) s (some a) x ytop ybottom =
      .ok (putWindow s a { w with top := w.top.set x.toNat ytop,
                                  bottom := w.bottom.set x.toNat ybottom }) ∧
    (w.top.set x.toNat ytop).getD x.toNat 0 = ytop ∧
    (w.bottom.set x.toNat ybottom).getD x.toNat 0 = ybottom := by
  have hi : x.toNat < env.video_width := by omega
  have hstep := R_WindowAdd_step env fuel s a w x ytop ybottom hw hx hlen hin
    (fun _ h => absurd h.1 (not_lt.mpr (le_of_lt hfree)))
  have hg : ¬ GoesToChild env w x ytop ybottom := fun h => h.2.2.1 hfree
  have hl : addLocal env s.viewx s.viewy s.viewz w x ytop ybottom =
      { w with top := w.top.set x.toNat ytop, bottom := w.bottom.set x.toNat ybottom } := by
    unfold addLocal
    simp only
    rw [if_neg hon, if_pos ⟨hrange.2, hrange.1⟩, if_pos hfree]
  refine ⟨by rw [hstep, if_neg hg, hl], getD_set_self _ _ _ _ (by rw [hlen.1]; exact hi),
    getD_set_self _ _ _ _ (by rw [hlen.2]; exact hi)⟩

/-- The span `(30, 40)` is stored in the free column 2 of the window of
`gapState`, whose range is `[1, 3]`. -/
theorem windowAdd_free_column_in_range_witness :
    R_WindowAdd narrowEnv 1 gapState (some 0) 2 30 40 =
      .ok (putWindow gapState 0
        { gapState.windows.getD 0 (freshWindow narrowEnv) with
          top := (gapState.windows.getD 0 (freshWindow narrowEnv)).top.set (2 : Int).toNat 30,
          bottom :=
            (gapState.windows.getD 0 (freshWindow narrowEnv)).bottom.set (2 : Int).toNat 40 }) ∧
    ((gapState.windows.getD 0 (freshWindow narrowEnv)).top.set (2 : Int).toNat 30).getD
      (2 : Int).toNat 0 = 30 ∧
    ((gapState.windows.getD 0 (freshWindow narrowEnv)).bottom.set (2 : Int).toNat 40).getD
      (2 : Int).toNat 0 = 40 :=
  windowAdd_free_column_in_range narrowEnv 0 gapState 0
    (gapState.windows.getD 0 (freshWindow narrowEnv)) 2 30 40 (by rfl) (by decide)
    (by decide) (by decide) (by decide) (by decide) (by decide)

/-! ## Input assertions -/

/-- C20, refuted as stated. In a build without `RANGECHECK`, the call
`R_WindowAdd (w, 1, 150, 250)` on a freshly claimed window, whose span is
inconsistent (`ybottom >= view.height` with `ytop < ybottom`), does not abort:
it returns and has written the span into column 1 of the window. -/
theorem windowAdd_inconsistent_span_stored :
    ∃ s1 r,
      ((250 : ℚ) ≥ narrowEnvRelease.view_height ∧ (150 : ℚ) < 250) ∧
      R_WindowAdd narrowEnvRelease 1 claimedState (some 0) 1 150 250 = .ok s1 ∧
      s1.windows[0]? = some r ∧ r.top.getD 1 0 = 150 ∧ r.bottom.getD 1 0 = 250 ∧
      s1 ≠ claimedState := by
  refine ⟨_, _, by decide, by rfl, by rfl, by decide, by decide, by decide⟩

/-- C20, amended. In a build with `RANGECHECK`, `R_WindowAdd` ends in `I_Error`
whenever the window pointer is null, or the column is outside
`[0, video.width)`, or the span is inconsistent (`ybottom >= view.height` or
`ytop < 0`, with `ytop < ybottom`). The three tests come first in the function,
so nothing has been written when it aborts. -/
theorem windowAdd_aborts_on_bad_input (env : Env) (hrc : env.RANGECHECK = true)
    (fuel : Nat) (s : State) (window : Ptr) (x : Int) (ytop ybottom : ℚ)
    (hbad : window = none ∨ x < 0 ∨ x ≥ env.video_width ∨
      ((ybottom ≥ env.view_height ∨ ytop < 0) ∧ ytop < ybottom)) :
    R_WindowAdd env (fuel + 1) s window x ytop ybottom =
      .error (.I_Error "R_WindowAdd: null portal window") ∨
    R_WindowAdd env (fuel + 1) s window x ytop ybottom =
      .error (.I_Error "R_WindowAdd: column out of bounds") ∨
    R_WindowAdd env (fuel + 1) s window x ytop ybottom =
      .error (.I_Error "R_WindowAdd portal supplied with bad column data.") := by
  by_cases h1 : window = none
  · left
    unfold R_WindowAdd
    rw [if_pos ⟨hrc, h1⟩]
  · by_cases h2 : x < 0 ∨ x ≥ env.video_width
    · right; left
      unfold R_WindowAdd
      rw [if_neg (fun h => h1 h.2), if_pos ⟨hrc, h2⟩]
    · right; right
      have h3 : (ybottom ≥ env.view_height ∨ ytop < 0) ∧ ytop < ybottom := by
        rcases hbad with h | h | h | h
        · exact absurd h h1
        · exact absurd (Or.inl h) h2
        · exact absurd (Or.inr h) h2
        · exact h
      unfold R_WindowAdd
      rw [if_neg (fun h => h1 h.2), if_neg (fun h => h2 h.2), if_pos ⟨hrc, h3⟩]

/-- With `RANGECHECK`, the call with the span `(150, 250)` aborts. -/
theorem windowAdd_aborts_on_bad_input_witness :
    R_WindowAdd narrowEnv 1 claimedState (some 0) 1 150 250 =
      .error (.I_Error "R_WindowAdd: null portal window") ∨
    R_WindowAdd narrowEnv 1 claimedState (some 0) 1 150 250 =
      .error (.I_Error "R_WindowAdd: column out of bounds") ∨
    R_WindowAdd narrowEnv 1 claimedState (some 0) 1 150 250 =
      .error (.I_Error "R_WindowAdd portal supplied with bad column data.") :=
  windowAdd_aborts_on_bad_input narrowEnv (by rfl) 0 claimedState (some 0) 1 150 250
    (by decide)

/-! ## Order of rendering -/

/-- What a returning turn of the loop of `R_RenderPortals` consists of. -/
theorem renderWindowhead_ok {env : Env} {ext : Ext} {rfuel : Nat} {s s1 : State} {hd : Nat}
    (h : renderWindowhead env ext rfuel s hd = .ok s1) :
    ∃ w portal s2, s.windows[hd]? = some w ∧ getPortal s w.portal = .ok portal ∧
      (if w.maxx ≥ w.minx then
          callFunc env ext rfuel w.func (setPortalrender s
            { s.portalrender with active := true, w := some hd, segClipFunc := w.clipfunc,
                                  overlay := portal.poverlay, curwindow := some hd }) (some hd)
        else .ok (setPortalrender s
            { s.portalrender with active := true, w := some hd, segClipFunc := w.clipfunc,
                                  overlay := portal.poverlay, curwindow := some hd })) =
        .ok s2 ∧
      freeHeadWindow (setPortalrender s2
        { s2.portalrender with active := false, w := none, segClipFunc := none,
                               overlay := none, curwindow := none }) = .ok s1 := by
  unfold renderWindowhead at h
  split at h
  · cases h
  · rename_i w hw
    split at h
    · cases h
    · rename_i portal hportal
      simp only at h
      split at h
      · cases h
      · rename_i s2 hdisp
        exact ⟨w, portal, s2, hw, hportal, hdisp, h⟩

theorem prefix_cons_map_fst {hd : Nat} {l : List Nat} {Qx : List (Nat × List Nat)}
    (h : (hd :: l) <+: Qx.map Prod.fst) :
    ∃ c Q', Qx = (hd, c) :: Q' ∧ l <+: Q'.map Prod.fst := by
  cases Qx with
  | nil =>
    obtain ⟨t, ht⟩ := h
    simp at ht
  | cons qc Q' =>
    obtain ⟨q, c⟩ := qc
    simp only [List.map_cons] at h
    rw [List.cons_prefix_cons] at h
    obtain ⟨rfl, h⟩ := h
    exact ⟨c, Q', rfl, h⟩

theorem ListsOK.pool_not_queue {s : State} {Q : List (Nat × List Nat)} {P : List Nat}
    (h : ListsOK s Q P) {a : Nat} (ha : a ∈ P) : a ∉ Q.map Prod.fst := by
  intro hin
  obtain ⟨qc, hqc, rfl⟩ := List.mem_map.mp hin
  have hnd := h.2.2.2.1
  unfold allWindows at hnd
  rw [List.nodup_append] at hnd
  exact hnd.2.2 (List.mem_flatMap.mpr ⟨qc, hqc, List.mem_cons_self _ _⟩) ha

theorem freeChildren_trace : ∀ (fuel : Nat) (s : State) (p : Ptr) (s' : State),
    freeChildren fuel s p = .ok s' → s'.trace = s.trace ∧ s'.portals = s.portals := by
  intro fuel
  induction fuel with
  | zero =>
    intro s p s' h
    simp [freeChildren] at h
  | succ f ih =>
    intro s p s' h
    cases p with
    | none =>
      simp only [freeChildren, Except.ok.injEq] at h
      subst h
      exact ⟨rfl, rfl⟩
    | some a =>
      rw [freeChildren] at h
      split at h
      · cases h
      · obtain ⟨h1, h2⟩ := ih _ _ _ h
        simp only [setWindow_fields, setUnusedhead_fields] at h1 h2
        exact ⟨h1, h2⟩

/-- The freeing part of a turn makes no call and leaves the portals alone. -/
theorem freeHeadWindow_trace {s s1 : State} (h : freeHeadWindow s = .ok s1) :
    s1.trace = s.trace ∧ s1.portals = s.portals := by
  unfold freeHeadWindow at h
  split at h
  · cases h
  · split at h
    · cases h
    · split at h
      · cases h
      · rename_i s' hfree
        split at h
        · cases h
        · cases h
          obtain ⟨h1, h2⟩ := freeChildren_trace _ _ _ _ hfree
          simp only [setWindowhead_fields, setWindow_fields, setUnusedhead_fields]
          exact ⟨h1, h2⟩

/-! ## Creation on miss, and the kind in the key -/

theorem findRover_eq_none {t : portal_t → Bool} {l : List portal_t}
    (h : ∀ p ∈ l, t p = false) : findRover t l = none := by
  induction l with
  | nil => rfl
  | cons a l ih =>
    unfold findRover
    rw [h a (List.mem_cons_self _ _)]
    simp [ih (fun p hp => h p (List.mem_cons_of_mem _ hp))]

/-- The position `findRover` returns is the first that passes the test. -/
theorem findRover_first {t : portal_t → Bool} {l : List portal_t} {i : Nat}
    (h : findRover t l = some i) : ∀ j q, j < i → l[j]? = some q → t q = false := by
  induction l generalizing i with
  | nil => simp [findRover] at h
  | cons a l ih =>
    unfold findRover at h
    by_cases ha : t a = true
    · simp [ha] at h
      subst h
      intro j q hj
      omega
    · simp [ha] at h
      obtain ⟨k, hk, rfl⟩ := h
      intro j q hj hq
      cases j with
      | zero =>
        simp at hq
        subst hq
        simpa using ha
      | succ j =>
        simp at hq
        exact ih hk j q (by omega) hq

/-- C21. Creation on miss. For a request of any kind that has a matching key
(every request but a plane or horizon request with a null reference), when no
portal of the list has that key, the request returns the position after the
last portal, and the new state is the old one with exactly one portal appended
to the list: the portal `callPortal env c`, which has the kind and the
parameters of the request, hence the request's key, and taint 0. Every portal
registered before is at its position, unchanged, so handles returned before
stay valid. -/
theorem getOrCreate_creates_on_miss (env : Env) (s : State) (c : GetCall) (k : PortalKey)
    (hk : callKey env c = some k) (hmiss : ∀ p ∈ s.portals, portalKey p ≠ k) :
    applyCall env s c =
      (some s.portals.length, setPortals s (s.portals ++ [callPortal env c])) ∧
    (s.portals ++ [callPortal env c]).getLast? = some (callPortal env c) ∧
    portalKey (callPortal env c) = k ∧ (callPortal env c).tainted = 0 ∧
    (∀ (i : Nat) (p : portal_t), s.portals[i]? = some p →
      (s.portals ++ [callPortal env c])[i]? = some p) := by
  have hnone : findRover (fun rover => portalKey rover == k) s.portals = none :=
    findRover_eq_none (fun p hp => by simpa using hmiss p hp)
  refine ⟨?_, by simp, portalKey_callPortal hk, ?_, ?_⟩
  · rw [applyCall_eq, hk]
    simp only [lookupOrAppend, hnone]
    rfl
  · cases c <;> rfl
  · intro i p hp
    have hlt : i < s.portals.length := (List.getElem?_eq_some.mp hp).1
    rw [List.getElem?_append_left hlt, hp]

/-- A skybox request on the start state, where no portal is registered. -/
theorem getOrCreate_creates_on_miss_witness :
    applyCall sampleEnv startState (.skybox (some 7)) =
      (some startState.portals.length,
        setPortals startState (startState.portals ++ [callPortal sampleEnv (.skybox (some 7))])) ∧
    (startState.portals ++ [callPortal sampleEnv (.skybox (some 7))]).getLast? =
      some (callPortal sampleEnv (.skybox (some 7))) ∧
    portalKey (callPortal sampleEnv (.skybox (some 7))) = .skybox (some 7) ∧
    (callPortal sampleEnv (.skybox (some 7))).tainted = 0 ∧
    (∀ (i : Nat) (p : portal_t), startState.portals[i]? = some p →
      (startState.portals ++ [callPortal sampleEnv (.skybox (some 7))])[i]? = some p) :=
  getOrCreate_creates_on_miss sampleEnv startState (.skybox (some 7)) (.skybox (some 7))
    (by rfl) (by decide)

theorem hasDeltas_anchored (d : Int × Int × Int) (p : portal_t) :
    HasDeltas .R_ANCHORED d p ↔ portalKey p = .anchored d.1 d.2.1 d.2.2 := by
  unfold HasDeltas portalKey
  cases hp : p.type <;> simp

theorem hasDeltas_twoway (d : Int × Int × Int) (p : portal_t) :
    HasDeltas .R_TWOWAY d p ↔ portalKey p = .twoway d.1 d.2.1 d.2.2 := by
  unfold HasDeltas portalKey
  cases hp : p.type <;> simp

/-- The common lookup, read as a lookup by kind and deltas. -/
theorem lookupOrAppend_kind {t : portaltype_e} {d : Int × Int × Int} {k : PortalKey}
    (hkey : ∀ p, HasDeltas t d p ↔ portalKey p = k) (q : portal_t) (hq : portalKey q = k)
    (hq0 : q.tainted = 0) (s : State) :
    KindLookup t d s (lookupOrAppend k q s) := by
  unfold lookupOrAppend
  cases hf : findRover (fun rover => portalKey rover == k) s.portals with
  | some r =>
    obtain ⟨p, hp, ht⟩ := findRover_some hf
    have hfirst := findRover_first hf
    refine ⟨r, p, rfl, hp, (hkey p).mpr (by simpa using ht), ?_, ?_, ?_⟩
    · intro j q' hj hq'
      have := hfirst j q' hj hq'
      rw [hkey]
      simpa using this
    · intro _
      exact ⟨(List.getElem?_eq_some.mp hp).1, rfl⟩
    · intro hno
      exact absurd ((hkey p).mpr (by simpa using ht)) (hno p (List.getElem?_mem hp))
  | none =>
    have hnone := findRover_none hf
    refine ⟨s.portals.length, q, rfl, by simp, (hkey q).mpr hq, ?_, ?_, ?_⟩
    · intro j q' hj hq'
      have := hnone q' (List.getElem?_mem hq')
      rw [hkey]
      simpa using this
    · rintro ⟨q', hq', hd⟩
      have := hnone q' hq'
      rw [hkey] at hd
      simp [hd] at this
    · intro _
      exact ⟨rfl, rfl, hq0⟩

/-- C22. The kind is part of the Anchored and TwoWay key. `R_GetAnchoredPortal`
returns a portal of kind Anchored whose deltas are those computed from the two
lines: the earliest such portal of the list, with the state unchanged, if
there is one, and otherwise a new portal appended to the list (`KindLookup`);
so it returns an already registered portal exactly when the list holds an
Anchored portal with these deltas, and never a TwoWay or Linked portal. The
same holds for `R_GetTwoWayPortal` with kind TwoWay. Requesting an Anchored
and then a TwoWay portal for the same pair of lines, or the other way round,
gives two different portals. -/
theorem anchored_twoway_kind_in_key (env : Env) (s : State) (m a : Int) :
    KindLookup .R_ANCHORED (R_CalculateDeltas env m a) s (R_GetAnchoredPortal env s m a) ∧
    KindLookup .R_TWOWAY (R_CalculateDeltas env m a) s (R_GetTwoWayPortal env s m a) ∧
    (R_GetTwoWayPortal env (R_GetAnchoredPortal env s m a).2 m a).1 ≠
      (R_GetAnchoredPortal env s m a).1 ∧
    (R_GetAnchoredPortal env (R_GetTwoWayPortal env s m a).2 m a).1 ≠
      (R_GetTwoWayPortal env s m a).1 := by
  have ea := applyCall_eq env s (.anchored m a)
  have et := applyCall_eq env s (.twoway m a)
  simp only [applyCall, callKey] at ea et
  refine ⟨?_, ?_, ?_, ?_⟩
  · rw [ea]
    exact lookupOrAppend_kind (hasDeltas_anchored _) _
      (portalKey_callPortal (c := .anchored m a) rfl) rfl s
  · rw [et]
    exact lookupOrAppend_kind (hasDeltas_twoway _) _
      (portalKey_callPortal (c := .twoway m a) rfl) rfl s
  · intro h
    have := (applyCall_handle_eq_iff env s (.anchored m a) (.twoway m a)).mp h
    simp [callKey] at this
  · intro h
    have := (applyCall_handle_eq_iff env s (.twoway m a) (.anchored m a)).mp h
    simp [callKey] at this

/-! ## Where a column ends up -/

/-- Where a call of `R_WindowAdd` on a window with a well-formed child chain
ends up. The call walks down the chain as long as the span has to go to the
child. Either it reaches a window `d` of the chain that takes the span, and
the only change is that the record of `d` is replaced by `addLocal`; or every
window of the chain hands the span on, the last window gets a new child `c`,
cleared and with the head, portal, line, type and functions of its parent, and
the record of `c` is replaced by `addLocal`. -/
theorem R_WindowAdd_lands (env : Env) (hh : 0 < env.view_height) (x : Int)
    (ytop ybottom : ℚ) (hcall : ValidCall env (x, ytop, ybottom)) :
    ∀ (rest : List Nat) (a : Nat) (s : State) (pool : List Nat) (fuel : Nat),
      ChainOK env s a rest pool → rest.length + 2 ≤ fuel →
      ∃ s', R_WindowAdd env fuel s (some a) x ytop ybottom = .ok s' ∧
        ((∃ pre d post rd, a :: rest = pre ++ d :: post ∧ s.windows[d]? = some rd ∧
            ¬ GoesToChild env rd x ytop ybottom ∧
            (∀ e ∈ pre, ∀ re, s.windows[e]? = some re → GoesToChild env re x ytop ybottom) ∧
            s' = putWindow s d (addLocal env s.viewx s.viewy s.viewz rd x ytop ybottom)) ∨
         (∃ lst par c s1 rc, (a :: rest).getLast? = some lst ∧ s.windows[lst]? = some par ∧
            (∀ e ∈ a :: rest, ∀ re, s.windows[e]? = some re →
              GoesToChild env re x ytop ybottom) ∧
            par.child = none ∧
            (pool.head? = some c ∨ (pool = [] ∧ c = s.windows.length)) ∧
            c ∉ a :: rest ∧ s1.windows[lst]? = some { par with child := some c } ∧
            s1.windows[c]? = some rc ∧ IsCleared env rc ∧ rc.head = par.head ∧
            rc.portal = par.portal ∧ rc.line = par.line ∧ rc.type = par.type ∧
            rc.func = par.func ∧ rc.clipfunc = par.clipfunc ∧
            (∀ e, e ≠ lst → e ≠ c → s1.windows[e]? = s.windows[e]?) ∧
            SameGlobals s s1 ∧
            s' = putWindow s1 c
              (addLocal env s1.viewx s1.viewy s1.viewz rc x ytop ybottom))) := by
  obtain ⟨hx0, hx1, hvalid⟩ := hcall
  simp only at hx0 hx1 hvalid
  intro rest
  induction rest with
  | nil =>
    intro a s pool fuel hinv hfuel
    obtain ⟨hchain, hpool, hnd, hbuf, hcols⟩ := hinv
    rw [IsList.cons_iff] at hchain
    obtain ⟨_, w, hw, hrest⟩ := hchain
    rw [IsList.nil_iff] at hrest
    have hap : a ∉ pool := by
      intro h
      have := List.nodup_cons.mp hnd
      exact this.1 (by simpa using h)
    have hwcols := hcols a (List.mem_cons_self _ _) w hw
    have hi : x.toNat < env.video_width := by omega
    obtain ⟨f, rfl⟩ : ∃ f, fuel = f + 1 := ⟨fuel - 1, by omega⟩
    have hstep := R_WindowAdd_step env f s a w x ytop ybottom hw ⟨hx0, hx1⟩ (hbuf.get hw)
      (fun _ => hvalid) (fun _ => opening_ok hh (hwcols x.toNat hi))
    by_cases hg : GoesToChild env w x ytop ybottom
    · obtain ⟨c, s1, hcreate, hca, hpar1, ⟨rc, hrc, hclr, r1, r2, r3, r4, r5, r6⟩, hfr1, hbuf1,
        hglob1, hpool1, hcp, hcase⟩ := R_CreateChildWindow_spec hbuf hpool hw hrest hap
      obtain ⟨f', rfl⟩ : ∃ f', f = f' + 1 := ⟨f - 1, by simp at hfuel; omega⟩
      have hspan := span_on_screen hvalid hg.1
      obtain ⟨hstepc, _, _⟩ := R_WindowAdd_cleared_column env f' s1 c rc x ytop ybottom hrc
        ⟨hx0, hx1⟩ hclr.1 hclr.2.1 hspan
      have hrun : R_WindowAdd env (f' + 1 + 1) s (some a) x ytop ybottom =
          .ok (putWindow s1 c (addLocal env s1.viewx s1.viewy s1.viewz rc x ytop ybottom)) := by
        rw [hstep, if_pos hg, if_pos hrest, hcreate]
        simp only [hpar1]
        exact hstepc
      refine ⟨_, hrun, Or.inr ⟨a, w, c, s1, rc, rfl, hw, ?_, hrest, ?_, ?_, hpar1, hrc, hclr,
        r1, r2, r3, r4, r5, r6, hfr1, hglob1, rfl⟩⟩
      · intro e he re hre
        simp only [List.mem_singleton] at he
        subst he
        rw [hw] at hre
        cases hre
        exact hg
      · rcases hcase with ⟨h1, _⟩ | ⟨h1, h2, _⟩
        · exact Or.inl h1
        · exact Or.inr ⟨h1, h2⟩
      · simp only [List.mem_singleton]
        exact hca
    · refine ⟨_, by rw [hstep, if_neg hg], Or.inl ⟨[], a, [], w, rfl, hw, hg, ?_, rfl⟩⟩
      intro e he
      cases he
  | cons c rest ih =>
    intro a s pool fuel hinv hfuel
    obtain ⟨hchain, hpool, hnd, hbuf, hcols⟩ := hinv
    rw [IsList.cons_iff] at hchain
    obtain ⟨_, w, hw, hrest⟩ := hchain
    have hwc : w.child = some c := by
      rw [IsList.cons_iff] at hrest
      exact hrest.1
    rw [hwc] at hrest
    have hnd' := List.nodup_cons.mp hnd
    have hac : a ∉ c :: rest := fun h => hnd'.1 (List.mem_append_left _ h)
    have hwcols := hcols a (List.mem_cons_self _ _) w hw
    have hi : x.toNat < env.video_width := by omega
    obtain ⟨f, rfl⟩ : ∃ f, fuel = f + 1 := ⟨fuel - 1, by omega⟩
    have hstep := R_WindowAdd_step env f s a w x ytop ybottom hw ⟨hx0, hx1⟩ (hbuf.get hw)
      (fun _ => hvalid) (fun _ => opening_ok hh (hwcols x.toNat hi))
    by_cases hg : GoesToChild env w x ytop ybottom
    · have hinvc : ChainOK env s c rest pool :=
        ⟨hrest, hpool, hnd'.2, hbuf, fun b hb => hcols b (List.mem_cons_of_mem _ hb)⟩
      obtain ⟨s', hrunc, hland⟩ := ih c s pool f hinvc (by simp at hfuel ⊢; omega)
      have hrun : R_WindowAdd env (f + 1) s (some a) x ytop ybottom = .ok s' := by
        rw [hstep, if_pos hg, if_neg (by rw [hwc]; simp)]
        simp only [hw, hwc]
        exact hrunc
      refine ⟨s', hrun, ?_⟩
      rcases hland with ⟨pre, d, post, rd, h1, h2, h3, h4, h5⟩ |
        ⟨lst, par, cn, s1, rc, h1, h2, h3, h4⟩
      · refine Or.inl ⟨a :: pre, d, post, rd, by rw [h1]; rfl, h2, h3, ?_, h5⟩
        intro e he re hre
        rcases List.mem_cons.mp he with rfl | he
        · rw [hw] at hre
          cases hre
          exact hg
        · exact h4 e he re hre
      · obtain ⟨h4a, h4b, h4c, h4⟩ := h4
        refine Or.inr ⟨lst, par, cn, s1, rc, by rw [List.getLast?_cons_cons]; exact h1, h2, ?_,
          h4a, h4b, ?_, h4⟩
        · intro e he re hre
          rcases List.mem_cons.mp he with rfl | he
          · rw [hw] at hre
            cases hre
            exact hg
          · exact h3 e he re hre
        · intro hin
          rcases List.mem_cons.mp hin with rfl | hin
          · -- the new window comes from the free list or is a new address
            have halt : cn < s.windows.length := (List.getElem?_eq_some.mp hw).1
            rcases h4b with hp | ⟨_, hp⟩
            · have : cn ∈ pool := by
                cases pool with
                | nil => simp at hp
                | cons b pool =>
                  simp at hp
                  subst hp
                  exact List.mem_cons_self _ _
              exact hnd'.1 (List.mem_append_right _ this)
            · omega
          · exact h4c hin
    · refine ⟨_, by rw [hstep, if_neg hg],
        Or.inl ⟨[], a, c :: rest, w, rfl, hw, hg, ?_, rfl⟩⟩
      intro e he
      cases he

/-- A property of window records that `addLocal` keeps, that a cleared child
inherits from its parent and that does not read the child pointer, holds for
all windows of a chain after a call of `R_WindowAdd` if it did before. -/
theorem R_WindowAdd_chain_pred (env : Env) (hh : 0 < env.view_height) (x : Int)
    (ytop ybottom : ℚ) (hcall : ValidCall env (x, ytop, ybottom)) (Pred : pwindow_t → Prop)
    (hadd : ∀ w vx vy vz, ColsOK env w →
      w.top.length = env.video_width ∧ w.bottom.length = env.video_width →
      Pred w → Pred (addLocal env vx vy vz w x ytop ybottom))
    (hnew : ∀ par rc, Pred par → IsCleared env rc → rc.head = par.head →
      rc.portal = par.portal → Pred rc)
    (hchild : ∀ w c, Pred w → Pred { w with child := some c }) :
    ∀ (rest : List Nat) (a : Nat) (s : State) (pool : List Nat) (fuel : Nat),
      ChainOK env s a rest pool → rest.length + 2 ≤ fuel →
      (∀ b ∈ a :: rest, ∀ r, s.windows[b]? = some r → Pred r) →
      ∃ s' rest' pool', R_WindowAdd env fuel s (some a) x ytop ybottom = .ok s' ∧
        ChainOK env s' a rest' pool' ∧
        ((rest' = rest ∧ pool' = pool ∧ s'.windows.length = s.windows.length) ∨
         (∃ c, rest' = rest ++ [c] ∧ pool' = pool.tail ∧
            ((pool.head? = some c ∧ s'.windows.length = s.windows.length) ∨
             (pool = [] ∧ c = s.windows.length ∧
                s'.windows.length = s.windows.length + 1)))) ∧
        (∀ b, b ∉ a :: rest → b ∉ pool → b < s.windows.length →
          s'.windows[b]? = s.windows[b]?) ∧
        SameGlobals s s' ∧
        (∀ b ∈ a :: rest', ∀ r, s'.windows[b]? = some r → Pred r) ∧
        (∀ b ∈ pool', s'.windows[b]? = s.windows[b]?) := by
  intro rest a s pool fuel hinv hfuel hpred
  obtain ⟨s', rest', pool', hrun, hinv', hcase, hfr, hglob⟩ :=
    R_WindowAdd_chain env hh x ytop ybottom hcall rest a s pool fuel hinv hfuel
  obtain ⟨s'', hrun', hland⟩ :=
    R_WindowAdd_lands env hh x ytop ybottom hcall rest a s pool fuel hinv hfuel
  rw [hrun] at hrun'
  cases hrun'
  refine ⟨s', rest', pool', hrun, hinv', hcase, hfr, hglob, ?_⟩
  obtain ⟨hchain, hpool, hnd, hbuf, hcols⟩ := hinv
  have hndc : (a :: rest).Nodup := by
    have : (a :: rest).Sublist (a :: rest ++ pool) := List.sublist_append_left _ _
    exact hnd.sublist this
  rcases hland with ⟨pre, d, post, rd, h1, h2, h3, h4, h5⟩ |
    ⟨lst, par, c, s1, rc, h1, h2, h3, h4, h5, h6, h7, h8, h9, h10, h11, h12, h13, h14, h15,
      h16, h17, h18⟩
  · -- the span was taken by the window `d` of the chain
    have hd : d ∈ a :: rest := by rw [h1]; simp
    have hchain' : IsList pwindow_t.child s'.windows (some a) (a :: rest) := by
      apply hchain.frame
      intro b hb w hw
      by_cases hbd : b = d
      · subst hbd
        rw [h2] at hw
        cases hw
        refine ⟨_, ?_, (addLocal_fields env s.viewx s.viewy s.viewz rd x ytop ybottom).1⟩
        rw [h5]
        exact getElem?_putWindow_self _ (List.getElem?_eq_some.mp h2).1
      · refine ⟨w, ?_, rfl⟩
        rw [h5, getElem?_putWindow_ne _ (Ne.symm hbd), hw]
    have hrest : rest' = rest := by
      have := IsList.unique hinv'.1 hchain'
      exact (List.cons.inj this).2
    refine ⟨?_, ?_⟩
    rotate_left
    · intro b hb
      have hbn : b ∉ a :: rest := by
        intro hin
        have hnd' := hinv'.2.2.1
        rw [hrest] at hnd'
        exact (List.nodup_append.mp hnd').2.2 hin hb
      have hbd : b ≠ d := by
        rintro rfl
        exact hbn hd
      rw [h5, getElem?_putWindow_ne _ (Ne.symm hbd)]
    rw [hrest]
    intro b hb r hr
    by_cases hbd : b = d
    · subst hbd
      rw [h5, getElem?_putWindow_self _ (List.getElem?_eq_some.mp h2).1] at hr
      cases hr
      exact hadd rd _ _ _ (hcols b hd rd h2) (hbuf.get h2) (hpred b hd rd h2)
    · rw [h5, getElem?_putWindow_ne _ (Ne.symm hbd)] at hr
      exact hpred b hb r hr
  · -- the span went to a new child `c` of the last window
    have hlst : lst ∈ a :: rest := List.mem_of_getLast?_eq_some h1
    have hclt : c < s1.windows.length := (List.getElem?_eq_some.mp h8).1
    have hlc : lst ≠ c := by
      rintro rfl
      exact h6 hlst
    have hget : ∀ b, b ≠ c → s'.windows[b]? = s1.windows[b]? := by
      intro b hb
      rw [h18, getElem?_putWindow_ne _ (Ne.symm hb)]
    have hgetc : s'.windows[c]? =
        some (addLocal env s1.viewx s1.viewy s1.viewz rc x ytop ybottom) := by
      rw [h18]
      exact getElem?_putWindow_self _ hclt
    have hlast_rec : ∃ rl, s.windows[lst]? = some rl ∧ pwindow_t.child rl = none :=
      ⟨par, h2, h4⟩
    have hchain' : IsList pwindow_t.child s'.windows (some a) (a :: rest ++ [c]) := by
      apply IsList.snoc hchain (by simp)
      · rw [List.nodup_append]
        refine ⟨hndc, by simp, ?_⟩
        intro e he hec
        simp only [List.mem_singleton] at hec
        subst hec
        exact h6 he
      · intro l hl
        rw [h1] at hl
        cases hl
        exact ⟨_, by rw [hget lst hlc, h7], rfl⟩
      · refine ⟨_, hgetc, ?_⟩
        rw [(addLocal_fields env s1.viewx s1.viewy s1.viewz rc x ytop ybottom).1]
        exact h9.2.2.2.2.1
      · intro b hb hbl
        have hbl' : b ≠ lst := by
          rintro rfl
          exact hbl h1
        have hbc : b ≠ c := by
          rintro rfl
          exact h6 hb
        rw [hget b hbc, h16 b hbl' hbc]
    have hrest : rest' = rest ++ [c] := by
      have := IsList.unique hinv'.1 hchain'
      exact (List.cons.inj this).2
    refine ⟨?_, ?_⟩
    rotate_left
    · intro b hb
      have hbn : b ∉ a :: (rest ++ [c]) := by
        intro hin
        have hnd' := hinv'.2.2.1
        rw [hrest] at hnd'
        exact (List.nodup_append.mp hnd').2.2 hin hb
      have hbc : b ≠ c := by
        rintro rfl
        exact hbn (by simp)
      have hbl : b ≠ lst := by
        rintro rfl
        apply hbn
        rcases List.mem_cons.mp hlst with h | h
        · rw [h]
          exact List.mem_cons_self _ _
        · exact List.mem_cons_of_mem _ (List.mem_append_left _ h)
      rw [hget b hbc, h16 b hbl hbc]
    rw [hrest]
    intro b hb r hr
    have hb' : b ∈ a :: rest ∨ b = c := by
      simp only [List.mem_cons, List.mem_append, List.mem_singleton, List.not_mem_nil,
        or_false] at hb ⊢
      tauto
    rcases hb' with hb' | rfl
    · have hbc : b ≠ c := by
        rintro rfl
        exact h6 hb'
      by_cases hbl : b = lst
      · subst hbl
        rw [hget b hbc, h7] at hr
        cases hr
        exact hchild par c (hpred b hb' par h2)
      · rw [hget b hbc, h16 b hbl hbc] at hr
        exact hpred b hb' r hr
    · rw [hgetc] at hr
      cases hr
      have hprc : Pred rc := hnew par rc (hpred lst hlst par h2) h9 h10 h11
      have hlen : rc.top.length = env.video_width ∧ rc.bottom.length = env.video_width := by
        rw [h9.1, h9.2.1]
        simp
      exact hadd rc _ _ _ (colsOK_of_cleared h9) hlen hprc

/-- The same for a sequence of calls; `Good` is a condition on the calls under
which `addLocal` keeps the property. -/
theorem runAdds_chain_pred (env : Env) (hh : 0 < env.view_height) (w : Nat)
    (Pred : pwindow_t → Prop) (Good : Int × ℚ × ℚ → Prop)
    (hadd : ∀ c, Good c → ∀ r vx vy vz, ColsOK env r →
      r.top.length = env.video_width ∧ r.bottom.length = env.video_width →
      Pred r → Pred (addLocal env vx vy vz r c.1 c.2.1 c.2.2))
    (hnew : ∀ par rc, Pred par → IsCleared env rc → rc.head = par.head →
      rc.portal = par.portal → Pred rc)
    (hchild : ∀ r c, Pred r → Pred { r with child := some c }) :
    ∀ (calls : List (Int × ℚ × ℚ)) (s : State) (rest pool : List Nat) (fuel : Nat),
      ChainOK env s w rest pool → (∀ c ∈ calls, ValidCall env c ∧ Good c) →
      rest.length + calls.length + 1 ≤ fuel →
      (∀ b ∈ w :: rest, ∀ r, s.windows[b]? = some r → Pred r) →
      ∃ s' rest' pool', runAdds env fuel w s calls = .ok s' ∧
        ChainOK env s' w rest' pool' ∧
        (∀ b ∈ w :: rest', ∀ r, s'.windows[b]? = some r → Pred r) := by
  intro calls
  induction calls with
  | nil =>
    intro s rest pool fuel hinv _ _ hpred
    exact ⟨s, rest, pool, rfl, hinv, hpred⟩
  | cons c cs ih =>
    intro s rest pool fuel hinv hvalid hfuel hpred
    simp only [List.length_cons] at hfuel
    obtain ⟨hv, hg⟩ := hvalid c (List.mem_cons_self _ _)
    obtain ⟨s1, rest1, pool1, hrun1, hinv1, hcase, _, _, hpred1, _⟩ :=
      R_WindowAdd_chain_pred env hh c.1 c.2.1 c.2.2 hv Pred (hadd c hg) hnew hchild
        rest w s pool fuel hinv (by omega) hpred
    have hlen : rest1.length ≤ rest.length + 1 := by
      rcases hcase with ⟨rfl, _⟩ | ⟨cn, rfl, _⟩
      · omega
      · simp
    obtain ⟨s', rest', pool', hrun', hinv', hpred'⟩ := ih s1 rest1 pool1 fuel hinv1
      (fun c' hc' => hvalid c' (List.mem_cons_of_mem _ hc')) (by omega) hpred1
    refine ⟨s', rest', pool', ?_, hinv', hpred'⟩
    simp only [runAdds, hrun1]
    exact hrun'

/-! ## Columns outside the range -/

theorem addLocal_outside (env : Env) (vx vy vz : Int) (w : pwindow_t) (x : Int)
    (ytop ybottom : ℚ) (hx : 0 ≤ x) (h : OutsideCleared env w) :
    OutsideCleared env (addLocal env vx vy vz w x ytop ybottom) := by
  unfold addLocal
  simp only
  split_ifs with h1 h2 h3 h4 h5 h6 h7 h8
  all_goals first
    | exact h
    | (intro i hi hout
       simp only at hout ⊢
       have hne : x.toNat ≠ i := by omega
       first
         | (rw [getD_set_ne _ _ _ _ _ hne, getD_set_ne _ _ _ _ _ hne]
            exact h i hi (by omega))
         | (rw [getD_set_ne _ _ _ _ _ hne]
            exact h i hi (by omega)))


/-- C29. Columns outside the range are never written. Take a window `w` just
returned by `R_NewPortalWindow` from a state with a well-formed free list, on
a screen of positive height, and any sequence of `R_WindowAdd` calls on `w`
that pass the input assertions. Then every call returns, and in the final
state every column of the screen outside `[minx, maxx]` holds
`top = view.height` and `bottom = -1`, so it is empty; this holds for `w` and
for every window on its child chain. -/
theorem windowAdd_outside_range_cleared (env : Env) (s0 s : State) (pool : List Nat)
    (p l : Ptr) (t : pwindowtype_e) (w : Nat) (calls : List (Int × ℚ × ℚ)) (fuel : Nat)
    (hh : 0 < env.view_height)
    (hok : FreeListOK env s0 pool)
    (hnew : R_NewPortalWindow env s0 p l t = .ok (w, s))
    (hvalid : ∀ c ∈ calls, ValidCall env c)
    (hfuel : calls.length + 1 ≤ fuel) :
    ∃ s' chain, runAdds env fuel w s calls = .ok s' ∧
      IsList pwindow_t.child s'.windows (some w) (w :: chain) ∧
      ∀ a ∈ w :: chain, ∃ r, s'.windows[a]? = some r ∧
        ∀ i, i < env.video_width → ((i : Int) < r.minx ∨ r.maxx < (i : Int)) →
          r.top.getD i 0 = env.view_height ∧ r.bottom.getD i 0 = -1 ∧
          r.bottom.getD i 0 < r.top.getD i 0 := by
  obtain ⟨hbuf, hpool, hlast⟩ := hok
  obtain ⟨r, hr, htop, hbot, _, _, hchild, _, _, _, _, _, _, _, hbuf', _⟩ :=
    R_NewPortalWindow_window hbuf hnew
  obtain ⟨hpool', hwp, _⟩ := R_NewPortalWindow_pool hbuf hpool
    (by
      intro lst hl
      rw [hl] at hlast
      exact hlast) hnew
  have hinv : ChainOK env s w [] pool.tail := by
    refine ⟨?_, hpool', ?_, hbuf', ?_⟩
    · rw [IsList.cons_iff]
      exact ⟨rfl, r, hr, by rw [IsList.nil_iff, hchild]⟩
    · simpa using ⟨hwp, hpool'.2⟩
    · intro b hb r' hr' i hi
      simp only [List.mem_singleton] at hb
      subst hb
      rw [hr] at hr'
      cases hr'
      rw [htop, hbot, getD_replicate_lt _ _ _ _ hi, getD_replicate_lt _ _ _ _ hi]
      exact Or.inl ⟨rfl, rfl⟩
  have hclr : ∀ rc, IsCleared env rc → OutsideCleared env rc := by
    intro rc h i hi _
    rw [h.1, h.2.1, getD_replicate_lt _ _ _ _ hi, getD_replicate_lt _ _ _ _ hi]
    exact ⟨rfl, rfl⟩
  obtain ⟨s', rest', pool', hrun, hchain, hpred⟩ :=
    runAdds_chain_pred env hh w (OutsideCleared env) (fun c => 0 ≤ c.1)
      (fun c hg r vx vy vz _ _ hp => addLocal_outside env vx vy vz r c.1 c.2.1 c.2.2 hg hp)
      (fun par rc _ hc _ _ => hclr rc hc)
      (fun r c hp => hp)
      calls s [] pool.tail fuel hinv (fun c hc => ⟨hvalid c hc, (hvalid c hc).1⟩)
      (by simpa using hfuel)
      (by
        intro b hb r' hr' i hi _
        simp only [List.mem_singleton] at hb
        subst hb
        rw [hr] at hr'
        cases hr'
        rw [htop, hbot, getD_replicate_lt _ _ _ _ hi, getD_replicate_lt _ _ _ _ hi]
        exact ⟨rfl, rfl⟩)
  refine ⟨s', rest', hrun, hchain.1, ?_⟩
  intro a ha
  have hva := hchain.1.valid a ha
  obtain ⟨ra, hra⟩ : ∃ ra, s'.windows[a]? = some ra :=
    ⟨s'.windows[a], List.getElem?_eq_getElem hva⟩
  refine ⟨ra, hra, ?_⟩
  intro i hi hout
  obtain ⟨e1, e2⟩ := hpred a ha ra hra i hi hout
  refine ⟨e1, e2, ?_⟩
  rw [e1, e2]
  linarith

/-- Three calls on a freshly claimed window, at columns 1 and 3, the third of
which creates a child. -/
theorem windowAdd_outside_range_cleared_witness :
    ∃ s' chain, runAdds narrowEnv 4 0 claimedState [(1, 10, 20), (3, 15, 30), (3, 40, 50)]
        = .ok s' ∧
      IsList pwindow_t.child s'.windows (some 0) (0 :: chain) ∧
      ∀ a ∈ 0 :: chain, ∃ r, s'.windows[a]? = some r ∧
        ∀ i, i < narrowEnv.video_width → ((i : Int) < r.minx ∨ r.maxx < (i : Int)) →
          r.top.getD i 0 = narrowEnv.view_height ∧ r.bottom.getD i 0 = -1 ∧
          r.bottom.getD i 0 < r.top.getD i 0 :=
  windowAdd_outside_range_cleared narrowEnv skyboxState claimedState [] (some 0) none
    .pw_floor 0 [(1, 10, 20), (3, 15, 30), (3, 40, 50)] 4 (by decide) (by decide) (by rfl)
    (by decide) (by decide)

/-! ## Contiguity of the range -/

/-- The record of the first window of a chain after a call of `R_WindowAdd`: it
is replaced by `addLocal` when the window takes the span, and otherwise it is
unchanged but for the child pointer, which may have been set. -/
theorem R_WindowAdd_top_record (env : Env) (hh : 0 < env.view_height) (x : Int)
    (ytop ybottom : ℚ) (hcall : ValidCall env (x, ytop, ybottom))
    (rest : List Nat) (a : Nat) (s : State) (pool : List Nat) (fuel : Nat)
    (hinv : ChainOK env s a rest pool) (hfuel : rest.length + 2 ≤ fuel)
    (w : pwindow_t) (hw : s.windows[a]? = some w) :
    ∃ s' rest' pool' w', R_WindowAdd env fuel s (some a) x ytop ybottom = .ok s' ∧
      ChainOK env s' a rest' pool' ∧ rest'.length ≤ rest.length + 1 ∧
      s'.windows[a]? = some w' ∧
      ((¬ GoesToChild env w x ytop ybottom ∧
          w' = addLocal env s.viewx s.viewy s.viewz w x ytop ybottom) ∨
       (GoesToChild env w x ytop ybottom ∧
          (w' = w ∨ ∃ c, w.child = none ∧ w' = { w with child := some c }))) := by
  obtain ⟨s', rest', pool', hrun, hinv', hcase, _, _⟩ :=
    R_WindowAdd_chain env hh x ytop ybottom hcall rest a s pool fuel hinv hfuel
  obtain ⟨s'', hrun', hland⟩ :=
    R_WindowAdd_lands env hh x ytop ybottom hcall rest a s pool fuel hinv hfuel
  rw [hrun] at hrun'
  cases hrun'
  have hlen : rest'.length ≤ rest.length + 1 := by
    rcases hcase with ⟨rfl, _⟩ | ⟨cn, rfl, _⟩
    · omega
    · simp
  have halt : a < s.windows.length := (List.getElem?_eq_some.mp hw).1
  have hndc : (a :: rest).Nodup := by
    have : (a :: rest).Sublist (a :: rest ++ pool) := List.sublist_append_left _ _
    exact hinv.2.2.1.sublist this
  rcases hland with ⟨pre, d, post, rd, h1, h2, h3, h4, h5⟩ |
    ⟨lst, par, c, s1, rc, h1, h2, h3, h4, h5, h6, h7, h8, h9, h10, h11, h12, h13, h14, h15,
      h16, h17, h18⟩
  · cases pre with
    | nil =>
      simp only [List.nil_append, List.cons.injEq] at h1
      obtain ⟨rfl, _⟩ := h1
      rw [hw] at h2
      cases h2
      refine ⟨s', rest', pool', _, hrun, hinv', hlen, ?_, Or.inl ⟨h3, rfl⟩⟩
      rw [h5]
      exact getElem?_putWindow_self _ halt
    | cons e pre =>
      simp only [List.cons_append, List.cons.injEq] at h1
      obtain ⟨rfl, h1⟩ := h1
      have hda : d ≠ a := by
        rintro rfl
        have : d ∈ rest := by rw [h1]; simp
        exact (List.nodup_cons.mp hndc).1 this
      refine ⟨s', rest', pool', w, hrun, hinv', hlen, ?_,
        Or.inr ⟨h4 a (List.mem_cons_self _ _) w hw, Or.inl rfl⟩⟩
      rw [h5, getElem?_putWindow_ne _ hda, hw]
  · have hca : c ≠ a := by
      rintro rfl
      exact h6 (List.mem_cons_self _ _)
    have hg := h3 a (List.mem_cons_self _ _) w hw
    by_cases hla : lst = a
    · subst hla
      rw [hw] at h2
      cases h2
      refine ⟨s', rest', pool', _, hrun, hinv', hlen, ?_, Or.inr ⟨hg, Or.inr ⟨c, h4, rfl⟩⟩⟩
      rw [h18, getElem?_putWindow_ne _ hca, h7]
    · refine ⟨s', rest', pool', w, hrun, hinv', hlen, ?_, Or.inr ⟨hg, Or.inl rfl⟩⟩
      rw [h18, getElem?_putWindow_ne _ hca, h16 a (Ne.symm hla) (Ne.symm hca), hw]

theorem addLocal_contiguous (env : Env) (vx vy vz : Int) (w : pwindow_t) (x : Int)
    (ytop ybottom : ℚ) (hx : 0 ≤ x)
    (hlen : x.toNat < w.top.length ∧ x.toNat < w.bottom.length)
    (hspan : 0 ≤ ytop ∧ ytop < ybottom ∧ ybottom < env.view_height)
    (hadj : w.maxx < w.minx ∨ (w.minx - 1 ≤ x ∧ x ≤ w.maxx + 1))
    (h : Contiguous w) :
    Contiguous (addLocal env vx vy vz w x ytop ybottom) := by
  have hoff : ¬ (ybottom < 0 ∨ ytop ≥ env.view_height) := by
    rintro (h1 | h1) <;> linarith [hspan.1, hspan.2.1, hspan.2.2]
  unfold addLocal
  simp only
  rw [if_neg hoff]
  intro i h1 h2
  by_cases hi : x.toNat = i
  · subst hi
    split_ifs at h1 h2 ⊢ <;> try simp only at h1 h2 ⊢
    all_goals first
      | (rw [getD_set_self _ _ _ _ hlen.1, getD_set_self _ _ _ _ hlen.2]; exact hspan.2.1)
      | (rw [getD_set_self _ _ _ _ hlen.1]; linarith [hspan.2.1])
      | (rw [getD_set_self _ _ _ _ hlen.2]; linarith [hspan.2.1])
      | linarith [hspan.2.1]
      | omega
  · split_ifs at h1 h2 ⊢ <;> try simp only at h1 h2 ⊢
    all_goals first
      | (rw [getD_set_ne _ _ _ _ _ hi, getD_set_ne _ _ _ _ _ hi]; exact h i (by omega) (by omega))
      | (rw [getD_set_ne _ _ _ _ _ hi]; exact h i (by omega) (by omega))
      | exact h i (by omega) (by omega)

/-- C23, refuted as stated. On a freshly claimed window the calls
`R_WindowAdd (w, 1, 10, 20)` and `R_WindowAdd (w, 3, 10, 20)`, both with spans on
screen and `top < bottom`, leave the range `[1, 3]`, but column 2 inside the
range is empty. -/
theorem windowAdd_leaves_gap_in_range :
    ∃ r, runAdds narrowEnv 2 0 claimedState [(1, 10, 20), (3, 10, 20)] = .ok gapState ∧
      gapState.windows[0]? = some r ∧ r.minx = 1 ∧ r.maxx = 3 ∧
      r.top.getD 2 0 ≥ r.bottom.getD 2 0 ∧ ¬ Contiguous r := by
  refine ⟨_, by rfl, by rfl, by rfl, by rfl, by decide, ?_⟩
  intro h
  have := h 2 (by decide) (by decide)
  revert this
  decide

/-- The two properties of the record of a window that together say that its
occupied columns are exactly its range, along a sequence of calls. -/
theorem runAdds_contiguous (env : Env) (hh : 0 < env.view_height) (w : Nat) :
    ∀ (calls : List (Int × ℚ × ℚ)) (s : State) (rest pool : List Nat) (fuel : Nat)
      (r : pwindow_t),
      ChainOK env s w rest pool → s.windows[w]? = some r →
      Contiguous r → OutsideCleared env r →
      (∀ c ∈ calls, ValidCall env c ∧ 0 ≤ c.2.1 ∧ c.2.1 < c.2.2 ∧ c.2.2 < env.view_height) →
      AdjacentAdds env fuel w s calls →
      rest.length + calls.length + 1 ≤ fuel →
      ∃ s' r', runAdds env fuel w s calls = .ok s' ∧ s'.windows[w]? = some r' ∧
        Contiguous r' ∧ OutsideCleared env r' := by
  intro calls
  induction calls with
  | nil =>
    intro s rest pool fuel r _ hr hc ho _ _ _
    exact ⟨s, r, rfl, hr, hc, ho⟩
  | cons c cs ih =>
    intro s rest pool fuel r hinv hr hc ho hvalid hadj hfuel
    simp only [List.length_cons] at hfuel
    obtain ⟨hv, hs0, hs1, hs2⟩ := hvalid c (List.mem_cons_self _ _)
    obtain ⟨s1, rest1, pool1, r1, hrun1, hinv1, hlen1, hr1, hrec⟩ :=
      R_WindowAdd_top_record env hh c.1 c.2.1 c.2.2 hv rest w s pool fuel hinv (by omega) r hr
    unfold AdjacentAdds at hadj
    rw [hr, hrun1] at hadj
    obtain ⟨hadj0, hadj1⟩ := hadj
    have hx0 : 0 ≤ c.1 := hv.1
    have hx1 : c.1 < env.video_width := hv.2.1
    have hlen := hinv.2.2.2.1.get hr
    have hcontig : Contiguous r1 ∧ OutsideCleared env r1 := by
      rcases hrec with ⟨_, rfl⟩ | ⟨_, rfl | ⟨cn, _, rfl⟩⟩
      · exact ⟨addLocal_contiguous env _ _ _ r c.1 c.2.1 c.2.2 hx0
          ⟨by rw [hlen.1]; omega, by rw [hlen.2]; omega⟩ ⟨hs0, hs1, hs2⟩ hadj0 hc,
          addLocal_outside env _ _ _ r c.1 c.2.1 c.2.2 hx0 ho⟩
      · exact ⟨hc, ho⟩
      · exact ⟨hc, ho⟩
    obtain ⟨s', r', hrun', hr', hc', ho'⟩ := ih s1 rest1 pool1 fuel r1 hinv1 hr1 hcontig.1
      hcontig.2 (fun c' hc' => hvalid c' (List.mem_cons_of_mem _ hc')) hadj1 (by omega)
    refine ⟨s', r', ?_, hr', hc', ho'⟩
    simp only [runAdds, hrun1]
    exact hrun'

/-- C23, amended. Take a window `w` just returned by `R_NewPortalWindow` from a
state with a well-formed free list, on a view window at least two columns
wide and a screen of positive height, and a sequence of `R_WindowAdd` calls on
`w` with columns of the screen and spans on screen with `top < bottom`, in which
every column is inside the range the window has at that time or next to it
(`AdjacentAdds`). Then every call returns and the occupied columns of `w` are
exactly the columns of `[minx, maxx]`. A call with a column that is not next to
the range leaves the columns in between empty. -/
theorem windowAdd_contiguous_when_adjacent (env : Env) (s0 s : State) (pool : List Nat)
    (p l : Ptr) (t : pwindowtype_e) (w : Nat) (calls : List (Int × ℚ × ℚ)) (fuel : Nat)
    (hh : 0 < env.view_height) (hvw : 2 ≤ env.viewwindow_width)
    (hok : FreeListOK env s0 pool)
    (hnew : R_NewPortalWindow env s0 p l t = .ok (w, s))
    (hvalid : ∀ c ∈ calls,
      ValidCall env c ∧ 0 ≤ c.2.1 ∧ c.2.1 < c.2.2 ∧ c.2.2 < env.view_height)
    (hadj : AdjacentAdds env fuel w s calls)
    (hfuel : calls.length + 1 ≤ fuel) :
    ∃ s' r, runAdds env fuel w s calls = .ok s' ∧ s'.windows[w]? = some r ∧
      ∀ i, i < env.video_width →
        (r.top.getD i 0 < r.bottom.getD i 0 ↔ (r.minx ≤ (i : Int) ∧ (i : Int) ≤ r.maxx)) := by
  obtain ⟨hbuf, hpool, hlast⟩ := hok
  obtain ⟨r, hr, htop, hbot, hminx, hmaxx, hchild, _, _, _, _, _, _, _, hbuf', _⟩ :=
    R_NewPortalWindow_window hbuf hnew
  obtain ⟨hpool', hwp, _⟩ := R_NewPortalWindow_pool hbuf hpool
    (by
      intro lst hl
      rw [hl] at hlast
      exact hlast) hnew
  have hinv : ChainOK env s w [] pool.tail := by
    refine ⟨?_, hpool', ?_, hbuf', ?_⟩
    · rw [IsList.cons_iff]
      exact ⟨rfl, r, hr, by rw [IsList.nil_iff, hchild]⟩
    · simpa using ⟨hwp, hpool'.2⟩
    · intro b hb r' hr' i hi
      simp only [List.mem_singleton] at hb
      subst hb
      rw [hr] at hr'
      cases hr'
      rw [htop, hbot, getD_replicate_lt _ _ _ _ hi, getD_replicate_lt _ _ _ _ hi]
      exact Or.inl ⟨rfl, rfl⟩
  have hc0 : Contiguous r := by
    intro i h1 h2
    rw [hminx] at h1
    rw [hmaxx] at h2
    omega
  have ho0 : OutsideCleared env r := by
    intro i hi _
    rw [htop, hbot, getD_replicate_lt _ _ _ _ hi, getD_replicate_lt _ _ _ _ hi]
    exact ⟨rfl, rfl⟩
  obtain ⟨s', r', hrun, hr', hc', ho'⟩ := runAdds_contiguous env hh w calls s [] pool.tail
    fuel r hinv hr hc0 ho0 hvalid hadj (by simpa using hfuel)
  refine ⟨s', r', hrun, hr', ?_⟩
  intro i hi
  constructor
  · intro hocc
    by_contra hout
    have hout' : (i : Int) < r'.minx ∨ r'.maxx < (i : Int) := by omega
    obtain ⟨e1, e2⟩ := ho' i hi hout'
    rw [e1, e2] at hocc
    linarith
  · rintro ⟨h1, h2⟩
    exact hc' i h1 h2

/-- Three calls on a freshly claimed window at the columns 1, 2 and 3. -/
theorem windowAdd_contiguous_when_adjacent_witness :
    ∃ s' r, runAdds narrowEnv 4 0 claimedState [(1, 10, 20), (2, 30, 40), (3, 10, 20)] =
        .ok s' ∧ s'.windows[0]? = some r ∧
      ∀ i, i < narrowEnv.video_width →
        (r.top.getD i 0 < r.bottom.getD i 0 ↔ (r.minx ≤ (i : Int) ∧ (i : Int) ≤ r.maxx)) :=
  windowAdd_contiguous_when_adjacent narrowEnv skyboxState claimedState [] (some 0) none
    .pw_floor 0 [(1, 10, 20), (2, 30, 40), (3, 10, 20)] 4 (by decide) (by decide) (by decide)
    (by rfl) (by decide) (by decide) (by decide)

/-! ## The child pointer -/

theorem newPortalWindow_error {env : Env} {s : State} {e : Err}
    (h : newPortalWindow env s = .error e) : e = .undefined := by
  unfold newPortalWindow at h
  split at h
  · split at h
    · cases h; rfl
    · cases h
  · cases h

/-- On a childless window `R_CreateChildWindow` does not reach its `I_Error`. -/
theorem R_CreateChildWindow_error {env : Env} {s : State} {a : Nat} {w : pwindow_t} {e : Err}
    (hw : s.windows[a]? = some w) (hchild : w.child = none)
    (h : R_CreateChildWindow env s a = .error e) : e = .undefined := by
  unfold R_CreateChildWindow at h
  simp only [getWindow, hw, bind, Except.bind] at h
  rw [if_neg (by simp [hchild])] at h
  split at h
  · rename_i e' hn
    cases h
    exact newPortalWindow_error hn
  · split at h
    · rename_i err heq
      cases h
      split at heq
      · cases heq; rfl
      · cases heq
    · cases h

theorem error_ne_displaced {msg : String}
    (hm : msg ≠ "R_CreateChildWindow: child portal displaced") :
    (Except.error (Err.I_Error msg) : Except Err State) ≠
      .error (.I_Error "R_CreateChildWindow: child portal displaced") := by
  intro h
  injection h with h
  injection h with h
  exact hm h

/-- No run of `R_WindowAdd` ends in the `I_Error` of `R_CreateChildWindow`. -/
theorem R_WindowAdd_not_displaced (env : Env) :
    ∀ (fuel : Nat) (s : State) (window : Ptr) (x : Int) (ytop ybottom : ℚ),
      R_WindowAdd env fuel s window x ytop ybottom ≠
        .error (.I_Error "R_CreateChildWindow: child portal displaced") := by
  intro fuel
  induction fuel with
  | zero =>
    intro s window x ytop ybottom h
    simp [R_WindowAdd] at h
  | succ f ih =>
    intro s window x ytop ybottom h
    unfold R_WindowAdd at h
    by_cases c1 : env.RANGECHECK = true ∧ window = none
    · rw [if_pos c1] at h
      exact error_ne_displaced (by decide) h
    rw [if_neg c1] at h
    by_cases c2 : env.RANGECHECK = true ∧ (x < 0 ∨ x ≥ env.video_width)
    · rw [if_pos c2] at h
      exact error_ne_displaced (by decide) h
    rw [if_neg c2] at h
    by_cases c3 : env.RANGECHECK = true ∧
        ((ybottom ≥ env.view_height ∨ ytop < 0) ∧ ytop < ybottom)
    · rw [if_pos c3] at h
      exact error_ne_displaced (by decide) h
    rw [if_neg c3] at h
    cases window with
    | none => cases h
    | some wi =>
      simp only at h
      cases hw : s.windows[wi]? with
      | none =>
        rw [hw] at h
        cases h
      | some w =>
        rw [hw] at h
        simp only at h
        by_cases c4 : x < 0 ∨ x ≥ w.top.length ∨ x ≥ w.bottom.length
        · rw [if_pos c4] at h
          cases h
        rw [if_neg c4] at h
        by_cases c5 : env.RANGECHECK = true ∧ (w.bottom.getD x.toNat 0 > w.top.getD x.toNat 0 ∧
            (w.top.getD x.toNat 0 < 0 ∨ w.bottom.getD x.toNat 0 < 0 ∨
             w.top.getD x.toNat 0 ≥ env.view_height ∨
             w.bottom.getD x.toNat 0 ≥ env.view_height))
        · rw [if_pos c5] at h
          exact error_ne_displaced (by decide) h
        rw [if_neg c5] at h
        by_cases c6 : ybottom < 0 ∨ ytop ≥ env.view_height
        · rw [if_pos c6] at h
          cases h
        rw [if_neg c6] at h
        by_cases c7 : x ≤ w.maxx ∧ x ≥ w.minx
        · rw [if_pos c7] at h
          by_cases c8 : w.top.getD x.toNat 0 > w.bottom.getD x.toNat 0
          · rw [if_pos c8] at h
            cases h
          rw [if_neg c8] at h
          by_cases c9 : ytop > w.bottom.getD x.toNat 0 ∨ ybottom < w.top.getD x.toNat 0
          · rw [if_pos c9] at h
            by_cases c10 : w.child = none
            · rw [if_pos c10] at h
              cases hc : R_CreateChildWindow env s wi with
              | error e =>
                rw [hc] at h
                have := R_CreateChildWindow_error hw c10 hc
                subst this
                cases h
              | ok s1 =>
                rw [hc] at h
                simp only at h
                split at h
                · cases h
                · exact ih _ _ _ _ _ h
            · rw [if_neg c10] at h
              simp only [hw] at h
              exact ih _ _ _ _ _ h
          · rw [if_neg c9] at h
            cases h
        rw [if_neg c7] at h
        by_cases c11 : w.minx > w.maxx
        · rw [if_pos c11] at h
          cases h
        rw [if_neg c11] at h
        by_cases c12 : x > w.maxx
        · rw [if_pos c12] at h
          cases h
        rw [if_neg c12] at h
        by_cases c13 : x < w.minx
        · rw [if_pos c13] at h
          cases h
        rw [if_neg c13] at h
        cases h

/-- C27. A child is never displaced. For a window `a` with a well-formed child
chain `rest`, a call of `R_WindowAdd` that passes the input assertions returns;
the chain afterwards is `rest`, or `rest` with one window appended at its end;
and every window of the chain that had a child before the call has the same
child after it. Moreover no run of `R_WindowAdd` at all, from any state and
with any arguments, ends in the `child portal displaced` error of
`R_CreateChildWindow`: the function is only called on a window without
child. -/
theorem windowAdd_child_never_displaced (env : Env) (hh : 0 < env.view_height) (x : Int)
    (ytop ybottom : ℚ) (hcall : ValidCall env (x, ytop, ybottom))
    (rest : List Nat) (a : Nat) (s : State) (pool : List Nat) (fuel : Nat)
    (hinv : ChainOK env s a rest pool) (hfuel : rest.length + 2 ≤ fuel) :
    (∃ s' rest', R_WindowAdd env fuel s (some a) x ytop ybottom = .ok s' ∧
      IsList pwindow_t.child s'.windows (some a) (a :: rest') ∧
      (rest' = rest ∨ ∃ c, rest' = rest ++ [c]) ∧
      ∀ b ∈ a :: rest, ∀ r e, s.windows[b]? = some r → r.child = some e →
        ∃ r', s'.windows[b]? = some r' ∧ r'.child = some e) ∧
    (∀ (fuel' : Nat) (st : State) (window : Ptr) (x' : Int) (t b : ℚ),
      R_WindowAdd env fuel' st window x' t b ≠
        .error (.I_Error "R_CreateChildWindow: child portal displaced")) := by
  refine ⟨?_, fun fuel' st window x' t b => R_WindowAdd_not_displaced env fuel' st window x' t b⟩
  obtain ⟨s', rest', pool', hrun, hinv', hcase, _, _⟩ :=
    R_WindowAdd_chain env hh x ytop ybottom hcall rest a s pool fuel hinv hfuel
  obtain ⟨s'', hrun', hland⟩ :=
    R_WindowAdd_lands env hh x ytop ybottom hcall rest a s pool fuel hinv hfuel
  rw [hrun] at hrun'
  cases hrun'
  refine ⟨s', rest', hrun, hinv'.1, ?_, ?_⟩
  · rcases hcase with ⟨h, _⟩ | ⟨c, h, _⟩
    · exact Or.inl h
    · exact Or.inr ⟨c, h⟩
  · intro b hb r e hr he
    rcases hland with ⟨pre, d, post, rd, h1, h2, h3, h4, h5⟩ |
      ⟨lst, par, c, s1, rc, h1, h2, h3, h4, h5, h6, h7, h8, h9, h10, h11, h12, h13, h14, h15,
        h16, h17, h18⟩
    · by_cases hbd : b = d
      · subst hbd
        rw [hr] at h2
        cases h2
        refine ⟨addLocal env s.viewx s.viewy s.viewz r x ytop ybottom, ?_, ?_⟩
        · rw [h5]
          exact getElem?_putWindow_self _ (List.getElem?_eq_some.mp hr).1
        · rw [(addLocal_fields env s.viewx s.viewy s.viewz r x ytop ybottom).1]
          exact he
      · exact ⟨r, by rw [h5, getElem?_putWindow_ne _ (Ne.symm hbd), hr], he⟩
    · have hbl : b ≠ lst := by
        rintro rfl
        rw [hr] at h2
        cases h2
        rw [h4] at he
        cases he
      have hbc : b ≠ c := by
        rintro rfl
        exact h6 hb
      exact ⟨r, by rw [h18, getElem?_putWindow_ne _ (Ne.symm hbc), h16 b hbl hbc, hr], he⟩

/-- A call on the window of `oneRowThenSpanState`, which has a child: the span
goes to a new child of that child. -/
theorem windowAdd_child_never_displaced_witness :
    ∃ s' rest', R_WindowAdd narrowEnv 3 oneRowThenSpanState (some 0) 1 25 35 = .ok s' ∧
      IsList pwindow_t.child s'.windows (some 0) (0 :: rest') ∧
      (rest' = [1] ∨ ∃ c, rest' = [1] ++ [c]) ∧
      ∀ b ∈ 0 :: ([1] : List Nat), ∀ r e, oneRowThenSpanState.windows[b]? = some r →
        r.child = some e → ∃ r', s'.windows[b]? = some r' ∧ r'.child = some e :=
  (windowAdd_child_never_displaced narrowEnv (by decide) 1 25 35 (by decide) [1] 0
    oneRowThenSpanState [] 3 (by decide) (by decide)).1

/-- A record that holds the span at a column of its range does not change when
the span is added again. -/
theorem addLocal_stored (env : Env) (vx vy vz : Int) (w : pwindow_t) (x : Int)
    (ytop ybottom : ℚ) (hoff : ¬ (ybottom < 0 ∨ ytop ≥ env.view_height))
    (hr : x ≤ w.maxx ∧ x ≥ w.minx)
    (ht : w.top.getD x.toNat 0 = ytop) (hb : w.bottom.getD x.toNat 0 = ybottom)
    (hst : w.top.set x.toNat ytop = w.top) (hsb : w.bottom.set x.toNat ybottom = w.bottom) :
    ¬ GoesToChild env w x ytop ybottom ∧ addLocal env vx vy vz w x ytop ybottom = w := by
  constructor
  · rintro ⟨_, _, h3, h4⟩
    rw [ht, hb] at h3 h4
    rcases h4 with h4 | h4
    · exact h3 h4
    · exact h3 h4
  · unfold addLocal
    simp only
    rw [if_neg hoff, if_pos hr, ht, hb]
    by_cases hf : ytop > ybottom
    · rw [if_pos hf, hst, hsb]
    · rw [if_neg hf, if_neg (lt_irrefl _), if_neg (lt_irrefl _)]

/-- Adding the same span again to the record that took it changes nothing. -/
theorem addLocal_idem (env : Env) (vx vy vz vx' vy' vz' : Int) (w : pwindow_t) (x : Int)
    (ytop ybottom : ℚ)
    (hlen : x.toNat < w.top.length ∧ x.toNat < w.bottom.length)
    (hg : ¬ GoesToChild env w x ytop ybottom) :
    ¬ GoesToChild env (addLocal env vx vy vz w x ytop ybottom) x ytop ybottom ∧
    addLocal env vx' vy' vz' (addLocal env vx vy vz w x ytop ybottom) x ytop ybottom =
      addLocal env vx vy vz w x ytop ybottom := by
  by_cases hoff : ybottom < 0 ∨ ytop ≥ env.view_height
  · have e : addLocal env vx vy vz w x ytop ybottom = w := by
      unfold addLocal
      simp only [if_pos hoff]
    rw [e]
    refine ⟨hg, ?_⟩
    unfold addLocal
    simp only [if_pos hoff]
  · have hts : (w.top.set x.toNat ytop).getD x.toNat 0 = ytop := getD_set_self _ _ _ _ hlen.1
    have hbs : (w.bottom.set x.toNat ybottom).getD x.toNat 0 = ybottom :=
      getD_set_self _ _ _ _ hlen.2
    by_cases hr : x ≤ w.maxx ∧ x ≥ w.minx
    · by_cases hf : w.top.getD x.toNat 0 > w.bottom.getD x.toNat 0
      · have e : addLocal env vx vy vz w x ytop ybottom =
            { w with top := w.top.set x.toNat ytop, bottom := w.bottom.set x.toNat ybottom } := by
          unfold addLocal
          simp only
          rw [if_neg hoff, if_pos hr, if_pos hf]
        rw [e]
        exact addLocal_stored env vx' vy' vz' _ x ytop ybottom hoff hr hts hbs
          (by simp) (by simp)
      · have hnc : ¬ (ytop > w.bottom.getD x.toNat 0 ∨ ybottom < w.top.getD x.toNat 0) :=
          fun h => hg ⟨hoff, hr, hf, h⟩
        have h1 : ytop ≤ w.bottom.getD x.toNat 0 := not_lt.mp (fun h => hnc (Or.inl h))
        have h2 : w.top.getD x.toNat 0 ≤ ybottom := not_lt.mp (fun h => hnc (Or.inr h))
        have h3 : w.top.getD x.toNat 0 ≤ w.bottom.getD x.toNat 0 := not_lt.mp hf
        have e : addLocal env vx vy vz w x ytop ybottom =
            { w with
              top := if ytop < w.top.getD x.toNat 0 then w.top.set x.toNat ytop else w.top
              bottom := if ybottom > w.bottom.getD x.toNat 0 then w.bottom.set x.toNat ybottom
                        else w.bottom } := by
          unfold addLocal
          simp only
          rw [if_neg hoff, if_pos hr, if_neg hf]
        rw [e]
        have ht' : (if ytop < w.top.getD x.toNat 0 then w.top.set x.toNat ytop
            else w.top).getD x.toNat 0 ≤ ytop ∧
            (if ytop < w.top.getD x.toNat 0 then w.top.set x.toNat ytop
            else w.top).getD x.toNat 0 ≤ w.top.getD x.toNat 0 := by
          split_ifs with hc
          · rw [hts]
            exact ⟨le_refl _, le_of_lt hc⟩
          · exact ⟨not_lt.mp hc, le_refl _⟩
        have hb' : ybottom ≤ (if ybottom > w.bottom.getD x.toNat 0 then
            w.bottom.set x.toNat ybottom else w.bottom).getD x.toNat 0 ∧
            w.bottom.getD x.toNat 0 ≤ (if ybottom > w.bottom.getD x.toNat 0 then
            w.bottom.set x.toNat ybottom else w.bottom).getD x.toNat 0 := by
          split_ifs with hc
          · rw [hbs]
            exact ⟨le_refl _, le_of_lt hc⟩
          · exact ⟨not_lt.mp hc, le_refl _⟩
        generalize hT : (if ytop < w.top.getD x.toNat 0 then w.top.set x.toNat ytop
            else w.top) = T at ht' ⊢
        generalize hB : (if ybottom > w.bottom.getD x.toNat 0 then
            w.bottom.set x.toNat ybottom else w.bottom) = B at hb' ⊢
        constructor
        · rintro ⟨_, _, g3, g4⟩
          simp only at g3 g4
          rcases g4 with g4 | g4
          · linarith [hb'.2]
          · linarith [ht'.2]
        · unfold addLocal
          simp only
          rw [if_neg hoff, if_pos hr, if_neg (by linarith [ht'.2, hb'.2]),
            if_neg (by linarith [ht'.1]), if_neg (by linarith [hb'.1])]
    · by_cases he : w.minx > w.maxx
      · have e : addLocal env vx vy vz w x ytop ybottom =
            { w with minx := x, maxx := x, top := w.top.set x.toNat ytop,
                     bottom := w.bottom.set x.toNat ybottom, vx := vx, vy := vy, vz := vz } := by
          unfold addLocal
          simp only
          rw [if_neg hoff, if_neg hr, if_pos he]
        rw [e]
        exact addLocal_stored env vx' vy' vz' _ x ytop ybottom hoff ⟨le_refl _, le_refl _⟩
          hts hbs (by simp) (by simp)
      · by_cases h1 : x > w.maxx
        · have e : addLocal env vx vy vz w x ytop ybottom =
              { w with maxx := x, top := w.top.set x.toNat ytop,
                       bottom := w.bottom.set x.toNat ybottom } := by
            unfold addLocal
            simp only
            rw [if_neg hoff, if_neg hr, if_neg he, if_pos h1]
          rw [e]
          exact addLocal_stored env vx' vy' vz' _ x ytop ybottom hoff
            ⟨le_refl _, by show x ≥ w.minx; omega⟩ hts hbs (by simp) (by simp)
        · by_cases h2 : x < w.minx
          · have e : addLocal env vx vy vz w x ytop ybottom =
                { w with minx := x, top := w.top.set x.toNat ytop,
                         bottom := w.bottom.set x.toNat ybottom } := by
              unfold addLocal
              simp only
              rw [if_neg hoff, if_neg hr, if_neg he, if_neg h1, if_pos h2]
            rw [e]
            exact addLocal_stored env vx' vy' vz' _ x ytop ybottom hoff
              ⟨by show x ≤ w.maxx; omega, le_refl _⟩ hts hbs (by simp) (by simp)
          · exact absurd ⟨by omega, by omega⟩ hr

/-- The first element of a list that fails a property is determined by the list. -/
theorem split_unique {α : Type} (P : α → Prop) :
    ∀ (pre pre' post post' : List α) (d d' : α),
      pre ++ d :: post = pre' ++ d' :: post' →
      (∀ e ∈ pre, P e) → ¬ P d → (∀ e ∈ pre', P e) → ¬ P d' → d = d' := by
  intro pre
  induction pre with
  | nil =>
    intro pre' post post' d d' h _ hd hp' _
    cases pre' with
    | nil => exact (List.cons.inj h).1
    | cons e pre' =>
      have := (List.cons.inj h).1
      subst this
      exact absurd (hp' d (List.mem_cons_self _ _)) hd
  | cons e pre ih =>
    intro pre' post post' d d' h hp hd hp' hd'
    cases pre' with
    | nil =>
      have := (List.cons.inj h).1
      subst this
      exact absurd (hp e (List.mem_cons_self _ _)) hd'
    | cons e' pre' =>
      exact ih pre' post post' d d' (List.cons.inj h).2
        (fun e he => hp e (List.mem_cons_of_mem _ he)) hd
        (fun e he => hp' e (List.mem_cons_of_mem _ he)) hd'

/-- A call of `R_WindowAdd` on a chain in which the first window that keeps the
span holds it already returns the state unchanged. -/
theorem R_WindowAdd_fixed (env : Env) (hh : 0 < env.view_height) (x : Int)
    (ytop ybottom : ℚ) (hcall : ValidCall env (x, ytop, ybottom))
    (rest : List Nat) (a : Nat) (s : State) (pool : List Nat) (fuel : Nat)
    (hinv : ChainOK env s a rest pool) (hfuel : rest.length + 2 ≤ fuel)
    (pre post : List Nat) (d : Nat) (rd : pwindow_t)
    (hsplit : a :: rest = pre ++ d :: post)
    (hpre : ∀ e ∈ pre, ∀ re, s.windows[e]? = some re → GoesToChild env re x ytop ybottom)
    (hd : s.windows[d]? = some rd) (hng : ¬ GoesToChild env rd x ytop ybottom)
    (hfix : ∀ vx vy vz, addLocal env vx vy vz rd x ytop ybottom = rd) :
    R_WindowAdd env fuel s (some a) x ytop ybottom = .ok s := by
  obtain ⟨s', hrun, hland⟩ :=
    R_WindowAdd_lands env hh x ytop ybottom hcall rest a s pool fuel hinv hfuel
  rw [hrun]
  have hPd : ¬ (∀ re, s.windows[d]? = some re → GoesToChild env re x ytop ybottom) :=
    fun h => hng (h rd hd)
  rcases hland with ⟨pre', d', post', rd', h1, h2, h3, h4, h5⟩ |
    ⟨lst, par, c, s1, rc, h1, h2, h3, _⟩
  · have hdd : d = d' := by
      refine split_unique
        (fun e => ∀ re, s.windows[e]? = some re → GoesToChild env re x ytop ybottom)
        pre pre' post post' d d' (by rw [← hsplit, h1]) hpre hPd h4 ?_
      intro h
      exact h3 (h rd' h2)
    subst hdd
    rw [hd] at h2
    cases h2
    rw [h5, hfix, putWindow_self hd]
  · exfalso
    apply hPd
    intro re hre
    exact h3 d (by rw [hsplit]; simp) re hre

/-- C30, refuted as stated. In a `RANGECHECK` build with `view.height = 200`, on
a window whose column 2 holds the span `(10, 20)`, the call
`R_WindowAdd (w, 2, NaN, 250)` passes the input assertions, returns, and leaves
the bottom `250` in column 2; the same call made again does not return a state:
it ends in the abort `R_WindowAdd portal had bad opening data`. -/
theorem windowAdd_nan_span_not_idempotent :
    ∃ s1 r,
      Flt.ValidCall narrowEnv (2, .nan, .num 250) ∧
      Flt.R_WindowAdd narrowEnv 1 spanFltState (some 0) 2 .nan (.num 250) = .ok s1 ∧
      s1.windows[0]? = some r ∧
      r.top.getD 2 (.num 0) = .num 10 ∧ r.bottom.getD 2 (.num 0) = .num 250 ∧
      Flt.R_WindowAdd narrowEnv 1 s1 (some 0) 2 .nan (.num 250) =
        .error (.I_Error "R_WindowAdd portal had bad opening data.") := by
  refine ⟨_, _, by decide, by rfl, by rfl, by rfl, by rfl, by rfl⟩

/-- C30, amended. `R_WindowAdd` is idempotent on spans without NaN. On a
well-formed chain and with a span whose two ends are not NaN (finite values or
infinities) and arguments that pass the input checks, the call returns a state,
and the same call on that state returns it unchanged: window records, child
chain, free list and the globals (the viewpoint among them, which the call
never writes) are those the first call left. When the two ends are finite, the
two calls over rationals give the same results. -/
theorem windowAdd_idempotent (env : Env) (hh : 0 < env.view_height) (x : Int)
    (ftop fbottom : cfloat) (hfcall : Flt.ValidCall env (x, ftop, fbottom))
    (htop : ftop ≠ .nan) (hbottom : fbottom ≠ .nan)
    (rest : List Nat) (a : Nat) (s : State) (pool : List Nat) (fuel : Nat)
    (hinv : ChainOK env s a rest pool) (hfuel : rest.length + 3 ≤ fuel) :
    ∃ s1, Flt.R_WindowAdd env fuel s.toFlt (some a) x ftop fbottom = .ok s1.toFlt ∧
      Flt.R_WindowAdd env fuel s1.toFlt (some a) x ftop fbottom = .ok s1.toFlt ∧
      (∀ ytop ybottom, ftop = .num ytop → fbottom = .num ybottom →
        R_WindowAdd env fuel s (some a) x ytop ybottom = .ok s1 ∧
        R_WindowAdd env fuel s1 (some a) x ytop ybottom = .ok s1) ∧
      s1.viewx = s.viewx ∧ s1.viewy = s.viewy ∧ s1.viewz = s.viewz := by
  obtain ⟨ytop, ybottom, hcall, hsame, hnum⟩ :=
    span_as_numbers env x ftop fbottom hfcall htop hbottom
  obtain ⟨s', rest', pool', hrun, hinv', hcase, hfr, hglob⟩ :=
    R_WindowAdd_chain env hh x ytop ybottom hcall rest a s pool fuel hinv (by omega)
  obtain ⟨s'', hrun', hland⟩ :=
    R_WindowAdd_lands env hh x ytop ybottom hcall rest a s pool fuel hinv (by omega)
  rw [hrun] at hrun'
  cases hrun'
  suffices hsecond : R_WindowAdd env fuel s' (some a) x ytop ybottom = .ok s' by
    refine ⟨s', by rw [hsame, R_WindowAdd_toFlt, hrun]; rfl,
      by rw [hsame, R_WindowAdd_toFlt, hsecond]; rfl, ?_,
      hglob.2.2.2.2.1, hglob.2.2.2.2.2.1, hglob.2.2.2.2.2.2.1⟩
    intro t b ht hb
    obtain ⟨e1, e2⟩ := hnum t b ht hb
    rw [← e1, ← e2]
    exact ⟨hrun, hsecond⟩
  have hlen' : rest'.length + 2 ≤ fuel := by
    rcases hcase with ⟨h, _⟩ | ⟨c, h, _⟩
    · rw [h]
      omega
    · rw [h]
      simp
      omega
  obtain ⟨hchain, hpool, hnd, hbuf, hcols⟩ := hinv
  have hx := hcall.1
  have hx1 := hcall.2.1
  simp only at hx hx1
  have hi : x.toNat < env.video_width := by omega
  have hndc : (a :: rest).Nodup := by
    have : (a :: rest).Sublist (a :: rest ++ pool) := List.sublist_append_left _ _
    exact hnd.sublist this
  rcases hland with ⟨pre, d, post, rd, h1, h2, h3, h4, h5⟩ |
    ⟨lst, par, c, s1, rc, h1, h2, h3, h4, h5, h6, h7, h8, h9, h10, h11, h12, h13, h14, h15,
      h16, h17, h18⟩
  · -- the span was taken by the window `d` of the chain
    have hd : d ∈ a :: rest := by rw [h1]; simp
    have hdlt : d < s.windows.length := (List.getElem?_eq_some.mp h2).1
    have hgetd : s'.windows[d]? =
        some (addLocal env s.viewx s.viewy s.viewz rd x ytop ybottom) := by
      rw [h5]
      exact getElem?_putWindow_self _ hdlt
    have hchain' : IsList pwindow_t.child s'.windows (some a) (a :: rest) := by
      apply hchain.frame
      intro b hb w hw
      by_cases hbd : b = d
      · subst hbd
        rw [h2] at hw
        cases hw
        exact ⟨_, hgetd, (addLocal_fields env s.viewx s.viewy s.viewz rd x ytop ybottom).1⟩
      · refine ⟨w, ?_, rfl⟩
        rw [h5, getElem?_putWindow_ne _ (Ne.symm hbd), hw]
    have hrest : rest' = rest := by
      have := IsList.unique hinv'.1 hchain'
      exact (List.cons.inj this).2
    have hlens := hbuf.get h2
    have hl : x.toNat < rd.top.length ∧ x.toNat < rd.bottom.length := by
      rw [hlens.1, hlens.2]
      exact ⟨hi, hi⟩
    have hdpre : d ∉ pre := by
      intro hin
      rw [h1] at hndc
      have := (List.nodup_append.mp hndc).2.2
      exact this hin (List.mem_cons_self _ _)
    refine R_WindowAdd_fixed env hh x ytop ybottom hcall rest' a s' pool' fuel hinv' hlen'
      pre post d _ (by rw [hrest, h1]) ?_ hgetd
      (addLocal_idem env _ _ _ 0 0 0 rd x ytop ybottom hl h3).1
      (fun vx vy vz => (addLocal_idem env _ _ _ vx vy vz rd x ytop ybottom hl h3).2)
    intro e he re hre
    have hed : e ≠ d := by
      rintro rfl
      exact hdpre he
    rw [h5, getElem?_putWindow_ne _ (Ne.symm hed)] at hre
    exact h4 e he re hre
  · -- the span went to a new child `c` of the last window
    have hlst : lst ∈ a :: rest := List.mem_of_getLast?_eq_some h1
    have hclt : c < s1.windows.length := (List.getElem?_eq_some.mp h8).1
    have hlc : lst ≠ c := by
      rintro rfl
      exact h6 hlst
    have hget : ∀ b, b ≠ c → s'.windows[b]? = s1.windows[b]? := by
      intro b hb
      rw [h18, getElem?_putWindow_ne _ (Ne.symm hb)]
    have hgetc : s'.windows[c]? =
        some (addLocal env s1.viewx s1.viewy s1.viewz rc x ytop ybottom) := by
      rw [h18]
      exact getElem?_putWindow_self _ hclt
    have hchain' : IsList pwindow_t.child s'.windows (some a) (a :: rest ++ [c]) := by
      apply IsList.snoc hchain (by simp)
      · rw [List.nodup_append]
        refine ⟨hndc, by simp, ?_⟩
        intro e he hec
        simp only [List.mem_singleton] at hec
        subst hec
        exact h6 he
      · intro l hl
        rw [h1] at hl
        cases hl
        exact ⟨_, by rw [hget lst hlc, h7], rfl⟩
      · refine ⟨_, hgetc, ?_⟩
        rw [(addLocal_fields env s1.viewx s1.viewy s1.viewz rc x ytop ybottom).1]
        exact h9.2.2.2.2.1
      · intro b hb hbl
        have hbl' : b ≠ lst := by
          rintro rfl
          exact hbl h1
        have hbc : b ≠ c := by
          rintro rfl
          exact h6 hb
        rw [hget b hbc, h16 b hbl' hbc]
    have hrest : rest' = rest ++ [c] := by
      have := IsList.unique hinv'.1 hchain'
      exact (List.cons.inj this).2
    have hl : x.toNat < rc.top.length ∧ x.toNat < rc.bottom.length := by
      rw [h9.1, h9.2.1]
      simp [hi]
    have hngc : ¬ GoesToChild env rc x ytop ybottom := by
      rintro ⟨_, _, g3, _⟩
      apply g3
      rw [h9.1, h9.2.1, getD_replicate_lt _ _ _ _ hi, getD_replicate_lt _ _ _ _ hi]
      linarith
    refine R_WindowAdd_fixed env hh x ytop ybottom hcall rest' a s' pool' fuel hinv' hlen'
      (a :: rest) [] c _ (by rw [hrest]; simp) ?_ hgetc
      (addLocal_idem env _ _ _ 0 0 0 rc x ytop ybottom hl hngc).1
      (fun vx vy vz => (addLocal_idem env _ _ _ vx vy vz rc x ytop ybottom hl hngc).2)
    intro e he re hre
    have hec : e ≠ c := by
      rintro rfl
      exact h6 he
    by_cases hel : e = lst
    · subst hel
      rw [hget e hec, h7] at hre
      cases hre
      exact h3 e he par h2
    · rw [hget e hec, h16 e hel hec] at hre
      exact h3 e he re hre

/-- The call of the refuted C18 example repeated: the span at column 1 of
`oneRowState` goes to a new child window, and the second call lands in that
child and changes nothing. -/
theorem windowAdd_idempotent_witness :
    ∃ s1, Flt.R_WindowAdd narrowEnv 3 oneRowState.toFlt (some 0) 1 (.num 10) (.num 20) =
        .ok s1.toFlt ∧
      Flt.R_WindowAdd narrowEnv 3 s1.toFlt (some 0) 1 (.num 10) (.num 20) =
        .ok s1.toFlt ∧
      (∀ ytop ybottom, cfloat.num 10 = .num ytop → cfloat.num 20 = .num ybottom →
        R_WindowAdd narrowEnv 3 oneRowState (some 0) 1 ytop ybottom = .ok s1 ∧
        R_WindowAdd narrowEnv 3 s1 (some 0) 1 ytop ybottom = .ok s1) ∧
      s1.viewx = oneRowState.viewx ∧ s1.viewy = oneRowState.viewy ∧
      s1.viewz = oneRowState.viewz :=
  windowAdd_idempotent narrowEnv (by decide) 1 (.num 10) (.num 20) (by decide) (by decide)
    (by decide) [] 0 oneRowState [] 3 (by decide) (by decide)

/-- C26. Clip-region failure. Take a window with a non-empty column range on a
Skybox, Anchored, TwoWay or Linked portal, with the render strategy
`R_SetPortalFunction` selects, such that the strategy reaches the call of
`R_SetupPortalClipsegs` (taint at most 6 for the three camera-moving kinds, and
the column check of `RANGECHECK` builds passes), and let that call report
failure. Then the strategy returns, and all it left is the record of its entry
and of the failed call: the world traversal and the overlay push are not
called and no strategy is entered for the child, whether or not the window has
one. Viewpoint, view angle, windows, portals (so also the taint) and the lists
are as before. -/
theorem clip_failure_returns (env : Env) (ext : Ext) (fuel : Nat) (s : State)
    (wa pa : Nat) (w : pwindow_t) (portal : portal_t)
    (hw : s.windows[wa]? = some w) (hwp : w.portal = some pa)
    (hp : s.portals[pa]? = some portal)
    (hkind : portal.type = .R_SKYBOX ∨ portal.type = .R_ANCHORED ∨ portal.type = .R_TWOWAY ∨
      portal.type = .R_LINKED)
    (hfunc : w.func = (R_SetPortalFunction portal.type w).func)
    (hrange : w.minx ≤ w.maxx)
    (htaint : portal.type ≠ .R_SKYBOX → portal.tainted ≤ 6)
    (hcheck : ¬ (env.RANGECHECK = true ∧ clipArrayBad env w = true))
    (hfail : ext.R_SetupPortalClipsegs (enterStrategy s w.func wa) w.minx w.maxx w.top
      w.bottom = false) :
    ∃ s', callFunc env ext (fuel + 1) w.func s (some wa) = .ok s' ∧
      s'.trace = s.trace ++
        [Event.enter w.func wa, Event.R_SetupPortalClipsegs w.minx w.maxx] ∧
      s'.viewx = s.viewx ∧ s'.viewy = s.viewy ∧ s'.viewz = s.viewz ∧
      s'.viewangle = s.viewangle ∧
      s'.windows = s.windows ∧ s'.portals = s.portals ∧ s'.windowhead = s.windowhead ∧
      s'.windowlast = s.windowlast ∧ s'.unusedhead = s.unusedhead ∧
      s'.portalrender.curwindow = some wa := by
  have hnr : ¬ w.maxx < w.minx := by omega
  refine ⟨logEvent (enterStrategy s w.func wa) (.R_SetupPortalClipsegs w.minx w.maxx), ?_,
    by simp, by simp, by simp, by simp, by simp, by simp, by simp, by simp, by simp, by simp,
    by simp⟩
  rcases hkind with hk | hk | hk | hk
  · have hf : w.func = .R_RenderSkyboxPortal := by rw [hfunc, hk]; rfl
    rw [hf] at hfail ⊢
    simp only [callFunc, R_RenderSkyboxPortal, hw, hwp, getPortal]
    simp only [enterStrategy_fields, hp, hk, ne_eq, not_true_eq_false, if_false, hnr, hcheck,
      hfail, if_true]
  · have ht : ¬ portal.tainted > 6 := by
      have := htaint (by rw [hk]; decide)
      omega
    have hf : w.func = .R_RenderAnchoredPortal := by rw [hfunc, hk]; rfl
    rw [hf] at hfail ⊢
    simp only [callFunc, R_RenderAnchoredPortal, hw, hwp]
    simp only [enterStrategy_fields, hp, hk, ne_eq, not_true_eq_false, false_and, if_false,
      hnr, ht, hcheck, hfail, if_true]
  · have ht : ¬ portal.tainted > 6 := by
      have := htaint (by rw [hk]; decide)
      omega
    have hf : w.func = .R_RenderAnchoredPortal := by rw [hfunc, hk]; rfl
    rw [hf] at hfail ⊢
    simp only [callFunc, R_RenderAnchoredPortal, hw, hwp]
    simp only [enterStrategy_fields, hp, hk, ne_eq, not_true_eq_false, and_false, if_false,
      hnr, ht, hcheck, hfail, if_true]
  · have ht : ¬ portal.tainted > 6 := by
      have := htaint (by rw [hk]; decide)
      omega
    have hf : w.func = .R_RenderLinkedPortal := by rw [hfunc, hk]; rfl
    rw [hf] at hfail ⊢
    simp only [callFunc, R_RenderLinkedPortal, hw, hwp]
    simp only [enterStrategy_fields, hp, hk, ne_eq, not_true_eq_false, hnr, or_self,
      if_false, ht, hcheck, hfail, if_true]

/-- The window of `anchoredChildState` has the child 1; with collaborators whose
clip-region setup fails, the strategy records its entry for window 0 and the
failed call, and nothing for the child. -/
theorem clip_failure_returns_witness :
    (anchoredChildState.windows[0]?).map pwindow_t.child = some (some 1) ∧
    ∃ s', callFunc narrowEnv closedExt 1 .R_RenderAnchoredPortal anchoredChildState (some 0)
        = .ok s' ∧
      s'.trace = [Event.enter .R_RenderAnchoredPortal 0, Event.R_SetupPortalClipsegs 1 1] ∧
      s'.viewx = anchoredChildState.viewx ∧ s'.portals = anchoredChildState.portals := by
  refine ⟨by rfl, ?_⟩
  obtain ⟨s', h1, h2, h3, _, _, _, _, h4, _⟩ :=
    clip_failure_returns narrowEnv closedExt 0 anchoredChildState 0 0
      (anchoredChildState.windows.getD 0 (freshWindow narrowEnv))
      (anchoredChildState.portals.getD 0 (callPortal narrowEnv (.skybox none)))
      (by rfl) (by rfl) (by rfl) (by decide) (by rfl) (by decide) (by decide) (by decide)
      (by rfl)
  exact ⟨s', h1, by rw [h2]; rfl, h3, h4⟩

/-- C25. Relocation uses the snapshot. Take a window with a non-empty column
range on an Anchored, TwoWay or Linked portal with taint at most 6, with the
render strategy `R_SetPortalFunction` selects, for which the column check of
`RANGECHECK` builds passes and clip-region setup succeeds. Then the strategy
calls the world traversal on a state `sb` whose viewpoint is the window's
snapshot `(vx, vy, vz)` plus the portal's deltas in 32-bit arithmetic, whatever
the live viewpoint of the entry state `s` is; the view angle is that of `s`.
The run of the strategy is what follows the traversal of `sb`: the overlay
push, the restoring of the viewpoint of `s`, and the visit of the child. -/
theorem traversal_viewpoint_from_snapshot (env : Env) (ext : Ext) (fuel : Nat) (s : State)
    (wa pa : Nat) (w : pwindow_t) (portal : portal_t)
    (hw : s.windows[wa]? = some w) (hwp : w.portal = some pa)
    (hp : s.portals[pa]? = some portal)
    (hkind : portal.type = .R_ANCHORED ∨ portal.type = .R_TWOWAY ∨ portal.type = .R_LINKED)
    (hfunc : w.func = (R_SetPortalFunction portal.type w).func)
    (hrange : w.minx ≤ w.maxx) (htaint : portal.tainted ≤ 6)
    (hcheck : ¬ (env.RANGECHECK = true ∧ clipArrayBad env w = true))
    (hsetup : ext.R_SetupPortalClipsegs (enterStrategy s w.func wa) w.minx w.maxx w.top
      w.bottom = true) :
    ∃ sb : State,
      sb.viewx = wrap32 (w.vx + (if portal.type = .R_LINKED then portal.data.link.deltax
                                 else portal.data.anchor.deltax)) ∧
      sb.viewy = wrap32 (w.vy + (if portal.type = .R_LINKED then portal.data.link.deltay
                                 else portal.data.anchor.deltay)) ∧
      sb.viewz = wrap32 (w.vz + (if portal.type = .R_LINKED then portal.data.link.deltaz
                                 else portal.data.anchor.deltaz)) ∧
      sb.viewangle = s.viewangle ∧
      sb.windows = s.windows ∧
      sb.trace = s.trace ++
        [Event.enter w.func wa, Event.R_SetupPortalClipsegs w.minx w.maxx,
         Event.R_ClearSlopeMark w.minx w.maxx w.type, Event.R_ClearOverlayClips,
         Event.R_SetMaskedSilhouette, Event.R_IncrementFrameid,
         Event.R_RenderBSPNode sb.viewx sb.viewy sb.viewz sb.viewangle] ∧
      callFunc env ext (fuel + 1) w.func s (some wa) =
        match headOverlay (ext.R_RenderBSPNode sb) wa with
        | .error e => .error e
        | .ok overlay =>
          match (setViewpoint (setClips (pushPost ext true overlay (ext.R_RenderBSPNode sb))
              none) s.viewx s.viewy s.viewz).windows[wa]? with
          | none => .error .undefined
          | some w2 =>
            if w2.child ≠ none then
              callFunc env ext fuel w.func
                (setViewpoint (setClips (pushPost ext true overlay (ext.R_RenderBSPNode sb))
                  none) s.viewx s.viewy s.viewz) w2.child
            else
              .ok (setViewpoint (setClips (pushPost ext true overlay
                (ext.R_RenderBSPNode sb)) none) s.viewx s.viewy s.viewz) := by
  have hnr : ¬ w.maxx < w.minx := by omega
  have ht : ¬ portal.tainted > 6 := by omega
  rcases hkind with hk | hk | hk
  · have hf : w.func = .R_RenderAnchoredPortal := by rw [hfunc, hk]; rfl
    rw [hf] at hsetup ⊢
    refine ⟨logEvent (logEvent (setViewpoint (logEvent (incValidcount (setRenderRange
      (logEvent (setClips (incTaint (logEvent (logEvent
        (enterStrategy s .R_RenderAnchoredPortal wa)
        (.R_SetupPortalClipsegs w.minx w.maxx)) (.R_ClearSlopeMark w.minx w.maxx w.type)) pa)
        (some wa)) .R_ClearOverlayClips) w.minx w.maxx)) .R_SetMaskedSilhouette)
      (wrap32 (w.vx + portal.data.anchor.deltax)) (wrap32 (w.vy + portal.data.anchor.deltay))
      (wrap32 (w.vz + portal.data.anchor.deltaz))) .R_IncrementFrameid)
      (.R_RenderBSPNode (wrap32 (w.vx + portal.data.anchor.deltax))
        (wrap32 (w.vy + portal.data.anchor.deltay))
        (wrap32 (w.vz + portal.data.anchor.deltaz)) s.viewangle), ?_, ?_, ?_, ?_, ?_, ?_, ?_⟩
    · simp [hk]
    · simp [hk]
    · simp [hk]
    · simp
    · simp
    · simp [hk]
    · simp only [callFunc, R_RenderAnchoredPortal, hw, hwp]
      simp only [enterStrategy_fields, hp, hk, ne_eq, not_true_eq_false, false_and, if_false,
        hnr, ht, hcheck, hsetup, if_true, Bool.true_eq_false, renderThroughPortal,
        logEvent_fields, setViewpoint_fields, incValidcount_fields, setRenderRange_fields,
        setClips_fields, incTaint_fields]
      generalize headOverlay _ _ = ho
      cases ho <;> rfl
  · have hf : w.func = .R_RenderAnchoredPortal := by rw [hfunc, hk]; rfl
    rw [hf] at hsetup ⊢
    refine ⟨logEvent (logEvent (setViewpoint (logEvent (incValidcount (setRenderRange
      (logEvent (setClips (incTaint (logEvent (logEvent
        (enterStrategy s .R_RenderAnchoredPortal wa)
        (.R_SetupPortalClipsegs w.minx w.maxx)) (.R_ClearSlopeMark w.minx w.maxx w.type)) pa)
        (some wa)) .R_ClearOverlayClips) w.minx w.maxx)) .R_SetMaskedSilhouette)
      (wrap32 (w.vx + portal.data.anchor.deltax)) (wrap32 (w.vy + portal.data.anchor.deltay))
      (wrap32 (w.vz + portal.data.anchor.deltaz))) .R_IncrementFrameid)
      (.R_RenderBSPNode (wrap32 (w.vx + portal.data.anchor.deltax))
        (wrap32 (w.vy + portal.data.anchor.deltay))
        (wrap32 (w.vz + portal.data.anchor.deltaz)) s.viewangle), ?_, ?_, ?_, ?_, ?_, ?_, ?_⟩
    · simp [hk]
    · simp [hk]
    · simp [hk]
    · simp
    · simp
    · simp [hk]
    · simp only [callFunc, R_RenderAnchoredPortal, hw, hwp]
      simp only [enterStrategy_fields, hp, hk, ne_eq, not_true_eq_false, and_false, if_false,
        hnr, ht, hcheck, hsetup, if_true, Bool.true_eq_false, renderThroughPortal,
        logEvent_fields, setViewpoint_fields, incValidcount_fields, setRenderRange_fields,
        setClips_fields, incTaint_fields]
      generalize headOverlay _ _ = ho
      cases ho <;> rfl
  · have hf : w.func = .R_RenderLinkedPortal := by rw [hfunc, hk]; rfl
    rw [hf] at hsetup ⊢
    refine ⟨logEvent (logEvent (setViewpoint (logEvent (incValidcount (setRenderRange
      (logEvent (setClips (incTaint (logEvent (logEvent
        (enterStrategy s .R_RenderLinkedPortal wa)
        (.R_SetupPortalClipsegs w.minx w.maxx)) (.R_ClearSlopeMark w.minx w.maxx w.type)) pa)
        (some wa)) .R_ClearOverlayClips) w.minx w.maxx)) .R_SetMaskedSilhouette)
      (wrap32 (w.vx + portal.data.link.deltax)) (wrap32 (w.vy + portal.data.link.deltay))
      (wrap32 (w.vz + portal.data.link.deltaz))) .R_IncrementFrameid)
      (.R_RenderBSPNode (wrap32 (w.vx + portal.data.link.deltax))
        (wrap32 (w.vy + portal.data.link.deltay))
        (wrap32 (w.vz + portal.data.link.deltaz)) s.viewangle), ?_, ?_, ?_, ?_, ?_, ?_, ?_⟩
    · simp [hk]
    · simp [hk]
    · simp [hk]
    · simp
    · simp
    · simp [hk]
    · simp only [callFunc, R_RenderLinkedPortal, hw, hwp]
      simp only [enterStrategy_fields, hp, hk, ne_eq, not_true_eq_false, or_self, if_false,
        hnr, ht, hcheck, hsetup, if_true, Bool.true_eq_false, renderThroughPortal,
        logEvent_fields, setViewpoint_fields, incValidcount_fields, setRenderRange_fields,
        setClips_fields, incTaint_fields]
      generalize headOverlay _ _ = ho
      cases ho <;> rfl

/-- The window of `anchoredState` took its snapshot `(0, 0, 0)` when its first
column was added; the deltas of the portal are `(-64, -16, 0)`. Entered with the
live viewpoint `(100, 200, 300)`, the strategy runs the traversal at
`(-64, -16, 0)`. -/
theorem traversal_viewpoint_from_snapshot_witness :
    (setViewpoint anchoredState 100 200 300).viewx = 100 ∧
    ∃ sb : State, sb.viewx = -64 ∧ sb.viewy = -16 ∧ sb.viewz = 0 ∧
      sb.trace = [Event.enter .R_RenderAnchoredPortal 0, Event.R_SetupPortalClipsegs 1 1,
        Event.R_ClearSlopeMark 1 1 .pw_floor, Event.R_ClearOverlayClips,
        Event.R_SetMaskedSilhouette, Event.R_IncrementFrameid,
        Event.R_RenderBSPNode (-64) (-16) 0 0] := by
  refine ⟨by rfl, ?_⟩
  obtain ⟨sb, h1, h2, h3, h4, _, h6, _⟩ :=
    traversal_viewpoint_from_snapshot narrowEnv quietExt 0
      (setViewpoint anchoredState 100 200 300) 0 0
      (anchoredState.windows.getD 0 (freshWindow narrowEnv))
      (anchoredState.portals.getD 0 (callPortal narrowEnv (.skybox none)))
      (by rfl) (by rfl) (by rfl) (by decide) (by rfl) (by decide) (by decide) (by decide)
      (by rfl)
  refine ⟨sb, by rw [h1]; rfl, by rw [h2]; rfl, by rw [h3]; rfl, ?_⟩
  rw [h6, h1, h2, h3, h4]
  rfl

theorem traversalCount_logEvent (s : State) (e : Event) :
    traversalCount (logEvent s e) = traversalCount s + (if isTraversal e = true then 1 else 0) := by
  unfold traversalCount logEvent
  simp only [List.countP_append, List.countP_cons, List.countP_nil, Nat.zero_add]

theorem traversalCount_congr {s s' : State} (h : s'.trace = s.trace) :
    traversalCount s' = traversalCount s := by
  unfold traversalCount
  rw [h]

theorem traversalCount_enter (s : State) (f : renderfunc_e) (wa : Nat) :
    traversalCount (enterStrategy s f wa) = traversalCount s := by
  unfold enterStrategy
  rw [traversalCount_logEvent]
  simp [isTraversal, traversalCount]

theorem traversalCount_setup (s : State) (a b : Int) :
    traversalCount (logEvent s (.R_SetupPortalClipsegs a b)) = traversalCount s := by
  rw [traversalCount_logEvent]
  simp [isTraversal]

theorem taintOf_congr {s s' : State} (pa : Nat) (h : s'.portals = s.portals) :
    taintOf s' pa = taintOf s pa := by
  unfold taintOf
  rw [h]

theorem taintOf_incTaint (s : State) (pa : Nat) (portal : portal_t)
    (hp : s.portals[pa]? = some portal) :
    taintOf (incTaint s pa) pa = wrap32 (taintOf s pa + 1) := by
  unfold taintOf
  simp [List.getElem?_modify, hp]

theorem HeadIs.iff {s : State} {W b : Nat} :
    HeadIs s W b ↔ ∃ r, s.windows[b]? = some r ∧ r.head = some W := by
  unfold HeadIs
  cases h : s.windows[b]? with
  | none => simp
  | some r => simp

theorem allWindows_split (pre post : List (Nat × List Nat)) (W : Nat) (rest pool : List Nat) :
    allWindows (pre ++ (W, rest) :: post) pool =
      pre.flatMap (fun qc => qc.1 :: qc.2) ++ ((W :: rest) ++
        (post.flatMap (fun qc => qc.1 :: qc.2) ++ pool)) := by
  simp [allWindows, List.flatMap_append]

theorem nodup_split {A C B P : List Nat} (h : (A ++ (C ++ (B ++ P))).Nodup) :
    (∀ b ∈ A, b ∉ C ∧ b ∉ P) ∧ (∀ b ∈ B, b ∉ C ∧ b ∉ P) ∧ (C ++ P).Nodup := by
  rw [List.nodup_append] at h
  obtain ⟨_, h2, h3⟩ := h
  rw [List.nodup_append] at h2
  obtain ⟨h4, h5, h6⟩ := h2
  rw [List.nodup_append] at h5
  obtain ⟨h7, h8, h9⟩ := h5
  refine ⟨?_, ?_, ?_⟩
  · intro b hb
    exact ⟨fun hc => h3 hb (List.mem_append_left _ hc),
      fun hp => h3 hb (List.mem_append_right _ (List.mem_append_right _ hp))⟩
  · intro b hb
    exact ⟨fun hc => h6 hc (List.mem_append_left _ hb), fun hp => h9 hb hp⟩
  · rw [List.nodup_append]
    exact ⟨h4, h8, fun a ha hp => h6 ha (List.mem_append_right _ hp)⟩

theorem nodup_move {A C B tl : List Nat} {c : Nat}
    (h : (A ++ (C ++ (B ++ c :: tl))).Nodup) : (A ++ ((C ++ [c]) ++ (B ++ tl))).Nodup := by
  refine h.perm ?_
  rw [List.perm_iff_count]
  intro a
  simp only [List.count_append, List.count_cons, List.count_nil]
  omega

theorem nodup_fresh {A C B : List Nat} {c : Nat}
    (h : (A ++ (C ++ (B ++ []))).Nodup) (hc : c ∉ A ++ (C ++ (B ++ []))) :
    (A ++ ((C ++ [c]) ++ (B ++ []))).Nodup := by
  have h' : (c :: (A ++ (C ++ (B ++ [])))).Nodup := List.nodup_cons.mpr ⟨hc, h⟩
  refine h'.perm ?_
  rw [List.perm_iff_count]
  intro a
  simp only [List.count_append, List.count_cons, List.count_nil]
  omega

/-- One call of `R_WindowAdd` on a queue window of a well-formed frame: it
returns, the frame is well formed again with the same queue windows, the head
references are kept and the child the call may have created refers to the
queue window. -/
theorem frame_add (env : Env) (hh : 0 < env.view_height) (x : Int) (ytop ybottom : ℚ)
    (hcall : ValidCall env (x, ytop, ybottom))
    (s : State) (queue : List (Nat × List Nat)) (pool : List Nat) (W : Nat) (fuel : Nat)
    (hframe : FrameOK env s queue pool) (hheads : HeadsOK s queue)
    (hW : W ∈ queue.map Prod.fst) (hfuel : s.windows.length + 2 ≤ fuel) :
    ∃ s' queue' pool', R_WindowAdd env fuel s (some W) x ytop ybottom = .ok s' ∧
      FrameOK env s' queue' pool' ∧ HeadsOK s' queue' ∧
      queue'.map Prod.fst = queue.map Prod.fst ∧
      s'.windows.length ≤ s.windows.length + 1 ∧ s'.portals = s.portals := by
  obtain ⟨hq, hch, hpool, hnd, hbuf, hlast, hcols⟩ := hframe
  obtain ⟨⟨W', rest⟩, hmem, hW'⟩ := List.mem_map.mp hW
  simp only at hW'
  subst hW'
  obtain ⟨pre, post, hsplit⟩ := List.append_of_mem hmem
  subst hsplit
  rw [allWindows_split] at hnd
  obtain ⟨hA, hB, hCP⟩ := nodup_split hnd
  have hchainW := hch (W', rest) hmem
  have hinv : ChainOK env s W' rest pool :=
    ⟨hchainW, hpool, by simpa using hCP, hbuf, hcols (W', rest) hmem⟩
  have hvalidW := hchainW.valid
  have hlenW : rest.length + 1 ≤ s.windows.length := by
    have hndW : (W' :: rest).Nodup := (List.nodup_append.mp hCP).1
    have := nodup_length_le hndW hvalidW
    simpa using this
  obtain ⟨wW, hwW⟩ : ∃ w, s.windows[W']? = some w := by
    rw [IsList.cons_iff] at hchainW
    obtain ⟨_, w, hw, _⟩ := hchainW
    exact ⟨w, hw⟩
  obtain ⟨s', rest', pool', hrun, hinv', hcase, hfr, hglob, hpred, _⟩ :=
    R_WindowAdd_chain_pred env hh x ytop ybottom hcall (fun r => r.head = some W')
      (fun w vx vy vz _ _ h =>
        ((addLocal_fields env vx vy vz w x ytop ybottom).2.2.1).trans h)
      (fun par rc h _ h2 _ => h2.trans h)
      (fun w c h => h)
      rest W' s pool fuel hinv (by omega)
      (fun b hb r hr => by
        have := HeadIs.iff.mp (hheads (W', rest) hmem b hb)
        obtain ⟨r', hr', hh'⟩ := this
        rw [hr] at hr'
        cases hr'
        exact hh')
  obtain ⟨s'', rest'', pool'', w', hrun', _, _, hw', htop⟩ :=
    R_WindowAdd_top_record env hh x ytop ybottom hcall rest W' s pool fuel hinv (by omega)
      wW hwW
  rw [hrun] at hrun'
  cases hrun'
  have hnext : w'.next = wW.next := by
    rcases htop with ⟨_, h⟩ | ⟨_, h | ⟨c, _, h⟩⟩
    · rw [h]
      exact (addLocal_fields env _ _ _ wW x ytop ybottom).2.1
    · rw [h]
    · rw [h]
  obtain ⟨hchain', hpool', hnd', hbuf', hcols'⟩ := hinv'
  -- the windows of the other queue entries are untouched
  have hother : ∀ qc, qc ∈ pre ∨ qc ∈ post → ∀ b ∈ qc.1 :: qc.2,
      s'.windows[b]? = s.windows[b]? := by
    intro qc hqc b hb
    have hbm : b ∈ pre.flatMap (fun qc => qc.1 :: qc.2) ∨
        b ∈ post.flatMap (fun qc => qc.1 :: qc.2) := by
      rcases hqc with h | h
      · exact Or.inl (List.mem_flatMap.mpr ⟨qc, h, hb⟩)
      · exact Or.inr (List.mem_flatMap.mpr ⟨qc, h, hb⟩)
    have hqm : qc ∈ pre ++ (W', rest) :: post := by
      rcases hqc with h | h
      · exact List.mem_append_left _ h
      · exact List.mem_append_right _ (List.mem_cons_of_mem _ h)
    have hlt : b < s.windows.length := (hch qc hqm).valid b hb
    rcases hbm with h | h
    · exact hfr b (hA b h).1 (hA b h).2 hlt
    · exact hfr b (hB b h).1 (hB b h).2 hlt
  have hlen : s'.windows.length ≤ s.windows.length + 1 := by
    rcases hcase with ⟨_, _, h⟩ | ⟨c, _, _, ⟨_, h⟩ | ⟨_, _, h⟩⟩ <;> omega
  have hndall : (allWindows (pre ++ (W', rest') :: post) pool').Nodup := by
    rw [allWindows_split]
    rcases hcase with ⟨h1, h2, _⟩ | ⟨c, h1, h2, ⟨h3, _⟩ | ⟨h3, h4, _⟩⟩
    · rw [h1, h2]
      exact hnd
    · rw [h1, h2]
      cases pool with
      | nil => simp at h3
      | cons c' tl =>
        simp only [List.head?_cons, Option.some.injEq] at h3
        subst h3
        have := nodup_move hnd
        simpa using this
    · rw [h1, h2, h3]
      subst h3
      have hfresh : c ∉ pre.flatMap (fun qc => qc.1 :: qc.2) ++ ((W' :: rest) ++
          (post.flatMap (fun qc => qc.1 :: qc.2) ++ [])) := by
        intro hin
        have hlt : c < s.windows.length := by
          simp only [List.append_nil, List.mem_append, List.mem_flatMap] at hin
          rcases hin with ⟨qc, hqc, hb⟩ | hb | ⟨qc, hqc, hb⟩
          · exact (hch qc (List.mem_append_left _ hqc)).valid c hb
          · exact hvalidW c hb
          · exact (hch qc (List.mem_append_right _ (List.mem_cons_of_mem _ hqc))).valid c hb
        omega
      have := nodup_fresh hnd hfresh
      simpa using this
  refine ⟨s', pre ++ (W', rest') :: post, pool', hrun, ⟨?_, ?_, hpool', hndall, hbuf', ?_, ?_⟩,
    ?_, by simp, hlen, hglob.1⟩
  · -- the queue
    have hmap : (pre ++ (W', rest') :: post).map Prod.fst =
        (pre ++ (W', rest) :: post).map Prod.fst := by simp
    rw [hmap, hglob.2.1]
    apply hq.frame
    intro a ha w hw
    by_cases haW : a = W'
    · subst haW
      rw [hwW] at hw
      cases hw
      exact ⟨w', hw', hnext⟩
    · obtain ⟨qc, hqc, hqa⟩ := List.mem_map.mp ha
      have hqc' : qc ∈ pre ∨ qc ∈ post := by
        rcases List.mem_append.mp hqc with h | h
        · exact Or.inl h
        · rcases List.mem_cons.mp h with h | h
          · subst h
            exact absurd hqa.symm haW
          · exact Or.inr h
      refine ⟨w, ?_, rfl⟩
      rw [hother qc hqc' a (by rw [← hqa]; exact List.mem_cons_self _ _), hw]
  · -- the chains
    intro qc hqc
    rcases List.mem_append.mp hqc with h | h
    · exact (hch qc (List.mem_append_left _ h)).of_agree
        (fun b hb => hother qc (Or.inl h) b hb)
    · rcases List.mem_cons.mp h with h | h
      · subst h
        exact hchain'
      · exact (hch qc (List.mem_append_right _ (List.mem_cons_of_mem _ h))).of_agree
          (fun b hb => hother qc (Or.inr h) b hb)
  · rw [hglob.2.2.1, hlast]
    simp
  · intro qc hqc b hb r hr
    rcases List.mem_append.mp hqc with h | h
    · rw [hother qc (Or.inl h) b hb] at hr
      exact hcols qc (List.mem_append_left _ h) b hb r hr
    · rcases List.mem_cons.mp h with h | h
      · subst h
        exact hcols' b hb r hr
      · rw [hother qc (Or.inr h) b hb] at hr
        exact hcols qc (List.mem_append_right _ (List.mem_cons_of_mem _ h)) b hb r hr
  · intro qc hqc b hb
    rcases List.mem_append.mp hqc with h | h
    · have := hheads qc (List.mem_append_left _ h) b hb
      unfold HeadIs at this ⊢
      rw [hother qc (Or.inl h) b hb]
      exact this
    · rcases List.mem_cons.mp h with h | h
      · subst h
        rw [HeadIs.iff]
        have hlt : b < s'.windows.length := hchain'.valid b hb
        obtain ⟨r, hr⟩ : ∃ r, s'.windows[b]? = some r :=
          ⟨s'.windows[b], List.getElem?_eq_getElem hlt⟩
        exact ⟨r, hr, hpred b hb r hr⟩
      · have := hheads qc (List.mem_append_right _ (List.mem_cons_of_mem _ h)) b hb
        unfold HeadIs at this ⊢
        rw [hother qc (Or.inr h) b hb]
        exact this

/-- A sequence of calls of `R_WindowAdd` on a queue window of a well-formed
frame. -/
theorem frame_adds (env : Env) (hh : 0 < env.view_height) (W : Nat) (fuel : Nat) :
    ∀ (calls : List (Int × ℚ × ℚ)) (s : State) (queue : List (Nat × List Nat))
      (pool : List Nat),
      FrameOK env s queue pool → HeadsOK s queue → W ∈ queue.map Prod.fst →
      (∀ c ∈ calls, ValidCall env c) → s.windows.length + calls.length + 1 ≤ fuel →
      ∃ s' queue' pool', runAdds env fuel W s calls = .ok s' ∧
        FrameOK env s' queue' pool' ∧ HeadsOK s' queue' ∧
        queue'.map Prod.fst = queue.map Prod.fst ∧
        s'.windows.length ≤ s.windows.length + calls.length ∧ s'.portals = s.portals := by
  intro calls
  induction calls with
  | nil =>
    intro s queue pool hf hhd _ _ _
    exact ⟨s, queue, pool, rfl, hf, hhd, rfl, by simp, rfl⟩
  | cons c cs ih =>
    intro s queue pool hf hhd hW hv hfuel
    simp only [List.length_cons] at hfuel
    obtain ⟨s1, q1, p1, hrun1, hf1, hhd1, hm1, hl1, hp1⟩ :=
      frame_add env hh c.1 c.2.1 c.2.2 (hv c (List.mem_cons_self _ _)) s queue pool W fuel
        hf hhd hW (by omega)
    obtain ⟨s2, q2, p2, hrun2, hf2, hhd2, hm2, hl2, hp2⟩ :=
      ih s1 q1 p1 hf1 hhd1 (by rw [hm1]; exact hW)
        (fun c' hc' => hv c' (List.mem_cons_of_mem _ hc')) (by omega)
    refine ⟨s2, q2, p2, ?_, hf2, hhd2, hm2.trans hm1, ?_, hp2.trans hp1⟩
    · simp only [runAdds, hrun1]
      exact hrun2
    · simp only [List.length_cons]
      omega

theorem queue_sublist (queue : List (Nat × List Nat)) (pool : List Nat) :
    (queue.map Prod.fst ++ pool).Sublist (allWindows queue pool) := by
  unfold allWindows
  refine List.Sublist.append ?_ (List.Sublist.refl _)
  induction queue with
  | nil => simp
  | cons qc queue ih =>
    simp only [List.map_cons, List.flatMap_cons, List.cons_append]
    exact List.Sublist.cons₂ _ (List.Sublist.trans ih (List.sublist_append_right _ _))

theorem FrameOK.queueOK {env : Env} {s : State} {queue : List (Nat × List Nat)}
    {pool : List Nat} (h : FrameOK env s queue pool) :
    QueueOK env s (queue.map Prod.fst) pool :=
  ⟨h.2.2.2.2.1, h.1, h.2.2.2.2.2.1, h.2.2.1, h.2.2.2.1.sublist (queue_sublist queue pool)⟩

theorem FrameOK.addresses_valid {env : Env} {s : State} {queue : List (Nat × List Nat)}
    {pool : List Nat} (h : FrameOK env s queue pool) :
    ∀ a ∈ allWindows queue pool, a < s.windows.length := by
  intro a ha
  simp only [allWindows, List.mem_append, List.mem_flatMap] at ha
  rcases ha with ⟨qc, hqc, ha⟩ | ha
  · exact (h.2.1 qc hqc).valid a ha
  · exact h.2.2.1.1.valid a ha

theorem FrameOK.queue_length {env : Env} {s : State} {queue : List (Nat × List Nat)}
    {pool : List Nat} (h : FrameOK env s queue pool) :
    queue.length ≤ s.windows.length := by
  have h1 := nodup_length_le (l := queue.map Prod.fst) (n := s.windows.length)
    ((h.2.2.2.1.sublist (queue_sublist queue pool)).sublist (List.sublist_append_left _ _))
    h.1.valid
  simpa using h1

/-- The common text of the three `R_Get*PortalWindow` functions on a well-formed
frame, for a valid portal: it returns a queue window, the frame is well formed
again, and the head references are kept; a new window is its own head. -/
theorem frame_claim_core {env : Env} {s : State} {queue : List (Nat × List Nat)}
    {pool : List Nat} {p l : Ptr} {t : pwindowtype_e} {i : Nat} {pr : portal_t} {fuel : Nat}
    (test : pwindow_t → Bool)
    (hframe : FrameOK env s queue pool) (hheads : HeadsOK s queue)
    (hp : p = some i) (hpr : s.portals[i]? = some pr)
    (hfuel : s.windows.length + 1 < fuel) :
    ∃ w s' queue' pool',
      (do
        match ← findWindow s test fuel s.windowhead with
        | some rover => .ok (rover, s)
        | none => R_NewPortalWindow env s p l t) = Except.ok (w, s') ∧
      FrameOK env s' queue' pool' ∧ HeadsOK s' queue' ∧ w ∈ queue'.map Prod.fst ∧
      s'.windows.length ≤ s.windows.length + 1 ∧ s'.portals = s.portals := by
  have hqok := hframe.queueOK
  have hvalid := hframe.addresses_valid
  have hql := hframe.queue_length
  obtain ⟨hq, hch, hpool, hnd, hbuf, hlast, hcols⟩ := hframe
  have hfind := findWindow_spec s test (queue.map Prod.fst) fuel s.windowhead hq
    (by simp; omega)
  cases hm : firstMatch s test (queue.map Prod.fst) with
  | some a =>
    obtain ⟨haQ, _⟩ := firstMatch_some hm
    refine ⟨a, s, queue, pool, ?_, ⟨hq, hch, hpool, hnd, hbuf, hlast, hcols⟩, hheads, haQ,
      by omega, rfl⟩
    rw [hfind, hm]
    rfl
  | none =>
    obtain ⟨c, s', hnew, hq', hcQ, hcase, ⟨rc, hrc, hclr, _, _, _, hhead, _, _⟩, hsame, hlst,
      hport, _⟩ := R_NewPortalWindow_queue (l := l) (t := t) hqok hp hpr
    obtain ⟨hbuf', hlist', hlast', hpool', hnd'⟩ := hq'
    have hcfresh : c ∉ queue.flatMap (fun qc => qc.1 :: qc.2) := by
      intro hin
      rcases hcase with ⟨h1, _⟩ | ⟨_, h1, _⟩
      · cases pool with
        | nil => simp at h1
        | cons c' tl =>
          simp only [List.head?_cons, Option.some.injEq] at h1
          subst h1
          unfold allWindows at hnd
          exact (List.nodup_append.mp hnd).2.2 hin (List.mem_cons_self _ _)
      · have := hvalid c (by unfold allWindows; exact List.mem_append_left _ hin)
        omega
    -- what the claim keeps of the records of the windows in use
    have hkeep : ∀ qc ∈ queue, ∀ b ∈ qc.1 :: qc.2, ∀ r, s.windows[b]? = some r →
        ∃ r', s'.windows[b]? = some r' ∧ r'.child = r.child ∧ r'.head = r.head ∧
          r'.top = r.top ∧ r'.bottom = r.bottom := by
      intro qc hqc b hb r hr
      have hbc : b ≠ c := by
        rintro rfl
        exact hcfresh (List.mem_flatMap.mpr ⟨qc, hqc, hb⟩)
      by_cases hbl : (queue.map Prod.fst).getLast? = some b
      · obtain ⟨r0, hr0, hr0'⟩ := hlst b hbl
        rw [hr] at hr0
        cases hr0
        exact ⟨_, hr0', rfl, rfl, rfl, rfl⟩
      · exact ⟨r, by rw [hsame b hbc hbl, hr], rfl, rfl, rfl, rfl⟩
    have hrec : ∀ qc ∈ queue, ∀ b ∈ qc.1 :: qc.2, ∃ r, s.windows[b]? = some r := by
      intro qc hqc b hb
      have hlt : b < s.windows.length := (hch qc hqc).valid b hb
      exact ⟨s.windows[b], List.getElem?_eq_getElem hlt⟩
    have hlen : s'.windows.length ≤ s.windows.length + 1 := by
      rcases hcase with ⟨_, h⟩ | ⟨_, _, h⟩ <;> omega
    have hndall : (allWindows (queue ++ [(c, [])]) pool.tail).Nodup := by
      rcases hcase with ⟨h1, _⟩ | ⟨h1, h2, _⟩
      · cases pool with
        | nil => simp at h1
        | cons c' tl =>
          simp only [List.head?_cons, Option.some.injEq] at h1
          subst h1
          unfold allWindows at hnd ⊢
          simpa [List.flatMap_append] using hnd
      · subst h1
        unfold allWindows at hnd ⊢
        simp only [List.append_nil, List.tail_nil, List.flatMap_append, List.flatMap_cons,
          List.flatMap_nil] at hnd ⊢
        rw [List.nodup_append]
        refine ⟨hnd, by simp, ?_⟩
        intro a ha hac
        simp only [List.mem_singleton] at hac
        subst hac
        exact hcfresh ha
    refine ⟨c, s', queue ++ [(c, [])], pool.tail, ?_,
      ⟨?_, ?_, hpool', hndall, hbuf', ?_, ?_⟩, ?_, by simp, hlen, hport⟩
    · rw [hfind, hm]
      exact hnew
    · simpa using hlist'
    · intro qc hqc
      rcases List.mem_append.mp hqc with h | h
      · apply (hch qc h).frame
        intro b hb r hr
        obtain ⟨r', hr', hc', _⟩ := hkeep qc h b hb r hr
        exact ⟨r', hr', hc'⟩
      · simp only [List.mem_singleton] at h
        subst h
        rw [IsList.cons_iff]
        refine ⟨rfl, rc, hrc, ?_⟩
        rw [IsList.nil_iff]
        exact hclr.2.2.2.2.1
    · simpa using hlast'
    · intro qc hqc b hb r hr
      rcases List.mem_append.mp hqc with h | h
      · obtain ⟨r0, hr0⟩ := hrec qc h b hb
        obtain ⟨r', hr', _, _, ht, hbt⟩ := hkeep qc h b hb r0 hr0
        rw [hr] at hr'
        cases hr'
        have := hcols qc h b hb r0 hr0
        unfold ColsOK at this ⊢
        rw [ht, hbt]
        exact this
      · simp only [List.mem_singleton] at h
        subst h
        simp only [List.mem_singleton] at hb
        subst hb
        rw [hrc] at hr
        cases hr
        exact colsOK_of_cleared hclr
    · intro qc hqc b hb
      rw [HeadIs.iff]
      rcases List.mem_append.mp hqc with h | h
      · obtain ⟨r0, hr0, hh0⟩ := HeadIs.iff.mp (hheads qc h b hb)
        obtain ⟨r', hr', _, hhd, _⟩ := hkeep qc h b hb r0 hr0
        exact ⟨r', hr', hhd.trans hh0⟩
      · simp only [List.mem_singleton] at h
        subst h
        simp only [List.mem_singleton] at hb
        subst hb
        exact ⟨rc, hrc, hhead⟩

/-- A claim on a well-formed frame, for a valid portal. -/
theorem frame_claim (env : Env) (fuel : Nat) (s : State) (queue : List (Nat × List Nat))
    (pool : List Nat) (c : ClaimCall) (i : Nat) (pr : portal_t)
    (hframe : FrameOK env s queue pool) (hheads : HeadsOK s queue)
    (hp : c.portal = some i) (hpr : s.portals[i]? = some pr)
    (hfuel : s.windows.length + 1 < fuel) :
    ∃ w s' queue' pool', applyClaim env fuel s c = .ok (w, s') ∧
      FrameOK env s' queue' pool' ∧ HeadsOK s' queue' ∧ w ∈ queue'.map Prod.fst ∧
      s'.windows.length ≤ s.windows.length + 1 ∧ s'.portals = s.portals := by
  cases c with
  | floor p =>
    exact frame_claim_core (l := none) (t := .pw_floor) _ hframe hheads hp hpr hfuel
  | ceiling p =>
    exact frame_claim_core (l := none) (t := .pw_ceiling) _ hframe hheads hp hpr hfuel
  | line p l =>
    exact frame_claim_core (l := l) (t := .pw_line) _ hframe hheads hp hpr hfuel

/-- C28. Head back-reference. Start from a well-formed frame in which every
queue window and its child chain have the queue window as `head` (the empty
queue at the start of a frame is one), and let the traversal claim windows for
valid portals and call `R_WindowAdd` on the windows the claims return, with
columns on the screen and spans that pass the input check. The run returns; in
the state it leaves, `queue` lists the queue windows with their child chains,
each queue window `W` has `head = W` and every window on the chain of `W` has
`head = W`. So the queue window is the only window of its chain that is its own
head, and the argument `window->head == window ? ... : NULL` of the overlay
push is `NULL` for every child window and the overlay of the portal for the
queue window. -/
theorem head_back_reference (env : Env) (hh : 0 < env.view_height) (fuel : Nat) :
    ∀ (ops : List (ClaimCall × List (Int × ℚ × ℚ))) (s : State)
      (queue : List (Nat × List Nat)) (pool : List Nat),
      FrameOK env s queue pool → HeadsOK s queue →
      (∀ op ∈ ops, (∃ i pr, op.1.portal = some i ∧ s.portals[i]? = some pr) ∧
        ∀ c ∈ op.2, ValidCall env c) →
      s.windows.length + opCount ops + 2 ≤ fuel →
      ∃ s' queue' pool', runFrame env fuel s ops = .ok s' ∧
        FrameOK env s' queue' pool' ∧
        (∀ qc ∈ queue', ∀ b ∈ qc.1 :: qc.2, ∃ r, s'.windows[b]? = some r ∧
          r.head = some qc.1 ∧ (r.head = some b ↔ b = qc.1)) ∧
        (∀ qc ∈ queue', ∀ b ∈ qc.2, headOverlay s' b = .ok none) ∧
        (∀ qc ∈ queue', ∀ r, s'.windows[qc.1]? = some r →
          headOverlay s' qc.1 =
            match getPortal s' r.portal with
            | .error e => .error e
            | .ok portal => .ok portal.poverlay) := by
  intro ops
  induction ops with
  | nil =>
    intro s queue pool hframe hheads _ _
    have hfacts : ∀ qc ∈ queue, ∀ b ∈ qc.1 :: qc.2, ∃ r, s.windows[b]? = some r ∧
        r.head = some qc.1 ∧ (r.head = some b ↔ b = qc.1) := by
      intro qc hqc b hb
      obtain ⟨r, hr, hhd⟩ := HeadIs.iff.mp (hheads qc hqc b hb)
      refine ⟨r, hr, hhd, ?_⟩
      rw [hhd]
      constructor
      · intro h
        cases h
        rfl
      · intro h
        rw [h]
    refine ⟨s, queue, pool, rfl, hframe, hfacts, ?_, ?_⟩
    · intro qc hqc b hb
      obtain ⟨r, hr, hhd, hiff⟩ := hfacts qc hqc b (List.mem_cons_of_mem _ hb)
      have hne : b ≠ qc.1 := by
        rintro rfl
        have hnd : (qc.1 :: qc.2).Nodup := by
          have hsub : (qc.1 :: qc.2).Sublist (allWindows queue pool) := by
            unfold allWindows
            refine List.Sublist.trans ?_ (List.sublist_append_left _ _)
            obtain ⟨pre, post, rfl⟩ := List.append_of_mem hqc
            simp only [List.flatMap_append, List.flatMap_cons]
            exact List.Sublist.trans (List.sublist_append_left _ _)
              (List.sublist_append_right _ _)
          exact hframe.2.2.2.1.sublist hsub
        exact (List.nodup_cons.mp hnd).1 hb
      unfold headOverlay
      simp only [hr]
      rw [if_neg (fun h => hne (hiff.mp h))]
    · intro qc hqc r hr
      obtain ⟨r', hr', hhd, _⟩ := hfacts qc hqc qc.1 (List.mem_cons_self _ _)
      rw [hr] at hr'
      cases hr'
      unfold headOverlay
      simp only [hr]
      rw [if_pos hhd]
  | cons op ops ih =>
    intro s queue pool hframe hheads hvalid hfuel
    have hcount : opCount (op :: ops) = op.2.length + 1 + opCount ops := by
      simp [opCount]
    rw [hcount] at hfuel
    obtain ⟨⟨i, pr, hp, hpr⟩, hcalls⟩ := hvalid op (List.mem_cons_self _ _)
    obtain ⟨w, s1, q1, p1, hclaim, hf1, hhd1, hw1, hl1, hp1⟩ :=
      frame_claim env fuel s queue pool op.1 i pr hframe hheads hp hpr (by omega)
    obtain ⟨s2, q2, p2, hadds, hf2, hhd2, _, hl2, hp2⟩ :=
      frame_adds env hh w fuel op.2 s1 q1 p1 hf1 hhd1 hw1 hcalls (by omega)
    obtain ⟨s', q', p', hrun, hres⟩ := ih s2 q2 p2 hf2 hhd2
      (fun op' hop' => by
        obtain ⟨⟨i', pr', h1, h2⟩, h3⟩ := hvalid op' (List.mem_cons_of_mem _ hop')
        exact ⟨⟨i', pr', h1, by rw [hp2, hp1]; exact h2⟩, h3⟩)
      (by omega)
    refine ⟨s', q', p', ?_, hres⟩
    simp only [runFrame, hclaim, hadds]
    exact hrun

/-- The frame of `twoWindowState` built from the empty queue: a floor window
with two disjoint spans in one column, so with a child, and a ceiling window. -/
theorem head_back_reference_witness :
    (runFrame narrowEnv 7 skyboxState
        [(.floor (some 0), [(1, 10, 20), (1, 40, 50)]), (.ceiling (some 0), [(2, 0, 5)])]
        = .ok twoWindowState ∧
      HeadsOK twoWindowState [(0, [1]), (2, [])]) ∧
    ∃ s' queue' pool',
      runFrame narrowEnv 7 skyboxState
        [(.floor (some 0), [(1, 10, 20), (1, 40, 50)]), (.ceiling (some 0), [(2, 0, 5)])]
        = .ok s' ∧
      FrameOK narrowEnv s' queue' pool' ∧
      (∀ qc ∈ queue', ∀ b ∈ qc.1 :: qc.2, ∃ r, s'.windows[b]? = some r ∧
        r.head = some qc.1 ∧ (r.head = some b ↔ b = qc.1)) ∧
      (∀ qc ∈ queue', ∀ b ∈ qc.2, headOverlay s' b = .ok none) ∧
      (∀ qc ∈ queue', ∀ r, s'.windows[qc.1]? = some r →
        headOverlay s' qc.1 =
          match getPortal s' r.portal with
          | .error e => .error e
          | .ok portal => .ok portal.poverlay) :=
  ⟨⟨by rfl, by decide⟩, head_back_reference narrowEnv (by decide) 7
    [(.floor (some 0), [(1, 10, 20), (1, 40, 50)]), (.ceiling (some 0), [(2, 0, 5)])]
    skyboxState [] [] (by decide) (by decide)
    (by
      intro op hop
      simp only [List.mem_cons, List.mem_singleton, List.not_mem_nil, or_false] at hop
      rcases hop with rfl | rfl
      · exact ⟨⟨0, _, rfl, rfl⟩, by decide⟩
      · exact ⟨⟨0, _, rfl, rfl⟩, by decide⟩)
    (by decide)⟩

theorem wrap32_range (n : Int) : -2147483648 ≤ wrap32 n ∧ wrap32 n < 2147483648 := by
  unfold wrap32
  omega

/-- Half of a 32-bit value, truncated toward zero, has 31 bits. -/
theorem tdiv_two_range (x : Int) (h1 : -2147483648 ≤ x) (h2 : x < 2147483648) :
    -1073741824 ≤ Int.tdiv x 2 ∧ Int.tdiv x 2 ≤ 1073741823 := by
  rcases le_or_lt 0 x with h | h
  · rw [Int.tdiv_eq_ediv h (by norm_num)]
    omega
  · have : x = -(-x) := by ring
    rw [this, Int.neg_tdiv, Int.tdiv_eq_ediv (by omega) (by norm_num)]
    omega

/-- The difference of two midpoints does not overflow. -/
theorem midpoint_diff (u v : Int) :
    wrap32 (Int.tdiv (wrap32 u) 2 - Int.tdiv (wrap32 v) 2) =
      Int.tdiv (wrap32 u) 2 - Int.tdiv (wrap32 v) 2 := by
  have hu := tdiv_two_range (wrap32 u) (wrap32_range u).1 (wrap32_range u).2
  have hv := tdiv_two_range (wrap32 v) (wrap32_range v).1 (wrap32_range v).2
  exact wrap32_of_range (by omega) (by omega)

/-- C34. Deltas are antisymmetric and flat. For all line numbers `m` and `a`,
`R_CalculateDeltas (m, a)` yields `dz = 0`; `dx` and `dy` are the midpoint of
the line `m` minus that of the line `a`, the midpoint being the 32-bit sum of
the two vertex coordinates halved with truncation toward zero; the subtraction
never overflows, so `dx` and `dy` are the negation of those of
`R_CalculateDeltas (a, m)`, as integers and so also in 32-bit arithmetic; and
`R_CalculateDeltas (m, m)` is `(0, 0, 0)`. -/
theorem deltas_antisymmetric_flat (env : Env) (m a : Int) :
    (R_CalculateDeltas env m a).2.2 = 0 ∧
    (R_CalculateDeltas env m a).1 =
      Int.tdiv (wrap32 ((env.lines m).v1.x + (env.lines m).v2.x)) 2 -
      Int.tdiv (wrap32 ((env.lines a).v1.x + (env.lines a).v2.x)) 2 ∧
    (R_CalculateDeltas env m a).2.1 =
      Int.tdiv (wrap32 ((env.lines m).v1.y + (env.lines m).v2.y)) 2 -
      Int.tdiv (wrap32 ((env.lines a).v1.y + (env.lines a).v2.y)) 2 ∧
    (R_CalculateDeltas env m a).1 = -(R_CalculateDeltas env a m).1 ∧
    (R_CalculateDeltas env m a).2.1 = -(R_CalculateDeltas env a m).2.1 ∧
    (R_CalculateDeltas env m a).1 = wrap32 (-(R_CalculateDeltas env a m).1) ∧
    (R_CalculateDeltas env m a).2.1 = wrap32 (-(R_CalculateDeltas env a m).2.1) ∧
    R_CalculateDeltas env m m = (0, 0, 0) := by
  have hx := midpoint_diff ((env.lines m).v1.x + (env.lines m).v2.x)
    ((env.lines a).v1.x + (env.lines a).v2.x)
  have hy := midpoint_diff ((env.lines m).v1.y + (env.lines m).v2.y)
    ((env.lines a).v1.y + (env.lines a).v2.y)
  have hx' := midpoint_diff ((env.lines a).v1.x + (env.lines a).v2.x)
    ((env.lines m).v1.x + (env.lines m).v2.x)
  have hy' := midpoint_diff ((env.lines a).v1.y + (env.lines a).v2.y)
    ((env.lines m).v1.y + (env.lines m).v2.y)
  have e1 : (R_CalculateDeltas env m a).1 =
      Int.tdiv (wrap32 ((env.lines m).v1.x + (env.lines m).v2.x)) 2 -
      Int.tdiv (wrap32 ((env.lines a).v1.x + (env.lines a).v2.x)) 2 := hx
  have e2 : (R_CalculateDeltas env m a).2.1 =
      Int.tdiv (wrap32 ((env.lines m).v1.y + (env.lines m).v2.y)) 2 -
      Int.tdiv (wrap32 ((env.lines a).v1.y + (env.lines a).v2.y)) 2 := hy
  have e3 : (R_CalculateDeltas env a m).1 =
      Int.tdiv (wrap32 ((env.lines a).v1.x + (env.lines a).v2.x)) 2 -
      Int.tdiv (wrap32 ((env.lines m).v1.x + (env.lines m).v2.x)) 2 := hx'
  have e4 : (R_CalculateDeltas env a m).2.1 =
      Int.tdiv (wrap32 ((env.lines a).v1.y + (env.lines a).v2.y)) 2 -
      Int.tdiv (wrap32 ((env.lines m).v1.y + (env.lines m).v2.y)) 2 := hy'
  have n1 : (R_CalculateDeltas env m a).1 = -(R_CalculateDeltas env a m).1 := by
    rw [e1, e3]
    ring
  have n2 : (R_CalculateDeltas env m a).2.1 = -(R_CalculateDeltas env a m).2.1 := by
    rw [e2, e4]
    ring
  refine ⟨rfl, e1, e2, n1, n2, ?_, ?_, ?_⟩
  · rw [← n1, e1, hx]
  · rw [← n2, e2, hy]
  · unfold R_CalculateDeltas
    simp only [sub_self]
    rfl

/-- On a well-formed chain and with arguments that pass the input checks, the
result of `R_WindowAdd` does not depend on the bound of the recursion once the
bound allows for a visit of every window of the chain and of one new child. -/
theorem R_WindowAdd_total (env : Env) (hh : 0 < env.view_height) (x : Int)
    (ytop ybottom : ℚ) (hcall : ValidCall env (x, ytop, ybottom)) :
    ∀ (rest : List Nat) (a : Nat) (s : State) (pool : List Nat),
      ChainOK env s a rest pool →
      ∃ s', ∀ fuel, rest.length + 2 ≤ fuel →
        R_WindowAdd env fuel s (some a) x ytop ybottom = .ok s' := by
  obtain ⟨hx0, hx1, hvalid⟩ := hcall
  simp only at hx0 hx1 hvalid
  intro rest
  induction rest with
  | nil =>
    intro a s pool hinv
    obtain ⟨hchain, hpool, hnd, hbuf, hcols⟩ := hinv
    rw [IsList.cons_iff] at hchain
    obtain ⟨_, w, hw, hrest⟩ := hchain
    rw [IsList.nil_iff] at hrest
    have hap : a ∉ pool := by
      intro h
      have := List.nodup_cons.mp hnd
      exact this.1 (by simpa using h)
    have hwcols := hcols a (List.mem_cons_self _ _) w hw
    have hi : x.toNat < env.video_width := by omega
    have hstep := fun f => R_WindowAdd_step env f s a w x ytop ybottom hw ⟨hx0, hx1⟩
      (hbuf.get hw) (fun _ => hvalid) (fun _ => opening_ok hh (hwcols x.toNat hi))
    by_cases hg : GoesToChild env w x ytop ybottom
    · obtain ⟨c, s1, hcreate, hca, hpar1, ⟨rc, hrc, hclr, _⟩, _⟩ :=
        R_CreateChildWindow_spec hbuf hpool hw hrest hap
      have hspan := span_on_screen hvalid hg.1
      refine ⟨putWindow s1 c (addLocal env s1.viewx s1.viewy s1.viewz rc x ytop ybottom), ?_⟩
      intro fuel hfuel
      obtain ⟨f', rfl⟩ : ∃ f', fuel = f' + 1 + 1 := ⟨fuel - 2, by simp at hfuel; omega⟩
      obtain ⟨hstepc, _, _⟩ := R_WindowAdd_cleared_column env f' s1 c rc x ytop ybottom hrc
        ⟨hx0, hx1⟩ hclr.1 hclr.2.1 hspan
      rw [hstep, if_pos hg, if_pos hrest, hcreate]
      simp only [hpar1]
      exact hstepc
    · refine ⟨putWindow s a (addLocal env s.viewx s.viewy s.viewz w x ytop ybottom), ?_⟩
      intro fuel hfuel
      obtain ⟨f, rfl⟩ : ∃ f, fuel = f + 1 := ⟨fuel - 1, by omega⟩
      rw [hstep, if_neg hg]
  | cons c rest ih =>
    intro a s pool hinv
    obtain ⟨hchain, hpool, hnd, hbuf, hcols⟩ := hinv
    rw [IsList.cons_iff] at hchain
    obtain ⟨_, w, hw, hrest⟩ := hchain
    have hwc : w.child = some c := by
      rw [IsList.cons_iff] at hrest
      exact hrest.1
    rw [hwc] at hrest
    have hnd' := List.nodup_cons.mp hnd
    have hwcols := hcols a (List.mem_cons_self _ _) w hw
    have hi : x.toNat < env.video_width := by omega
    have hstep := fun f => R_WindowAdd_step env f s a w x ytop ybottom hw ⟨hx0, hx1⟩
      (hbuf.get hw) (fun _ => hvalid) (fun _ => opening_ok hh (hwcols x.toNat hi))
    by_cases hg : GoesToChild env w x ytop ybottom
    · have hinvc : ChainOK env s c rest pool :=
        ⟨hrest, hpool, hnd'.2, hbuf, fun b hb => hcols b (List.mem_cons_of_mem _ hb)⟩
      obtain ⟨s', hrunc⟩ := ih c s pool hinvc
      refine ⟨s', ?_⟩
      intro fuel hfuel
      obtain ⟨f, rfl⟩ : ∃ f, fuel = f + 1 := ⟨fuel - 1, by omega⟩
      rw [hstep, if_pos hg, if_neg (by rw [hwc]; simp)]
      simp only [hw, hwc]
      exact hrunc f (by simp at hfuel ⊢; omega)
    · refine ⟨putWindow s a (addLocal env s.viewx s.viewy s.viewz w x ytop ybottom), ?_⟩
      intro fuel hfuel
      obtain ⟨f, rfl⟩ : ∃ f, fuel = f + 1 := ⟨fuel - 1, by omega⟩
      rw [hstep, if_neg hg]

/-- A cleared record takes the span of a call that is not off screen: the
column holds the span and lies in the range of the record. -/
theorem addLocal_cleared (env : Env) (hh : 0 < env.view_height) (vx vy vz : Int)
    (rc : pwindow_t) (x : Int) (ytop ybottom : ℚ) (hclr : IsCleared env rc)
    (hx : 0 ≤ x ∧ x < env.video_width)
    (hon : ¬ (ybottom < 0 ∨ ytop ≥ env.view_height)) :
    (addLocal env vx vy vz rc x ytop ybottom).top.getD x.toNat 0 = ytop ∧
    (addLocal env vx vy vz rc x ytop ybottom).bottom.getD x.toNat 0 = ybottom ∧
    (addLocal env vx vy vz rc x ytop ybottom).child = none ∧
    (addLocal env vx vy vz rc x ytop ybottom).minx ≤ x ∧
    x ≤ (addLocal env vx vy vz rc x ytop ybottom).maxx := by
  have hi : x.toNat < env.video_width := by omega
  have hlt : x.toNat < rc.top.length := by rw [hclr.1]; simpa using hi
  have hlb : x.toNat < rc.bottom.length := by rw [hclr.2.1]; simpa using hi
  have hts := getD_set_self rc.top x.toNat ytop 0 hlt
  have hbs := getD_set_self rc.bottom x.toNat ybottom 0 hlb
  have hwt : rc.top.getD x.toNat 0 = env.view_height := by
    rw [hclr.1, getD_replicate_lt _ _ _ _ hi]
  have hwb : rc.bottom.getD x.toNat 0 = -1 := by
    rw [hclr.2.1, getD_replicate_lt _ _ _ _ hi]
  have hfree : rc.top.getD x.toNat 0 > rc.bottom.getD x.toNat 0 := by
    rw [hwt, hwb]
    linarith
  have hchild := hclr.2.2.2.2.1
  unfold addLocal
  simp only
  rw [if_neg hon]
  by_cases hr : x ≤ rc.maxx ∧ x ≥ rc.minx
  · rw [if_pos hr, if_pos hfree]
    exact ⟨hts, hbs, hchild, hr.2, hr.1⟩
  · rw [if_neg hr]
    by_cases he : rc.minx > rc.maxx
    · rw [if_pos he]
      exact ⟨hts, hbs, hchild, le_refl _, le_refl _⟩
    · rw [if_neg he]
      by_cases h1 : x > rc.maxx
      · rw [if_pos h1]
        refine ⟨hts, hbs, hchild, ?_, le_refl _⟩
        show rc.minx ≤ x
        omega
      · rw [if_neg h1]
        by_cases h2 : x < rc.minx
        · rw [if_pos h2]
          refine ⟨hts, hbs, hchild, le_refl _, ?_⟩
          show x ≤ rc.maxx
          omega
        · exact absurd ⟨by omega, by omega⟩ hr

/-- C32. `R_WindowAdd` terminates. On a well-formed window whose child chain
`a :: rest` is a proper list (finite, without a cycle), with arguments that
pass the input checks, the call returns a state, and it returns the same state
for every bound of the recursion that allows for the windows of the chain and
one more: the recursion enters at most chain length + 1 windows. Afterwards
the chain is the old one or the old one with one new child at its end; the
span went to a window of the old chain or to that new child, which kept it
without a further descent. -/
theorem windowAdd_terminates (env : Env) (hh : 0 < env.view_height) (x : Int)
    (ytop ybottom : ℚ) (hcall : ValidCall env (x, ytop, ybottom))
    (rest : List Nat) (a : Nat) (s : State) (pool : List Nat)
    (hinv : ChainOK env s a rest pool) :
    ∃ s' rest',
      (∀ fuel, (a :: rest).length + 1 ≤ fuel →
        R_WindowAdd env fuel s (some a) x ytop ybottom = .ok s') ∧
      IsList pwindow_t.child s'.windows (some a) (a :: rest') ∧
      (rest' = rest ∨ ∃ c r, rest' = rest ++ [c] ∧ c ∉ a :: rest ∧
        s'.windows[c]? = some r ∧ r.child = none ∧ r.minx ≤ x ∧ x ≤ r.maxx ∧
        r.top.getD x.toNat 0 = ytop ∧ r.bottom.getD x.toNat 0 = ybottom) := by
  obtain ⟨s', htotal⟩ := R_WindowAdd_total env hh x ytop ybottom hcall rest a s pool hinv
  obtain ⟨s1, rest', pool', hrun, hinv', hcase, _, _⟩ :=
    R_WindowAdd_chain env hh x ytop ybottom hcall rest a s pool (rest.length + 2) hinv
      (le_refl _)
  obtain ⟨s2, hrun2, hland⟩ :=
    R_WindowAdd_lands env hh x ytop ybottom hcall rest a s pool (rest.length + 2) hinv
      (le_refl _)
  have e1 := htotal (rest.length + 2) (le_refl _)
  rw [e1] at hrun hrun2
  cases hrun
  cases hrun2
  refine ⟨s', rest', ?_, hinv'.1, ?_⟩
  · intro fuel hfuel
    exact htotal fuel (by simpa using hfuel)
  · obtain ⟨hchain, hpool, hnd, hbuf, hcols⟩ := hinv
    have hndc : (a :: rest).Nodup := by
      have : (a :: rest).Sublist (a :: rest ++ pool) := List.sublist_append_left _ _
      exact hnd.sublist this
    rcases hland with ⟨pre, d, post, rd, h1, h2, h3, h4, h5⟩ |
      ⟨lst, par, c, s1, rc, h1, h2, h3, h4, h5, h6, h7, h8, h9, h10, h11, h12, h13, h14, h15,
        h16, h17, h18⟩
    · left
      have hdlt : d < s.windows.length := (List.getElem?_eq_some.mp h2).1
      have hchain' : IsList pwindow_t.child s'.windows (some a) (a :: rest) := by
        apply hchain.frame
        intro b hb w hw
        by_cases hbd : b = d
        · subst hbd
          rw [h2] at hw
          cases hw
          refine ⟨_, ?_, (addLocal_fields env s.viewx s.viewy s.viewz rd x ytop ybottom).1⟩
          rw [h5]
          exact getElem?_putWindow_self _ hdlt
        · refine ⟨w, ?_, rfl⟩
          rw [h5, getElem?_putWindow_ne _ (Ne.symm hbd), hw]
      have := IsList.unique hinv'.1 hchain'
      exact (List.cons.inj this).2
    · right
      have hlst : lst ∈ a :: rest := List.mem_of_getLast?_eq_some h1
      have hclt : c < s1.windows.length := (List.getElem?_eq_some.mp h8).1
      have hlc : lst ≠ c := by
        rintro rfl
        exact h6 hlst
      have hget : ∀ b, b ≠ c → s'.windows[b]? = s1.windows[b]? := by
        intro b hb
        rw [h18, getElem?_putWindow_ne _ (Ne.symm hb)]
      have hgetc : s'.windows[c]? =
          some (addLocal env s1.viewx s1.viewy s1.viewz rc x ytop ybottom) := by
        rw [h18]
        exact getElem?_putWindow_self _ hclt
      have hchain' : IsList pwindow_t.child s'.windows (some a) (a :: rest ++ [c]) := by
        apply IsList.snoc hchain (by simp)
        · rw [List.nodup_append]
          refine ⟨hndc, by simp, ?_⟩
          intro e he hec
          simp only [List.mem_singleton] at hec
          subst hec
          exact h6 he
        · intro l hl
          rw [h1] at hl
          cases hl
          exact ⟨_, by rw [hget lst hlc, h7], rfl⟩
        · refine ⟨_, hgetc, ?_⟩
          rw [(addLocal_fields env s1.viewx s1.viewy s1.viewz rc x ytop ybottom).1]
          exact h9.2.2.2.2.1
        · intro b hb hbl
          have hbl' : b ≠ lst := by
            rintro rfl
            exact hbl h1
          have hbc : b ≠ c := by
            rintro rfl
            exact h6 hb
          rw [hget b hbc, h16 b hbl' hbc]
      have hrest : rest' = rest ++ [c] := by
        have := IsList.unique hinv'.1 hchain'
        exact (List.cons.inj this).2
      have hon : ¬ (ybottom < 0 ∨ ytop ≥ env.view_height) := (h3 lst hlst par h2).1
      obtain ⟨c1, c2, c3, c4, c5⟩ := addLocal_cleared env hh s1.viewx s1.viewy s1.viewz rc x
        ytop ybottom h9 ⟨hcall.1, hcall.2.1⟩ hon
      exact ⟨c, _, hrest, h6, hgetc, c3, c4, c5, c1, c2⟩

/-- The window of `oneRowThenSpanState` has one child; the span `(25, 35)` at
column 1 fits neither, so the call visits both and a new child: it returns
with the bound 3, and with the bound 2 it does not. -/
theorem windowAdd_terminates_witness :
    R_WindowAdd narrowEnv 2 oneRowThenSpanState (some 0) 1 25 35 = .error .undefined ∧
    ∃ s' rest',
      (∀ fuel, ((0 : Nat) :: [1]).length + 1 ≤ fuel →
        R_WindowAdd narrowEnv fuel oneRowThenSpanState (some 0) 1 25 35 = .ok s') ∧
      IsList pwindow_t.child s'.windows (some 0) (0 :: rest') ∧
      (rest' = [1] ∨ ∃ c r, rest' = [1] ++ [c] ∧ c ∉ (0 : Nat) :: [1] ∧
        s'.windows[c]? = some r ∧ r.child = none ∧ r.minx ≤ 1 ∧ 1 ≤ r.maxx ∧
        r.top.getD (1 : Int).toNat 0 = 25 ∧ r.bottom.getD (1 : Int).toNat 0 = 35) :=
  ⟨by rfl, windowAdd_terminates narrowEnv (by decide) 1 25 35 (by decide) [1] 0
    oneRowThenSpanState [] (by decide)⟩

/-- A window just returned by `R_NewPortalWindow` is a well-formed chain of its
own. -/
theorem newWindow_chainOK {env : Env} {s0 s : State} {pool : List Nat} {p l : Ptr}
    {t : pwindowtype_e} {w : Nat} (hok : FreeListOK env s0 pool)
    (hnew : R_NewPortalWindow env s0 p l t = .ok (w, s)) :
    ChainOK env s w [] pool.tail := by
  obtain ⟨hbuf, hpool, hlast⟩ := hok
  obtain ⟨r, hr, htop, hbot, _, _, hchild, _, _, _, _, _, _, _, hbuf', _⟩ :=
    R_NewPortalWindow_window hbuf hnew
  obtain ⟨hpool', hwp, _⟩ := R_NewPortalWindow_pool hbuf hpool
    (by
      intro lst hl
      rw [hl] at hlast
      exact hlast) hnew
  refine ⟨?_, hpool', ?_, hbuf', ?_⟩
  · rw [IsList.cons_iff]
    exact ⟨rfl, r, hr, by rw [IsList.nil_iff, hchild]⟩
  · simpa using ⟨hwp, hpool'.2⟩
  · intro b hb r' hr' i hi
    simp only [List.mem_singleton] at hb
    subst hb
    rw [hr] at hr'
    cases hr'
    rw [htop, hbot, getD_replicate_lt _ _ _ _ hi, getD_replicate_lt _ _ _ _ hi]
    exact Or.inl ⟨rfl, rfl⟩

/-- A sequence of calls lengthens the chain by at most one window per call. -/
theorem runAdds_chain_length (env : Env) (hh : 0 < env.view_height) (w : Nat) :
    ∀ (calls : List (Int × ℚ × ℚ)) (s : State) (rest pool : List Nat) (fuel : Nat),
      ChainOK env s w rest pool → (∀ c ∈ calls, ValidCall env c) →
      rest.length + calls.length + 1 ≤ fuel →
      ∃ s' rest' pool', runAdds env fuel w s calls = .ok s' ∧
        ChainOK env s' w rest' pool' ∧ rest'.length ≤ rest.length + calls.length := by
  intro calls
  induction calls with
  | nil =>
    intro s rest pool fuel hinv _ _
    exact ⟨s, rest, pool, rfl, hinv, by simp⟩
  | cons c cs ih =>
    intro s rest pool fuel hinv hvalid hfuel
    simp only [List.length_cons] at hfuel
    obtain ⟨s1, rest1, pool1, hrun1, hinv1, hcase, _, _⟩ :=
      R_WindowAdd_chain env hh c.1 c.2.1 c.2.2 (hvalid c (List.mem_cons_self _ _))
        rest w s pool fuel hinv (by omega)
    have hlen : rest1.length ≤ rest.length + 1 := by
      rcases hcase with ⟨rfl, _⟩ | ⟨cn, rfl, _⟩
      · omega
      · simp
    obtain ⟨s', rest', pool', hrun', hinv', hlen'⟩ := ih s1 rest1 pool1 fuel hinv1
      (fun c' hc' => hvalid c' (List.mem_cons_of_mem _ hc')) (by omega)
    refine ⟨s', rest', pool', ?_, hinv', ?_⟩
    · simp only [runAdds, hrun1]
      exact hrun'
    · simp only [List.length_cons]
      omega

/-- C33, refuted as stated. On a freshly claimed window in a `RANGECHECK` build
with `view.height = 200`, the calls `R_WindowAdd (w, 2, 10, 20)` and
`R_WindowAdd (w, 2, NaN, 250)` both use a column of the screen and pass the
check of the column data (with a NaN top the comparison `ytop < ybottom` is
false), and both return. The second one stores the bottom `250` in column 2, so
the stored opening `(10, 250)` has bottom > top and a bottom outside
`[0, view.height)`, and the next call at column 2 ends in the abort
`R_WindowAdd portal had bad opening data`. -/
theorem nan_span_reaches_bad_opening :
    ∃ s1 s2 r,
      R_NewPortalWindow narrowEnv skyboxState (some 0) none .pw_floor = .ok (0, claimedState) ∧
      Flt.ValidCall narrowEnv (2, .num 10, .num 20) ∧
      Flt.ValidCall narrowEnv (2, .nan, .num 250) ∧
      Flt.ValidCall narrowEnv (2, .num 30, .num 40) ∧
      Flt.R_WindowAdd narrowEnv 1 claimedState.toFlt (some 0) 2 (.num 10) (.num 20) = .ok s1 ∧
      Flt.R_WindowAdd narrowEnv 1 s1 (some 0) 2 .nan (.num 250) = .ok s2 ∧
      s2.windows[0]? = some r ∧
      r.top.getD 2 (.num 0) = .num 10 ∧ r.bottom.getD 2 (.num 0) = .num 250 ∧
      Flt.R_WindowAdd narrowEnv 1 s2 (some 0) 2 (.num 30) (.num 40) =
        .error (.I_Error "R_WindowAdd portal had bad opening data.") := by
  refine ⟨_, _, _, by rfl, by decide, by decide, by decide, by rfl, by rfl, by rfl,
    by rfl, by rfl, by rfl⟩

/-- C33, amended. Range-check safety for spans without NaN. Take a window `w`
just returned by `R_NewPortalWindow` from a state with a well-formed free list,
on a screen of positive height, a sequence `pre` of `R_WindowAdd` calls on `w`
and one more call `c`, all with a column in `[0, video.width)` and a span whose
two ends are not NaN (finite values or infinities) and which passes the check
of the column data. Then the calls of `pre` return a state whose column buffers
hold numbers (`s1.toFlt`), and in that state, in which `c` is made, in `w` and
in every window of its child chain, the stored opening at the column of `c`
does not meet the condition of the abort
`R_WindowAdd portal had bad opening data`: when bottom > top, top and bottom
are in `[0, view.height)`. The call `c` returns a state, so it does not abort.
When the spans are finite, the states are those the calls give over
rationals. -/
theorem bad_opening_unreachable (env : Env) (s0 s : State) (pool : List Nat)
    (p l : Ptr) (t : pwindowtype_e) (w : Nat) (fpre : List (Int × cfloat × cfloat))
    (fc : Int × cfloat × cfloat)
    (fuel : Nat) (hh : 0 < env.view_height)
    (hok : FreeListOK env s0 pool)
    (hnew : R_NewPortalWindow env s0 p l t = .ok (w, s))
    (hfvalid : ∀ c' ∈ fpre ++ [fc], Flt.ValidCall env c' ∧ c'.2.1 ≠ .nan ∧ c'.2.2 ≠ .nan)
    (hffuel : fpre.length + 2 ≤ fuel) :
    ∃ s1 chain, Flt.runAdds env fuel w s.toFlt fpre = .ok s1.toFlt ∧
      (∀ pre, fpre = pre.map Flt.ofCall → runAdds env fuel w s pre = .ok s1) ∧
      IsList pwindow_t.child s1.windows (some w) (w :: chain) ∧
      (∀ a ∈ w :: chain, ∃ r, s1.windows[a]? = some r ∧
        ¬ (r.bottom.getD fc.1.toNat 0 > r.top.getD fc.1.toNat 0 ∧
            (r.top.getD fc.1.toNat 0 < 0 ∨ r.bottom.getD fc.1.toNat 0 < 0 ∨
             r.top.getD fc.1.toNat 0 ≥ env.view_height ∨
             r.bottom.getD fc.1.toNat 0 ≥ env.view_height)) ∧
        (r.bottom.getD fc.1.toNat 0 > r.top.getD fc.1.toNat 0 →
          0 ≤ r.top.getD fc.1.toNat 0 ∧ r.top.getD fc.1.toNat 0 < env.view_height ∧
          0 ≤ r.bottom.getD fc.1.toNat 0 ∧ r.bottom.getD fc.1.toNat 0 < env.view_height)) ∧
      ∃ s2, Flt.R_WindowAdd env fuel s1.toFlt (some w) fc.1 fc.2.1 fc.2.2 = .ok s2.toFlt ∧
        ∀ ytop ybottom, fc.2.1 = .num ytop → fc.2.2 = .num ybottom →
          R_WindowAdd env fuel s1 (some w) fc.1 ytop ybottom = .ok s2 := by
  obtain ⟨pre, hpvalid, hlen, hsame, huniq⟩ := calls_as_numbers env fpre
    (fun c' hc' => hfvalid c' (List.mem_append_left _ hc'))
  obtain ⟨hfc, hfct, hfcb⟩ := hfvalid fc (by simp)
  obtain ⟨ytop, ybottom, hc, hsamec, hnum⟩ :=
    span_as_numbers env fc.1 fc.2.1 fc.2.2 hfc hfct hfcb
  have hfuel : pre.length + 2 ≤ fuel := by rw [hlen]; exact hffuel
  have hinv := newWindow_chainOK hok hnew
  obtain ⟨s1, rest1, pool1, hrun, hinv1, hlen1⟩ :=
    runAdds_chain_length env hh w pre s [] pool.tail fuel hinv hpvalid (by simp; omega)
  simp only [List.length_nil, Nat.zero_add] at hlen1
  obtain ⟨s2, _, _, hrun2, _⟩ :=
    R_WindowAdd_chain env hh fc.1 ytop ybottom hc rest1 w s1 pool1 fuel hinv1 (by omega)
  refine ⟨s1, rest1, by rw [hsame, runAdds_toFlt, hrun]; rfl,
    fun npre h => by rw [← huniq npre h]; exact hrun, hinv1.1, ?_, s2,
    by rw [hsamec, R_WindowAdd_toFlt, hrun2]; rfl, ?_⟩
  · intro a ha
    have hva := hinv1.1.valid a ha
    obtain ⟨ra, hra⟩ : ∃ ra, s1.windows[a]? = some ra :=
      ⟨s1.windows[a], List.getElem?_eq_getElem hva⟩
    have hi : fc.1.toNat < env.video_width := by
      have h1 := hc.1
      have h2 := hc.2.1
      simp only at h1 h2
      omega
    have hcol := hinv1.2.2.2.2 a ha ra hra fc.1.toNat hi
    refine ⟨ra, hra, opening_ok hh hcol, ?_⟩
    intro hocc
    rcases hcol with ⟨e1, e2⟩ | h
    · rw [e1, e2] at hocc
      linarith
    · exact h
  · intro t b ht hb
    obtain ⟨e1, e2⟩ := hnum t b ht hb
    rw [← e1, ← e2]
    exact hrun2

/-- Two calls on a freshly claimed window, a call with the span `(-∞, -∞)`,
which is off screen and stores nothing, and a last call, which goes to a child:
at the last call the opening at column 2 is `(10, 30)`. -/
theorem bad_opening_unreachable_witness :
    ∃ s1 chain,
      Flt.runAdds narrowEnv 5 0 claimedState.toFlt
        [(2, .num 10, .num 20), (2, .num 15, .num 30), (2, .negInf, .negInf)] = .ok s1.toFlt ∧
      (∀ pre, [(2, .num 10, .num 20), (2, .num 15, .num 30), (2, .negInf, .negInf)] =
          pre.map Flt.ofCall → runAdds narrowEnv 5 0 claimedState pre = .ok s1) ∧
      IsList pwindow_t.child s1.windows (some 0) (0 :: chain) ∧
      (∀ a ∈ 0 :: chain, ∃ r, s1.windows[a]? = some r ∧
        ¬ (r.bottom.getD (2 : Int).toNat 0 > r.top.getD (2 : Int).toNat 0 ∧
            (r.top.getD (2 : Int).toNat 0 < 0 ∨ r.bottom.getD (2 : Int).toNat 0 < 0 ∨
             r.top.getD (2 : Int).toNat 0 ≥ narrowEnv.view_height ∨
             r.bottom.getD (2 : Int).toNat 0 ≥ narrowEnv.view_height)) ∧
        (r.bottom.getD (2 : Int).toNat 0 > r.top.getD (2 : Int).toNat 0 →
          0 ≤ r.top.getD (2 : Int).toNat 0 ∧
          r.top.getD (2 : Int).toNat 0 < narrowEnv.view_height ∧
          0 ≤ r.bottom.getD (2 : Int).toNat 0 ∧
          r.bottom.getD (2 : Int).toNat 0 < narrowEnv.view_height)) ∧
      ∃ s2, Flt.R_WindowAdd narrowEnv 5 s1.toFlt (some 0) 2 (.num 40) (.num 50) = .ok s2.toFlt ∧
        ∀ ytop ybottom, cfloat.num 40 = .num ytop → cfloat.num 50 = .num ybottom →
          R_WindowAdd narrowEnv 5 s1 (some 0) 2 ytop ybottom = .ok s2 :=
  bad_opening_unreachable narrowEnv skyboxState claimedState [] (some 0) none .pw_floor 0
    [(2, .num 10, .num 20), (2, .num 15, .num 30), (2, .negInf, .negInf)] (2, .num 40, .num 50) 5
    (by decide) (by decide) (by rfl) (by decide) (by decide)

/-- What `addLocal` does to a record with a non-empty range whose columns
outside the range are cleared: the range does not shrink, and on a column that
held a span the top does not rise and the bottom does not fall. -/
theorem addLocal_grows (env : Env) (hh : 0 < env.view_height) (vx vy vz : Int)
    (w : pwindow_t) (x : Int) (ytop ybottom : ℚ) (hx : 0 ≤ x ∧ x < env.video_width)
    (hlen : w.top.length = env.video_width ∧ w.bottom.length = env.video_width)
    (hne : w.minx ≤ w.maxx) (hout : OutsideCleared env w) :
    (addLocal env vx vy vz w x ytop ybottom).minx ≤ w.minx ∧
    w.maxx ≤ (addLocal env vx vy vz w x ytop ybottom).maxx ∧
    ∀ i, i < env.video_width → ¬ (w.top.getD i 0 > w.bottom.getD i 0) →
      (addLocal env vx vy vz w x ytop ybottom).top.getD i 0 ≤ w.top.getD i 0 ∧
      w.bottom.getD i 0 ≤ (addLocal env vx vy vz w x ytop ybottom).bottom.getD i 0 := by
  have hi : x.toNat < env.video_width := by omega
  have hlt : x.toNat < w.top.length := by rw [hlen.1]; exact hi
  have hlb : x.toNat < w.bottom.length := by rw [hlen.2]; exact hi
  have hts := getD_set_self w.top x.toNat ytop 0 hlt
  have hbs := getD_set_self w.bottom x.toNat ybottom 0 hlb
  -- a column outside the range holds no span
  have hfree : (x < w.minx ∨ w.maxx < x) →
      w.top.getD x.toNat 0 > w.bottom.getD x.toNat 0 := by
    intro h
    obtain ⟨e1, e2⟩ := hout x.toNat hi (by omega)
    rw [e1, e2]
    linarith
  -- storing at a column that held no span
  have hstore : w.top.getD x.toNat 0 > w.bottom.getD x.toNat 0 →
      ∀ i, i < env.video_width → ¬ (w.top.getD i 0 > w.bottom.getD i 0) →
        (w.top.set x.toNat ytop).getD i 0 ≤ w.top.getD i 0 ∧
        w.bottom.getD i 0 ≤ (w.bottom.set x.toNat ybottom).getD i 0 := by
    intro hf i _ hocc
    have hne' : x.toNat ≠ i := by
      rintro rfl
      exact hocc hf
    rw [getD_set_ne _ _ _ _ _ hne', getD_set_ne _ _ _ _ _ hne']
    exact ⟨le_refl _, le_refl _⟩
  unfold addLocal
  simp only
  by_cases hoff : ybottom < 0 ∨ ytop ≥ env.view_height
  · rw [if_pos hoff]
    exact ⟨le_refl _, le_refl _, fun i _ _ => ⟨le_refl _, le_refl _⟩⟩
  · rw [if_neg hoff]
    by_cases hr : x ≤ w.maxx ∧ x ≥ w.minx
    · rw [if_pos hr]
      by_cases hf : w.top.getD x.toNat 0 > w.bottom.getD x.toNat 0
      · rw [if_pos hf]
        exact ⟨le_refl _, le_refl _, hstore hf⟩
      · rw [if_neg hf]
        refine ⟨le_refl _, le_refl _, ?_⟩
        intro i _ _
        simp only
        by_cases hxi : x.toNat = i
        · subst hxi
          constructor
          · split_ifs with hc
            · rw [hts]
              exact le_of_lt hc
            · exact le_refl _
          · split_ifs with hc
            · rw [hbs]
              exact le_of_lt hc
            · exact le_refl _
        · constructor
          · split_ifs
            · rw [getD_set_ne _ _ _ _ _ hxi]
            · exact le_refl _
          · split_ifs
            · rw [getD_set_ne _ _ _ _ _ hxi]
            · exact le_refl _
    · rw [if_neg hr, if_neg (by omega)]
      by_cases h1 : x > w.maxx
      · rw [if_pos h1]
        refine ⟨le_refl _, ?_, hstore (hfree (Or.inr h1))⟩
        show w.maxx ≤ x
        omega
      · rw [if_neg h1]
        by_cases h2 : x < w.minx
        · rw [if_pos h2]
          refine ⟨?_, le_refl _, hstore (hfree (Or.inl h2))⟩
          show x ≤ w.minx
          omega
        · exact absurd ⟨by omega, by omega⟩ hr

/-- One call of `R_WindowAdd` on a well-formed chain whose windows have cleared
columns outside their ranges: no window of the chain with a non-empty range
shrinks. -/
theorem R_WindowAdd_grows (env : Env) (hh : 0 < env.view_height) (x : Int)
    (ytop ybottom : ℚ) (hcall : ValidCall env (x, ytop, ybottom))
    (rest : List Nat) (a : Nat) (s : State) (pool : List Nat) (fuel : Nat)
    (hinv : ChainOK env s a rest pool) (hfuel : rest.length + 2 ≤ fuel)
    (hout : ∀ b ∈ a :: rest, ∀ r, s.windows[b]? = some r → OutsideCleared env r) :
    ∃ s', R_WindowAdd env fuel s (some a) x ytop ybottom = .ok s' ∧
      ∀ b ∈ a :: rest, ∀ r, s.windows[b]? = some r → r.minx ≤ r.maxx →
        ∃ r', s'.windows[b]? = some r' ∧ r'.minx ≤ r.minx ∧ r.maxx ≤ r'.maxx ∧
          ∀ i, i < env.video_width → ¬ (r.top.getD i 0 > r.bottom.getD i 0) →
            r'.top.getD i 0 ≤ r.top.getD i 0 ∧ r.bottom.getD i 0 ≤ r'.bottom.getD i 0 := by
  obtain ⟨s', hrun, hland⟩ :=
    R_WindowAdd_lands env hh x ytop ybottom hcall rest a s pool fuel hinv hfuel
  refine ⟨s', hrun, ?_⟩
  obtain ⟨hchain, hpool, hnd, hbuf, hcols⟩ := hinv
  have hsame : ∀ r : pwindow_t, r.minx ≤ r.minx ∧ r.maxx ≤ r.maxx ∧
      ∀ i, i < env.video_width → ¬ (r.top.getD i 0 > r.bottom.getD i 0) →
        r.top.getD i 0 ≤ r.top.getD i 0 ∧ r.bottom.getD i 0 ≤ r.bottom.getD i 0 :=
    fun r => ⟨le_refl _, le_refl _, fun i _ _ => ⟨le_refl _, le_refl _⟩⟩
  rcases hland with ⟨pre, d, post, rd, h1, h2, h3, h4, h5⟩ |
    ⟨lst, par, c, s1, rc, h1, h2, h3, h4, h5, h6, h7, h8, h9, h10, h11, h12, h13, h14, h15,
      h16, h17, h18⟩
  · intro b hb r hr hne
    by_cases hbd : b = d
    · subst hbd
      rw [h2] at hr
      cases hr
      refine ⟨addLocal env s.viewx s.viewy s.viewz rd x ytop ybottom, ?_,
        addLocal_grows env hh s.viewx s.viewy s.viewz rd x ytop ybottom ⟨hcall.1, hcall.2.1⟩
        (hbuf.get h2) hne (hout b hb rd h2)⟩
      rw [h5]
      exact getElem?_putWindow_self _ (List.getElem?_eq_some.mp h2).1
    · exact ⟨r, by rw [h5, getElem?_putWindow_ne _ (Ne.symm hbd), hr], hsame r⟩
  · intro b hb r hr hne
    have hbc : b ≠ c := by
      rintro rfl
      exact h6 hb
    have hget : s'.windows[b]? = s1.windows[b]? := by
      rw [h18, getElem?_putWindow_ne _ (Ne.symm hbc)]
    by_cases hbl : b = lst
    · subst hbl
      rw [h2] at hr
      cases hr
      exact ⟨{ par with child := some c }, by rw [hget, h7], hsame par⟩
    · exact ⟨r, by rw [hget, h16 b hbl hbc, hr], hsame r⟩

/-- C31. `R_WindowAdd` only grows a window. Take a window `w` just returned by
`R_NewPortalWindow` from a state with a well-formed free list, on a screen of
positive height, a sequence `pre` of `R_WindowAdd` calls on `w` and one more
call `c`, all of which pass the input checks. Then the calls return; and for
`w` and every window of its child chain that has a non-empty column range when
`c` is made, the range after `c` contains the range before (`minx` does not
increase, `maxx` does not decrease), and on every column of the screen that
held a span before (not top > bottom) the top does not increase and the bottom
does not decrease. -/
theorem windowAdd_only_grows (env : Env) (s0 s : State) (pool : List Nat)
    (p l : Ptr) (t : pwindowtype_e) (w : Nat) (pre : List (Int × ℚ × ℚ)) (c : Int × ℚ × ℚ)
    (fuel : Nat) (hh : 0 < env.view_height)
    (hok : FreeListOK env s0 pool)
    (hnew : R_NewPortalWindow env s0 p l t = .ok (w, s))
    (hvalid : ∀ c' ∈ pre ++ [c], ValidCall env c')
    (hfuel : pre.length + 2 ≤ fuel) :
    ∃ s1 s2 chain, runAdds env fuel w s pre = .ok s1 ∧
      R_WindowAdd env fuel s1 (some w) c.1 c.2.1 c.2.2 = .ok s2 ∧
      IsList pwindow_t.child s1.windows (some w) (w :: chain) ∧
      ∀ b ∈ w :: chain, ∃ r r', s1.windows[b]? = some r ∧ s2.windows[b]? = some r' ∧
        (r.minx ≤ r.maxx →
          r'.minx ≤ r.minx ∧ r.maxx ≤ r'.maxx ∧
          ∀ i, i < env.video_width → ¬ (r.top.getD i 0 > r.bottom.getD i 0) →
            r'.top.getD i 0 ≤ r.top.getD i 0 ∧ r.bottom.getD i 0 ≤ r'.bottom.getD i 0) := by
  have hinv := newWindow_chainOK hok hnew
  have hc : ValidCall env c := hvalid c (by simp)
  have hpre : ∀ c' ∈ pre, ValidCall env c' :=
    fun c' hc' => hvalid c' (List.mem_append_left _ hc')
  obtain ⟨s1, rest1, pool1, hrun, hinv1, hlen⟩ :=
    runAdds_chain_length env hh w pre s [] pool.tail fuel hinv hpre (by simp; omega)
  simp only [List.length_nil, Nat.zero_add] at hlen
  have hclr : ∀ rc, IsCleared env rc → OutsideCleared env rc := by
    intro rc h i hi _
    rw [h.1, h.2.1, getD_replicate_lt _ _ _ _ hi, getD_replicate_lt _ _ _ _ hi]
    exact ⟨rfl, rfl⟩
  obtain ⟨s1', rest1', pool1', hrun', hinv1', hpred⟩ :=
    runAdds_chain_pred env hh w (OutsideCleared env) (fun c => 0 ≤ c.1)
      (fun c hg r vx vy vz _ _ hp => addLocal_outside env vx vy vz r c.1 c.2.1 c.2.2 hg hp)
      (fun par rc _ hc _ _ => hclr rc hc)
      (fun r c hp => hp)
      pre s [] pool.tail fuel hinv (fun c hc => ⟨hpre c hc, (hpre c hc).1⟩)
      (by simp; omega)
      (by
        intro b hb r' hr' i hi _
        have := hinv.2.2.2.2 b hb r' hr' i hi
        simp only [List.mem_singleton] at hb
        subst hb
        obtain ⟨hbuf, hpool, hlast⟩ := hok
        obtain ⟨r, hr, htop, hbot, _⟩ := R_NewPortalWindow_window hbuf hnew
        rw [hr] at hr'
        cases hr'
        rw [htop, hbot, getD_replicate_lt _ _ _ _ hi, getD_replicate_lt _ _ _ _ hi]
        exact ⟨rfl, rfl⟩)
  rw [hrun] at hrun'
  cases hrun'
  have hrest : rest1' = rest1 := by
    have := IsList.unique hinv1'.1 hinv1.1
    exact (List.cons.inj this).2
  subst hrest
  obtain ⟨s2, hrun2, hgrow⟩ := R_WindowAdd_grows env hh c.1 c.2.1 c.2.2 hc rest1' w s1 pool1
    fuel hinv1 (by omega) hpred
  refine ⟨s1, s2, rest1', hrun, hrun2, hinv1.1, ?_⟩
  intro b hb
  have hva := hinv1.1.valid b hb
  obtain ⟨r, hr⟩ : ∃ r, s1.windows[b]? = some r :=
    ⟨s1.windows[b], List.getElem?_eq_getElem hva⟩
  by_cases hne : r.minx ≤ r.maxx
  · obtain ⟨r', hr', hg⟩ := hgrow b hb r hr hne
    exact ⟨r, r', hr, hr', fun _ => hg⟩
  · -- the record is still there after the call
    obtain ⟨s2', rest2, pool2, hrun2', hinv2, hcase, _, _⟩ :=
      R_WindowAdd_chain env hh c.1 c.2.1 c.2.2 hc rest1' w s1 pool1 fuel hinv1 (by omega)
    rw [hrun2] at hrun2'
    cases hrun2'
    have hb2 : b ∈ w :: rest2 := by
      rcases hcase with ⟨h, _⟩ | ⟨cn, h, _⟩
      · rw [h]
        exact hb
      · rw [h]
        simp only [List.mem_cons, List.mem_append] at hb ⊢
        tauto
    have hvb := hinv2.1.valid b hb2
    exact ⟨r, s2.windows[b], hr, List.getElem?_eq_getElem hvb, fun h => absurd h hne⟩

/-- A freshly claimed window takes `(10, 20)` at column 2, a second span at
column 1 and a disjoint span at column 2, which goes to a child; then
`(15, 30)` at column 2 is merged into the first window. -/
theorem windowAdd_only_grows_witness :
    ∃ s1 s2 chain,
      runAdds narrowEnv 5 0 claimedState [(2, 10, 20), (1, 5, 6), (2, 40, 50)] = .ok s1 ∧
      R_WindowAdd narrowEnv 5 s1 (some 0) 2 15 30 = .ok s2 ∧
      IsList pwindow_t.child s1.windows (some 0) (0 :: chain) ∧
      ∀ b ∈ 0 :: chain, ∃ r r', s1.windows[b]? = some r ∧ s2.windows[b]? = some r' ∧
        (r.minx ≤ r.maxx →
          r'.minx ≤ r.minx ∧ r.maxx ≤ r'.maxx ∧
          ∀ i, i < narrowEnv.video_width → ¬ (r.top.getD i 0 > r.bottom.getD i 0) →
            r'.top.getD i 0 ≤ r.top.getD i 0 ∧ r.bottom.getD i 0 ≤ r'.bottom.getD i 0) :=
  windowAdd_only_grows narrowEnv skyboxState claimedState [] (some 0) none .pw_floor 0
    [(2, 10, 20), (1, 5, 6), (2, 40, 50)] (2, 15, 30) 5 (by decide) (by decide) (by rfl)
    (by decide) (by decide)

/-! ## The frame while the queue is built and drained -/

theorem Continues.refl (s : State) (queue : List (Nat × List Nat)) (pool : List Nat) :
    Continues s s queue queue pool pool :=
  ⟨List.prefix_refl _, fun qc hqc => ⟨qc, hqc, rfl, List.prefix_refl _⟩,
    fun a ha => by unfold allWindows; exact List.mem_append_right _ ha, fun _ _ _ _ => rfl⟩

theorem Continues.live {s s' : State} {Q Q' : List (Nat × List Nat)} {P P' : List Nat}
    (h : Continues s s' Q Q' P P') {qc : Nat × List Nat} (hqc : qc ∈ Q) {b : Nat}
    (hb : b ∈ qc.1 :: qc.2) : ∃ qc' ∈ Q', qc'.1 = qc.1 ∧ b ∈ qc'.1 :: qc'.2 := by
  obtain ⟨qc', hqc', h1, h2⟩ := h.2.1 qc hqc
  refine ⟨qc', hqc', h1, ?_⟩
  rcases List.mem_cons.mp hb with hb | hb
  · rw [hb, h1]
    exact List.mem_cons_self _ _
  · exact List.mem_cons_of_mem _ (h2.subset hb)

theorem Continues.all {s s' : State} {Q Q' : List (Nat × List Nat)} {P P' : List Nat}
    (h : Continues s s' Q Q' P P') : ∀ a ∈ allWindows Q P, a ∈ allWindows Q' P' := by
  intro a ha
  unfold allWindows at ha
  rcases List.mem_append.mp ha with ha | ha
  · obtain ⟨qc, hqc, hb⟩ := List.mem_flatMap.mp ha
    obtain ⟨qc', hqc', _, hb'⟩ := h.live hqc hb
    unfold allWindows
    exact List.mem_append_left _ (List.mem_flatMap.mpr ⟨qc', hqc', hb'⟩)
  · exact h.2.2.1 a ha

theorem Continues.comp {s s1 s2 : State} {Q Q1 Q2 : List (Nat × List Nat)}
    {P P1 P2 : List Nat} (h1 : Continues s s1 Q Q1 P P1) (h2 : Continues s1 s2 Q1 Q2 P1 P2) :
    Continues s s2 Q Q2 P P2 := by
  refine ⟨h1.1.trans h2.1, ?_, ?_, ?_⟩
  · intro qc hqc
    obtain ⟨qc1, hqc1, e1, p1⟩ := h1.2.1 qc hqc
    obtain ⟨qc2, hqc2, e2, p2⟩ := h2.2.1 qc1 hqc1
    exact ⟨qc2, hqc2, e2.trans e1, p1.trans p2⟩
  · intro a ha
    exact h2.all a (h1.2.2.1 a ha)
  · intro qc hqc b hb
    obtain ⟨qc1, hqc1, _, hb1⟩ := h1.live hqc hb
    rw [h2.2.2.2 qc1 hqc1 b hb1, h1.2.2.2 qc hqc b hb]

/-- One call of `R_WindowAdd` on a queue window of a frame: it returns, the
frame is as the window code keeps it, with the same queue windows, and
continues the frame before. -/
theorem drain_add (env : Env) (hh : 0 < env.view_height) (x : Int) (ytop ybottom : ℚ)
    (hcall : ValidCall env (x, ytop, ybottom))
    (s : State) (queue : List (Nat × List Nat)) (pool : List Nat) (W : Nat) (fuel : Nat)
    (hdrain : DrainOK env s queue pool)
    (hW : W ∈ queue.map Prod.fst) (hfuel : s.windows.length + 2 ≤ fuel) :
    ∃ s' queue' pool', R_WindowAdd env fuel s (some W) x ytop ybottom = .ok s' ∧
      DrainOK env s' queue' pool' ∧ Continues s s' queue queue' pool pool' ∧
      queue'.map Prod.fst = queue.map Prod.fst ∧
      s'.windows.length ≤ s.windows.length + 1 ∧ SameGlobals s s' := by
  obtain ⟨hframe, hheads, hports, hpc⟩ := hdrain
  obtain ⟨hq, hch, hpool, hnd, hbuf, hlast, hcols⟩ := hframe
  obtain ⟨⟨W', rest⟩, hmem, hW'⟩ := List.mem_map.mp hW
  simp only at hW'
  subst hW'
  obtain ⟨pre, post, hsplit⟩ := List.append_of_mem hmem
  subst hsplit
  rw [allWindows_split] at hnd
  obtain ⟨hA, hB, hCP⟩ := nodup_split hnd
  have hchainW := hch (W', rest) hmem
  have hinv : ChainOK env s W' rest pool :=
    ⟨hchainW, hpool, by simpa using hCP, hbuf, hcols (W', rest) hmem⟩
  have hvalidW := hchainW.valid
  have hlenW : rest.length + 1 ≤ s.windows.length := by
    have hndW : (W' :: rest).Nodup := (List.nodup_append.mp hCP).1
    have := nodup_length_le hndW hvalidW
    simpa using this
  obtain ⟨wW, hwW⟩ : ∃ w, s.windows[W']? = some w := by
    rw [IsList.cons_iff] at hchainW
    obtain ⟨_, w, hw, _⟩ := hchainW
    exact ⟨w, hw⟩
  have hpred0 : ∀ b ∈ W' :: rest, ∀ r, s.windows[b]? = some r →
      r.head = some W' ∧ r.portal = wW.portal := by
    intro b hb r hr
    refine ⟨?_, ?_⟩
    · obtain ⟨r', hr', hh'⟩ := HeadIs.iff.mp (hheads (W', rest) hmem b hb)
      rw [hr] at hr'
      cases hr'
      exact hh'
    · rcases List.mem_cons.mp hb with hb | hb
      · subst hb
        rw [hwW] at hr
        cases hr
        rfl
      · have := hports (W', rest) hmem b hb
        simp only [hr, hwW, Option.map_some', Option.some.injEq] at this
        exact this
  obtain ⟨s', rest', pool', hrun, hinv', hcase, hfr, hglob, hpred, hpoolrec⟩ :=
    R_WindowAdd_chain_pred env hh x ytop ybottom hcall
      (fun r => r.head = some W' ∧ r.portal = wW.portal)
      (fun w vx vy vz _ _ h =>
        ⟨((addLocal_fields env vx vy vz w x ytop ybottom).2.2.1).trans h.1,
         ((addLocal_fields env vx vy vz w x ytop ybottom).2.2.2.1).trans h.2⟩)
      (fun par rc h _ h2 h3 => ⟨h2.trans h.1, h3.trans h.2⟩)
      (fun w c h => h)
      rest W' s pool fuel hinv (by omega) hpred0
  obtain ⟨s'', rest'', pool'', w', hrun', _, _, hw', htop⟩ :=
    R_WindowAdd_top_record env hh x ytop ybottom hcall rest W' s pool fuel hinv (by omega)
      wW hwW
  rw [hrun] at hrun'
  cases hrun'
  have hnext : w'.next = wW.next := by
    rcases htop with ⟨_, h⟩ | ⟨_, h | ⟨c, _, h⟩⟩
    · rw [h]
      exact (addLocal_fields env _ _ _ wW x ytop ybottom).2.1
    · rw [h]
    · rw [h]
  obtain ⟨hchain', hpool', hnd', hbuf', hcols'⟩ := hinv'
  -- the windows of the other queue entries are untouched
  have hother : ∀ qc, qc ∈ pre ∨ qc ∈ post → ∀ b ∈ qc.1 :: qc.2,
      s'.windows[b]? = s.windows[b]? := by
    intro qc hqc b hb
    have hbm : b ∈ pre.flatMap (fun qc => qc.1 :: qc.2) ∨
        b ∈ post.flatMap (fun qc => qc.1 :: qc.2) := by
      rcases hqc with h | h
      · exact Or.inl (List.mem_flatMap.mpr ⟨qc, h, hb⟩)
      · exact Or.inr (List.mem_flatMap.mpr ⟨qc, h, hb⟩)
    have hqm : qc ∈ pre ++ (W', rest) :: post := by
      rcases hqc with h | h
      · exact List.mem_append_left _ h
      · exact List.mem_append_right _ (List.mem_cons_of_mem _ h)
    have hlt : b < s.windows.length := (hch qc hqm).valid b hb
    rcases hbm with h | h
    · exact hfr b (hA b h).1 (hA b h).2 hlt
    · exact hfr b (hB b h).1 (hB b h).2 hlt
  have hlen : s'.windows.length ≤ s.windows.length + 1 := by
    rcases hcase with ⟨_, _, h⟩ | ⟨c, _, _, ⟨_, h⟩ | ⟨_, _, h⟩⟩ <;> omega
  have hndall : (allWindows (pre ++ (W', rest') :: post) pool').Nodup := by
    rw [allWindows_split]
    rcases hcase with ⟨h1, h2, _⟩ | ⟨c, h1, h2, ⟨h3, _⟩ | ⟨h3, h4, _⟩⟩
    · rw [h1, h2]
      exact hnd
    · rw [h1, h2]
      cases pool with
      | nil => simp at h3
      | cons c' tl =>
        simp only [List.head?_cons, Option.some.injEq] at h3
        subst h3
        have := nodup_move hnd
        simpa using this
    · rw [h1, h2, h3]
      subst h3
      have hfresh : c ∉ pre.flatMap (fun qc => qc.1 :: qc.2) ++ ((W' :: rest) ++
          (post.flatMap (fun qc => qc.1 :: qc.2) ++ [])) := by
        intro hin
        have hlt : c < s.windows.length := by
          simp only [List.append_nil, List.mem_append, List.mem_flatMap] at hin
          rcases hin with ⟨qc, hqc, hb⟩ | hb | ⟨qc, hqc, hb⟩
          · exact (hch qc (List.mem_append_left _ hqc)).valid c hb
          · exact hvalidW c hb
          · exact (hch qc (List.mem_append_right _ (List.mem_cons_of_mem _ hqc))).valid c hb
        omega
      have := nodup_fresh hnd hfresh
      simpa using this
  have hrestpre : rest <+: rest' := by
    rcases hcase with ⟨h1, _⟩ | ⟨c, h1, _⟩
    · rw [h1]
    · rw [h1]
      exact List.prefix_append _ _
  have hpoolsub : ∀ a ∈ pool', a ∈ pool := by
    intro a ha
    rcases hcase with ⟨_, h2, _⟩ | ⟨c, _, h2, _⟩
    · rw [h2] at ha
      exact ha
    · rw [h2] at ha
      exact List.mem_of_mem_tail ha
  have hpoolin : ∀ a ∈ pool, a ∈ allWindows (pre ++ (W', rest') :: post) pool' := by
    intro a ha
    rw [allWindows_split]
    rcases hcase with ⟨_, h2, _⟩ | ⟨c, h1, h2, ⟨h3, _⟩ | ⟨h3, _⟩⟩
    · rw [h2]
      simp [ha]
    · cases pool with
      | nil => simp at h3
      | cons c' tl =>
        simp only [List.head?_cons, Option.some.injEq] at h3
        subst h3
        rw [h1, h2]
        rcases List.mem_cons.mp ha with h | h
        · simp [h]
        · simp [h]
    · rw [h3] at ha
      cases ha
  refine ⟨s', pre ++ (W', rest') :: post, pool', hrun,
    ⟨⟨?_, ?_, hpool', hndall, hbuf', ?_, ?_⟩, ?_, ?_, ?_⟩, ⟨?_, ?_, hpoolin, ?_⟩,
    by simp, hlen, hglob⟩
  · -- the queue
    have hmap : (pre ++ (W', rest') :: post).map Prod.fst =
        (pre ++ (W', rest) :: post).map Prod.fst := by simp
    rw [hmap, hglob.2.1]
    apply hq.frame
    intro a ha w hw
    by_cases haW : a = W'
    · subst haW
      rw [hwW] at hw
      cases hw
      exact ⟨w', hw', hnext⟩
    · obtain ⟨qc, hqc, hqa⟩ := List.mem_map.mp ha
      have hqc' : qc ∈ pre ∨ qc ∈ post := by
        rcases List.mem_append.mp hqc with h | h
        · exact Or.inl h
        · rcases List.mem_cons.mp h with h | h
          · subst h
            exact absurd hqa.symm haW
          · exact Or.inr h
      refine ⟨w, ?_, rfl⟩
      rw [hother qc hqc' a (by rw [← hqa]; exact List.mem_cons_self _ _), hw]
  · -- the chains
    intro qc hqc
    rcases List.mem_append.mp hqc with h | h
    · exact (hch qc (List.mem_append_left _ h)).of_agree
        (fun b hb => hother qc (Or.inl h) b hb)
    · rcases List.mem_cons.mp h with h | h
      · subst h
        exact hchain'
      · exact (hch qc (List.mem_append_right _ (List.mem_cons_of_mem _ h))).of_agree
          (fun b hb => hother qc (Or.inr h) b hb)
  · rw [hglob.2.2.1, hlast]
    simp
  · intro qc hqc b hb r hr
    rcases List.mem_append.mp hqc with h | h
    · rw [hother qc (Or.inl h) b hb] at hr
      exact hcols qc (List.mem_append_left _ h) b hb r hr
    · rcases List.mem_cons.mp h with h | h
      · subst h
        exact hcols' b hb r hr
      · rw [hother qc (Or.inr h) b hb] at hr
        exact hcols qc (List.mem_append_right _ (List.mem_cons_of_mem _ h)) b hb r hr
  · -- the head references
    intro qc hqc b hb
    rcases List.mem_append.mp hqc with h | h
    · have := hheads qc (List.mem_append_left _ h) b hb
      unfold HeadIs at this ⊢
      rw [hother qc (Or.inl h) b hb]
      exact this
    · rcases List.mem_cons.mp h with h | h
      · subst h
        rw [HeadIs.iff]
        have hlt : b < s'.windows.length := hchain'.valid b hb
        obtain ⟨r, hr⟩ : ∃ r, s'.windows[b]? = some r :=
          ⟨s'.windows[b], List.getElem?_eq_getElem hlt⟩
        exact ⟨r, hr, (hpred b hb r hr).1⟩
      · have := hheads qc (List.mem_append_right _ (List.mem_cons_of_mem _ h)) b hb
        unfold HeadIs at this ⊢
        rw [hother qc (Or.inr h) b hb]
        exact this
  · -- the portal references
    intro qc hqc b hb
    rcases List.mem_append.mp hqc with h | h
    · rw [hother qc (Or.inl h) b (List.mem_cons_of_mem _ hb),
        hother qc (Or.inl h) qc.1 (List.mem_cons_self _ _)]
      exact hports qc (List.mem_append_left _ h) b hb
    · rcases List.mem_cons.mp h with h | h
      · subst h
        have hlt : b < s'.windows.length := hchain'.valid b (List.mem_cons_of_mem _ hb)
        obtain ⟨r, hr⟩ : ∃ r, s'.windows[b]? = some r :=
          ⟨s'.windows[b], List.getElem?_eq_getElem hlt⟩
        have h1 := (hpred b (List.mem_cons_of_mem _ hb) r hr).2
        have h2 := (hpred W' (List.mem_cons_self _ _) w' hw').2
        simp only [hr, hw', Option.map_some', Option.some.injEq]
        rw [h1, h2]
      · rw [hother qc (Or.inr h) b (List.mem_cons_of_mem _ hb),
          hother qc (Or.inr h) qc.1 (List.mem_cons_self _ _)]
        exact hports qc (List.mem_append_right _ (List.mem_cons_of_mem _ h)) b hb
  · -- the free list
    intro a ha
    rw [hpoolrec a ha]
    exact hpc a (hpoolsub a ha)
  · simp
  · intro qc hqc
    rcases List.mem_append.mp hqc with h | h
    · exact ⟨qc, List.mem_append_left _ h, rfl, List.prefix_refl _⟩
    · rcases List.mem_cons.mp h with h | h
      · subst h
        exact ⟨(W', rest'), by simp, rfl, hrestpre⟩
      · exact ⟨qc, List.mem_append_right _ (List.mem_cons_of_mem _ h), rfl,
          List.prefix_refl _⟩
  · intro qc hqc b hb
    rcases List.mem_append.mp hqc with h | h
    · rw [hother qc (Or.inl h) b hb]
    · rcases List.mem_cons.mp h with h | h
      · subst h
        have hlt : b < s.windows.length := hvalidW b hb
        obtain ⟨r, hr⟩ : ∃ r, s.windows[b]? = some r :=
          ⟨s.windows[b], List.getElem?_eq_getElem hlt⟩
        have hb' : b ∈ W' :: rest' := by
          rcases List.mem_cons.mp hb with hb | hb
          · rw [hb]
            exact List.mem_cons_self _ _
          · exact List.mem_cons_of_mem _ (hrestpre.subset hb)
        have hlt' : b < s'.windows.length := hchain'.valid b hb'
        obtain ⟨r', hr'⟩ : ∃ r', s'.windows[b]? = some r' :=
          ⟨s'.windows[b], List.getElem?_eq_getElem hlt'⟩
        simp only [hr, hr', Option.map_some', Option.some.injEq]
        rw [(hpred b hb' r' hr').2, (hpred0 b hb r hr).2]
      · rw [hother qc (Or.inr h) b hb]

theorem SameGlobals.rfl' (s : State) : SameGlobals s s :=
  ⟨rfl, rfl, rfl, rfl, rfl, rfl, rfl, rfl, rfl, rfl, rfl, rfl⟩

theorem SameGlobals.trans' {s s1 s2 : State} (h1 : SameGlobals s s1) (h2 : SameGlobals s1 s2) :
    SameGlobals s s2 := by
  obtain ⟨a1, a2, a3, a4, a5, a6, a7, a8, a9, a10, a11, a12⟩ := h1
  obtain ⟨b1, b2, b3, b4, b5, b6, b7, b8, b9, b10, b11, b12⟩ := h2
  exact ⟨b1.trans a1, b2.trans a2, b3.trans a3, b4.trans a4, b5.trans a5, b6.trans a6,
    b7.trans a7, b8.trans a8, b9.trans a9, b10.trans a10, b11.trans a11, b12.trans a12⟩

/-- A sequence of calls of `R_WindowAdd` on a queue window of a frame. -/
theorem drain_adds (env : Env) (hh : 0 < env.view_height) (W : Nat) (fuel : Nat) :
    ∀ (calls : List (Int × ℚ × ℚ)) (s : State) (queue : List (Nat × List Nat))
      (pool : List Nat),
      DrainOK env s queue pool → W ∈ queue.map Prod.fst →
      (∀ c ∈ calls, ValidCall env c) → s.windows.length + calls.length + 1 ≤ fuel →
      ∃ s' queue' pool', runAdds env fuel W s calls = .ok s' ∧
        DrainOK env s' queue' pool' ∧ Continues s s' queue queue' pool pool' ∧
        queue'.map Prod.fst = queue.map Prod.fst ∧
        s'.windows.length ≤ s.windows.length + calls.length ∧ SameGlobals s s' := by
  intro calls
  induction calls with
  | nil =>
    intro s queue pool hf _ _ _
    exact ⟨s, queue, pool, rfl, hf, Continues.refl _ _ _, rfl, by simp, SameGlobals.rfl' s⟩
  | cons c cs ih =>
    intro s queue pool hf hW hv hfuel
    simp only [List.length_cons] at hfuel
    obtain ⟨s1, q1, p1, hrun1, hf1, hc1, hm1, hl1, hg1⟩ :=
      drain_add env hh c.1 c.2.1 c.2.2 (hv c (List.mem_cons_self _ _)) s queue pool W fuel
        hf hW (by omega)
    obtain ⟨s2, q2, p2, hrun2, hf2, hc2, hm2, hl2, hg2⟩ :=
      ih s1 q1 p1 hf1 (by rw [hm1]; exact hW)
        (fun c' hc' => hv c' (List.mem_cons_of_mem _ hc')) (by omega)
    refine ⟨s2, q2, p2, ?_, hf2, hc1.comp hc2, hm2.trans hm1, ?_, hg1.trans' hg2⟩
    · simp only [runAdds, hrun1]
      exact hrun2
    · simp only [List.length_cons]
      omega

/-- The common text of the three `R_Get*PortalWindow` functions on a frame, for
a valid portal: it returns a queue window, the frame is as the window code
keeps it and continues the frame before. -/
theorem drain_claim_core {env : Env} {s : State} {queue : List (Nat × List Nat)}
    {pool : List Nat} {p l : Ptr} {t : pwindowtype_e} {i : Nat} {pr : portal_t} {fuel : Nat}
    (test : pwindow_t → Bool)
    (hdrain : DrainOK env s queue pool)
    (hp : p = some i) (hpr : s.portals[i]? = some pr)
    (hfuel : s.windows.length + 1 < fuel) :
    ∃ w s' queue' pool',
      (do
        match ← findWindow s test fuel s.windowhead with
        | some rover => .ok (rover, s)
        | none => R_NewPortalWindow env s p l t) = Except.ok (w, s') ∧
      DrainOK env s' queue' pool' ∧ Continues s s' queue queue' pool pool' ∧
      w ∈ queue'.map Prod.fst ∧
      s'.windows.length ≤ s.windows.length + 1 ∧ s'.portals = s.portals ∧
      s'.trace = s.trace := by
  obtain ⟨hframe, hheads, hports, hpc⟩ := hdrain
  have hqok := hframe.queueOK
  have hvalid := hframe.addresses_valid
  have hql := hframe.queue_length
  obtain ⟨hq, hch, hpool, hnd, hbuf, hlast, hcols⟩ := hframe
  have hfind := findWindow_spec s test (queue.map Prod.fst) fuel s.windowhead hq
    (by simp; omega)
  cases hm : firstMatch s test (queue.map Prod.fst) with
  | some a =>
    obtain ⟨haQ, _⟩ := firstMatch_some hm
    refine ⟨a, s, queue, pool, ?_, ⟨⟨hq, hch, hpool, hnd, hbuf, hlast, hcols⟩, hheads, hports,
      hpc⟩, Continues.refl _ _ _, haQ, by omega, rfl, rfl⟩
    rw [hfind, hm]
    rfl
  | none =>
    obtain ⟨c, s', hnew, hq', hcQ, hcase, ⟨rc, hrc, hclr, _, _, _, hhead, _, _⟩, hsame, hlst,
      hport, htrace, _⟩ := R_NewPortalWindow_queue (l := l) (t := t) hqok hp hpr
    obtain ⟨hbuf', hlist', hlast', hpool', hnd'⟩ := hq'
    have hcfresh : c ∉ queue.flatMap (fun qc => qc.1 :: qc.2) := by
      intro hin
      rcases hcase with ⟨h1, _⟩ | ⟨_, h1, _⟩
      · cases pool with
        | nil => simp at h1
        | cons c' tl =>
          simp only [List.head?_cons, Option.some.injEq] at h1
          subst h1
          unfold allWindows at hnd
          exact (List.nodup_append.mp hnd).2.2 hin (List.mem_cons_self _ _)
      · have := hvalid c (by unfold allWindows; exact List.mem_append_left _ hin)
        omega
    -- what the claim keeps of the records of the windows in use
    have hkeep : ∀ qc ∈ queue, ∀ b ∈ qc.1 :: qc.2, ∀ r, s.windows[b]? = some r →
        ∃ r', s'.windows[b]? = some r' ∧ r'.child = r.child ∧ r'.head = r.head ∧
          r'.top = r.top ∧ r'.bottom = r.bottom ∧ r'.portal = r.portal := by
      intro qc hqc b hb r hr
      have hbc : b ≠ c := by
        rintro rfl
        exact hcfresh (List.mem_flatMap.mpr ⟨qc, hqc, hb⟩)
      by_cases hbl : (queue.map Prod.fst).getLast? = some b
      · obtain ⟨r0, hr0, hr0'⟩ := hlst b hbl
        rw [hr] at hr0
        cases hr0
        exact ⟨_, hr0', rfl, rfl, rfl, rfl, rfl⟩
      · exact ⟨r, by rw [hsame b hbc hbl, hr], rfl, rfl, rfl, rfl, rfl⟩
    have hrec : ∀ qc ∈ queue, ∀ b ∈ qc.1 :: qc.2, ∃ r, s.windows[b]? = some r := by
      intro qc hqc b hb
      have hlt : b < s.windows.length := (hch qc hqc).valid b hb
      exact ⟨s.windows[b], List.getElem?_eq_getElem hlt⟩
    have hportal : ∀ qc ∈ queue, ∀ b ∈ qc.1 :: qc.2,
        (s'.windows[b]?).map pwindow_t.portal = (s.windows[b]?).map pwindow_t.portal := by
      intro qc hqc b hb
      obtain ⟨r, hr⟩ := hrec qc hqc b hb
      obtain ⟨r', hr', _, _, _, _, hp'⟩ := hkeep qc hqc b hb r hr
      rw [hr, hr']
      simp [hp']
    have hlen : s'.windows.length ≤ s.windows.length + 1 := by
      rcases hcase with ⟨_, h⟩ | ⟨_, _, h⟩ <;> omega
    have hndall : (allWindows (queue ++ [(c, [])]) pool.tail).Nodup := by
      rcases hcase with ⟨h1, _⟩ | ⟨h1, h2, _⟩
      · cases pool with
        | nil => simp at h1
        | cons c' tl =>
          simp only [List.head?_cons, Option.some.injEq] at h1
          subst h1
          unfold allWindows at hnd ⊢
          simpa [List.flatMap_append] using hnd
      · subst h1
        unfold allWindows at hnd ⊢
        simp only [List.append_nil, List.tail_nil, List.flatMap_append, List.flatMap_cons,
          List.flatMap_nil] at hnd ⊢
        rw [List.nodup_append]
        refine ⟨hnd, by simp, ?_⟩
        intro a ha hac
        simp only [List.mem_singleton] at hac
        subst hac
        exact hcfresh ha
    refine ⟨c, s', queue ++ [(c, [])], pool.tail, ?_,
      ⟨⟨?_, ?_, hpool', hndall, hbuf', ?_, ?_⟩, ?_, ?_, ?_⟩, ⟨?_, ?_, ?_, hportal⟩,
      by simp, hlen, hport, htrace⟩
    · rw [hfind, hm]
      exact hnew
    · simpa using hlist'
    · intro qc hqc
      rcases List.mem_append.mp hqc with h | h
      · apply (hch qc h).frame
        intro b hb r hr
        obtain ⟨r', hr', hc', _⟩ := hkeep qc h b hb r hr
        exact ⟨r', hr', hc'⟩
      · simp only [List.mem_singleton] at h
        subst h
        rw [IsList.cons_iff]
        refine ⟨rfl, rc, hrc, ?_⟩
        rw [IsList.nil_iff]
        exact hclr.2.2.2.2.1
    · simpa using hlast'
    · intro qc hqc b hb r hr
      rcases List.mem_append.mp hqc with h | h
      · obtain ⟨r0, hr0⟩ := hrec qc h b hb
        obtain ⟨r', hr', _, _, ht, hbt, _⟩ := hkeep qc h b hb r0 hr0
        rw [hr] at hr'
        cases hr'
        have := hcols qc h b hb r0 hr0
        unfold ColsOK at this ⊢
        rw [ht, hbt]
        exact this
      · simp only [List.mem_singleton] at h
        subst h
        simp only [List.mem_singleton] at hb
        subst hb
        rw [hrc] at hr
        cases hr
        exact colsOK_of_cleared hclr
    · intro qc hqc b hb
      rw [HeadIs.iff]
      rcases List.mem_append.mp hqc with h | h
      · obtain ⟨r0, hr0, hh0⟩ := HeadIs.iff.mp (hheads qc h b hb)
        obtain ⟨r', hr', _, hhd, _⟩ := hkeep qc h b hb r0 hr0
        exact ⟨r', hr', hhd.trans hh0⟩
      · simp only [List.mem_singleton] at h
        subst h
        simp only [List.mem_singleton] at hb
        subst hb
        exact ⟨rc, hrc, hhead⟩
    · -- the portal references
      intro qc hqc b hb
      rcases List.mem_append.mp hqc with h | h
      · rw [hportal qc h b (List.mem_cons_of_mem _ hb),
          hportal qc h qc.1 (List.mem_cons_self _ _)]
        exact hports qc h b hb
      · simp only [List.mem_singleton] at h
        subst h
        cases hb
    · -- the free list
      intro a ha
      have hap : a ∈ pool := List.mem_of_mem_tail ha
      have hac : a ≠ c := by
        rintro rfl
        rcases hcase with ⟨h1, _⟩ | ⟨h1, _⟩
        · cases pool with
          | nil => simp at h1
          | cons c' tl =>
            simp only [List.head?_cons, Option.some.injEq] at h1
            subst h1
            simp only [List.tail_cons] at ha
            exact (List.nodup_cons.mp hpool.2).1 ha
        · rw [h1] at hap
          cases hap
      have hal : (queue.map Prod.fst).getLast? ≠ some a := by
        intro hl
        have hin : a ∈ queue.map Prod.fst := List.mem_of_getLast?_eq_some hl
        have hnd2 := hnd.sublist (queue_sublist queue pool)
        exact (List.nodup_append.mp hnd2).2.2 hin hap
      rw [hsame a hac hal]
      exact hpc a hap
    · simp
    · intro qc hqc
      exact ⟨qc, List.mem_append_left _ hqc, rfl, List.prefix_refl _⟩
    · intro a ha
      unfold allWindows
      rcases hcase with ⟨h1, _⟩ | ⟨h1, _⟩
      · cases pool with
        | nil => simp at h1
        | cons c' tl =>
          simp only [List.head?_cons, Option.some.injEq] at h1
          subst h1
          rcases List.mem_cons.mp ha with h | h
          · simp [h]
          · simp [h]
      · rw [h1] at ha
        cases ha

/-- A claim on a frame, for a valid portal. -/
theorem drain_claim (env : Env) (fuel : Nat) (s : State) (queue : List (Nat × List Nat))
    (pool : List Nat) (c : ClaimCall) (i : Nat) (pr : portal_t)
    (hdrain : DrainOK env s queue pool)
    (hp : c.portal = some i) (hpr : s.portals[i]? = some pr)
    (hfuel : s.windows.length + 1 < fuel) :
    ∃ w s' queue' pool', applyClaim env fuel s c = .ok (w, s') ∧
      DrainOK env s' queue' pool' ∧ Continues s s' queue queue' pool pool' ∧
      w ∈ queue'.map Prod.fst ∧
      s'.windows.length ≤ s.windows.length + 1 ∧ s'.portals = s.portals ∧
      s'.trace = s.trace := by
  cases c with
  | floor p =>
    exact drain_claim_core (l := none) (t := .pw_floor) _ hdrain hp hpr hfuel
  | ceiling p =>
    exact drain_claim_core (l := none) (t := .pw_ceiling) _ hdrain hp hpr hfuel
  | line p l =>
    exact drain_claim_core (l := l) (t := .pw_line) _ hdrain hp hpr hfuel

/-- The use the traversal makes of the window code, on a frame: claims for
valid portals and calls of `R_WindowAdd` that pass the input checks return and
leave a frame that continues the frame before. -/
theorem drain_frame (env : Env) (hh : 0 < env.view_height) (fuel : Nat) :
    ∀ (ops : List (ClaimCall × List (Int × ℚ × ℚ))) (s : State)
      (queue : List (Nat × List Nat)) (pool : List Nat),
      DrainOK env s queue pool →
      (∀ op ∈ ops, (∃ i pr, op.1.portal = some i ∧ s.portals[i]? = some pr) ∧
        ∀ c ∈ op.2, ValidCall env c) →
      s.windows.length + opCount ops + 2 ≤ fuel →
      ∃ s' queue' pool', runFrame env fuel s ops = .ok s' ∧
        DrainOK env s' queue' pool' ∧ Continues s s' queue queue' pool pool' ∧
        s'.portals = s.portals ∧ s'.trace = s.trace := by
  intro ops
  induction ops with
  | nil =>
    intro s queue pool hd _ _
    exact ⟨s, queue, pool, rfl, hd, Continues.refl _ _ _, rfl, rfl⟩
  | cons op ops ih =>
    intro s queue pool hd hvalid hfuel
    have hcount : opCount (op :: ops) = op.2.length + 1 + opCount ops := by
      simp [opCount]
    rw [hcount] at hfuel
    obtain ⟨⟨i, pr, hp, hpr⟩, hcalls⟩ := hvalid op (List.mem_cons_self _ _)
    obtain ⟨w, s1, q1, p1, hclaim, hd1, hc1, hw1, hl1, hp1, ht1⟩ :=
      drain_claim env fuel s queue pool op.1 i pr hd hp hpr (by omega)
    obtain ⟨s2, q2, p2, hadds, hd2, hc2, _, hl2, hg2⟩ :=
      drain_adds env hh w fuel op.2 s1 q1 p1 hd1 hw1 hcalls (by omega)
    obtain ⟨s', q', p', hrun, hd', hc', hp', ht'⟩ := ih s2 q2 p2 hd2
      (fun op' hop' => by
        obtain ⟨⟨i', pr', h1, h2⟩, h3⟩ := hvalid op' (List.mem_cons_of_mem _ hop')
        exact ⟨⟨i', pr', h1, by rw [hg2.1, hp1]; exact h2⟩, h3⟩)
      (by omega)
    refine ⟨s', q', p', ?_, hd', (hc1.comp hc2).comp hc', ?_, ?_⟩
    · simp only [runFrame, hclaim, hadds]
      exact hrun
    · rw [hp', hg2.1, hp1]
    · rw [ht', hg2.2.2.2.2.2.2.2.2.2.2.2, ht1]

theorem claimsValid_spec {s : State} {ops : List (ClaimCall × List (Int × ℚ × ℚ))}
    (h : claimsValid s ops = true) :
    ∀ op ∈ ops, ∃ i pr, op.1.portal = some i ∧ s.portals[i]? = some pr := by
  intro op hop
  unfold claimsValid at h
  rw [List.all_eq_true] at h
  have := h op hop
  cases hp : op.1.portal with
  | none => simp [hp] at this
  | some i =>
    simp only [hp, decide_eq_true_eq] at this
    exact ⟨i, s.portals[i], rfl, List.getElem?_eq_getElem this⟩

/-- The traversal of `claimingExt` keeps the frame: the frame it leaves is as the
window code keeps it and continues the frame before; the portals and the
record of calls are untouched. -/
theorem claimingExt_bsp (env : Env) (hh : 0 < env.view_height)
    (ops : List (ClaimCall × List (Int × ℚ × ℚ)))
    (hvalid : ∀ op ∈ ops, ∀ c ∈ op.2, ValidCall env c)
    (st : State) (Q : List (Nat × List Nat)) (P : List Nat) (hd : DrainOK env st Q P) :
    ∃ Q' P', DrainOK env ((claimingExt env ops).R_RenderBSPNode st) Q' P' ∧
      Continues st ((claimingExt env ops).R_RenderBSPNode st) Q Q' P P' ∧
      ((claimingExt env ops).R_RenderBSPNode st).portals = st.portals ∧
      ((claimingExt env ops).R_RenderBSPNode st).trace = st.trace := by
  show ∃ Q' P', DrainOK env (if claimsValid st ops = true then
        match runFrame env (st.windows.length + opCount ops + 2) st ops with
        | .ok s' => s'
        | .error _ => st
      else st) Q' P' ∧
      Continues st (if claimsValid st ops = true then
        match runFrame env (st.windows.length + opCount ops + 2) st ops with
        | .ok s' => s'
        | .error _ => st
      else st) Q Q' P P' ∧
      (if claimsValid st ops = true then
        match runFrame env (st.windows.length + opCount ops + 2) st ops with
        | .ok s' => s'
        | .error _ => st
      else st).portals = st.portals ∧
      (if claimsValid st ops = true then
        match runFrame env (st.windows.length + opCount ops + 2) st ops with
        | .ok s' => s'
        | .error _ => st
      else st).trace = st.trace
  by_cases hc : claimsValid st ops = true
  · rw [if_pos hc]
    obtain ⟨s', Q', P', hrun, hd', hcont, hp, ht⟩ :=
      drain_frame env hh _ ops st Q P hd
        (fun op hop => ⟨claimsValid_spec hc op hop, hvalid op hop⟩) (le_refl _)
    rw [hrun]
    exact ⟨Q', P', hd', hcont, hp, ht⟩
  · rw [if_neg hc]
    exact ⟨Q, P, hd, Continues.refl _ _ _, rfl, rfl⟩

theorem buffersOK_setWindow_same {env : Env} {s : State} (h : BuffersOK env s) (a : Nat)
    (f : pwindow_t → pwindow_t) (hf : ∀ w, (f w).top = w.top ∧ (f w).bottom = w.bottom) :
    BuffersOK env (setWindow s a f) := by
  apply BuffersOK.setWindow h
  intro w hw
  rw [(hf w).1, (hf w).2]
  exact h.get hw

theorem buffersOK_freeStep {env : Env} {s : State} (h : BuffersOK env s) (a : Nat) (p : Ptr) :
    BuffersOK env (setWindow (setUnusedhead (setWindow s a (fun r => { r with next := p }))
      (some a)) a (fun r => { r with child := none })) := by
  have h1 : BuffersOK env (setWindow s a (fun r => { r with next := p })) :=
    buffersOK_setWindow_same h a _ (fun _ => ⟨rfl, rfl⟩)
  have h2 : BuffersOK env (setUnusedhead (setWindow s a (fun r => { r with next := p }))
      (some a)) := fun w hw => h1 w hw
  exact buffersOK_setWindow_same h2 a _ (fun _ => ⟨rfl, rfl⟩)

theorem freeChildren_buffers (env : Env) : ∀ (fuel : Nat) (s : State) (p : Ptr) (s' : State),
    freeChildren fuel s p = .ok s' → BuffersOK env s → BuffersOK env s' := by
  intro fuel
  induction fuel with
  | zero =>
    intro s p s' h
    simp [freeChildren] at h
  | succ f ih =>
    intro s p s' h hb
    cases p with
    | none =>
      simp only [freeChildren, Except.ok.injEq] at h
      subst h
      exact hb
    | some a =>
      rw [freeChildren] at h
      split at h
      · cases h
      · exact ih _ _ _ h (buffersOK_freeStep hb a _)

/-- The freeing part of a turn leaves the column buffers at their width. -/
theorem freeHeadWindow_buffers (env : Env) {s s1 : State} (h : freeHeadWindow s = .ok s1)
    (hb : BuffersOK env s) : BuffersOK env s1 := by
  unfold freeHeadWindow at h
  split at h
  · cases h
  · split at h
    · cases h
    · split at h
      · cases h
      · rename_i s' hfree
        split at h
        · cases h
        · cases h
          have h1 := freeChildren_buffers env _ _ _ _ hfree hb
          intro w hw
          exact buffersOK_freeStep h1 _ _ w hw

theorem DrainOK.listsOK {env : Env} {s : State} {Q : List (Nat × List Nat)} {P : List Nat}
    (h : DrainOK env s Q P) : ListsOK s Q P :=
  ⟨h.1.1, h.1.2.1, h.1.2.2.1.1, h.1.2.2.2.1, h.2.2.2⟩

/-- The invariant of the drain only reads the window store, the list heads and
`windowlast`. -/
theorem DrainOK.same {env : Env} {s s' : State} (h : SameWindows s s')
    {Q : List (Nat × List Nat)} {P : List Nat} (hok : DrainOK env s Q P) :
    DrainOK env s' Q P := by
  obtain ⟨h1, h2, h3, h4⟩ := h
  unfold DrainOK FrameOK PoolOK BuffersOK HeadsOK HeadIs PortalsOK at hok ⊢
  rw [h1, h2, h3, h4]
  exact hok

theorem setWindowlast_self (s : State) : setWindowlast s s.windowlast = s := rfl

/-- The freeing part of one turn of `R_RenderPortals` on a frame: it returns,
the head window and its chain are on the free list, the rest of the queue is
the new queue, and the frame is as the window code keeps it, except that
`windowlast` still points to the freed window when the queue is empty. -/
theorem drain_free (env : Env) (s : State) (hd : Nat) (c : List Nat)
    (Q : List (Nat × List Nat)) (P : List Nat) (h : DrainOK env s ((hd, c) :: Q) P) :
    ∃ s', freeHeadWindow s = .ok s' ∧
      DrainOK env (setWindowlast s' (Q.map Prod.fst).getLast?) Q (hd :: c.reverse ++ P) ∧
      (Q ≠ [] → s'.windowlast = (Q.map Prod.fst).getLast?) ∧
      s'.portals = s.portals ∧ s'.trace = s.trace := by
  obtain ⟨s', hfree, hok', hport, hlast', _, _, _, _, _, htrace, hkeep⟩ :=
    freeHeadWindow_spec s hd c Q P h.listsOK
  obtain ⟨⟨hq, hch, hpool, hnd, hbuf, hlast, hcols⟩, hheads, hports, hpc⟩ := h
  have hQdisj : ∀ qc ∈ Q, ∀ b ∈ qc.1 :: qc.2, b ∉ hd :: c := by
    intro qc hqc b hb hbad
    have hbQ : b ∈ Q.flatMap (fun qc => qc.1 :: qc.2) :=
      List.mem_flatMap.mpr ⟨qc, hqc, hb⟩
    simp only [allWindows, List.flatMap_cons, List.append_assoc] at hnd
    exact (List.nodup_append.mp hnd).2.2 hbad (List.mem_append_left _ hbQ)
  have hrec : ∀ qc ∈ Q, ∀ b ∈ qc.1 :: qc.2, s'.windows[b]? = s.windows[b]? :=
    fun qc hqc b hb => hkeep b (hQdisj qc hqc b hb)
  obtain ⟨l1, l2, l3, l4, l5⟩ := hok'
  refine ⟨s', hfree, ⟨⟨?_, ?_, ⟨?_, ?_⟩, l4, ?_, ?_, ?_⟩, ?_, ?_, ?_⟩, ?_, hport, htrace⟩
  · simpa using l1
  · simpa using l2
  · simpa using l3
  · have hsub : (hd :: c.reverse ++ P).Sublist (allWindows Q (hd :: c.reverse ++ P)) := by
      unfold allWindows
      exact List.sublist_append_right _ _
    exact l4.sublist hsub
  · intro w hw
    exact freeHeadWindow_buffers env hfree hbuf w hw
  · simp
  · intro qc hqc b hb r hr
    simp only [setWindowlast_fields] at hr
    rw [hrec qc hqc b hb] at hr
    exact hcols qc (List.mem_cons_of_mem _ hqc) b hb r hr
  · intro qc hqc b hb
    have := hheads qc (List.mem_cons_of_mem _ hqc) b hb
    unfold HeadIs at this ⊢
    simp only [setWindowlast_fields]
    rw [hrec qc hqc b hb]
    exact this
  · intro qc hqc b hb
    simp only [setWindowlast_fields]
    rw [hrec qc hqc b (List.mem_cons_of_mem _ hb), hrec qc hqc qc.1 (List.mem_cons_self _ _)]
    exact hports qc (List.mem_cons_of_mem _ hqc) b hb
  · simpa using l5
  · intro hne
    rw [hlast', hlast]
    cases Q with
    | nil => exact absurd rfl hne
    | cons qc Q => simp [List.getLast?_cons_cons]

/-- One run of `R_RenderPortals` from a frame, when the collaborators keep the
frame and drop no window: the windows `U` that were on the lists at the start
are on the free list at the end. -/
theorem R_RenderPortals_drain (env : Env) (ext : Ext) (rfuel : Nat) (U : List Nat)
    (hbsp : ∀ st Q P, DrainOK env st Q P →
      ∃ Q' P', DrainOK env (ext.R_RenderBSPNode st) Q' P' ∧
        ∀ a ∈ allWindows Q P, a ∈ allWindows Q' P')
    (hpost : ∀ b o st Q P, DrainOK env st Q P →
      ∃ Q' P', DrainOK env (ext.R_PushPost b o st) Q' P' ∧
        ∀ a ∈ allWindows Q P, a ∈ allWindows Q' P') :
    ∀ (fuel : Nat) (s s' : State) (Q : List (Nat × List Nat)) (P : List Nat),
      DrainOK env (setWindowlast s (Q.map Prod.fst).getLast?) Q P →
      (Q ≠ [] → s.windowlast = (Q.map Prod.fst).getLast?) →
      (∀ a ∈ U, a ∈ allWindows Q P) →
      R_RenderPortals env ext rfuel fuel s = .ok s' →
      s'.windowhead = none ∧ s'.windowlast = none ∧
      ∃ P', DrainOK env s' [] P' ∧ ∀ a ∈ U, a ∈ P' := by
  have hI : ∀ st st', SameWindows st st' →
      (∃ Q P, DrainOK env st Q P ∧ ∀ a ∈ U, a ∈ allWindows Q P) →
      (∃ Q P, DrainOK env st' Q P ∧ ∀ a ∈ U, a ∈ allWindows Q P) := by
    rintro st st' hs ⟨Q, P, h1, h2⟩
    exact ⟨Q, P, h1.same hs, h2⟩
  have hIbsp : ∀ st, (∃ Q P, DrainOK env st Q P ∧ ∀ a ∈ U, a ∈ allWindows Q P) →
      (∃ Q P, DrainOK env (ext.R_RenderBSPNode st) Q P ∧ ∀ a ∈ U, a ∈ allWindows Q P) := by
    rintro st ⟨Q, P, h1, h2⟩
    obtain ⟨Q', P', h3, h4⟩ := hbsp st Q P h1
    exact ⟨Q', P', h3, fun a ha => h4 a (h2 a ha)⟩
  have hIpost : ∀ b o st, (∃ Q P, DrainOK env st Q P ∧ ∀ a ∈ U, a ∈ allWindows Q P) →
      (∃ Q P, DrainOK env (ext.R_PushPost b o st) Q P ∧ ∀ a ∈ U, a ∈ allWindows Q P) := by
    rintro b o st ⟨Q, P, h1, h2⟩
    obtain ⟨Q', P', h3, h4⟩ := hpost b o st Q P h1
    exact ⟨Q', P', h3, fun a ha => h4 a (h2 a ha)⟩
  intro fuel
  induction fuel with
  | zero =>
    intro s s' Q P _ _ _ h
    simp [R_RenderPortals] at h
  | succ f ih =>
    intro s s' Q P hok hlast hU h
    unfold R_RenderPortals at h
    split at h
    · rename_i hhead
      cases h
      simp only [setWindowlast_fields]
      have hq := hok.1.1
      simp only [setWindowlast_fields] at hq
      rw [hhead] at hq
      cases Q with
      | nil =>
        refine ⟨hhead, hhead, P, ?_, ?_⟩
        · rw [hhead]
          exact hok
        · simpa [allWindows] using hU
      | cons qc Q =>
        simp only [List.map_cons] at hq
        rw [IsList.cons_iff] at hq
        cases hq.1
    · rename_i hd hhead
      split at h
      · cases h
      · rename_i s4 hturn
        have hne : Q ≠ [] := by
          rintro rfl
          have hq := hok.1.1
          simp only [setWindowlast_fields, List.map_nil] at hq
          rw [IsList.nil_iff, hhead] at hq
          cases hq
        have hoks : DrainOK env s Q P := by
          rw [← hlast hne, setWindowlast_self] at hok
          exact hok
        obtain ⟨s3, ⟨Q3, P3, hok3, hU3⟩, hfree⟩ := renderWindowhead_inv env ext rfuel _ hI hIbsp
          hIpost s hd s4 hturn ⟨Q, P, hoks, hU⟩
        cases Q3 with
        | nil =>
          have hq := hok3.1.1
          rw [List.map_nil, IsList.nil_iff] at hq
          unfold freeHeadWindow at hfree
          rw [hq] at hfree
          cases hfree
        | cons qc Q3 =>
          obtain ⟨hd3, c3⟩ := qc
          obtain ⟨s4', hfree', hok4, hlast4, _⟩ := drain_free env _ hd3 c3 Q3 P3 hok3
          rw [hfree] at hfree'
          cases hfree'
          exact ih s4 s' Q3 _ hok4 hlast4
            (fun a ha => (mem_allWindows_cons a hd3 c3 Q3 P3).mp (hU3 a ha)) h

/-! ## Pool integrity -/

/-- C7. Pool integrity. Take a frame as the window code keeps it (`DrainOK`): a
frame queue of top-level windows with `windowlast` the last of them, each
with its own child chain (`queue` lists every queue window with its chain), and
a free list `pool`, no window twice, pooled windows without child. Let the
collaborators (world traversal and overlay push) keep such a frame and drop no
window; a traversal that claims windows and adds columns through the window
code does (`claimingExt_bsp`). Then whenever `R_RenderPortals` returns,
`windowhead` and `windowlast` are null; the free list is a proper list without
repetition; every window that was in the queue, on a child chain or in the
pool occurs in it exactly once; and every pooled window has a null child
pointer. -/
theorem renderPortals_pool_integrity (env : Env) (ext : Ext) (rfuel fuel : Nat)
    (s s' : State) (queue : List (Nat × List Nat)) (pool : List Nat)
    (hbsp : ∀ st Q P, DrainOK env st Q P →
      ∃ Q' P', DrainOK env (ext.R_RenderBSPNode st) Q' P' ∧
        ∀ a ∈ allWindows Q P, a ∈ allWindows Q' P')
    (hpost : ∀ b o st Q P, DrainOK env st Q P →
      ∃ Q' P', DrainOK env (ext.R_PushPost b o st) Q' P' ∧
        ∀ a ∈ allWindows Q P, a ∈ allWindows Q' P')
    (hok : DrainOK env s queue pool)
    (hrun : R_RenderPortals env ext rfuel fuel s = .ok s') :
    s'.windowhead = none ∧ s'.windowlast = none ∧
    ∃ pool', IsList pwindow_t.next s'.windows s'.unusedhead pool' ∧ pool'.Nodup ∧
      (∀ a ∈ allWindows queue pool, pool'.count a = 1) ∧
      (∀ a ∈ pool, a ∈ pool') ∧
      (∀ a ∈ pool', (s'.windows[a]?).bind pwindow_t.child = none) := by
  have hlast : s.windowlast = (queue.map Prod.fst).getLast? := hok.1.2.2.2.2.2.1
  obtain ⟨h1, h2, P', hok', hU⟩ := R_RenderPortals_drain env ext rfuel (allWindows queue pool)
    hbsp hpost fuel s s' queue pool (by rw [← hlast]; exact hok) (fun _ => hlast)
    (fun _ h => h) hrun
  obtain ⟨_, _, hl, hnd, hchild⟩ := hok'.listsOK
  have hnd' : P'.Nodup := by simpa [allWindows] using hnd
  refine ⟨h1, h2, P', hl, hnd', ?_, ?_, hchild⟩
  · intro a ha
    exact List.count_eq_one_of_mem hnd' (hU a ha)
  · intro a ha
    exact hU a (by simp [allWindows, ha])

/-- The sample frame, with a traversal that claims a line window while the
queue is drained: the two queue windows, the child of the first and the window
claimed during the drain (the store has four windows at the end) are all on
the free list after `R_RenderPortals`. -/
theorem renderPortals_pool_integrity_witness :
    DrainOK narrowEnv twoWindowState [(0, [1]), (2, [])] [] ∧
    R_RenderPortals narrowEnv (claimingExt narrowEnv lineClaimOps) 3 5 twoWindowState =
      .ok claimDrainedState ∧
    twoWindowState.windows.length = 3 ∧ claimDrainedState.windows.length = 4 ∧
    IsList pwindow_t.next claimDrainedState.windows claimDrainedState.unusedhead
      [3, 2, 0, 1] ∧
    claimDrainedState.windowhead = none ∧ claimDrainedState.windowlast = none ∧
    ∃ pool', IsList pwindow_t.next claimDrainedState.windows claimDrainedState.unusedhead
        pool' ∧ pool'.Nodup ∧
      (∀ a ∈ allWindows [(0, [1]), (2, [])] [], pool'.count a = 1) ∧
      (∀ a ∈ ([] : List Nat), a ∈ pool') ∧
      (∀ a ∈ pool', (claimDrainedState.windows[a]?).bind pwindow_t.child = none) :=
  ⟨by decide, by rfl, by decide, by decide, by decide,
    renderPortals_pool_integrity narrowEnv (claimingExt narrowEnv lineClaimOps) 3 5
      twoWindowState claimDrainedState [(0, [1]), (2, [])] []
      (fun st Q P h =>
        match claimingExt_bsp narrowEnv (by decide) lineClaimOps (by decide) st Q P h with
        | ⟨Q', P', h1, h2, _⟩ => ⟨Q', P', h1, h2.all⟩)
      (fun _ _ st Q P h => ⟨Q, P, h, fun _ ha => ha⟩)
      (by decide) (by rfl)⟩

/-! ## What a render strategy does to the state, step by step -/

theorem pushPost_rel (ext : Ext) (R : State → State → Prop)
    (htrans : ∀ a b c, R a b → R b c → R a c)
    (hprim : ∀ s s', SameWindows s s' → s'.portals = s.portals → s.trace <+: s'.trace → R s s')
    (hpost : ∀ b o s, R s (ext.R_PushPost b o s))
    (b : Bool) (o : Option planehash_t) (s : State) : R s (pushPost ext b o s) := by
  unfold pushPost
  exact htrans _ _ _ (hprim s (logEvent s (.R_PushPost b o)) (by simp [SameWindows]) (by simp)
    (by simp)) (hpost _ _ _)

theorem renderThroughSkybox_rel (ext : Ext) (R : State → State → Prop)
    (htrans : ∀ a b c, R a b → R b c → R a c)
    (hprim : ∀ s s', SameWindows s s' → s'.portals = s.portals → s.trace <+: s'.trace → R s s')
    (hbsp : ∀ s, R s (ext.R_RenderBSPNode s))
    (hpost : ∀ b o s, R s (ext.R_PushPost b o s))
    (s1 s2 : State) (wa : Nat) (w : pwindow_t) (camera : mobj_t)
    (h : renderThroughSkybox ext s1 wa w camera = .ok s2) : R s1 s2 := by
  unfold renderThroughSkybox at h
  simp only at h
  split at h
  · cases h
  · rename_i overlay hov
    cases h
    clear hov
    have key : ∀ X x y z a, R X (setViewangle (setViewpoint (setClips
        (pushPost ext true overlay (ext.R_RenderBSPNode X)) none) x y z) a) := by
      intro X x y z a
      exact htrans _ _ _ (hbsp X) (htrans _ _ _
        (pushPost_rel ext R htrans hprim hpost true overlay (ext.R_RenderBSPNode X))
        (hprim _ _ (by simp [SameWindows]) (by simp) (by simp)))
    refine htrans _ _ _ ?_ (key _ _ _ _ _)
    exact hprim _ _ (by simp [SameWindows]) (by simp) (by simp)

theorem renderThroughPortal_rel (ext : Ext) (R : State → State → Prop)
    (htrans : ∀ a b c, R a b → R b c → R a c)
    (hprim : ∀ s s', SameWindows s s' → s'.portals = s.portals → s.trace <+: s'.trace → R s s')
    (hinc : ∀ s pa, R s (incTaint s pa))
    (hbsp : ∀ s, R s (ext.R_RenderBSPNode s))
    (hpost : ∀ b o s, R s (ext.R_PushPost b o s))
    (s1 s2 : State) (wa : Nat) (w : pwindow_t) (pa : Nat) (dx dy dz : Int)
    (h : renderThroughPortal ext s1 wa w pa dx dy dz = .ok s2) : R s1 s2 := by
  unfold renderThroughPortal at h
  simp only at h
  split at h
  · cases h
  · rename_i overlay hov
    cases h
    clear hov
    have a1 : R s1 (incTaint (logEvent s1 (.R_ClearSlopeMark w.minx w.maxx w.type)) pa) :=
      htrans _ _ _ (hprim _ _ (by simp [SameWindows]) (by simp) (by simp)) (hinc _ _)
    have key : ∀ X x y z, R X (setViewpoint (setClips
        (pushPost ext true overlay (ext.R_RenderBSPNode X)) none) x y z) := by
      intro X x y z
      exact htrans _ _ _ (hbsp X) (htrans _ _ _
        (pushPost_rel ext R htrans hprim hpost true overlay (ext.R_RenderBSPNode X))
        (hprim _ _ (by simp [SameWindows]) (by simp) (by simp)))
    refine htrans _ _ _ a1 (htrans _ _ _ ?_ (key _ _ _ _))
    exact hprim _ _ (by simp [SameWindows]) (by simp) (by simp)

theorem refuseTainted_rel (env : Env) (R : State → State → Prop)
    (htrans : ∀ a b c, R a b → R b c → R a c)
    (hprim : ∀ s s', SameWindows s s' → s'.portals = s.portals → s.trace <+: s'.trace → R s s')
    (hinc : ∀ s pa, R s (incTaint s pa))
    (s0 : State) (wa pa : Nat) (portal : portal_t) (maker : Int) :
    R s0 (refuseTainted env s0 wa pa portal maker) := by
  unfold refuseTainted
  simp only
  have key : ∀ S1, R s0 S1 → R s0 (logEvent (incTaint S1 pa)
      (.C_Printf maker (wrap32 (portal.tainted + 1)))) := by
    intro S1 h1
    exact htrans _ _ _ h1 (htrans _ _ _ (hinc S1 pa)
      (hprim (incTaint S1 pa) _ (by simp [SameWindows]) (by simp) (by simp)))
  apply key
  by_cases hs : env.showtainted = true
  · rw [if_pos hs]
    exact hprim _ _ (by simp [SameWindows]) (by simp) (by simp)
  · rw [if_neg hs]
    exact hprim _ _ (by simp [SameWindows]) (by simp) (by simp)

theorem skybox_rel (env : Env) (ext : Ext) (R : State → State → Prop)
    (hrefl : ∀ s, R s s) (htrans : ∀ a b c, R a b → R b c → R a c)
    (hprim : ∀ s s', SameWindows s s' → s'.portals = s.portals → s.trace <+: s'.trace → R s s')
    (hbsp : ∀ s, R s (ext.R_RenderBSPNode s))
    (hpost : ∀ b o s, R s (ext.R_PushPost b o s)) :
    ∀ (fuel : Nat) (s : State) (window : Ptr) (s' : State),
      R_RenderSkyboxPortal env ext fuel s window = .ok s' →
      ∃ wa, window = some wa ∧ R (enterStrategy s .R_RenderSkyboxPortal wa) s' := by
  intro fuel
  induction fuel with
  | zero =>
    intro s window s' h
    simp [R_RenderSkyboxPortal] at h
  | succ f ih =>
    intro s window s' h
    unfold R_RenderSkyboxPortal at h
    split at h
    · cases h
    · rename_i wa
      refine ⟨wa, rfl, ?_⟩
      split at h
      · cases h
      · simp only at h
        split at h
        · cases h
        · split at h
          · cases h; exact hrefl _
          · split at h
            · cases h; exact hrefl _
            · split at h
              · cases h
              · split at h
                · cases h; exact hprim _ _ (by simp [SameWindows]) (by simp) (by simp)
                · split at h
                  · cases h
                  · split at h
                    · cases h
                    · rename_i s2 hthrough
                      have h2 : R (enterStrategy s .R_RenderSkyboxPortal wa) s2 :=
                        htrans _ _ _ (hprim _ _ (by simp [SameWindows]) (by simp) (by simp))
                          (renderThroughSkybox_rel ext R htrans hprim hbsp hpost _ _ _ _ _
                            hthrough)
                      split at h
                      · cases h
                      · split at h
                        · obtain ⟨wc, _, h3⟩ := ih _ _ _ h
                          exact htrans _ _ _ h2 (htrans _ _ _
                            (hprim _ _ (by simp [SameWindows]) (by simp) (by simp)) h3)
                        · cases h; exact h2

theorem anchored_rel (env : Env) (ext : Ext) (R : State → State → Prop)
    (hrefl : ∀ s, R s s) (htrans : ∀ a b c, R a b → R b c → R a c)
    (hprim : ∀ s s', SameWindows s s' → s'.portals = s.portals → s.trace <+: s'.trace → R s s')
    (hinc : ∀ s pa, R s (incTaint s pa))
    (hbsp : ∀ s, R s (ext.R_RenderBSPNode s))
    (hpost : ∀ b o s, R s (ext.R_PushPost b o s)) :
    ∀ (fuel : Nat) (s : State) (window : Ptr) (s' : State),
      R_RenderAnchoredPortal env ext fuel s window = .ok s' →
      ∃ wa, window = some wa ∧ R (enterStrategy s .R_RenderAnchoredPortal wa) s' := by
  intro fuel
  induction fuel with
  | zero =>
    intro s window s' h
    simp [R_RenderAnchoredPortal] at h
  | succ f ih =>
    intro s window s' h
    unfold R_RenderAnchoredPortal at h
    split at h
    · cases h
    · rename_i wa
      refine ⟨wa, rfl, ?_⟩
      split at h
      · cases h
      · simp only at h
        split at h
        · cases h
        · split at h
          · cases h
          · split at h
            · cases h; exact hrefl _
            · split at h
              · cases h; exact hrefl _
              · split at h
                · cases h; exact refuseTainted_rel env R htrans hprim hinc _ _ _ _ _
                · split at h
                  · cases h
                  · split at h
                    · cases h; exact hprim _ _ (by simp [SameWindows]) (by simp) (by simp)
                    · split at h
                      · cases h
                      · rename_i s2 hthrough
                        have h2 : R (enterStrategy s .R_RenderAnchoredPortal wa) s2 :=
                          htrans _ _ _ (hprim _ _ (by simp [SameWindows]) (by simp) (by simp))
                            (renderThroughPortal_rel ext R htrans hprim hinc hbsp hpost _ _ _ _
                              _ _ _ _ hthrough)
                        split at h
                        · cases h
                        · split at h
                          · obtain ⟨wc, _, h3⟩ := ih _ _ _ h
                            exact htrans _ _ _ h2 (htrans _ _ _
                              (hprim _ _ (by simp [SameWindows]) (by simp) (by simp)) h3)
                          · cases h; exact h2

theorem linked_rel (env : Env) (ext : Ext) (R : State → State → Prop)
    (hrefl : ∀ s, R s s) (htrans : ∀ a b c, R a b → R b c → R a c)
    (hprim : ∀ s s', SameWindows s s' → s'.portals = s.portals → s.trace <+: s'.trace → R s s')
    (hinc : ∀ s pa, R s (incTaint s pa))
    (hbsp : ∀ s, R s (ext.R_RenderBSPNode s))
    (hpost : ∀ b o s, R s (ext.R_PushPost b o s)) :
    ∀ (fuel : Nat) (s : State) (window : Ptr) (s' : State),
      R_RenderLinkedPortal env ext fuel s window = .ok s' →
      ∃ wa, window = some wa ∧ R (enterStrategy s .R_RenderLinkedPortal wa) s' := by
  intro fuel
  induction fuel with
  | zero =>
    intro s window s' h
    simp [R_RenderLinkedPortal] at h
  | succ f ih =>
    intro s window s' h
    unfold R_RenderLinkedPortal at h
    split at h
    · cases h
    · rename_i wa
      refine ⟨wa, rfl, ?_⟩
      split at h
      · cases h
      · simp only at h
        split at h
        · cases h
        · split at h
          · cases h
          · split at h
            · cases h; exact hrefl _
            · split at h
              · cases h; exact refuseTainted_rel env R htrans hprim hinc _ _ _ _ _
              · split at h
                · cases h
                · split at h
                  · cases h; exact hprim _ _ (by simp [SameWindows]) (by simp) (by simp)
                  · split at h
                    · cases h
                    · rename_i s2 hthrough
                      have h2 : R (enterStrategy s .R_RenderLinkedPortal wa) s2 :=
                        htrans _ _ _ (hprim _ _ (by simp [SameWindows]) (by simp) (by simp))
                          (renderThroughPortal_rel ext R htrans hprim hinc hbsp hpost _ _ _ _
                            _ _ _ _ hthrough)
                      split at h
                      · cases h
                      · split at h
                        · obtain ⟨wc, _, h3⟩ := ih _ _ _ h
                          exact htrans _ _ _ h2 (htrans _ _ _
                            (hprim _ _ (by simp [SameWindows]) (by simp) (by simp)) h3)
                        · cases h; exact h2

theorem plane_rel (env : Env) (ext : Ext) (R : State → State → Prop)
    (hrefl : ∀ s, R s s) (htrans : ∀ a b c, R a b → R b c → R a c)
    (hprim : ∀ s s', SameWindows s s' → s'.portals = s.portals → s.trace <+: s'.trace → R s s')
    (hpost : ∀ b o s, R s (ext.R_PushPost b o s)) :
    ∀ (fuel : Nat) (s : State) (window : Ptr) (s' : State),
      R_RenderPlanePortal env ext fuel s window = .ok s' →
      ∃ wa, window = some wa ∧ R (enterStrategy s .R_RenderPlanePortal wa) s' := by
  intro fuel
  induction fuel with
  | zero =>
    intro s window s' h
    simp [R_RenderPlanePortal] at h
  | succ f ih =>
    intro s window s' h
    unfold R_RenderPlanePortal at h
    split at h
    · cases h
    · rename_i wa
      refine ⟨wa, rfl, ?_⟩
      split at h
      · cases h
      · simp only at h
        split at h
        · cases h
        · split at h
          · cases h; exact hrefl _
          · split at h
            · cases h; exact hrefl _
            · rename_i w _ _ portal _ _ _
              have h3 : ∀ es1 es2 es3, R (enterStrategy s .R_RenderPlanePortal wa)
                  (logEvents (logEvent (logEvent
                  (enterStrategy s .R_RenderPlanePortal wa) es1) es2) es3) := fun _ _ _ =>
                hprim _ _ (by simp [SameWindows]) (by simp) (by simp)
              have h4 : ∀ es1 es2 es3, R (enterStrategy s .R_RenderPlanePortal wa)
                  (if w.head = some wa ∧ portal.poverlay ≠ none then
                  pushPost ext false portal.poverlay (logEvents (logEvent (logEvent
                  (enterStrategy s .R_RenderPlanePortal wa) es1) es2) es3)
                  else (logEvents (logEvent (logEvent
                  (enterStrategy s .R_RenderPlanePortal wa) es1) es2) es3)) := by
                intro es1 es2 es3
                split
                · exact htrans _ _ _ (h3 _ _ _) (pushPost_rel ext R htrans hprim hpost _ _ _)
                · exact h3 _ _ _
              split at h
              · cases h
              · split at h
                · have step : ∀ S wp, R (enterStrategy s .R_RenderPlanePortal wa) S →
                      R_RenderPlanePortal env ext f S wp = .ok s' →
                      R (enterStrategy s .R_RenderPlanePortal wa) s' := by
                    intro S wp hS hrun
                    obtain ⟨wc, _, h5⟩ := ih _ _ _ hrun
                    exact htrans _ _ _ hS (htrans _ _ _
                      (hprim S _ (by simp [SameWindows]) (by simp) (by simp)) h5)
                  exact step _ _ (h4 _ _ _) h
                · cases h; exact h4 _ _ _

theorem horizon_rel (env : Env) (ext : Ext) (R : State → State → Prop)
    (hrefl : ∀ s, R s s) (htrans : ∀ a b c, R a b → R b c → R a c)
    (hprim : ∀ s s', SameWindows s s' → s'.portals = s.portals → s.trace <+: s'.trace → R s s')
    (hpost : ∀ b o s, R s (ext.R_PushPost b o s)) :
    ∀ (fuel : Nat) (s : State) (window : Ptr) (s' : State),
      R_RenderHorizonPortal env ext fuel s window = .ok s' →
      ∃ wa, window = some wa ∧ R (enterStrategy s .R_RenderHorizonPortal wa) s' := by
  intro fuel
  induction fuel with
  | zero =>
    intro s window s' h
    simp [R_RenderHorizonPortal] at h
  | succ f ih =>
    intro s window s' h
    unfold R_RenderHorizonPortal at h
    split at h
    · cases h
    · rename_i wa
      refine ⟨wa, rfl, ?_⟩
      split at h
      · cases h
      · simp only at h
        split at h
        · cases h
        · split at h
          · cases h; exact hrefl _
          · split at h
            · cases h; exact hrefl _
            · rename_i w _ _ portal _ _ _
              have h3 : ∀ e1 e2 e3 e4 e5 x y z, R (enterStrategy s .R_RenderHorizonPortal wa)
                  (setViewpoint (logEvents (logEvent (logEvent
                  (logEvent (logEvent
                  (enterStrategy s .R_RenderHorizonPortal wa) e1) e2) e3) e4) e5) x y z) :=
                fun _ _ _ _ _ _ _ _ => hprim _ _ (by simp [SameWindows]) (by simp) (by simp)
              have h4 : ∀ e1 e2 e3 e4 e5 x y z, R (enterStrategy s .R_RenderHorizonPortal wa)
                  (if w.head = some wa ∧ portal.poverlay ≠ none
                  then pushPost ext false portal.poverlay (setViewpoint (logEvents (logEvent
                  (logEvent (logEvent (logEvent
                  (enterStrategy s .R_RenderHorizonPortal wa) e1) e2) e3) e4) e5) x y z)
                  else (setViewpoint (logEvents (logEvent (logEvent
                  (logEvent (logEvent
                  (enterStrategy s .R_RenderHorizonPortal wa) e1) e2) e3) e4) e5) x y z)) := by
                intro e1 e2 e3 e4 e5 x y z
                split
                · exact htrans _ _ _ (h3 _ _ _ _ _ _ _ _)
                    (pushPost_rel ext R htrans hprim hpost _ _ _)
                · exact h3 _ _ _ _ _ _ _ _
              split at h
              · cases h
              · split at h
                · cases h
                · rename_i s8 h8
                  cases h
                  refine htrans _ _ _ ?_ (hprim s8 _ (by simp [SameWindows]) (by simp) (by simp))
                  split at h8
                  · have step : ∀ S wp, R (enterStrategy s .R_RenderHorizonPortal wa) S →
                        R_RenderHorizonPortal env ext f S wp = .ok s8 →
                        R (enterStrategy s .R_RenderHorizonPortal wa) s8 := by
                      intro S wp hS hrun
                      obtain ⟨wc, _, h5⟩ := ih _ _ _ hrun
                      exact htrans _ _ _ hS (htrans _ _ _
                        (hprim S _ (by simp [SameWindows]) (by simp) (by simp)) h5)
                    exact step _ _ (h4 _ _ _ _ _ _ _ _) h8
                  · cases h8; exact h4 _ _ _ _ _ _ _ _

/-- What a call of a render strategy does to the state is a sequence of steps,
starting with the entry: assignments that leave the window store, the list
heads and the portals alone and only add to the record of calls, increments of
a taint counter, and calls of the traversal and of the overlay push. A
relation that holds for each such step and is reflexive and transitive holds
between the state at the entry and the state the call returns. -/
theorem callFunc_rel (env : Env) (ext : Ext) (R : State → State → Prop)
    (hrefl : ∀ s, R s s) (htrans : ∀ a b c, R a b → R b c → R a c)
    (hprim : ∀ s s', SameWindows s s' → s'.portals = s.portals → s.trace <+: s'.trace → R s s')
    (hinc : ∀ s pa, R s (incTaint s pa))
    (hbsp : ∀ s, R s (ext.R_RenderBSPNode s))
    (hpost : ∀ b o s, R s (ext.R_PushPost b o s))
    (fuel : Nat) (func : renderfunc_e) (s : State) (window : Ptr) (s' : State)
    (h : callFunc env ext fuel func s window = .ok s') :
    ∃ wa, window = some wa ∧ R (enterStrategy s func wa) s' := by
  cases func with
  | R_RenderPortalNOP => simp [callFunc] at h
  | R_RenderPlanePortal => exact plane_rel env ext R hrefl htrans hprim hpost _ _ _ _ h
  | R_RenderHorizonPortal => exact horizon_rel env ext R hrefl htrans hprim hpost _ _ _ _ h
  | R_RenderSkyboxPortal => exact skybox_rel env ext R hrefl htrans hprim hbsp hpost _ _ _ _ h
  | R_RenderAnchoredPortal =>
    exact anchored_rel env ext R hrefl htrans hprim hinc hbsp hpost _ _ _ _ h
  | R_RenderLinkedPortal =>
    exact linked_rel env ext R hrefl htrans hprim hinc hbsp hpost _ _ _ _ h

/-! ## FIFO scheduling -/

/-- One turn of the loop on a frame, with collaborators that keep the frame and
only append to the queue and to the record of calls. -/
theorem renderWindowhead_turn (env : Env) (ext : Ext) (rfuel : Nat)
    (hbsp : ∀ st Q P, DrainOK env st Q P →
      (∃ Q' P', DrainOK env (ext.R_RenderBSPNode st) Q' P' ∧
        Q.map Prod.fst <+: Q'.map Prod.fst) ∧
      st.trace <+: (ext.R_RenderBSPNode st).trace)
    (hpost : ∀ b o st Q P, DrainOK env st Q P →
      (∃ Q' P', DrainOK env (ext.R_PushPost b o st) Q' P' ∧
        Q.map Prod.fst <+: Q'.map Prod.fst) ∧
      st.trace <+: (ext.R_PushPost b o st).trace)
    {s s1 : State} {hd : Nat} {c : List Nat} {Q1 : List (Nat × List Nat)} {P : List Nat}
    (hok : DrainOK env s ((hd, c) :: Q1) P)
    (h : renderWindowhead env ext rfuel s hd = .ok s1) :
    ∃ Q' P' app events,
      DrainOK env (setWindowlast s1 (Q'.map Prod.fst).getLast?) Q' P' ∧
      (Q' ≠ [] → s1.windowlast = (Q'.map Prod.fst).getLast?) ∧
      Q'.map Prod.fst = Q1.map Prod.fst ++ app ∧
      s1.trace = s.trace ++ events ∧
      ∃ w portal, s.windows[hd]? = some w ∧ getPortal s w.portal = .ok portal ∧
        (w.maxx < w.minx → events = []) ∧
        (w.minx ≤ w.maxx → ∃ s2 more,
          callFunc env ext rfuel w.func (setPortalrender s
            { s.portalrender with active := true, w := some hd, segClipFunc := w.clipfunc,
                                  overlay := portal.poverlay, curwindow := some hd })
            (some hd) = .ok s2 ∧
          s2.trace = s1.trace ∧ events = Event.enter w.func hd :: more) := by
  have hJ : ∀ st st', SameWindows st st' →
      (∃ Qx Px, DrainOK env st Qx Px ∧ (hd :: Q1.map Prod.fst) <+: Qx.map Prod.fst) →
      (∃ Qx Px, DrainOK env st' Qx Px ∧ (hd :: Q1.map Prod.fst) <+: Qx.map Prod.fst) := by
    rintro st st' hs ⟨Qx, Px, h1, h2⟩
    exact ⟨Qx, Px, h1.same hs, h2⟩
  obtain ⟨w, portal, s2, hw, hportal, hdisp, hfree⟩ := renderWindowhead_ok h
  obtain ⟨t1, _⟩ := freeHeadWindow_trace hfree
  simp only [setPortalrender_fields] at t1
  -- the state in which the head window is freed, and the record of the calls
  have hstep : (∃ Qx Px, DrainOK env s2 Qx Px ∧ (hd :: Q1.map Prod.fst) <+: Qx.map Prod.fst) ∧
      ∃ events, s2.trace = s.trace ++ events ∧ (w.maxx < w.minx → events = []) ∧
        (w.minx ≤ w.maxx → ∃ more, events = Event.enter w.func hd :: more) := by
    by_cases hrange : w.maxx < w.minx
    · rw [if_neg (by omega)] at hdisp
      cases hdisp
      exact ⟨hJ s _ (by simp [SameWindows]) ⟨_, P, hok, List.prefix_refl _⟩, [], by simp,
        fun _ => rfl, fun hne => absurd hrange (by omega)⟩
    · rw [if_pos (by omega)] at hdisp
      obtain ⟨wa, hwa, hR⟩ := callFunc_rel env ext
        (fun a b =>
          (∃ Qx Px, DrainOK env a Qx Px ∧ (hd :: Q1.map Prod.fst) <+: Qx.map Prod.fst) →
          (∃ Qx Px, DrainOK env b Qx Px ∧ (hd :: Q1.map Prod.fst) <+: Qx.map Prod.fst) ∧
            a.trace <+: b.trace)
        (fun _ h => ⟨h, List.prefix_refl _⟩)
        (fun _ _ _ h1 h2 h => ⟨(h2 (h1 h).1).1, (h1 h).2.trans (h2 (h1 h).1).2⟩)
        (fun a b hs _ ht h => ⟨hJ a b hs h, ht⟩)
        (fun a pa h => ⟨hJ a _ (by simp [SameWindows]) h, by simp⟩)
        (fun a h => by
          obtain ⟨Qx, Px, h1, h2⟩ := h
          obtain ⟨⟨Q', P', h3, h4⟩, h5⟩ := hbsp a Qx Px h1
          exact ⟨⟨Q', P', h3, h2.trans h4⟩, h5⟩)
        (fun b o a h => by
          obtain ⟨Qx, Px, h1, h2⟩ := h
          obtain ⟨⟨Q', P', h3, h4⟩, h5⟩ := hpost b o a Qx Px h1
          exact ⟨⟨Q', P', h3, h2.trans h4⟩, h5⟩)
        _ _ _ _ _ hdisp
      cases hwa
      obtain ⟨hJ2, ⟨more, hm⟩⟩ := hR (hJ s _ (by simp [SameWindows])
        ⟨_, P, hok, List.prefix_refl _⟩)
      refine ⟨hJ2, Event.enter w.func hd :: more, ?_, fun he => absurd he hrange,
        fun _ => ⟨more, rfl⟩⟩
      rw [← hm]
      simp
  obtain ⟨⟨Qx, Px, hok2, hpre⟩, events, hev, hempty, hne⟩ := hstep
  have hok3 : DrainOK env (setPortalrender s2
      { s2.portalrender with active := false, w := none, segClipFunc := none,
                             overlay := none, curwindow := none }) Qx Px :=
    hok2.same (by simp [SameWindows])
  obtain ⟨cx, Q', rfl, hpre'⟩ := prefix_cons_map_fst hpre
  obtain ⟨s1', hfree', hok1, hlast1, _⟩ := drain_free env _ hd cx Q' Px hok3
  rw [hfree] at hfree'
  cases hfree'
  obtain ⟨app, happ⟩ := hpre'
  refine ⟨Q', _, app, events, hok1, hlast1, happ.symm, by rw [t1, hev], w, portal, hw,
    hportal, hempty, ?_⟩
  intro hr
  obtain ⟨more, hmore⟩ := hne hr
  rw [if_pos (by omega)] at hdisp
  exact ⟨s2, more, hdisp, t1.symm, hmore⟩

/-- A run of `R_RenderPortals` from a frame, turn by turn. -/
theorem R_RenderPortals_turns (env : Env) (ext : Ext) (rfuel : Nat)
    (hbsp : ∀ st Q P, DrainOK env st Q P →
      (∃ Q' P', DrainOK env (ext.R_RenderBSPNode st) Q' P' ∧
        Q.map Prod.fst <+: Q'.map Prod.fst) ∧
      st.trace <+: (ext.R_RenderBSPNode st).trace)
    (hpost : ∀ b o st Q P, DrainOK env st Q P →
      (∃ Q' P', DrainOK env (ext.R_PushPost b o st) Q' P' ∧
        Q.map Prod.fst <+: Q'.map Prod.fst) ∧
      st.trace <+: (ext.R_PushPost b o st).trace) :
    ∀ (fuel : Nat) (s s' : State) (Q : List (Nat × List Nat)) (P : List Nat),
      DrainOK env (setWindowlast s (Q.map Prod.fst).getLast?) Q P →
      (Q ≠ [] → s.windowlast = (Q.map Prod.fst).getLast?) →
      R_RenderPortals env ext rfuel fuel s = .ok s' →
      ∃ (turns : List Turn) (sEnd : State),
        TurnsFrom env ext rfuel s turns sEnd ∧ s' = setWindowlast sEnd none ∧
        turns.map Turn.hd = Q.map Prod.fst ++ turns.flatMap Turn.appended ∧
        s'.trace = s.trace ++ turns.flatMap Turn.events ∧
        ∀ t ∈ turns,
          (∃ rest, IsList pwindow_t.next t.before.windows t.before.windowhead (t.hd :: rest) ∧
            IsList pwindow_t.next t.after.windows t.after.windowhead (rest ++ t.appended)) ∧
          t.after.trace = t.before.trace ++ t.events ∧
          ∃ w portal, t.before.windows[t.hd]? = some w ∧
            getPortal t.before w.portal = .ok portal ∧
            (w.maxx < w.minx → t.events = []) ∧
            (w.minx ≤ w.maxx → ∃ s2 more,
              callFunc env ext rfuel w.func (setPortalrender t.before
                { t.before.portalrender with
                    active := true, w := some t.hd, segClipFunc := w.clipfunc,
                    overlay := portal.poverlay, curwindow := some t.hd })
                (some t.hd) = .ok s2 ∧
              s2.trace = t.after.trace ∧ t.events = Event.enter w.func t.hd :: more) := by
  intro fuel
  induction fuel with
  | zero =>
    intro s s' Q P _ _ h
    simp [R_RenderPortals] at h
  | succ f ih =>
    intro s s' Q P hok hlast h
    unfold R_RenderPortals at h
    split at h
    · rename_i hhead
      cases h
      have hq := hok.1.1
      simp only [setWindowlast_fields] at hq
      rw [hhead] at hq
      cases Q with
      | nil =>
        refine ⟨[], s, ⟨hhead, rfl⟩, by rw [hhead], by simp, by simp, ?_⟩
        intro t ht
        cases ht
      | cons qc Q =>
        simp only [List.map_cons] at hq
        rw [IsList.cons_iff] at hq
        cases hq.1
    · rename_i hd hhead
      split at h
      · cases h
      · rename_i s1 hturn
        have hne : Q ≠ [] := by
          rintro rfl
          have hq := hok.1.1
          simp only [setWindowlast_fields, List.map_nil] at hq
          rw [IsList.nil_iff, hhead] at hq
          cases hq
        have hoks : DrainOK env s Q P := by
          rw [← hlast hne, setWindowlast_self] at hok
          exact hok
        cases Q with
        | nil => exact absurd rfl hne
        | cons qc Q1 =>
          obtain ⟨hd', c⟩ := qc
          have hqs := hoks.1.1
          have hhd : hd' = hd := by
            simp only [List.map_cons] at hqs
            rw [IsList.cons_iff, hhead] at hqs
            exact (Option.some.inj hqs.1).symm
          subst hhd
          obtain ⟨Q', P', app, events, hok1, hlast1, happ, htr, hfacts⟩ :=
            renderWindowhead_turn env ext rfuel hbsp hpost hoks hturn
          obtain ⟨turns, sEnd, hT, hs', hmap, htrace, hall⟩ := ih s1 s' Q' P' hok1 hlast1 h
          refine ⟨⟨hd', s, s1, app, events⟩ :: turns, sEnd, ⟨rfl, hhead, hturn, hT⟩, hs', ?_, ?_,
            ?_⟩
          · simp only [List.map_cons, List.flatMap_cons, List.cons_append]
            rw [hmap, happ, List.append_assoc]
          · simp only [List.flatMap_cons]
            rw [htrace, htr, List.append_assoc]
          · intro t ht
            rcases List.mem_cons.mp ht with rfl | ht
            · refine ⟨⟨Q1.map Prod.fst, by simpa using hqs, ?_⟩, htr, hfacts⟩
              have := hok1.1.1
              simp only [setWindowlast_fields] at this
              rw [happ] at this
              exact this
            · exact hall t ht

theorem Continues.of_same_right {s0 st st' : State} {Q Q' : List (Nat × List Nat)} {P P' : List Nat}
    (hw : st'.windows = st.windows) (h : Continues s0 st Q Q' P P') :
    Continues s0 st' Q Q' P P' := by
  unfold Continues at h ⊢
  rw [hw]
  exact h

theorem Continues.of_same_left {s0 s0' st : State} {Q Q' : List (Nat × List Nat)}
    {P P' : List Nat} (hw : s0'.windows = s0.windows) (h : Continues s0 st Q Q' P P') :
    Continues s0' st Q Q' P P' := by
  unfold Continues at h ⊢
  rw [hw]
  exact h

theorem TaintStep.of_unchanged {pa : Nat} {s s' : State} (n : Nat)
    (hp : s'.portals = s.portals) (ht : traversalCount s' = traversalCount s) :
    TaintStep pa n s s' := by
  refine ⟨?_, ?_, ?_, ?_⟩
  · rw [taintOf_congr pa hp]
  · rw [taintOf_congr pa hp]
    omega
  · rw [ht]
  · rw [taintOf_congr pa hp, ht]

theorem TaintStep.seq {pa : Nat} {s s1 s2 : State} {n m : Nat} (h1 : TaintStep pa n s s1)
    (h2 : TaintStep pa m s1 s2) : TaintStep pa (n + m) s s2 := by
  obtain ⟨a2, a3, a4, a5⟩ := h1
  obtain ⟨b2, b3, b4, b5⟩ := h2
  refine ⟨by omega, ?_, by omega, by omega⟩
  push_cast
  omega

theorem TaintStep.mono {pa : Nat} {s s1 : State} {n m : Nat} (h1 : TaintStep pa n s s1)
    (h : n ≤ m) : TaintStep pa m s s1 := by
  obtain ⟨a2, a3, a4, a5⟩ := h1
  exact ⟨a2, by omega, a4, a5⟩

theorem taintOf_incTaint_ne (s : State) (pa pw : Nat) (h : pw ≠ pa) :
    taintOf (incTaint s pw) pa = taintOf s pa := by
  unfold taintOf
  simp [List.getElem?_modify, h]

/-- The states a frame continues into, within a run that started in `s0`. -/
theorem framed_same {env : Env} {s0 : State} {Q0 : List (Nat × List Nat)} {P0 : List Nat}
    {st st' : State} (hs : SameWindows st st')
    (h : ∃ Qx Px, DrainOK env st Qx Px ∧ Continues s0 st Q0 Qx P0 Px) :
    ∃ Qx Px, DrainOK env st' Qx Px ∧ Continues s0 st' Q0 Qx P0 Px := by
  obtain ⟨Qx, Px, h1, h2⟩ := h
  exact ⟨Qx, Px, h1.same hs, h2.of_same_right hs.1⟩

theorem framed_ext {env : Env} {f : State → State} (hf : KeepsFrame env f) {s0 : State}
    {Q0 : List (Nat × List Nat)} {P0 : List Nat} {st : State}
    (h : ∃ Qx Px, DrainOK env st Qx Px ∧ Continues s0 st Q0 Qx P0 Px) :
    (∃ Qx Px, DrainOK env (f st) Qx Px ∧ Continues s0 (f st) Q0 Qx P0 Px) ∧
    (f st).portals = st.portals ∧ traversalCount (f st) = traversalCount st := by
  obtain ⟨Qx, Px, h1, h2⟩ := h
  obtain ⟨⟨Q', P', h3, h4⟩, h5, h6⟩ := hf st Qx Px h1
  exact ⟨⟨Q', P', h3, h2.comp h4⟩, h5, h6⟩

theorem pushPost_step (env : Env) (ext : Ext)
    (hpost : ∀ b o, KeepsFrame env (ext.R_PushPost b o))
    (b : Bool) (o : Option planehash_t) {s0 : State} {Q0 : List (Nat × List Nat)}
    {P0 : List Nat} (s : State)
    (h : ∃ Qx Px, DrainOK env s Qx Px ∧ Continues s0 s Q0 Qx P0 Px) :
    (∃ Qx Px, DrainOK env (pushPost ext b o s) Qx Px ∧
      Continues s0 (pushPost ext b o s) Q0 Qx P0 Px) ∧
    (pushPost ext b o s).portals = s.portals ∧
    traversalCount (pushPost ext b o s) = traversalCount s := by
  unfold pushPost
  have hlog : ∃ Qx Px, DrainOK env (logEvent s (.R_PushPost b o)) Qx Px ∧
      Continues s0 (logEvent s (.R_PushPost b o)) Q0 Qx P0 Px :=
    framed_same (by simp [SameWindows]) h
  obtain ⟨h1, h2, h3⟩ := framed_ext (hpost b o) hlog
  refine ⟨h1, by rw [h2]; simp, ?_⟩
  rw [h3, traversalCount_logEvent]
  simp [isTraversal]

/-- The traversal part of the strategies adds one to the taint counter of the
portal of the window and makes one call of the traversal. -/
theorem renderThroughPortal_step (env : Env) (ext : Ext)
    (hbsp : KeepsFrame env ext.R_RenderBSPNode)
    (hpost : ∀ b o, KeepsFrame env (ext.R_PushPost b o))
    {s0 : State} {Q0 : List (Nat × List Nat)} {P0 : List Nat}
    (s1 s2 : State) (wa : Nat) (w : pwindow_t) (pw : Nat) (dx dy dz : Int)
    (h : renderThroughPortal ext s1 wa w pw dx dy dz = .ok s2)
    (hJ : ∃ Qx Px, DrainOK env s1 Qx Px ∧ Continues s0 s1 Q0 Qx P0 Px) :
    (∃ Qx Px, DrainOK env s2 Qx Px ∧ Continues s0 s2 Q0 Qx P0 Px) ∧
    s2.portals = (incTaint s1 pw).portals ∧ traversalCount s2 = traversalCount s1 + 1 := by
  unfold renderThroughPortal at h
  simp only at h
  split at h
  · cases h
  · rename_i overlay hov
    cases h
    clear hov
    have key : ∀ X x y z, (∃ Qx Px, DrainOK env X Qx Px ∧ Continues s0 X Q0 Qx P0 Px) →
        (∃ Qx Px, DrainOK env (setViewpoint (setClips (pushPost ext true overlay
          (ext.R_RenderBSPNode X)) none) x y z) Qx Px ∧
          Continues s0 (setViewpoint (setClips (pushPost ext true overlay
          (ext.R_RenderBSPNode X)) none) x y z) Q0 Qx P0 Px) ∧
        (setViewpoint (setClips (pushPost ext true overlay (ext.R_RenderBSPNode X)) none)
          x y z).portals = X.portals ∧
        traversalCount (setViewpoint (setClips (pushPost ext true overlay
          (ext.R_RenderBSPNode X)) none) x y z) = traversalCount X := by
      intro X x y z hX
      obtain ⟨q1, q2, q3⟩ := framed_ext hbsp hX
      obtain ⟨p1, p2, p3⟩ := pushPost_step env ext hpost true overlay (ext.R_RenderBSPNode X) q1
      refine ⟨framed_same (by simp [SameWindows]) p1, ?_, ?_⟩
      · simp only [setViewpoint_fields, setClips_fields]
        rw [p2, q2]
      · rw [← q3, ← p3]
        exact traversalCount_congr (by simp)
    obtain ⟨k1, k2, k3⟩ := key (logEvent (logEvent (setViewpoint (logEvent (incValidcount
      (setRenderRange (logEvent (setClips (incTaint (logEvent s1
        (.R_ClearSlopeMark w.minx w.maxx w.type)) pw) (some wa)) .R_ClearOverlayClips)
        w.minx w.maxx)) .R_SetMaskedSilhouette)
      (wrap32 (w.vx + dx)) (wrap32 (w.vy + dy)) (wrap32 (w.vz + dz))) .R_IncrementFrameid)
      (.R_RenderBSPNode (wrap32 (w.vx + dx)) (wrap32 (w.vy + dy)) (wrap32 (w.vz + dz))
        s1.viewangle)) s1.viewx s1.viewy s1.viewz
      (framed_same (by simp [SameWindows]) hJ)
    refine ⟨k1, ?_, ?_⟩
    · refine Eq.trans ?_ (k2.trans ?_)
      · simp only [setViewangle_fields, setViewpoint_fields, setClips_fields, logEvent_fields,
          incValidcount_fields, setRenderRange_fields, incTaint_fields]
      · simp only [setViewangle_fields, setViewpoint_fields, setClips_fields, logEvent_fields,
          incValidcount_fields, setRenderRange_fields, incTaint_fields]
    · refine Eq.trans ?_ (k3.trans ?_)
      · simp only [setViewangle_fields, setViewpoint_fields, setClips_fields, logEvent_fields,
          incValidcount_fields, setRenderRange_fields, incTaint_fields]
      · unfold traversalCount
        simp [isTraversal]

theorem windowPortal_of_get {s : State} {wa : Nat} {w : pwindow_t}
    (h : s.windows[wa]? = some w) : windowPortal s wa = w.portal := by
  unfold windowPortal
  rw [h]
  rfl

theorem windowPortal_congr {s s' : State} {a b : Nat}
    (h : (s'.windows[a]?).map pwindow_t.portal = (s.windows[b]?).map pwindow_t.portal) :
    windowPortal s' a = windowPortal s b := by
  unfold windowPortal
  cases h1 : s'.windows[a]? <;> cases h2 : s.windows[b]? <;> simp [h1, h2] at h ⊢
  exact h

/-- The child of a window of a chain is the next window of the chain. -/
theorem IsList.child_mem {ws : List pwindow_t} :
    ∀ (l : List Nat) (p : Ptr) (b : Nat) (r : pwindow_t) (c : Nat),
      IsList pwindow_t.child ws p l → b ∈ l → ws[b]? = some r → r.child = some c → c ∈ l := by
  intro l
  induction l with
  | nil =>
    intro p b r c _ hb
    cases hb
  | cons a l ih =>
    intro p b r c hl hb hr hc
    rw [IsList.cons_iff] at hl
    obtain ⟨_, w, hw, hl⟩ := hl
    rcases List.mem_cons.mp hb with rfl | hb
    · rw [hw] at hr
      cases hr
      rw [hc] at hl
      cases l with
      | nil =>
        rw [IsList.nil_iff] at hl
        cases hl
      | cons a' l' =>
        rw [IsList.cons_iff] at hl
        cases hl.1
        exact List.mem_cons_of_mem _ (List.mem_cons_self _ _)
    · exact List.mem_cons_of_mem _ (ih _ b r c hl hb hr hc)

/-- In a frame, the child of a window in use is in use and refers to the same
portal. -/
theorem DrainOK.child {env : Env} {s : State} {Q : List (Nat × List Nat)} {P : List Nat}
    (h : DrainOK env s Q P) {wa c : Nat} {w : pwindow_t}
    (hlive : ∃ qc ∈ Q, wa ∈ qc.1 :: qc.2) (hw : s.windows[wa]? = some w)
    (hc : w.child = some c) :
    (∃ qc ∈ Q, c ∈ qc.1 :: qc.2) ∧ windowPortal s c = windowPortal s wa := by
  obtain ⟨qc, hqc, hwa⟩ := hlive
  have hchain := h.1.2.1 qc hqc
  have hcm := IsList.child_mem _ _ wa w c hchain hwa hw hc
  have hnd : (qc.1 :: qc.2).Nodup := by
    have hsub : (qc.1 :: qc.2).Sublist (allWindows Q P) := by
      unfold allWindows
      refine List.Sublist.trans ?_ (List.sublist_append_left _ _)
      obtain ⟨pre, post, rfl⟩ := List.append_of_mem hqc
      simp only [List.flatMap_append, List.flatMap_cons]
      exact List.Sublist.trans (List.sublist_append_left _ _)
        (List.sublist_append_right _ _)
    exact h.1.2.2.2.1.sublist hsub
  have hport : ∀ b ∈ qc.1 :: qc.2, windowPortal s b = windowPortal s qc.1 := by
    intro b hb
    rcases List.mem_cons.mp hb with rfl | hb
    · rfl
    · exact windowPortal_congr (h.2.2.1 qc hqc b hb)
  refine ⟨⟨qc, hqc, hcm⟩, ?_⟩
  rw [hport c hcm, hport wa hwa]

theorem refuse_step (env : Env) (pa : Nat) (s s0 : State) (wa pw : Nat) (portal : portal_t)
    (maker : Int) (hp0 : s0.portals = s.portals) (ht0 : traversalCount s0 = traversalCount s)
    (hp : s0.portals[pw]? = some portal) (htaint : 6 < portal.tainted) :
    (pw = pa → portal.tainted < 2147483647 →
      TaintStep pa 1 s (refuseTainted env s0 wa pw portal maker)) ∧
    (pw ≠ pa → taintOf (refuseTainted env s0 wa pw portal maker) pa = taintOf s pa) := by
  refine ⟨?_, ?_⟩
  · rintro rfl hmax
    obtain ⟨r1, r2, _, _, _, _, _, r8, _⟩ :=
      refuseTainted_spec env s0 wa pw portal maker hp htaint hmax
    have hT : taintOf s pw = portal.tainted := by
      unfold taintOf
      rw [← hp0, hp]
    have hT' : taintOf (refuseTainted env s0 wa pw portal maker) pw = portal.tainted + 1 := by
      unfold taintOf
      rw [r2]
    have hB : traversalCount (refuseTainted env s0 wa pw portal maker) = traversalCount s := by
      rw [← ht0]
      unfold traversalCount
      rw [r1]
      by_cases hs : env.showtainted = true <;> simp [hs, isTraversal]
    refine ⟨?_, ?_, ?_, ?_⟩
    · rw [hT, hT']
      omega
    · rw [hT, hT']
      omega
    · rw [hB]
    · rw [hB, hT, hT']
      omega
  · intro hne
    unfold refuseTainted
    simp only
    have key : ∀ S1 : State, S1.portals = s0.portals → ∀ e,
        taintOf (logEvent (incTaint S1 pw) e) pa = taintOf s pa := by
      intro S1 h1 e
      have h2 : (logEvent (incTaint S1 pw) e).portals = (incTaint S1 pw).portals := by simp
      rw [taintOf_congr pa h2, taintOf_incTaint_ne _ _ _ hne, taintOf_congr pa h1,
        taintOf_congr pa hp0]
    apply key
    by_cases hs : env.showtainted = true
    · rw [if_pos hs]
      simp
    · rw [if_neg hs]

theorem traverse_step (pa : Nat) (s s1 s2 : State) (pw : Nat) (portal : portal_t)
    (hp1 : s1.portals = s.portals) (ht1 : traversalCount s1 = traversalCount s)
    (hp : s.portals[pw]? = some portal) (htaint : ¬ portal.tainted > 6)
    (k1 : s2.portals = (incTaint s1 pw).portals)
    (k2 : traversalCount s2 = traversalCount s1 + 1) :
    (pw = pa → -2147483648 ≤ portal.tainted → TaintStep pa 1 s s2) ∧
    (pw ≠ pa → taintOf s2 pa = taintOf s pa) := by
  refine ⟨?_, ?_⟩
  · rintro rfl hmin
    have hT : taintOf s pw = portal.tainted := by
      unfold taintOf
      rw [hp]
    have hT2 : taintOf s2 pw = portal.tainted + 1 := by
      rw [taintOf_congr pw k1, taintOf_incTaint s1 pw portal (by rw [hp1, hp]),
        taintOf_congr pw hp1, hT]
      exact wrap32_of_range (by omega) (by omega)
    refine ⟨?_, ?_, ?_, ?_⟩
    · rw [hT, hT2]
      omega
    · rw [hT, hT2]
      omega
    · rw [k2, ht1]
      omega
    · rw [k2, ht1, hT, hT2]
      omega
  · intro hne
    rw [taintOf_congr pa k1, taintOf_incTaint_ne _ _ _ hne, taintOf_congr pa hp1]

/-- A return of a strategy that changed neither the window store nor the portals
and called no traversal. -/
theorem unchanged_step (env : Env) (pa : Nat) (n : Nat) (wa : Nat) {s s' : State}
    {Q : List (Nat × List Nat)} {P : List Nat} (hok : DrainOK env s Q P)
    (hs : SameWindows s s') (hp : s'.portals = s.portals)
    (ht : traversalCount s' = traversalCount s) :
    (∃ Q' P', DrainOK env s' Q' P' ∧ Continues s s' Q Q' P P') ∧
    (windowPortal s wa = some pa → TaintStep pa n s s') ∧
    (windowPortal s wa ≠ some pa → taintOf s' pa = taintOf s pa) :=
  ⟨⟨Q, P, hok.same hs, (Continues.refl s Q P).of_same_right hs.1⟩,
    fun _ => TaintStep.of_unchanged n hp ht, fun _ => taintOf_congr pa hp⟩

theorem anchored_taint (env : Env) (ext : Ext) (pa : Nat)
    (hbsp : KeepsFrame env ext.R_RenderBSPNode)
    (hpost : ∀ b o, KeepsFrame env (ext.R_PushPost b o)) :
    ∀ (fuel : Nat) (s : State) (window : Ptr) (s' : State),
      R_RenderAnchoredPortal env ext fuel s window = .ok s' →
      ∀ (Q : List (Nat × List Nat)) (P : List Nat) (wa : Nat), window = some wa →
      DrainOK env s Q P → (∃ qc ∈ Q, wa ∈ qc.1 :: qc.2) →
      (windowPortal s wa = some pa →
        -2147483648 ≤ taintOf s pa ∧ taintOf s pa + fuel ≤ 2147483647) →
      (∃ Q' P', DrainOK env s' Q' P' ∧ Continues s s' Q Q' P P') ∧
      (windowPortal s wa = some pa → TaintStep pa fuel s s') ∧
      (windowPortal s wa ≠ some pa → taintOf s' pa = taintOf s pa) := by
  intro fuel
  induction fuel with
  | zero =>
    intro s window s' h
    simp [R_RenderAnchoredPortal] at h
  | succ f ih =>
    intro s window s' h Q P wa0 hwin hok hlive hbound
    subst hwin
    unfold R_RenderAnchoredPortal at h
    simp only at h
    split at h
    · cases h
    · rename_i w hw
      have hwp := windowPortal_of_get hw
      split at h
      · cases h
      · rename_i pw hpw
        simp only [enterStrategy_fields] at h
        split at h
        · cases h
        · rename_i portal hp
          have hT : taintOf s pw = portal.tainted := by
            unfold taintOf
            rw [hp]
          split at h
          · cases h
            exact unchanged_step env pa _ wa0 hok (by simp [SameWindows]) (by simp)
              (traversalCount_enter _ _ _)
          · split at h
            · cases h
              exact unchanged_step env pa _ wa0 hok (by simp [SameWindows]) (by simp)
                (traversalCount_enter _ _ _)
            · split at h
              · rename_i htaint
                cases h
                obtain ⟨r1, r2⟩ := refuse_step env pa s
                  (enterStrategy s .R_RenderAnchoredPortal wa0) wa0 pw portal
                  portal.data.anchor.maker (by simp) (traversalCount_enter _ _ _)
                  (by simpa using hp) htaint
                refine ⟨⟨Q, P, hok.same ?_, (Continues.refl s Q P).of_same_right ?_⟩, ?_, ?_⟩
                · have := refuseTainted_inv env (fun st => SameWindows s st)
                    (fun a b hab ha => ⟨hab.1.trans ha.1, hab.2.1.trans ha.2.1,
                      hab.2.2.1.trans ha.2.2.1, hab.2.2.2.trans ha.2.2.2⟩)
                    (enterStrategy s .R_RenderAnchoredPortal wa0) wa0 pw portal
                    portal.data.anchor.maker (by simp [SameWindows])
                  exact this
                · have := refuseTainted_inv env (fun st => st.windows = s.windows)
                    (fun a b hab ha => hab.1.trans ha)
                    (enterStrategy s .R_RenderAnchoredPortal wa0) wa0 pw portal
                    portal.data.anchor.maker (by simp)
                  exact this
                · intro hpa
                  rw [hwp, hpw] at hpa
                  cases hpa
                  have hb := hbound (by rw [hwp, hpw])
                  exact (r1 rfl (by omega)).mono (by omega)
                · intro hpa
                  rw [hwp, hpw] at hpa
                  exact r2 (fun e => hpa (by rw [e]))
              · rename_i htaint
                split at h
                · cases h
                · split at h
                  · cases h
                    exact unchanged_step env pa _ wa0 hok (by simp [SameWindows]) (by simp)
                      ((traversalCount_setup _ _ _).trans (traversalCount_enter _ _ _))
                  · split at h
                    · cases h
                    · rename_i s2 hthrough
                      obtain ⟨⟨Q2, P2, hok2, hcont2⟩, k2, k3⟩ :=
                        renderThroughPortal_step env ext hbsp hpost _ s2 wa0 w pw _ _ _
                          hthrough ⟨Q, P, hok.same (by simp [SameWindows]),
                            Continues.refl _ Q P⟩
                      have hcont : Continues s s2 Q Q2 P P2 :=
                        hcont2.of_same_left (by simp)
                      obtain ⟨t1, t2⟩ := traverse_step pa s _ s2 pw portal (by simp)
                        ((traversalCount_setup _ _ _).trans (traversalCount_enter _ _ _))
                        hp htaint k2 k3
                      have hstep : (windowPortal s wa0 = some pa → TaintStep pa 1 s s2) ∧
                          (windowPortal s wa0 ≠ some pa → taintOf s2 pa = taintOf s pa) := by
                        refine ⟨?_, ?_⟩
                        · intro hpa
                          have hb := hbound hpa
                          rw [hwp, hpw] at hpa
                          cases hpa
                          exact t1 rfl (by omega)
                        · intro hpa
                          rw [hwp, hpw] at hpa
                          exact t2 (fun e => hpa (by rw [e]))
                      split at h
                      · cases h
                      · rename_i w2 hw2
                        split at h
                        · rename_i hchild
                          obtain ⟨c, hc⟩ : ∃ c, w2.child = some c := by
                            cases hcc : w2.child with
                            | none => exact absurd hcc hchild
                            | some c => exact ⟨c, rfl⟩
                          obtain ⟨qc, hqc, hwa⟩ := hlive
                          obtain ⟨qc2, hqc2, _, hwa2⟩ := hcont.live hqc hwa
                          obtain ⟨hlivec, hportc⟩ := hok2.child ⟨qc2, hqc2, hwa2⟩ hw2 hc
                          have hportwa : windowPortal s2 wa0 = windowPortal s wa0 :=
                            windowPortal_congr (hcont.2.2.2 qc hqc wa0 hwa)
                          have hpc : windowPortal s2 c = windowPortal s wa0 :=
                            hportc.trans hportwa
                          obtain ⟨⟨Q3, P3, hok3, hcont3⟩, u1, u2⟩ :=
                            ih s2 w2.child s' h Q2 P2 c hc hok2 hlivec (by
                              intro hpa
                              rw [hpc] at hpa
                              have hb := hbound hpa
                              have := hstep.1 hpa
                              obtain ⟨a1, a2, _⟩ := this
                              push_cast at hb
                              omega)
                          refine ⟨⟨Q3, P3, hok3, hcont.comp hcont3⟩, ?_, ?_⟩
                          · intro hpa
                            have := (hstep.1 hpa).seq (u1 (by rw [hpc]; exact hpa))
                            exact this.mono (by omega)
                          · intro hpa
                            rw [u2 (by rw [hpc]; exact hpa), hstep.2 hpa]
                        · cases h
                          refine ⟨⟨Q2, P2, hok2, hcont⟩, ?_, hstep.2⟩
                          intro hpa
                          exact (hstep.1 hpa).mono (by omega)

theorem linked_taint (env : Env) (ext : Ext) (pa : Nat)
    (hbsp : KeepsFrame env ext.R_RenderBSPNode)
    (hpost : ∀ b o, KeepsFrame env (ext.R_PushPost b o)) :
    ∀ (fuel : Nat) (s : State) (window : Ptr) (s' : State),
      R_RenderLinkedPortal env ext fuel s window = .ok s' →
      ∀ (Q : List (Nat × List Nat)) (P : List Nat) (wa : Nat), window = some wa →
      DrainOK env s Q P → (∃ qc ∈ Q, wa ∈ qc.1 :: qc.2) →
      (windowPortal s wa = some pa →
        -2147483648 ≤ taintOf s pa ∧ taintOf s pa + fuel ≤ 2147483647) →
      (∃ Q' P', DrainOK env s' Q' P' ∧ Continues s s' Q Q' P P') ∧
      (windowPortal s wa = some pa → TaintStep pa fuel s s') ∧
      (windowPortal s wa ≠ some pa → taintOf s' pa = taintOf s pa) := by
  intro fuel
  induction fuel with
  | zero =>
    intro s window s' h
    simp [R_RenderLinkedPortal] at h
  | succ f ih =>
    intro s window s' h Q P wa0 hwin hok hlive hbound
    subst hwin
    unfold R_RenderLinkedPortal at h
    simp only at h
    split at h
    · cases h
    · rename_i w hw
      have hwp := windowPortal_of_get hw
      split at h
      · cases h
      · rename_i pw hpw
        simp only [enterStrategy_fields] at h
        split at h
        · cases h
        · rename_i portal hp
          have hT : taintOf s pw = portal.tainted := by
            unfold taintOf
            rw [hp]
          split at h
          · cases h
            exact unchanged_step env pa _ wa0 hok (by simp [SameWindows]) (by simp)
              (traversalCount_enter _ _ _)
          · split at h
            · rename_i htaint
              cases h
              obtain ⟨r1, r2⟩ := refuse_step env pa s
                (enterStrategy s .R_RenderLinkedPortal wa0) wa0 pw portal
                portal.data.link.maker (by simp) (traversalCount_enter _ _ _)
                (by simpa using hp) htaint
              refine ⟨⟨Q, P, hok.same ?_, (Continues.refl s Q P).of_same_right ?_⟩, ?_, ?_⟩
              · have := refuseTainted_inv env (fun st => SameWindows s st)
                  (fun a b hab ha => ⟨hab.1.trans ha.1, hab.2.1.trans ha.2.1,
                    hab.2.2.1.trans ha.2.2.1, hab.2.2.2.trans ha.2.2.2⟩)
                  (enterStrategy s .R_RenderLinkedPortal wa0) wa0 pw portal
                  portal.data.link.maker (by simp [SameWindows])
                exact this
              · have := refuseTainted_inv env (fun st => st.windows = s.windows)
                  (fun a b hab ha => hab.1.trans ha)
                  (enterStrategy s .R_RenderLinkedPortal wa0) wa0 pw portal
                  portal.data.link.maker (by simp)
                exact this
              · intro hpa
                rw [hwp, hpw] at hpa
                cases hpa
                have hb := hbound (by rw [hwp, hpw])
                exact (r1 rfl (by omega)).mono (by omega)
              · intro hpa
                rw [hwp, hpw] at hpa
                exact r2 (fun e => hpa (by rw [e]))
            · rename_i htaint
              split at h
              · cases h
              · split at h
                · cases h
                  exact unchanged_step env pa _ wa0 hok (by simp [SameWindows]) (by simp)
                    ((traversalCount_setup _ _ _).trans (traversalCount_enter _ _ _))
                · split at h
                  · cases h
                  · rename_i s2 hthrough
                    obtain ⟨⟨Q2, P2, hok2, hcont2⟩, k2, k3⟩ :=
                      renderThroughPortal_step env ext hbsp hpost _ s2 wa0 w pw _ _ _
                        hthrough ⟨Q, P, hok.same (by simp [SameWindows]),
                          Continues.refl _ Q P⟩
                    have hcont : Continues s s2 Q Q2 P P2 :=
                      hcont2.of_same_left (by simp)
                    obtain ⟨t1, t2⟩ := traverse_step pa s _ s2 pw portal (by simp)
                      ((traversalCount_setup _ _ _).trans (traversalCount_enter _ _ _))
                      hp htaint k2 k3
                    have hstep : (windowPortal s wa0 = some pa → TaintStep pa 1 s s2) ∧
                        (windowPortal s wa0 ≠ some pa → taintOf s2 pa = taintOf s pa) := by
                      refine ⟨?_, ?_⟩
                      · intro hpa
                        have hb := hbound hpa
                        rw [hwp, hpw] at hpa
                        cases hpa
                        exact t1 rfl (by omega)
                      · intro hpa
                        rw [hwp, hpw] at hpa
                        exact t2 (fun e => hpa (by rw [e]))
                    split at h
                    · cases h
                    · rename_i w2 hw2
                      split at h
                      · rename_i hchild
                        obtain ⟨c, hc⟩ : ∃ c, w2.child = some c := by
                          cases hcc : w2.child with
                          | none => exact absurd hcc hchild
                          | some c => exact ⟨c, rfl⟩
                        obtain ⟨qc, hqc, hwa⟩ := hlive
                        obtain ⟨qc2, hqc2, _, hwa2⟩ := hcont.live hqc hwa
                        obtain ⟨hlivec, hportc⟩ := hok2.child ⟨qc2, hqc2, hwa2⟩ hw2 hc
                        have hportwa : windowPortal s2 wa0 = windowPortal s wa0 :=
                          windowPortal_congr (hcont.2.2.2 qc hqc wa0 hwa)
                        have hpc : windowPortal s2 c = windowPortal s wa0 :=
                          hportc.trans hportwa
                        obtain ⟨⟨Q3, P3, hok3, hcont3⟩, u1, u2⟩ :=
                          ih s2 w2.child s' h Q2 P2 c hc hok2 hlivec (by
                            intro hpa
                            rw [hpc] at hpa
                            have hb := hbound hpa
                            have := hstep.1 hpa
                            obtain ⟨a1, a2, _⟩ := this
                            push_cast at hb
                            omega)
                        refine ⟨⟨Q3, P3, hok3, hcont.comp hcont3⟩, ?_, ?_⟩
                        · intro hpa
                          have := (hstep.1 hpa).seq (u1 (by rw [hpc]; exact hpa))
                          exact this.mono (by omega)
                        · intro hpa
                          rw [u2 (by rw [hpc]; exact hpa), hstep.2 hpa]
                      · cases h
                        refine ⟨⟨Q2, P2, hok2, hcont⟩, ?_, hstep.2⟩
                        intro hpa
                        exact (hstep.1 hpa).mono (by omega)

/-- A strategy without taint counter (Plane, Horizon, Skybox) keeps the frame
and leaves the portals alone. -/
theorem untainted_frame (env : Env) (ext : Ext)
    (hbsp : KeepsFrame env ext.R_RenderBSPNode)
    (hpost : ∀ b o, KeepsFrame env (ext.R_PushPost b o))
    (fuel : Nat) (func : renderfunc_e) (s : State) (wa : Nat) (s' : State)
    (hfunc : func = .R_RenderPlanePortal ∨ func = .R_RenderHorizonPortal ∨
      func = .R_RenderSkyboxPortal)
    (h : callFunc env ext fuel func s (some wa) = .ok s')
    (Q : List (Nat × List Nat)) (P : List Nat) (hok : DrainOK env s Q P) :
    (∃ Q' P', DrainOK env s' Q' P' ∧ Continues s s' Q Q' P P') ∧ s'.portals = s.portals := by
  have hrefl : ∀ a : State, ∀ Q P, DrainOK env a Q P →
      (∃ Q' P', DrainOK env a Q' P' ∧ Continues a a Q Q' P P') ∧ a.portals = a.portals :=
    fun a Q P h => ⟨⟨Q, P, h, Continues.refl a Q P⟩, rfl⟩
  have htrans : ∀ a b c : State,
      (∀ Q P, DrainOK env a Q P →
        (∃ Q' P', DrainOK env b Q' P' ∧ Continues a b Q Q' P P') ∧ b.portals = a.portals) →
      (∀ Q P, DrainOK env b Q P →
        (∃ Q' P', DrainOK env c Q' P' ∧ Continues b c Q Q' P P') ∧ c.portals = b.portals) →
      ∀ Q P, DrainOK env a Q P →
        (∃ Q' P', DrainOK env c Q' P' ∧ Continues a c Q Q' P P') ∧ c.portals = a.portals := by
    intro a b c h1 h2 Q P ha
    obtain ⟨⟨Q1, P1, hb, c1⟩, p1⟩ := h1 Q P ha
    obtain ⟨⟨Q2, P2, hc, c2⟩, p2⟩ := h2 Q1 P1 hb
    exact ⟨⟨Q2, P2, hc, c1.comp c2⟩, p2.trans p1⟩
  have hprim : ∀ a b : State, SameWindows a b → b.portals = a.portals → a.trace <+: b.trace →
      ∀ Q P, DrainOK env a Q P →
        (∃ Q' P', DrainOK env b Q' P' ∧ Continues a b Q Q' P P') ∧ b.portals = a.portals :=
    fun a b hs hp _ Q P ha => ⟨⟨Q, P, ha.same hs, (Continues.refl a Q P).of_same_right hs.1⟩, hp⟩
  have hb : ∀ a : State, ∀ Q P, DrainOK env a Q P →
      (∃ Q' P', DrainOK env (ext.R_RenderBSPNode a) Q' P' ∧
        Continues a (ext.R_RenderBSPNode a) Q Q' P P') ∧
      (ext.R_RenderBSPNode a).portals = a.portals :=
    fun a Q P ha => ⟨(hbsp a Q P ha).1, (hbsp a Q P ha).2.1⟩
  have hp : ∀ b o, ∀ a : State, ∀ Q P, DrainOK env a Q P →
      (∃ Q' P', DrainOK env (ext.R_PushPost b o a) Q' P' ∧
        Continues a (ext.R_PushPost b o a) Q Q' P P') ∧
      (ext.R_PushPost b o a).portals = a.portals :=
    fun b o a Q P ha => ⟨(hpost b o a Q P ha).1, (hpost b o a Q P ha).2.1⟩
  have hres : ∃ wa', some wa = some wa' ∧ ∀ Q P, DrainOK env (enterStrategy s func wa') Q P →
      (∃ Q' P', DrainOK env s' Q' P' ∧ Continues (enterStrategy s func wa') s' Q Q' P P') ∧
      s'.portals = (enterStrategy s func wa').portals := by
    rcases hfunc with rfl | rfl | rfl
    · exact plane_rel env ext _ hrefl htrans hprim hp _ _ _ _ h
    · exact horizon_rel env ext _ hrefl htrans hprim hp _ _ _ _ h
    · exact skybox_rel env ext _ hrefl htrans hprim hb hp _ _ _ _ h
  obtain ⟨wa', hwa, hR⟩ := hres
  cases hwa
  obtain ⟨⟨Q', P', h1, h2⟩, h3⟩ := hR Q P (hok.same (by simp [SameWindows]))
  exact ⟨⟨Q', P', h1, h2.of_same_left (by simp)⟩, by rw [h3]; simp⟩

/-- One call of a strategy on a window in use. -/
theorem callFunc_taint (env : Env) (ext : Ext) (pa : Nat)
    (hbsp : KeepsFrame env ext.R_RenderBSPNode)
    (hpost : ∀ b o, KeepsFrame env (ext.R_PushPost b o))
    (fuel : Nat) (func : renderfunc_e) (s : State) (wa : Nat) (s' : State)
    (h : callFunc env ext fuel func s (some wa) = .ok s')
    (Q : List (Nat × List Nat)) (P : List Nat) (hok : DrainOK env s Q P)
    (hlive : ∃ qc ∈ Q, wa ∈ qc.1 :: qc.2)
    (hfun : windowPortal s wa = some pa →
      func = .R_RenderAnchoredPortal ∨ func = .R_RenderLinkedPortal)
    (hbound : windowPortal s wa = some pa →
      -2147483648 ≤ taintOf s pa ∧ taintOf s pa + fuel ≤ 2147483647) :
    (∃ Q' P', DrainOK env s' Q' P' ∧ Continues s s' Q Q' P P') ∧
    (windowPortal s wa = some pa → TaintStep pa fuel s s') ∧
    (windowPortal s wa ≠ some pa → taintOf s' pa = taintOf s pa) := by
  have hother : func = .R_RenderPlanePortal ∨ func = .R_RenderHorizonPortal ∨
      func = .R_RenderSkyboxPortal →
      (∃ Q' P', DrainOK env s' Q' P' ∧ Continues s s' Q Q' P P') ∧
      (windowPortal s wa = some pa → TaintStep pa fuel s s') ∧
      (windowPortal s wa ≠ some pa → taintOf s' pa = taintOf s pa) := by
    intro hf
    obtain ⟨h1, h2⟩ := untainted_frame env ext hbsp hpost fuel func s wa s' hf h Q P hok
    refine ⟨h1, ?_, fun _ => taintOf_congr pa h2⟩
    intro hpa
    rcases hfun hpa with e | e <;> rcases hf with e' | e' | e' <;> rw [e] at e' <;> cases e'
  cases func with
  | R_RenderPortalNOP => simp [callFunc] at h
  | R_RenderPlanePortal => exact hother (Or.inl rfl)
  | R_RenderHorizonPortal => exact hother (Or.inr (Or.inl rfl))
  | R_RenderSkyboxPortal => exact hother (Or.inr (Or.inr rfl))
  | R_RenderAnchoredPortal =>
    exact anchored_taint env ext pa hbsp hpost fuel s _ s' h Q P wa rfl hok hlive hbound
  | R_RenderLinkedPortal =>
    exact linked_taint env ext pa hbsp hpost fuel s _ s' h Q P wa rfl hok hlive hbound

/-- Following a pointer field along a proper list visits the list. -/
theorem follow_of_isList {nxt : pwindow_t → Ptr} {ws : List pwindow_t} :
    ∀ (l : List Nat) (p : Ptr) (fuel : Nat), IsList nxt ws p l → l.length ≤ fuel →
      follow nxt ws fuel p = l := by
  intro l
  induction l with
  | nil =>
    intro p fuel h _
    rw [IsList.nil_iff] at h
    subst h
    cases fuel <;> rfl
  | cons a l ih =>
    intro p fuel h hf
    rw [IsList.cons_iff] at h
    obtain ⟨rfl, w, hw, hl⟩ := h
    cases fuel with
    | zero => simp at hf
    | succ f =>
      simp only [follow, hw]
      rw [ih _ f hl (by simpa using hf)]

/-- On a frame as the window code keeps it, the windows in use are the queue
windows, each followed by its child chain. -/
theorem windowsInUse_eq {env : Env} {s : State} {Q : List (Nat × List Nat)} {P : List Nat}
    (h : DrainOK env s Q P) : windowsInUse s = Q.flatMap (fun qc => qc.1 :: qc.2) := by
  have hq := follow_of_isList _ _ s.windows.length h.1.1 (by
    simpa using h.1.queue_length)
  unfold windowsInUse
  rw [hq, List.flatMap_map]
  refine List.flatMap_congr ?_
  intro qc hqc
  have hchain := h.1.2.1 qc hqc
  refine follow_of_isList _ _ _ hchain ?_
  refine nodup_length_le ?_ hchain.valid
  have hsub : (qc.1 :: qc.2).Sublist (allWindows Q P) := by
    unfold allWindows
    refine List.Sublist.trans ?_ (List.sublist_append_left _ _)
    obtain ⟨pre, post, rfl⟩ := List.append_of_mem hqc
    simp only [List.flatMap_append, List.flatMap_cons]
    exact List.Sublist.trans (List.sublist_append_left _ _) (List.sublist_append_right _ _)
  exact h.1.2.2.2.1.sublist hsub

theorem mem_windowsInUse {env : Env} {s : State} {Q : List (Nat × List Nat)} {P : List Nat}
    (h : DrainOK env s Q P) (a : Nat) :
    a ∈ windowsInUse s ↔ ∃ qc ∈ Q, a ∈ qc.1 :: qc.2 := by
  rw [windowsInUse_eq h, List.mem_flatMap]

/-- The calls that are left after some of the calls were made can be made from
the state these left. -/
theorem CallsInUse.rest (env : Env) (ext : Ext) (fuel pa : Nat) :
    ∀ (l1 l2 : List (renderfunc_e × Nat)) (s s1 : State) (n : Nat),
      CallsInUse env ext fuel pa s (l1 ++ l2) →
      runCounting env ext fuel pa s l1 = .ok (s1, n) →
      CallsInUse env ext fuel pa s l1 ∧ CallsInUse env ext fuel pa s1 l2 := by
  intro l1
  induction l1 with
  | nil =>
    intro l2 s s1 n h hrun
    simp only [runCounting, Except.ok.injEq, Prod.mk.injEq] at hrun
    obtain ⟨rfl, _⟩ := hrun
    exact ⟨trivial, h⟩
  | cons c cs ih =>
    intro l2 s s1 n h hrun
    simp only [List.cons_append, CallsInUse] at h
    obtain ⟨h1, h2, h3⟩ := h
    simp only [runCounting] at hrun
    split at hrun
    · cases hrun
    · rename_i sx hcall
      split at hrun
      · cases hrun
      · rename_i s2 n' hrest
        simp only [Except.ok.injEq, Prod.mk.injEq] at hrun
        obtain ⟨rfl, _⟩ := hrun
        rw [hcall] at h3
        obtain ⟨h4, h5⟩ := ih l2 sx s2 n' h3 hrest
        refine ⟨?_, h5⟩
        simp only [CallsInUse]
        refine ⟨h1, h2, ?_⟩
        rw [hcall]
        exact h4

/-- A sequence of calls, each on a window in use when it is made: the taint
counter of `pa` does not decrease, and the traversals made for `pa` are no more
than what the counter was short of 7. -/
theorem runCounting_taint (env : Env) (ext : Ext) (pa : Nat) (fuel : Nat)
    (hbsp : KeepsFrame env ext.R_RenderBSPNode)
    (hpost : ∀ b o, KeepsFrame env (ext.R_PushPost b o)) :
    ∀ (calls : List (renderfunc_e × Nat)) (s s' : State) (n : Nat)
      (Q : List (Nat × List Nat)) (P : List Nat),
      DrainOK env s Q P →
      CallsInUse env ext fuel pa s calls →
      -2147483648 ≤ taintOf s pa → taintOf s pa + calls.length * fuel ≤ 2147483647 →
      runCounting env ext fuel pa s calls = .ok (s', n) →
      (∃ Q' P', DrainOK env s' Q' P' ∧ Continues s s' Q Q' P P') ∧
      taintOf s pa ≤ taintOf s' pa ∧ taintOf s' pa ≤ taintOf s pa + calls.length * fuel ∧
      n + (7 - taintOf s' pa).toNat ≤ (7 - taintOf s pa).toNat := by
  intro calls
  induction calls with
  | nil =>
    intro s s' n Q P hok _ _ _ h
    simp only [runCounting, Except.ok.injEq, Prod.mk.injEq] at h
    obtain ⟨rfl, rfl⟩ := h
    exact ⟨⟨Q, P, hok, Continues.refl _ _ _⟩, le_refl _, by simp, by simp⟩
  | cons c cs ih =>
    intro s s' n Q P hok hcalls hmin hmax h
    simp only [CallsInUse] at hcalls
    obtain ⟨hlive, hfun, hnext⟩ := hcalls
    simp only [runCounting] at h
    split at h
    · cases h
    · rename_i s1 hcall
      rw [hcall] at hnext
      split at h
      · cases h
      · rename_i s2 n' hrest
        simp only [Except.ok.injEq, Prod.mk.injEq] at h
        obtain ⟨rfl, rfl⟩ := h
        simp only [List.length_cons] at hmax ⊢
        have hmax' : taintOf s pa + fuel + cs.length * fuel ≤ 2147483647 := by
          have : ((cs.length + 1 : Nat) : Int) * fuel = cs.length * fuel + fuel := by
            push_cast
            ring
          push_cast at hmax this
          rw [this] at hmax
          omega
        have hpos : (0 : Int) ≤ cs.length * fuel := by positivity
        obtain ⟨⟨Q1, P1, hok1, hcont1⟩, a1, a2⟩ := callFunc_taint env ext pa hbsp hpost fuel
          c.1 s c.2 s1 hcall Q P hok ((mem_windowsInUse hok c.2).mp hlive)
          hfun (fun _ => ⟨hmin, by omega⟩)
        have hstep : taintOf s pa ≤ taintOf s1 pa ∧ taintOf s1 pa ≤ taintOf s pa + fuel ∧
            (if windowPortal s c.2 = some pa then traversalCount s1 - traversalCount s else 0) +
              (7 - taintOf s1 pa).toNat ≤ (7 - taintOf s pa).toNat := by
          by_cases hpa : windowPortal s c.2 = some pa
          · obtain ⟨b1, b2, b3, b4⟩ := a1 hpa
            rw [if_pos hpa]
            exact ⟨b1, b2, by omega⟩
          · rw [if_neg hpa, a2 hpa]
            exact ⟨le_refl _, by omega, by omega⟩
        obtain ⟨⟨Q2, P2, hok2, hcont2⟩, c1, c2, c3⟩ := ih s1 s2 n' Q1 P1 hok1 hnext
          (by omega) (by omega) hrest
        refine ⟨⟨Q2, P2, hok2, hcont1.comp hcont2⟩, by omega, ?_, by omega⟩
        have : ((cs.length + 1 : Nat) : Int) * fuel = cs.length * fuel + fuel := by
          push_cast
          ring
        push_cast at this ⊢
        rw [this]
        omega

/-- The traversal of `claimingExt` keeps the frame. -/
theorem claimingExt_keeps (env : Env) (hh : 0 < env.view_height)
    (ops : List (ClaimCall × List (Int × ℚ × ℚ)))
    (hvalid : ∀ op ∈ ops, ∀ c ∈ op.2, ValidCall env c) :
    KeepsFrame env (claimingExt env ops).R_RenderBSPNode := by
  intro st Q P hd
  obtain ⟨Q', P', h1, h2, h3, h4⟩ := claimingExt_bsp env hh ops hvalid st Q P hd
  exact ⟨⟨Q', P', h1, h2⟩, h3, traversalCount_congr h4⟩

/-- The overlay push of `claimingExt` does nothing. -/
theorem claimingExt_post (env : Env) (ops : List (ClaimCall × List (Int × ℚ × ℚ)))
    (b : Bool) (o : Option planehash_t) :
    KeepsFrame env ((claimingExt env ops).R_PushPost b o) :=
  fun st Q P hd => ⟨⟨Q, P, hd, Continues.refl st Q P⟩, rfl, rfl⟩

end Portal
